import Mathlib

/-!
A verification development for the `st` terminal engine (gadefox/st)

Shallow embedding of `src/st.c` (with the constants of `src/st.h` and
`src/def.h`).  Conventions of the embedding:

* C `uint`, `Rune` (`uint_least32_t`) and `int` values are natural numbers or
  integers; where the C arithmetic can wrap, the reduction modulo `2 ^ 32` is
  written explicitly.
* A `char` buffer is a `List Nat`; the cast `(uchar)` is `% 256`.
* A pointer into an array is an index into a list.  Every array access of the C
  code is a checked access here: an index outside the array ends the run with a
  `Fault` naming the array.
-/

namespace St

/-! ## Definitions -/

/-- The arrays of the engine; an out-of-range access to one of them is reported
as the fault of that name. -/
inductive Fault where
  | buf      -- the byte buffer handed to `utf8_decode` / `t_write`
  | table    -- one of the constant UTF-8 tables
  | row      -- `term.line` / `term.alt`
  | cell     -- a cell of a row
  | tabs     -- `term.tabs`
  | dirty    -- `term.dirty`
  | csibuf   -- `csiescseq.buf`
  | csiarg   -- `csiescseq.args`
  | strarg   -- `strescseq.args`
  | strbuf   -- the buffer `strescseq.t.items`
  | fuel     -- a loop of the model ran out of its iteration budget
  deriving DecidableEq, Repr

/-- Equality of results is decidable, so that closed runs can be evaluated. -/
instance instDecidableEqExcept {ε α : Type} [DecidableEq ε] [DecidableEq α] :
    DecidableEq (Except ε α)
  | .ok a, .ok b =>
    if h : a = b then isTrue (by rw [h]) else isFalse (fun h2 => h (Except.ok.inj h2))
  | .error a, .error b =>
    if h : a = b then isTrue (by rw [h]) else isFalse (fun h2 => h (Except.error.inj h2))
  | .ok _, .error _ => isFalse (fun h => Except.noConfusion h)
  | .error _, .ok _ => isFalse (fun h => Except.noConfusion h)

/-- Macro `UTF_INVALID` (0xFFFD). -/
def UTF_INVALID : Nat := 0xFFFD

/-- Macro `UTF_SIZ` (4). -/
def UTF_SIZ : Nat := 4

/-- Table `static uchar utfbyte [UTF_SIZ + 1]`. -/
def utfbyte : List Nat := [0x80, 0, 0xC0, 0xE0, 0xF0]

/-- Table `static uchar utfmask [UTF_SIZ + 1]`. -/
def utfmask : List Nat := [0xC0, 0x80, 0xE0, 0xF0, 0xF8]

/-- Table `static Rune utfmin [UTF_SIZ + 1]`. -/
def utfmin : List Nat := [0, 0, 0x80, 0x800, 0x10000]

/-- Table `static Rune utfmax [UTF_SIZ + 1]`. -/
def utfmax : List Nat := [0x10FFFF, 0x7F, 0x7FF, 0xFFFF, 0x10FFFF]

/-- Macro `BETWEEN(x, a, b)`, that is `(a) <= (x) && (x) <= (b)`, on unsigned values. -/
def BETWEEN (x a b : Nat) : Bool := decide (a ≤ x) && decide (x ≤ b)

/-- The C operator `~` on a value promoted to a 32-bit `int`, read back as an
unsigned 32-bit pattern. -/
def cnot (x : Nat) : Nat := x ^^^ 0xFFFFFFFF

/-- The loop of `utf8_decode_byte`: `i` is the class tried next, `pm` and `pb`
are the rests of `utfmask` and `utfbyte`.  Result: (returned rune bits, `*ret`). -/
def utf8_decode_byte_from (val : Nat) : Nat → List Nat → List Nat → Nat × Nat
  | i, m :: pm, b :: pb =>
    if val &&& m = b then (val &&& cnot m, i)
    else utf8_decode_byte_from val (i + 1) pm pb
  | _, _, _ => (0, UTF_SIZ + 1)

/-- Function `Rune utf8_decode_byte (uchar val, uint *ret)`; result: (rune bits, `*ret`). -/
def utf8_decode_byte (val : Nat) : Nat × Nat :=
  utf8_decode_byte_from val 0 utfmask utfbyte

/-- The `for ( i = 1; i < ret; i++ )` loop of `utf8_decode`; `k = ret - i`
iterations remain, `i` is the index read next.  `.inl i` is the early
`return i`, `.inr decoded` the value at the end of the loop. -/
def utf8_decode_cont (s : List Nat) : Nat → Nat → Nat → Except Fault (Nat ⊕ Nat)
  | 0, _, decoded => .ok (.inr decoded)
  | k + 1, i, decoded =>
    match s[i]? with
    | none => .error .buf
    | some b =>
      let r := utf8_decode_byte (b % 256)
      let decoded := ((decoded <<< 6) % 2 ^ 32) ||| r.1
      if r.2 ≠ 0 then .ok (.inl i)
      else utf8_decode_cont s k (i + 1) decoded

/-- Function `uint utf8_decode (const char *c, uint len, Rune *u)`; result:
(returned count, `*u`). -/
def utf8_decode (s : List Nat) (len : Nat) : Except Fault (Nat × Nat) :=
  match s[0]? with
  | none => .error .buf
  | some b0 =>
    let r := utf8_decode_byte (b0 % 256)
    let ret := r.2
    if !(BETWEEN ret 1 UTF_SIZ) then .ok (1, UTF_INVALID)
    else if len < ret then .ok (0, UTF_INVALID)
    else
      match utf8_decode_cont s (ret - 1) 1 r.1 with
      | .error e => .error e
      | .ok (.inl i) => .ok (i, UTF_INVALID)
      | .ok (.inr decoded) =>
        match utfmin[ret]?, utfmax[ret]? with
        | some lo, some hi =>
          if BETWEEN decoded lo hi && !(BETWEEN decoded 0xD800 0xDFFF)
          then .ok (ret, decoded)
          else .ok (ret, UTF_INVALID)
        | _, _ => .error .table

/-- The loop of `utf8_length`: `i` is the length tried, `pm` the rest of
`utfmax` from entry `i` on. -/
def utf8_length_from (u : Nat) : Nat → List Nat → Except Fault Nat
  | i, m :: pm => if u > m then utf8_length_from u (i + 1) pm else .ok i
  | _, [] => .error .table

/-- Function `size_t utf8_length (Rune u)`. -/
def utf8_length (u : Nat) : Except Fault Nat :=
  utf8_length_from u 1 utfmax.tail

/-- The loop of `utf8_encode` that writes `s[ret-1]` down to `s[1]`; `i`
iterations remain, `acc` holds the bytes already written (those after the
current position).  Result: (the shifted rune, the bytes `s[1..]`). -/
def utf8_encode_tail (bval mval : Nat) : Nat → Nat → List Nat → Nat × List Nat
  | 0, u, acc => (u, acc)
  | i + 1, u, acc =>
    utf8_encode_tail bval mval i (u >>> 6) (((bval ||| (u &&& cnot mval)) % 256) :: acc)

/-- Function `size_t utf8_encode (Rune u, char *s)`; the result is the list of the
bytes written to `s`, whose length is the returned count. -/
def utf8_encode (u : Nat) : Except Fault (List Nat) :=
  match utfmin[0]?, utfmax[0]?, utfbyte[0]?, utfmask[0]? with
  | some lo, some hi, some bval, some mval =>
    let u := if !(BETWEEN u lo hi) || BETWEEN u 0xD800 0xDFFF then UTF_INVALID else u
    match utf8_length u with
    | .error e => .error e
    | .ok ret =>
      if ret > UTF_SIZ then .ok []
      else
        let r := utf8_encode_tail bval mval (ret - 1) u []
        match utfbyte[ret]?, utfmask[ret]? with
        | some b, some m => .ok (((b ||| (r.1 &&& cnot m)) % 256) :: r.2)
        | _, _ => .error .table
  | _, _, _, _ => .error .table

/-- The outcome of the validation at the end of `utf8_decode` -/
def validated (k v : Nat) : Nat :=
  if utfmin.getD k 0 ≤ v ∧ v ≤ utfmax.getD k 0 ∧ ¬ (0xD800 ≤ v ∧ v ≤ 0xDFFF) then v else UTF_INVALID

/-- Spec: first byte value of the lead-byte class of a `k`-byte sequence -/
def lead_base (k : Nat) : Nat :=
  match k with
  | 2 => 0xC0
  | 3 => 0xE0
  | 4 => 0xF0
  | _ => 0

/-- Spec: first byte value above the lead-byte class of a `k`-byte sequence -/
def lead_limit (k : Nat) : Nat :=
  match k with
  | 1 => 0x80
  | 2 => 0xE0
  | 3 => 0xF0
  | 4 => 0xF8
  | _ => 0

/-- Spec: `b` is the lead byte of a `k`-byte sequence
(`0xxxxxxx`, `110xxxxx`, `1110xxxx`, `11110xxx`). -/
def is_lead (k b : Nat) : Prop := lead_base k ≤ b ∧ b < lead_limit k

/-- Spec: `b` is a continuation byte `10xxxxxx`. -/
def is_cont (b : Nat) : Prop := 0x80 ≤ b ∧ b < 0xC0

/-- Spec: the value carried by the first `k` bytes of `s` read as one sequence:
the payload bits of the lead byte followed by six bits of each following byte. -/
def seq_value (k : Nat) (s : List Nat) : Nat :=
  ((s.take k).tail).foldl (fun v b => v * 64 + (b - 0x80)) (s.headD 0 - lead_base k)

/-! ### Machine integers -/

/-- Two to the thirty-second: the modulus of `uint` arithmetic. -/
@[simp] def U32 : Nat := 4294967296

/-- Constant `UINT_MAX`. -/
@[simp] def UINT_MAX : Nat := 4294967295

/-- Difference `a - b` on `uint` operands. -/
@[irreducible] def usub (a b : Nat) : Nat := if b ≤ a then a - b else (a + U32 - b) % U32

/-- Sum `a + b` on `uint` operands. -/
@[irreducible] def uadd (a b : Nat) : Nat := (a + b) % U32

/-- Conversion of an integer value to `uint`. -/
@[irreducible] def u32 (x : Int) : Nat := (x % 4294967296).toNat

/-- Conversion of an integer value to a 32-bit `int` (two's complement). -/
@[irreducible] def i32 (x : Int) : Int := (x + 2147483648) % 4294967296 - 2147483648

/-- Conversion of an integer value to `short` (two's complement). -/
@[irreducible] def i16 (x : Int) : Int := (x + 32768) % 65536 - 32768

/-- Conversion of an integer value to `ushort`. -/
@[irreducible] def u16 (x : Nat) : Nat := x % 65536

/-- Macro `DEFAULT(a, b)`: `(a) = (a) ? (a) : (b)`. -/
def DEFAULT (a b : Int) : Int := if a ≠ 0 then a else b

/-! ### Constants of `st.h`, `def.h` and `win.h` -/

@[simp] def MODE_ALTSCREEN : Nat := 1
@[simp] def MODE_WRAP : Nat := 2
@[simp] def MODE_INSERT : Nat := 4
@[simp] def MODE_CRLF : Nat := 8
@[simp] def MODE_ECHO : Nat := 16
@[simp] def MODE_PRINT : Nat := 32
@[simp] def MODE_UTF8 : Nat := 64
@[simp] def ESC_START : Nat := 128
@[simp] def ESC_CSI : Nat := 256
@[simp] def ESC_STR : Nat := 512
@[simp] def ESC_ALTCHARSET : Nat := 1024
@[simp] def ESC_STR_END : Nat := 2048
@[simp] def ESC_TEST : Nat := 4096
@[simp] def ESC_UTF8 : Nat := 8192
@[simp] def CURSOR_WRAPNEXT : Nat := 16384
@[simp] def CURSOR_ORIGIN : Nat := 32768
@[simp] def SEL_RECT : Nat := 65536
@[simp] def SNAP_WORD : Nat := 131072
@[simp] def SNAP_LINE : Nat := 262144
@[simp] def SEL_ALTSCREEN : Nat := 524288
@[simp] def CSI_PRIV : Nat := 1048576

/-- Mask `MODE_WRAP | MODE_INSERT | MODE_ALTSCREEN | MODE_CRLF | MODE_ECHO | MODE_PRINT | MODE_UTF8` -/
@[simp] def MODE_MASK : Nat := 127
/-- Mask `ESC_START | ESC_CSI | ESC_STR | ESC_ALTCHARSET | ESC_STR_END | ESC_TEST | ESC_UTF8` -/
@[simp] def ESC_MASK : Nat := 16256
/-- Mask `CURSOR_WRAPNEXT | CURSOR_ORIGIN` -/
@[simp] def CURSOR_MASK : Nat := 49152
/-- Mask `SEL_RECT | SNAP_WORD | SNAP_LINE | SEL_ALTSCREEN` -/
@[simp] def SEL_MASK : Nat := 983040

@[simp] def ATTR_NULL : Nat := 0
@[simp] def ATTR_BOLD : Nat := 1
@[simp] def ATTR_FAINT : Nat := 2
@[simp] def ATTR_ITALIC : Nat := 4
@[simp] def ATTR_UNDERLINE : Nat := 8
@[simp] def ATTR_BLINK : Nat := 16
@[simp] def ATTR_REVERSE : Nat := 32
@[simp] def ATTR_INVISIBLE : Nat := 64
@[simp] def ATTR_STRUCK : Nat := 128
@[simp] def ATTR_WRAP : Nat := 256
@[simp] def ATTR_WIDE : Nat := 512
@[simp] def ATTR_WDUMMY : Nat := 1024

@[simp] def MODE_VISIBLE : Nat := 1
@[simp] def MODE_FOCUSED : Nat := 2
@[simp] def MODE_APPKEYPAD : Nat := 4
@[simp] def MODE_MOUSEBTN : Nat := 8
@[simp] def MODE_MOUSEMOTION : Nat := 16
@[simp] def MODE_REVERSE : Nat := 32
@[simp] def MODE_KBDLOCK : Nat := 64
@[simp] def MODE_HIDE : Nat := 128
@[simp] def MODE_APPCURSOR : Nat := 256
@[simp] def MODE_MOUSESGR : Nat := 512
@[simp] def MODE_8BIT : Nat := 1024
@[simp] def MODE_FOCUS : Nat := 8192
@[simp] def MODE_MOUSEX10 : Nat := 16384
@[simp] def MODE_MOUSEMANY : Nat := 32768
@[simp] def MODE_BRCKTPASTE : Nat := 65536
/-- Mask `MODE_MOUSEBTN | MODE_MOUSEMOTION | MODE_MOUSEX10 | MODE_MOUSEMANY` -/
@[simp] def MODE_MOUSE : Nat := 49176

/-- Macro `ESC_BUF_SIZ`: `UTF_SIZ << 7`. -/
@[simp] def ESC_BUF_SIZ : Nat := 512
@[simp] def ESC_ARG_SIZ : Nat := 16
@[simp] def STR_BUF_SIZ : Nat := 512
@[simp] def STR_ARG_SIZ : Nat := 16
@[simp] def TAB_SPACES : Nat := 8
@[simp] def DEFAULT_FG : Nat := 256
@[simp] def DEFAULT_BG : Nat := 0
@[simp] def DEFAULT_CS : Nat := 256

/-- Value `CS_GRAPHIC0` of `enum Charset`. -/
@[simp] def CS_GRAPHIC0 : Nat := 0
/-- Value `CS_USA` of `enum Charset`. -/
@[simp] def CS_USA : Nat := 3

/-- Constant `LONG_MAX` of an LP64 platform. -/
def LONG_MAX : Int := 9223372036854775807
/-- Constant `LONG_MIN` of an LP64 platform. -/
def LONG_MIN : Int := -9223372036854775808
/-- Constant `SIZE_MAX` of an LP64 platform. -/
def SIZE_MAX : Nat := 18446744073709551615

/-! ### Data model -/

/-- Structure `TermGlyph` (`st.h`): `rune` is a `Rune`, the other fields are `ushort`. -/
structure TermGlyph where
  rune : Nat
  attr : Nat
  fg : Nat
  bg : Nat
  deriving DecidableEq, Repr

/-- Type `Line` (`typedef TermGlyph *Line`): a row is the list of its cells. -/
abbrev Line := List TermGlyph

/-- Structure `Cell`: a pair of `uint` coordinates. -/
structure Cell where
  row : Nat
  col : Nat
  deriving DecidableEq, Repr

/-- Structure `TermCursor`. -/
structure TermCursor where
  attr : Nat
  fg : Nat
  bg : Nat
  p : Cell
  deriving DecidableEq, Repr

/-- Structure `StackCursor`: all fields are `short`. -/
structure StackCursor where
  attr : Int
  fg : Int
  bg : Int
  row : Int
  col : Int
  deriving DecidableEq, Repr

/-- Structure `Selection`. -/
structure Selection where
  ob : Cell
  oe : Cell
  nb : Cell
  ne : Cell
  deriving DecidableEq, Repr

/-- Structure `Term`: the grid, the cursor and the terminal flags.  `cstack0` and
`cstack1` are `cstack [0]` and `cstack [1]`; `titles` and `icontitles` are the
title stacks, top first. -/
structure Term where
  size : Cell
  line : List Line
  alt : List Line
  dirty : List Bool
  tabs : List Bool
  c : TermCursor
  cstack0 : StackCursor
  cstack1 : StackCursor
  oc : Cell
  top : Nat
  bottom : Nat
  flags : Nat
  trantbl : List Nat
  charset : Int
  icharset : Int
  lastu : Nat
  sel : Selection
  titles : List (List Nat)
  icontitles : List (List Nat)
  deriving DecidableEq, Repr

/-- Structure `CSIEscape`: `mode0`, `mode1` are `mode [0]`, `mode [1]`; `buf` has
`ESC_BUF_SIZ` entries and `args` has `ESC_ARG_SIZ` entries. -/
structure CSIEscape where
  mode0 : Nat
  mode1 : Nat
  buf : List Nat
  len : Nat
  args : List Int
  narg : Nat
  deriving DecidableEq, Repr

/-- Structure `Thunk` (`thunk.h`) used as a byte buffer: `items` has `alloc_size`
entries. -/
structure Thunk where
  items : List Nat
  alloc_size : Nat
  element_size : Nat
  nelements : Nat
  deriving DecidableEq, Repr

/-- Structure `STREscape`: an entry of `args` is the offset in `t.items` at which the
argument string starts. -/
structure STREscape where
  type : Nat
  t : Thunk
  args : List Nat
  narg : Nat
  deriving DecidableEq, Repr

/-- A request sent to the window system. -/
inductive WinEvent where
  | title (s : List Nat)
  | icon_title (s : List Nat)
  | urgency
  | pointer_motion (set : Bool)
  | colors_reverse
  | colors_load_index
  | draw
  deriving DecidableEq, Repr

/-- The part of the window state (`win.c`) the engine reads or writes:
`flags` is `tw.flags`, `cursor` is `tw.cursor`, `clrcache` holds the red, green
and blue components of the colour cache `dc.clrcache`, `title` and
`icon_title` are the window properties, `events` lists the requests issued, the
latest first. -/
structure Win where
  flags : Nat
  cursor : Int
  clrcache : List (Nat × Nat × Nat)
  title : Option (List Nat)
  icon_title : Option (List Nat)
  events : List WinEvent
  deriving DecidableEq, Repr

/-- The globals of `st.c` and the two byte sinks: `cmd` collects the bytes
written to the child process (`cmdfd`), `prn` the bytes written to the printer
file (`iofd`). -/
structure State where
  term : Term
  csiescseq : CSIEscape
  strescseq : STREscape
  tw : Win
  cmd : List Nat
  prn : List Nat
  deriving DecidableEq, Repr

/-- What the engine takes from outside `st.c`: the C library (`wcwidth`), the
configuration (`config.h` is not part of the sources: `vtiden`,
`worddelimiters`), the command line (`a_flags`, `a_title`), the X server
(colour allocation) and the content of freshly allocated memory. -/
structure Env where
  wcwidth : Nat → Int
  vtiden : List Nat
  worddelimiters : List Nat
  allow_alt_screen : Bool
  a_title : List Nat
  x_color_load_value : Nat → Nat → Nat → Bool
  x_color_load_index : Nat → Option (List Nat) → Option (Nat × Nat × Nat)
  x_colors_reverse : List (Nat × Nat × Nat) → List (Nat × Nat × Nat)
  base_colors : List (Nat × Nat × Nat)
  max_index_cache : Nat
  junk_glyph : Bool → Nat → Nat → TermGlyph
  junk_dirty : Nat → Bool
  junk_tab : Nat → Bool

/-! ### Grid, cursor and selection primitives -/

/-- Macro `term_flag(f)`: `term.flags & (f)`. -/
def term_flag (t : Term) (f : Nat) : Nat := t.flags &&& f

/-- The entries `lo .. hi` of `xs` overwritten by `v` (a loop that stores `v`
at each index from `lo` to `hi`). -/
def fill_range {α : Type} (xs : List α) (lo hi : Nat) (v : α) : List α :=
  xs.take lo ++ List.replicate (hi + 1 - lo) v ++ xs.drop (hi + 1)

/-- Read of `term.line [row]`. -/
def get_row (t : Term) (row : Nat) : Except Fault Line :=
  match t.line[row]? with
  | some l => .ok l
  | none => .error .row

/-- Read of the cell `line [col]`. -/
def get_cell (l : Line) (col : Nat) : Except Fault TermGlyph :=
  match l[col]? with
  | some g => .ok g
  | none => .error .cell

/-- Write of the cell `line [col]`. -/
def set_cell (l : Line) (col : Nat) (g : TermGlyph) : Except Fault Line :=
  if col < l.length then .ok (l.set col g) else .error .cell

/-- Write of the cell `term.line [row][col]`. -/
def put_cell (t : Term) (col row : Nat) (g : TermGlyph) : Except Fault Term := do
  let l ← get_row t row
  let l2 ← set_cell l col g
  pure { t with line := t.line.set row l2 }

/-- Function `t_set_dirt (uint top, uint bottom)`. -/
def t_set_dirt (t : Term) (top bottom : Nat) : Except Fault Term :=
  let top := if top ≥ t.size.row then usub t.size.row 1 else top
  let bottom := if bottom ≥ t.size.row then usub t.size.row 1 else bottom
  if top ≤ bottom then
    if bottom < t.dirty.length then .ok { t with dirty := fill_range t.dirty top bottom true }
    else .error .dirty
  else .ok t

/-- Function `t_full_dirt (void)` (`FEATURE_SYNC_UPDATE` is not defined). -/
def t_full_dirt (t : Term) : Except Fault Term :=
  t_set_dirt t 0 (usub t.size.row 1)

/-- Function `sel_clear (void)`. -/
def sel_clear (t : Term) : Except Fault Term :=
  t_set_dirt
    { t with sel := { t.sel with oe := { t.sel.oe with col := UINT_MAX } },
             flags := t.flags &&& cnot SEL_MASK }
    t.sel.nb.row t.sel.ne.row

/-- Function `tregion_is_sel (void)`. -/
def tregion_is_sel (t : Term) : Bool :=
  if t.sel.oe.col = UINT_MAX then false
  else
    let altscreen := term_flag t (MODE_ALTSCREEN ||| SEL_ALTSCREEN)
    altscreen = 0 || altscreen = (MODE_ALTSCREEN ||| SEL_ALTSCREEN)

/-- Function `tline_sel_get_margin (uint row, uint *col1, uint *col2)`; the
result is `none` for the return value `False`, else `(*col1, *col2)`. -/
def tline_sel_get_margin (t : Term) (row : Nat) : Option (Nat × Nat) :=
  if row < t.sel.nb.row || row > t.sel.ne.row then none
  else if term_flag t SEL_RECT ≠ 0 then some (t.sel.nb.col, t.sel.ne.col)
  else some (if row = t.sel.nb.row then t.sel.nb.col else 0,
             if row = t.sel.ne.row then t.sel.ne.col else usub t.size.col 1)

/-- Function `t_selected (uint col, uint row)`. -/
def t_selected (t : Term) (col row : Nat) : Bool :=
  if !tregion_is_sel t then false
  else
    match tline_sel_get_margin t row with
    | none => false
    | some (cmin, cmax) => BETWEEN col cmin cmax

/-- Macro `LIMIT(x, a, b)`: `(x) < (a) ? (a) : (x) > (b) ? (b) : (x)`. -/
def LIMIT (x a b : Nat) : Nat := if x < a then a else if x > b then b else x

/-- Function `t_move_to (uint col, uint row)`. -/
def t_move_to (t : Term) (col row : Nat) : Term :=
  let flags := t.flags &&& cnot CURSOR_WRAPNEXT
  let col := if col ≥ t.size.col then usub t.size.col 1 else col
  let row :=
    if flags &&& CURSOR_ORIGIN ≠ 0 then LIMIT row t.top t.bottom
    else if row ≥ t.size.row then usub t.size.row 1 else row
  { t with flags := flags, c := { t.c with p := { row := row, col := col } } }

/-- Function `t_movea_to (uint col, uint row)`. -/
def t_movea_to (t : Term) (col row : Nat) : Term :=
  let row := if term_flag t CURSOR_ORIGIN ≠ 0 then uadd row t.top else row
  t_move_to t col row

/-- The cell written by `tline_clear`: the cursor colours, no attribute, a space. -/
def blank_glyph (t : Term) : TermGlyph :=
  { rune := 32, attr := 0, fg := u16 t.c.fg, bg := u16 t.c.bg }

/-- Function `tline_clear (Line line, uint row, uint col1, uint col2, int sel)`
called on the row `term.line [row]`; the result carries the return value.  The
loop leaves `col1` at `col2 + 1`, and the selection test reads that value. -/
def tline_clear (t : Term) (row col1 col2 : Nat) (sel : Bool) : Except Fault (Term × Bool) := do
  let line ← get_row t row
  let t1 ←
    (if col1 ≤ col2 then
       if col2 < line.length then
         pure { t with line := t.line.set row (fill_range line col1 col2 (blank_glyph t)) }
       else throw Fault.cell
     else pure t)
  let col1 := if col1 ≤ col2 then uadd col2 1 else col1
  match (if sel then tline_sel_get_margin t1 row else none) with
  | some (cmin, cmax) =>
    if cmin < col2 && cmax > col1 then do
      let t2 ← sel_clear t1
      pure (t2, true)
    else pure (t1, false)
  | none => pure (t1, false)

/-- The row loop of `tregion_clear`: `n` rows remain, `row` is the next one,
`sel` is the variable `temp`. -/
def tregion_clear_loop (col1 col2 : Nat) : Nat → Nat → Bool → Term → Except Fault Term
  | 0, _, _, t => .ok t
  | n + 1, row, sel, t =>
    if row < t.dirty.length then
      match tline_clear { t with dirty := t.dirty.set row true } row col1 col2 sel with
      | .error e => .error e
      | .ok (t2, cleared) =>
        tregion_clear_loop col1 col2 n (row + 1) (if cleared then false else sel) t2
    else .error .dirty

/-- Function `tregion_clear (uint col1, uint row1, uint col2, uint row2)`. -/
def tregion_clear (t : Term) (col1 row1 col2 row2 : Nat) : Except Fault Term :=
  let c1 := if col1 > col2 then col2 else col1
  let c2 := if col1 > col2 then col1 else col2
  let c2 := if c1 ≥ t.size.col then usub t.size.col 1
            else if c2 ≥ t.size.col then usub t.size.col 1 else c2
  let c1 := if c1 ≥ t.size.col then usub t.size.col 1 else c1
  let r1 := if row1 > row2 then row2 else row1
  let r2 := if row1 > row2 then row1 else row2
  let r2 := if r1 ≥ t.size.row then usub t.size.row 1
            else if r2 ≥ t.size.row then usub t.size.row 1 else r2
  let r1 := if r1 ≥ t.size.row then usub t.size.row 1 else r1
  tregion_clear_loop c1 c2 (r2 + 1 - r1) r1 (tregion_is_sel t) t

/-- Function `t_swap_screen (void)`. -/
def t_swap_screen (t : Term) : Except Fault Term :=
  t_full_dirt { t with line := t.alt, alt := t.line, flags := t.flags ^^^ MODE_ALTSCREEN }

/-- Function `tcursor_load (void)`. -/
def tcursor_load (t : Term) : Term :=
  let stack := if term_flag t MODE_ALTSCREEN ≠ 0 then t.cstack1 else t.cstack0
  let t1 := { t with c := { attr := u32 stack.attr, fg := u32 stack.fg, bg := u32 stack.bg,
                            p := { row := u32 stack.row, col := u32 stack.col } } }
  t_move_to t1 t1.c.p.col t1.c.p.row

/-- Function `tcursor_save (void)`; the statement `stack->bg = stack->bg`
leaves the saved background as it is. -/
def tcursor_save (t : Term) : Term :=
  let upd (stack : StackCursor) : StackCursor :=
    { attr := i16 t.c.attr, fg := i16 t.c.fg, bg := stack.bg,
      col := i16 t.c.p.col, row := i16 t.c.p.row }
  if term_flag t MODE_ALTSCREEN ≠ 0 then { t with cstack1 := upd t.cstack1 }
  else { t with cstack0 := upd t.cstack0 }

/-- Function `tcursor_stack (int set)`. -/
def tcursor_stack (t : Term) (set : Bool) : Term :=
  if set then tcursor_save t else tcursor_load t

/-- Function `t_set_scroll (uint top, uint bottom)`. -/
def t_set_scroll (t : Term) (top bottom : Nat) : Term :=
  let tp := if top > bottom then bottom else top
  let bt := if top > bottom then top else bottom
  let bt := if tp ≥ t.size.row then usub t.size.row 1
            else if bt ≥ t.size.row then usub t.size.row 1 else bt
  let tp := if tp ≥ t.size.row then usub t.size.row 1 else tp
  { t with top := tp, bottom := bt }

/-! ### Rows, scrolling and the selection -/

/-- The loop of `tline_len` that steps back over trailing spaces; `i` is the
variable of that name. -/
def tline_len_loop (ln : Line) : Nat → Except Fault Nat
  | 0 => .ok 0
  | i + 1 =>
    match ln[i]? with
    | none => .error .cell
    | some g => if g.rune = 32 then tline_len_loop ln i else .ok (i + 1)

/-- Function `tline_len (Line line)`. -/
def tline_len (t : Term) (line : Line) : Except Fault Nat := do
  let g ← get_cell line (usub t.size.col 1)
  if g.attr &&& ATTR_WRAP ≠ 0 then pure t.size.col
  else tline_len_loop line t.size.col

/-- Macro `ISDELIM(u)`: `(u) != 0 && wcschr (worddelimiters, (u))`. -/
def ISDELIM (env : Env) (u : Nat) : Bool := u ≠ 0 && env.worddelimiters.contains u

/-- The variables of the loops of `tline_snap_word_next` and
`tline_snap_word_prev`; `lrow` is the index of `line` in `term.line`, `cur` is
the cell `*tg`, which sits at column `newcol` of that row. -/
structure SnapVars where
  ccol : Nat
  crow : Nat
  newcol : Nat
  newrow : Nat
  linelen : Nat
  delim : Bool
  lrow : Nat
  cur : TermGlyph

/-- The `for` loop of `tline_snap_word_next`; the result is the value of
(`ccol`, `crow`, `linelen`) at the `break`. -/
def tline_snap_word_next_loop (env : Env) (t : Term) :
    Nat → SnapVars → Except Fault (Nat × Nat × Nat)
  | 0, _ => .error .fuel
  | f + 1, v =>
    let newcol := uadd v.newcol 1
    let step (lrow newcol newrow linelen : Nat) : Except Fault (Nat × Nat × Nat) :=
      if newcol ≥ linelen then .ok (v.ccol, v.crow, linelen)
      else
        match get_row t lrow with
        | .error e => .error e
        | .ok line =>
          match get_cell line newcol with
          | .error e => .error e
          | .ok g =>
            let delim := ISDELIM env g.rune
            if g.attr &&& ATTR_WDUMMY = 0 &&
               (delim != v.delim || (delim && g.rune ≠ v.cur.rune))
            then .ok (v.ccol, v.crow, linelen)
            else tline_snap_word_next_loop env t f
              { ccol := newcol, crow := newrow, newcol := newcol, newrow := newrow,
                linelen := linelen, delim := delim, lrow := lrow, cur := g }
    if newcol < t.size.col then step v.lrow newcol v.newrow v.linelen
    else
      let newrow := uadd v.newrow 1
      if newrow = t.size.row then .ok (v.ccol, v.crow, v.linelen)
      else if v.cur.attr &&& ATTR_WRAP = 0 then .ok (v.ccol, v.crow, v.linelen)
      else
        match get_row t (v.lrow + 1) with
        | .error e => .error e
        | .ok line =>
          match tline_len t line with
          | .error e => .error e
          | .ok linelen => step (v.lrow + 1) 0 newrow linelen

/-- Function `tline_snap_word_next (uint *col, uint *row)`; the result is
(`*col`, `*row`). -/
def tline_snap_word_next (env : Env) (t : Term) (col row : Nat) : Except Fault (Nat × Nat) := do
  let line ← get_row t row
  let linelen ← tline_len t line
  let g ← get_cell line col
  let r ← tline_snap_word_next_loop env t (t.size.col * t.size.row + 1)
    { ccol := col, crow := row, newcol := col, newrow := row, linelen := linelen,
      delim := ISDELIM env g.rune, lrow := row, cur := g }
  let ccol := if r.1 ≥ r.2.2 then usub t.size.col 1 else r.1
  pure (ccol, r.2.1)

/-- The `for` loop of `tline_snap_word_prev`.  The variable `newcol` is a
`uint`, so the test `--newcol >= 0` always holds and the branch that steps to
the previous row is never taken. -/
def tline_snap_word_prev_loop (env : Env) (line : Line) :
    Nat → SnapVars → Except Fault (Nat × Nat × Nat)
  | 0, _ => .error .fuel
  | f + 1, v =>
    let newcol := usub v.newcol 1
    if newcol ≥ v.linelen then .ok (v.ccol, v.crow, v.linelen)
    else
      match get_cell line newcol with
      | .error e => .error e
      | .ok g =>
        let delim := ISDELIM env g.rune
        if g.attr &&& ATTR_WDUMMY = 0 &&
           (delim != v.delim || (delim && g.rune ≠ v.cur.rune))
        then .ok (v.ccol, v.crow, v.linelen)
        else tline_snap_word_prev_loop env line f
          { v with ccol := newcol, crow := v.newrow, newcol := newcol, delim := delim, cur := g }

/-- Function `tline_snap_word_prev (uint *col, uint *row)`; the result is
(`*col`, `*row`). -/
def tline_snap_word_prev (env : Env) (t : Term) (col row : Nat) : Except Fault (Nat × Nat) := do
  let line ← get_row t row
  let linelen ← tline_len t line
  let g ← get_cell line col
  let r ← tline_snap_word_prev_loop env line (col + 2)
    { ccol := col, crow := row, newcol := col, newrow := row, linelen := linelen,
      delim := ISDELIM env g.rune, lrow := row, cur := g }
  let ccol := if r.1 > r.2.2 then r.2.2 else r.1
  pure (ccol, r.2.1)

/-- The loop of `tline_snap_next`; `n` is `max - row`. -/
def tline_snap_next_loop (t : Term) (offset : Nat) : Nat → Nat → Except Fault Nat
  | 0, row => .ok row
  | n + 1, row =>
    match get_row t row with
    | .error e => .error e
    | .ok line =>
      match get_cell line offset with
      | .error e => .error e
      | .ok g =>
        if g.attr &&& ATTR_WRAP = 0 then .ok row
        else tline_snap_next_loop t offset n (row + 1)

/-- Function `tline_snap_next (uint row)`. -/
def tline_snap_next (t : Term) (row : Nat) : Except Fault Nat :=
  tline_snap_next_loop t (usub t.size.col 1) (usub t.size.row 1 - row) row

/-- The loop of `tline_snap_prev` from the row `row` on.  The variable `row`
is a `uint`, so the test `row >= 0` always holds: after row 0 the loop reads
the row pointer at index `UINT_MAX`, which no grid has. -/
def tline_snap_prev_loop (t : Term) (offset : Nat) : Nat → Except Fault Nat
  | 0 =>
    match get_row t 0 with
    | .error e => .error e
    | .ok line =>
      match get_cell line offset with
      | .error e => .error e
      | .ok g => if g.attr &&& ATTR_WRAP = 0 then .ok 0 else .error .row
  | r + 1 =>
    match get_row t (r + 1) with
    | .error e => .error e
    | .ok line =>
      match get_cell line offset with
      | .error e => .error e
      | .ok g =>
        if g.attr &&& ATTR_WRAP = 0 then .ok (r + 1)
        else tline_snap_prev_loop t offset r

/-- Function `tline_snap_prev (uint row)`: the loop starts at `row - 1`. -/
def tline_snap_prev (t : Term) (row : Nat) : Except Fault Nat :=
  tline_snap_prev_loop t (usub t.size.col 1) (usub row 1)

/-- Function `sel_snap_next (uint *x, uint *y)`; the result is (`*x`, `*y`). -/
def sel_snap_next (env : Env) (t : Term) (x y : Nat) : Except Fault (Nat × Nat) :=
  if term_flag t SNAP_WORD ≠ 0 then tline_snap_word_next env t x y
  else if term_flag t SNAP_LINE ≠ 0 then do
    let r ← tline_snap_next t y
    pure (usub t.size.col 1, r)
  else pure (x, y)

/-- Function `sel_snap_prev (uint *x, uint *y)`; the result is (`*x`, `*y`). -/
def sel_snap_prev (env : Env) (t : Term) (x y : Nat) : Except Fault (Nat × Nat) :=
  if term_flag t SNAP_WORD ≠ 0 then tline_snap_word_prev env t x y
  else if term_flag t SNAP_LINE ≠ 0 then do
    let r ← tline_snap_prev t y
    pure (0, r)
  else pure (x, y)

/-- Function `sel_normalize (void)`. -/
def sel_normalize (env : Env) (t : Term) : Except Fault Term := do
  let ob := t.sel.ob
  let oe := t.sel.oe
  let cols : Nat × Nat :=
    if term_flag t SEL_RECT ≠ 0 || ob.row = oe.row then
      if ob.col < oe.col then (ob.col, oe.col) else (oe.col, ob.col)
    else if ob.row < oe.row then (ob.col, oe.col)
    else (oe.col, ob.col)
  let rows : Nat × Nat := if ob.row < oe.row then (ob.row, oe.row) else (oe.row, ob.row)
  let t1 := { t with sel := { t.sel with nb := { row := rows.1, col := cols.1 },
                                          ne := { row := rows.2, col := cols.2 } } }
  let b ← sel_snap_prev env t1 t1.sel.nb.col t1.sel.nb.row
  let t2 := { t1 with sel := { t1.sel with nb := { row := b.2, col := b.1 } } }
  let e ← sel_snap_next env t2 t2.sel.ne.col t2.sel.ne.row
  pure { t2 with sel := { t2.sel with ne := { row := e.2, col := e.1 } } }

/-- Function `sel_scroll (int orig, int n)`; `orig` is never negative, `n`
is the signed amount. -/
def sel_scroll (env : Env) (t : Term) (orig : Nat) (n : Int) : Except Fault Term :=
  if t.sel.ob.col = UINT_MAX then .ok t
  else if BETWEEN t.sel.nb.row orig t.bottom != BETWEEN t.sel.ne.row orig t.bottom then
    sel_clear t
  else if BETWEEN t.sel.nb.row orig t.bottom then
    let obrow := u32 (t.sel.ob.row + n)
    let oerow := u32 (t.sel.oe.row + n)
    let t1 := { t with sel := { t.sel with ob := { t.sel.ob with row := obrow },
                                            oe := { t.sel.oe with row := oerow } } }
    if obrow < t.top || obrow > t.bottom || oerow < t.top || oerow > t.bottom then sel_clear t1
    else sel_normalize env t1
  else .ok t

/-- Exchange of the row pointers `line [i]` and `line [j]`. -/
def swap_rows (l : List Line) (i j : Nat) : Except Fault (List Line) :=
  match l[i]?, l[j]? with
  | some a, some b => .ok ((l.set i b).set j a)
  | _, _ => .error .row

/-- The swap loop of `t_scroll_down`: `k` iterations remain, `i0` and `i1`
are the indices of `line0` and `line1`. -/
def t_scroll_down_loop : Nat → Nat → Nat → List Line → Except Fault (List Line)
  | 0, _, _, l => .ok l
  | k + 1, i0, i1, l =>
    match swap_rows l i0 i1 with
    | .error e => .error e
    | .ok l2 => t_scroll_down_loop k (usub i0 1) (usub i1 1) l2

/-- The swap loop of `t_scroll_up`: `k` iterations remain, `i0` and `i1` are
the indices of `line0` and `line1`. -/
def t_scroll_up_loop : Nat → Nat → Nat → List Line → Except Fault (List Line)
  | 0, _, _, l => .ok l
  | k + 1, i0, i1, l =>
    match swap_rows l i0 i1 with
    | .error e => .error e
    | .ok l2 => t_scroll_up_loop k (i0 + 1) (i1 + 1) l2

/-- Function `t_scroll_down (uint orig, uint n)`. -/
def t_scroll_down (env : Env) (t : Term) (orig n : Nat) : Except Fault Term := do
  let i := uadd (usub t.bottom orig) 1
  let n := if n > i then i else n
  let t1 ← t_set_dirt t orig (usub t.bottom n)
  let t2 ← tregion_clear t1 0 (uadd (usub t.bottom n) 1) (usub t.size.col 1) t.bottom
  let l ← t_scroll_down_loop (t2.bottom + 1 - uadd orig n) t2.bottom (usub t2.bottom n) t2.line
  sel_scroll env { t2 with line := l } orig n

/-- Function `t_scroll_up (uint orig, uint n)`. -/
def t_scroll_up (env : Env) (t : Term) (orig n : Nat) : Except Fault Term := do
  let i := uadd (usub t.bottom orig) 1
  let n := if n > i then i else n
  let t1 ← tregion_clear t 0 orig (usub t.size.col 1) (usub (uadd orig n) 1)
  let t2 ← t_set_dirt t1 (uadd orig n) t1.bottom
  let l ← t_scroll_up_loop (t2.bottom + 1 - uadd orig n) orig (uadd orig n) t2.line
  sel_scroll env { t2 with line := l } orig (-(n : Int))

/-- Function `tline_new (int first_col)`. -/
def tline_new (env : Env) (t : Term) (first_col : Bool) : Except Fault Term := do
  let row := t.c.p.row
  if row = t.bottom then
    let t1 ← t_scroll_up env t t.top 1
    pure (t_move_to t1 (if first_col then 0 else t1.c.p.col) row)
  else
    pure (t_move_to t (if first_col then 0 else t.c.p.col) (uadd row 1))

/-! ### Writing cells, tab stops, reset and resize -/

/-- Table `vt100_0` of `t_set_char`: the UTF-8 strings that replace the runes
`0x41 .. 0x7e` in the graphic character set (`none` is a null pointer). -/
def vt100_0 : List (Option (List Nat)) :=
  [some [0xe2, 0x86, 0x91], some [0xe2, 0x86, 0x93], some [0xe2, 0x86, 0x92],
   some [0xe2, 0x86, 0x90], some [0xe2, 0x96, 0x88], some [0xe2, 0x96, 0x9a],
   some [0xe2, 0x98, 0x83],
   none, none, none, none, none, none, none, none,
   none, none, none, none, none, none, none, none,
   none, none, none, none, none, none, none, some [0x20],
   some [0xe2, 0x97, 0x86], some [0xe2, 0x96, 0x92], some [0xe2, 0x90, 0x89],
   some [0xe2, 0x90, 0x8c], some [0xe2, 0x90, 0x8d], some [0xe2, 0x90, 0x8a],
   some [0xc2, 0xb0], some [0xc2, 0xb1],
   some [0xe2, 0x90, 0xa4], some [0xe2, 0x90, 0x8b], some [0xe2, 0x94, 0x98],
   some [0xe2, 0x94, 0x90], some [0xe2, 0x94, 0x8c], some [0xe2, 0x94, 0x94],
   some [0xe2, 0x94, 0xbc], some [0xe2, 0x8e, 0xba],
   some [0xe2, 0x8e, 0xbb], some [0xe2, 0x94, 0x80], some [0xe2, 0x8e, 0xbc],
   some [0xe2, 0x8e, 0xbd], some [0xe2, 0x94, 0x9c], some [0xe2, 0x94, 0xa4],
   some [0xe2, 0x94, 0xb4], some [0xe2, 0x94, 0xac],
   some [0xe2, 0x94, 0x82], some [0xe2, 0x89, 0xa4], some [0xe2, 0x89, 0xa5],
   some [0xcf, 0x80], some [0xe2, 0x89, 0xa0], some [0xc2, 0xa3], some [0xc2, 0xb7]]

/-- The rune `t_set_char` stores: the translation through `vt100_0` when the
current character set is `CS_GRAPHIC0`. -/
def t_set_char_rune (t : Term) (rune : Nat) : Except Fault Nat :=
  if t.charset < 0 then .error .table
  else
    match t.trantbl[t.charset.toNat]? with
    | none => .error .table
    | some cs =>
      if cs = CS_GRAPHIC0 && BETWEEN rune 0x41 0x7e then
        match vt100_0[rune - 0x41]? with
        | none => .error .table
        | some none => .ok rune
        | some (some s) =>
          match utf8_decode (s ++ [0]) UTF_SIZ with
          | .error e => .error e
          | .ok r => .ok r.2
      else .ok rune

/-- Function `t_set_char (Rune rune, uint col, uint row)`. -/
def t_set_char (t : Term) (rune col row : Nat) : Except Fault Term := do
  let rune ← t_set_char_rune t rune
  let ln ← get_row t row
  let tg ← get_cell ln col
  let ln1 ←
    (if tg.attr &&& ATTR_WIDE ≠ 0 then
       if uadd col 1 < t.size.col then do
         let g ← get_cell ln (col + 1)
         set_cell ln (col + 1) { g with rune := 32, attr := u16 (g.attr &&& cnot ATTR_WDUMMY) }
       else pure ln
     else if tg.attr &&& ATTR_WDUMMY ≠ 0 then do
       let g ← get_cell ln (usub col 1)
       set_cell ln (usub col 1) { g with rune := 32, attr := u16 (g.attr &&& cnot ATTR_WIDE) }
     else pure ln)
  let ln2 ← set_cell ln1 col
    { rune := rune, attr := u16 t.c.attr, fg := u16 t.c.fg, bg := u16 t.c.bg }
  if row < t.dirty.length then
    pure { t with line := t.line.set row ln2, dirty := t.dirty.set row true }
  else throw Fault.dirty

/-- The effect of `memmove (ln + dst, ln + src, count * sizeof (TermGlyph))`
inside one row. -/
def row_memmove (ln : Line) (dst src count : Nat) : Except Fault Line :=
  if count = 0 then .ok ln
  else if src + count ≤ ln.length ∧ dst + count ≤ ln.length then
    .ok (ln.take dst ++ (ln.drop src).take count ++ ln.drop (dst + count))
  else .error .cell

/-- Function `t_delete_char (uint n)`. -/
def t_delete_char (t : Term) (n : Nat) : Except Fault Term := do
  let size := usub t.size.col t.c.p.col
  let n := if n > size then size else n
  let ln ← get_row t t.c.p.row
  let size := usub (usub t.size.col t.c.p.col) n
  let ln2 ← row_memmove ln t.c.p.col (t.c.p.col + n) size
  tregion_clear { t with line := t.line.set t.c.p.row ln2 }
    (usub t.size.col n) t.c.p.row (usub t.size.col 1) t.c.p.row

/-- Function `t_insert_blank (uint n)`. -/
def t_insert_blank (t : Term) (n : Nat) : Except Fault Term := do
  let size := usub t.size.col t.c.p.col
  let n := if n > size then size else n
  let ln ← get_row t t.c.p.row
  let size := usub (usub t.size.col t.c.p.col) n
  let ln2 ← row_memmove ln (t.c.p.col + n) t.c.p.col size
  tregion_clear { t with line := t.line.set t.c.p.row ln2 }
    t.c.p.col t.c.p.row (usub (uadd t.c.p.col n) 1) t.c.p.row

/-- Function `t_insert_blank_line (uint n)`. -/
def t_insert_blank_line (env : Env) (t : Term) (n : Nat) : Except Fault Term :=
  if BETWEEN t.c.p.row t.top t.bottom then t_scroll_down env t t.c.p.row n else .ok t

/-- Function `t_delete_line (uint n)`. -/
def t_delete_line (env : Env) (t : Term) (n : Nat) : Except Fault Term :=
  if BETWEEN t.c.p.row t.top t.bottom then t_scroll_up env t t.c.p.row n else .ok t

/-- The loop of `t_put_next_tab`; `col` and `n` are the variables of those
names, the pointer `pt` is `term.tabs + col`.  Every iteration moves one
column to the right. -/
def t_put_next_tab_loop (tabs : List Bool) (max : Nat) : Nat → Nat → Nat → Except Fault Nat
  | 0, _, _ => .error .fuel
  | f + 1, col, n =>
    let col := uadd col 1
    if col = max then .ok col
    else
      match tabs[col]? with
      | none => .error .tabs
      | some b =>
        if b then
          let n := usub n 1
          if n = 0 then .ok col else t_put_next_tab_loop tabs max f col n
        else t_put_next_tab_loop tabs max f col n

/-- Function `t_put_next_tab (uint n)`. -/
def t_put_next_tab (t : Term) (n : Nat) : Except Fault Term :=
  match t_put_next_tab_loop t.tabs (usub t.size.col 1) (t.tabs.length + 1) t.c.p.col n with
  | .error e => .error e
  | .ok col => .ok { t with c := { t.c with p := { t.c.p with col := col } } }

/-- The loop of `t_put_prev_tab`; `col` and `n` are the variables of those
names, the pointer `pt` is `term.tabs + col`.  Every iteration moves one
column to the left. -/
def t_put_prev_tab_loop (tabs : List Bool) : Nat → Nat → Nat → Except Fault Nat
  | 0, _, _ => .error .fuel
  | f + 1, col, n =>
    let col := usub col 1
    if col = 0 then .ok col
    else
      match tabs[col]? with
      | none => .error .tabs
      | some b =>
        if b then
          let n := usub n 1
          if n = 0 then .ok col else t_put_prev_tab_loop tabs f col n
        else t_put_prev_tab_loop tabs f col n

/-- Function `t_put_prev_tab (uint n)`. -/
def t_put_prev_tab (t : Term) (n : Nat) : Except Fault Term :=
  match t_put_prev_tab_loop t.tabs (t.tabs.length + 1) t.c.p.col n with
  | .error e => .error e
  | .ok col => .ok { t with c := { t.c with p := { t.c.p with col := col } } }

/-- Function `t_def_utf8 (char ascii)`. -/
def t_def_utf8 (t : Term) (ascii : Nat) : Term :=
  if ascii = 0x47 then { t with flags := t.flags ||| MODE_UTF8 }
  else if ascii = 0x40 then { t with flags := t.flags &&& cnot MODE_UTF8 }
  else t

/-- Function `t_def_tran (char ascii)`: `strchr (cs, ascii)` over the string
"0B" finds the digit zero at offset 0, the letter B at offset 1 and the
terminating byte at offset 2 when `ascii` is zero; `vcs` has two entries. -/
def t_def_tran (t : Term) (ascii : Nat) : Except Fault Term :=
  let store (v : Nat) : Except Fault Term :=
    if 0 ≤ t.icharset ∧ t.icharset.toNat < t.trantbl.length then
      .ok { t with trantbl := t.trantbl.set t.icharset.toNat v }
    else .error .table
  if ascii = 0x30 then store CS_GRAPHIC0
  else if ascii = 0x42 then store CS_USA
  else if ascii = 0 then .error .table
  else .ok t

/-- The inner loop of `t_dec_test` over the rows of one column. -/
def t_dec_test_rows (col : Nat) : Nat → Nat → Term → Except Fault Term
  | 0, _, t => .ok t
  | n + 1, row, t =>
    match t_set_char t 0x45 col row with
    | .error e => .error e
    | .ok t2 => t_dec_test_rows col n (row + 1) t2

/-- The outer loop of `t_dec_test` over the columns. -/
def t_dec_test_cols : Nat → Nat → Term → Except Fault Term
  | 0, _, t => .ok t
  | n + 1, col, t =>
    match t_dec_test_rows col t.size.row 0 t with
    | .error e => .error e
    | .ok t2 => t_dec_test_cols n (col + 1) t2

/-- Function `t_dec_test (char c)`. -/
def t_dec_test (t : Term) (c : Nat) : Except Fault Term :=
  if c = 0x38 then t_dec_test_cols t.size.col 0 t else .ok t

/-- The tab stops `t_reset` sets in the first `cols` entries: cleared by
`memset`, then the entries `TAB_SPACES`, `2 * TAB_SPACES`, ... are set while
the `int` counter `i`, which starts at `cols - TAB_SPACES` and goes down by
`TAB_SPACES`, is positive. -/
def reset_tabs (cols : Nat) : List Bool :=
  (List.range cols).map fun j =>
    decide (j ≠ 0 ∧ j % TAB_SPACES = 0 ∧ (j : Int) - TAB_SPACES < i32 (usub cols TAB_SPACES))

/-- The two rounds of the loop at the end of `t_reset`. -/
def t_reset_screens : Nat → Term → Except Fault Term
  | 0, t => .ok t
  | n + 1, t =>
    let t1 := tcursor_save (t_move_to t 0 0)
    match tregion_clear t1 0 0 (usub t1.size.col 1) (usub t1.size.row 1) with
    | .error e => .error e
    | .ok t2 =>
      match t_swap_screen t2 with
      | .error e => .error e
      | .ok t3 => t_reset_screens n t3

/-- Function `t_reset (void)`. -/
def t_reset (t : Term) : Except Fault Term :=
  if t.tabs.length < t.size.col then .error .tabs
  else
    t_reset_screens 2
      { t with
        flags := (t.flags &&& cnot (MODE_MASK ||| CURSOR_MASK)) ||| (MODE_WRAP ||| MODE_UTF8),
        c := { attr := ATTR_NULL, fg := DEFAULT_FG, bg := DEFAULT_BG, p := { row := 0, col := 0 } },
        tabs := reset_tabs t.size.col ++ t.tabs.drop t.size.col,
        top := 0,
        bottom := usub t.size.row 1,
        trantbl := [CS_USA, CS_USA, CS_USA, CS_USA],
        charset := 0 }

/-- A row reallocated to `col` cells: the cells kept and, beyond them, the
content of fresh memory. -/
def realloc_line (env : Env) (alt : Bool) (row : Nat) (ln : Line) (col : Nat) : Line :=
  ln.take col ++ (List.range (col - ln.length)).map fun j => env.junk_glyph alt row (ln.length + j)

/-- The rows of one screen after the reallocations of `t_resize`: `kept` are
the row pointers that stay, reallocated to `col` cells, followed by newly
allocated rows up to `row` rows. -/
def realloc_screen (env : Env) (alt : Bool) (kept : List Line) (col row : Nat) : List Line :=
  (List.range kept.length).zipWith (fun i ln => realloc_line env alt i ln col) kept
    ++ (List.range (row - kept.length)).map fun i => realloc_line env alt (kept.length + i) [] col

/-- The search `while ( --tp > term.tabs && !*tp )` of `t_resize`; the
argument is the index of `tp` after the decrement, the result the index at
which the search stops. -/
def last_tab (tabs : List Bool) : Nat → Except Fault Nat
  | 0 => .ok 0
  | i + 1 =>
    match tabs[i + 1]? with
    | none => .error .tabs
    | some b => if b then .ok (i + 1) else last_tab tabs i

/-- The two rounds of the clearing loop at the end of `t_resize`. -/
def t_resize_screens (mincol minrow col row : Nat) : Nat → Term → Except Fault Term
  | 0, t => .ok t
  | n + 1, t =>
    let r1 := if mincol < col ∧ minrow > 0 then tregion_clear t mincol 0 (col - 1) (minrow - 1)
              else .ok t
    match r1 with
    | .error e => .error e
    | .ok t1 =>
      let r2 := if col > 0 ∧ row > minrow then tregion_clear t1 0 minrow (col - 1) (row - 1)
                else .ok t1
      match r2 with
      | .error e => .error e
      | .ok t2 =>
        match t_swap_screen t2 with
        | .error e => .error e
        | .ok t3 => t_resize_screens mincol minrow col row n (tcursor_load t3)

/-- The tab stops after the reallocation in `t_resize`: when the screen gets
wider the new entries are cleared and stops are set every `TAB_SPACES` columns
after the last stop of the old part (`tabs0` is the reallocated array). -/
def t_resize_tabs (t : Term) (col : Nat) (tabs0 : List Bool) : Except Fault (List Bool) :=
  let ntab : Int := i32 (usub col t.size.col)
  if ntab > 0 then
    let cleared := tabs0.take t.size.col ++ List.replicate (col - t.size.col) false
    let start : Except Fault Int :=
      if t.size.col = 0 then .ok (-1)
      else
        match last_tab cleared (t.size.col - 1) with
        | .error e => .error e
        | .ok i => .ok i
    match start with
    | .error e => .error e
    | .ok i0 =>
      .ok ((List.range cleared.length).zipWith
        (fun (j : Nat) (b : Bool) =>
          if (j : Int) > i0 ∧ ((j : Int) - i0) % TAB_SPACES = 0 ∧ j < col then true else b)
        cleared)
  else .ok tabs0

/-- The count of rows that `t_resize` drops from the top so that the cursor
stays on the screen: `i32 (c.p.row - row) + 1` when that is positive. -/
def t_resize_drop (t : Term) (row : Nat) : Nat :=
  let minrow0 : Int := i32 (usub t.c.p.row row)
  if minrow0 < 0 then 0 else (minrow0 + 1).toNat

/-- Function `t_resize (uint col, uint row)`.  The rows above the cursor that
do not fit are dropped (`n` of them), the arrays are reallocated, new tab stops
are set, then the new cells of both screens are cleared. -/
def t_resize (env : Env) (t : Term) (col row : Nat) : Except Fault Term :=
  if col = 0 ∨ row = 0 then .ok t
  else
    let n : Nat := t_resize_drop t row
    if n > t.line.length ∨ n > t.alt.length then .error .row
    else if n ≠ 0 ∧ (n + row > t.line.length ∨ n + row > t.alt.length) then .error .row
    else
      let minrow := if row < t.size.row then row else t.size.row
      let line := realloc_screen env false ((t.line.drop n).take minrow) col row
      let alt := realloc_screen env true ((t.alt.drop n).take minrow) col row
      let dirty := t.dirty.take row ++
        (List.range (row - t.dirty.length)).map fun i => env.junk_dirty (t.dirty.length + i)
      let tabs0 := t.tabs.take col ++
        (List.range (col - t.tabs.length)).map fun i => env.junk_tab (t.tabs.length + i)
      match t_resize_tabs t col tabs0 with
      | .error e => .error e
      | .ok tabs =>
        let mincol := if col < t.size.col then col else t.size.col
        let t1 := { t with line := line, alt := alt, dirty := dirty, tabs := tabs,
                           size := { row := row, col := col } }
        let t2 := t_set_scroll t1 0 (row - 1)
        let t3 := t_move_to t2 t2.c.p.col t2.c.p.row
        match t_resize_screens mincol minrow col row 2 t3 with
        | .error e => .error e
        | .ok t4 => .ok { t4 with c := t3.c }

/-- The value of `term` after `memset (&term, 0, sizeof (Term))`. -/
def term_zero : Term :=
  { size := { row := 0, col := 0 }, line := [], alt := [], dirty := [], tabs := [],
    c := { attr := 0, fg := 0, bg := 0, p := { row := 0, col := 0 } },
    cstack0 := { attr := 0, fg := 0, bg := 0, row := 0, col := 0 },
    cstack1 := { attr := 0, fg := 0, bg := 0, row := 0, col := 0 },
    oc := { row := 0, col := 0 }, top := 0, bottom := 0, flags := 0,
    trantbl := [0, 0, 0, 0], charset := 0, icharset := 0, lastu := 0,
    sel := { ob := { row := 0, col := 0 }, oe := { row := 0, col := 0 },
             nb := { row := 0, col := 0 }, ne := { row := 0, col := 0 } },
    titles := [], icontitles := [] }

/-- Function `t_new (uint col, uint row)`. -/
def t_new (env : Env) (col row : Nat) : Except Fault Term :=
  match t_resize env term_zero col row with
  | .error e => .error e
  | .ok t => t_reset t

/-! ### The window system and the byte sinks -/

/-- Function `t_printer (char *s, size_t len)`: the bytes go to the printer
file (write errors are not modelled). -/
def t_printer (s : State) (bytes : List Nat) : State :=
  { s with prn := s.prn ++ bytes }

/-- Function `x_set_title (const char *p)` of `win.c`. -/
def x_set_title (s : State) (p : List Nat) : State :=
  { s with tw := { s.tw with title := some p, events := WinEvent.title p :: s.tw.events } }

/-- Function `x_set_icon_title (const char *p)` of `win.c`. -/
def x_set_icon_title (s : State) (p : List Nat) : State :=
  { s with tw := { s.tw with icon_title := some p,
                             events := WinEvent.icon_title p :: s.tw.events } }

/-- Function `x_bell (void)` of `win.c`; `BELL_VOLUME` is 0, so the only effect
is the urgency hint of an unfocused window. -/
def x_bell (s : State) : State :=
  if s.tw.flags &&& MODE_FOCUSED = 0 then
    { s with tw := { s.tw with events := WinEvent.urgency :: s.tw.events } }
  else s

/-- Function `x_set_pointer_motion (int set)` of `win.c`. -/
def x_set_pointer_motion (s : State) (set : Bool) : State :=
  { s with tw := { s.tw with events := WinEvent.pointer_motion set :: s.tw.events } }

/-- Function `x_set_cursor (int cursor)` of `win.c`; the result carries the
return value. -/
def x_set_cursor (s : State) (cursor : Int) : State × Int :=
  if 0 ≤ cursor ∧ cursor ≤ 7 then ({ s with tw := { s.tw with cursor := cursor } }, 0)
  else (s, 1)

/-- Function `x_color_load_rgb (uint red, uint green, uint blue)` of `win.c`;
the result carries the return value. -/
def x_color_load_rgb (env : Env) (s : State) (red green blue : Nat) : State × Int :=
  if env.x_color_load_value (red <<< 8) (green <<< 8) (blue <<< 8) then
    ({ s with tw := { s.tw with clrcache := s.tw.clrcache ++ [(red <<< 8, green <<< 8, blue <<< 8)] } },
     i32 s.tw.clrcache.length)
  else (s, -1)

/-- Function `x_color_get (uint idx, byte *r, byte *g, byte *b)` of `win.c`;
`none` is the return value `False`. -/
def x_color_get (s : State) (idx : Nat) : Option (Nat × Nat × Nat) :=
  match s.tw.clrcache[idx]? with
  | none => none
  | some c => some ((c.1 >>> 8) % 256, (c.2.1 >>> 8) % 256, (c.2.2 >>> 8) % 256)

/-- Function `x_color_set_name (uint idx, const char *name)` of `win.c`; the
result carries the return value. -/
def x_color_set_name (env : Env) (s : State) (idx : Nat) (name : Option (List Nat)) :
    State × Bool :=
  if idx ≥ env.max_index_cache then (s, false)
  else
    match env.x_color_load_index idx name with
    | none => (s, false)
    | some c => ({ s with tw := { s.tw with clrcache := s.tw.clrcache.set idx c } }, true)

/-- Function `x_colors_load_index (void)` of `win.c`. -/
def x_colors_load_index (env : Env) (s : State) : State :=
  { s with tw := { s.tw with clrcache := env.base_colors,
                             events := WinEvent.colors_load_index :: s.tw.events } }

/-- Function `t_draw (int fulldirt)`: the cells under the old and the new
cursor are read, every dirty row is drawn and its flag cleared, `term.oc`
follows the cursor. -/
def t_draw (s : State) (fulldirt : Bool) : Except Fault State := do
  let t ← (if fulldirt then t_full_dirt s.term else pure s.term)
  if s.tw.flags &&& MODE_VISIBLE = 0 then pure { s with term := t }
  else
    let occol := if t.oc.col ≥ t.size.col then usub t.size.col 1 else t.oc.col
    let ocrow := if t.oc.row ≥ t.size.row then usub t.size.row 1 else t.oc.row
    let ln ← get_row t ocrow
    let g ← get_cell ln occol
    let occol := if g.attr &&& ATTR_WDUMMY ≠ 0 then usub occol 1 else occol
    let _ ← get_cell ln occol
    let ln2 ← get_row t t.c.p.row
    let g2 ← get_cell ln2 t.c.p.col
    let col := if g2.attr &&& ATTR_WDUMMY ≠ 0 then usub t.c.p.col 1 else t.c.p.col
    let _ ← get_cell ln2 col
    if t.dirty.length < t.size.row then throw Fault.dirty
    else if (List.range t.size.row).any fun r => t.dirty.getD r false && decide (t.line.length ≤ r)
    then throw Fault.row
    else
      pure { s with
        term := { t with dirty := List.replicate t.size.row false ++ t.dirty.drop t.size.row,
                         oc := { row := t.c.p.row, col := col } },
        tw := { s.tw with events := WinEvent.draw :: s.tw.events } }

/-- Function `x_set_mode (int set, uint flags)` of `win.c`. -/
def x_set_mode (env : Env) (s : State) (set : Bool) (flags : Nat) : Except Fault State :=
  let nf := if set then s.tw.flags ||| flags else s.tw.flags &&& cnot flags
  let s1 := { s with tw := { s.tw with flags := nf } }
  if nf &&& MODE_REVERSE ≠ s.tw.flags &&& MODE_REVERSE then
    t_draw { s1 with tw := { s1.tw with clrcache := env.x_colors_reverse s1.tw.clrcache,
                                        events := WinEvent.colors_reverse :: s1.tw.events } } true
  else .ok s1

/-- The bytes `tty_write` hands to `tty_write_raw`: in `MODE_CRLF` every
carriage return is followed by a line feed. -/
def tty_out (t : Term) (bytes : List Nat) : List Nat :=
  if term_flag t MODE_CRLF = 0 then bytes
  else bytes.flatMap fun b => if b % 256 = 13 then [13, 10] else [b]

/-- Function `tty_write (const char *s, uint n, int may_echo)`; `wr` is
`t_write` with `show_ctrl` set.  The bytes are appended to the sink `cmd`; the
reads from the child process that `tty_write_raw` may interleave are outside
the model. -/
def tty_write (wr : State → List Nat → Except Fault State) (s : State) (bytes : List Nat)
    (may_echo : Bool) : Except Fault State := do
  let s1 ← (if may_echo && term_flag s.term MODE_ECHO ≠ 0 then wr s bytes else pure s)
  pure { s1 with cmd := s1.cmd ++ tty_out s1.term bytes }

/-- The print loop of `tline_dump`: `count` cells from column `col` on. -/
def tline_dump_loop (ln : Line) : Nat → Nat → State → Except Fault State
  | 0, _, s => .ok s
  | count + 1, col, s =>
    match get_cell ln col with
    | .error e => .error e
    | .ok g =>
      match utf8_encode g.rune with
      | .error e => .error e
      | .ok bytes => tline_dump_loop ln count (col + 1) (t_printer s bytes)

/-- Function `tline_dump (Line line)`. -/
def tline_dump (s : State) (ln : Line) : Except Fault State := do
  let count ← tline_len s.term ln
  let s1 ←
    (if count ≠ 1 then tline_dump_loop ln count 0 s
     else do
       let g ← get_cell ln 0
       if g.rune ≠ 32 then tline_dump_loop ln count 0 s else pure s)
  pure (t_printer s1 [10])

/-- The row loop of `t_dump`. -/
def t_dump_loop : Nat → Nat → State → Except Fault State
  | 0, _, s => .ok s
  | n + 1, row, s =>
    match get_row s.term row with
    | .error e => .error e
    | .ok ln =>
      match tline_dump s ln with
      | .error e => .error e
      | .ok s2 => t_dump_loop n (row + 1) s2

/-- Function `t_dump (void)`. -/
def t_dump (s : State) : Except Fault State :=
  t_dump_loop s.term.size.row 0 s

/-! ### CSI sequences -/

/-- C library predicate `isspace` in the C locale. -/
def isspace (c : Nat) : Bool := c = 0x20 || (decide (0x09 ≤ c) && decide (c ≤ 0x0d))

/-- C library predicate `isdigit`. -/
def isdigit (c : Nat) : Bool := decide (0x30 ≤ c) && decide (c ≤ 0x39)

/-- The digit loop of `strtol`: the result is (the magnitude read, the number
of digits read). -/
def strtol_digits : List Nat → Nat → Nat → Nat × Nat
  | c :: cs, acc, k =>
    if isdigit c then strtol_digits cs (acc * 10 + (c - 0x30)) (k + 1) else (acc, k)
  | [], acc, k => (acc, k)

/-- C library function `strtol (s, &ns, 10)` (ISO C, `long` of 64 bits) on the
string that starts with the bytes `s`: white space is skipped, an optional
sign is read, then the decimal digits; a value outside `long` is replaced by
`LONG_MAX` or `LONG_MIN`; without a digit nothing is converted.  The result is
(the value, `ns - s`). -/
@[irreducible] def strtol (s : List Nat) : Int × Nat :=
  let ws := (s.takeWhile isspace).length
  let s1 := s.drop ws
  let neg := s1.head? = some 0x2d
  let sg := if s1.head? = some 0x2d ∨ s1.head? = some 0x2b then 1 else 0
  let r := strtol_digits (s1.drop sg) 0 0
  if r.2 = 0 then (0, 0)
  else
    let v : Int := if neg then -(r.1 : Int) else (r.1 : Int)
    let v := if v > LONG_MAX then LONG_MAX else if v < LONG_MIN then LONG_MIN else v
    (v, ws + sg + r.2)

/-- C library function `atoi`. -/
def atoi (s : List Nat) : Int := i32 (strtol s).1

/-- The argument loop of `csi_parse`: `s` is the offset of the pointer of
that name in `buf`, `e` the offset of the end; `args` and `narg` are the fields
of `csiescseq`.  The result is (`s`, `args`, `narg`) after the loop. -/
def csi_parse_loop (buf : List Nat) (e : Nat) :
    Nat → Nat → List Int → Nat → Except Fault (Nat × List Int × Nat)
  | 0, _, _, _ => .error .fuel
  | f + 1, s, args, narg =>
    if s < e then
      let r := strtol (buf.drop s)
      let val : Int :=
        if r.2 = 0 then 0
        else if r.1 = LONG_MAX ∨ r.1 = LONG_MIN then -1
        else r.1
      if narg < args.length then
        let args := args.set narg (i32 val)
        let narg := narg + 1
        let s := s + r.2
        match buf[s]? with
        | none => .error .csibuf
        | some ch =>
          if ch ≠ 0x3b then .ok (s, args, narg)
          else if narg = ESC_ARG_SIZ then .ok (s, args, narg)
          else csi_parse_loop buf e f (s + 1) args narg
      else .error .csiarg
    else .ok (s, args, narg)

/-- Function `csi_parse (void)`. -/
def csi_parse (st : State) : Except Fault State :=
  let c := st.csiescseq
  match c.buf[0]? with
  | none => .error .csibuf
  | some b0 =>
    let priv := b0 = 0x3f
    let flags := if priv then st.term.flags ||| CSI_PRIV else st.term.flags &&& cnot CSI_PRIV
    let s0 := if priv then 1 else 0
    if c.len < c.buf.length then
      let buf := c.buf.set c.len 0
      match csi_parse_loop buf c.len (ESC_ARG_SIZ + 1) s0 c.args 0 with
      | .error e => .error e
      | .ok (s, args, narg) =>
        match buf[s]? with
        | none => .error .csibuf
        | some m0 =>
          let m1r : Except Fault Nat :=
            if s + 1 < c.len then
              match buf[s + 1]? with
              | none => .error .csibuf
              | some m1 => .ok m1
            else .ok 0
          match m1r with
          | .error e => .error e
          | .ok m1 =>
            .ok { st with term := { st.term with flags := flags },
                          csiescseq := { c with buf := buf, args := args, narg := narg,
                                                mode0 := m0, mode1 := m1 } }
    else .error .csibuf

/-- Function `csi_reset (void)`. -/
def csi_reset (st : State) : State :=
  { st with csiescseq := { st.csiescseq with len := 0 } }

/-- Read of `csiescseq.args [k]`. -/
def csi_arg (st : State) (k : Nat) : Except Fault Int :=
  match st.csiescseq.args[k]? with
  | some v => .ok v
  | none => .error .csiarg

/-- Function `t_def_color_rgb (const int **args, int *remain, uint id)`; `k`
is the offset of `*args`, the result is (the state, the return value, `*args`,
`*remain`). -/
def t_def_color_rgb (env : Env) (st : State) (k : Nat) (remain : Int) :
    Except Fault (State × Int × Nat × Int) := do
  let red := remain - 3
  if red ≤ 0 then pure (st, -1, k, remain)
  else
    let r ← csi_arg st (k + 1)
    let g ← csi_arg st (k + 2)
    let b ← csi_arg st (k + 3)
    if !(decide (0 ≤ r ∧ r ≤ 255)) || !(decide (0 ≤ g ∧ g ≤ 255)) || !(decide (0 ≤ b ∧ b ≤ 255))
    then pure (st, -1, k + 3, red)
    else
      let x := x_color_load_rgb env st r.toNat g.toNat b.toNat
      pure (x.1, x.2, k + 3, red)

/-- Function `t_def_color_index (const int **args, int *remain, uint id)`;
`k` is the offset of `*args`, the result is (the return value, `*args`,
`*remain`). -/
def t_def_color_index (st : State) (k : Nat) (remain : Int) :
    Except Fault (Int × Nat × Int) := do
  let i := remain - 1
  if i = 0 then pure (-1, k, remain)
  else
    let v ← csi_arg st (k + 1)
    if !(decide (0 ≤ v ∧ v ≤ 255)) then pure (-1, k + 1, i)
    else pure (v, k + 1, i)

/-- Function `t_def_color (const int **args, int *remain, uint id)`; `k` is
the offset of `*args`, the result is (the state, the return value, `*args`,
`*remain`). -/
def t_def_color (env : Env) (st : State) (k : Nat) (remain : Int) :
    Except Fault (State × Int × Nat × Int) := do
  let i := remain - 1
  if i = 0 then pure (st, -1, k, remain)
  else
    let type ← csi_arg st (k + 1)
    if u32 type = 2 then t_def_color_rgb env st (k + 1) i
    else if u32 type = 5 then do
      let r ← t_def_color_index st (k + 1) i
      pure (st, r.1, r.2.1, r.2.2)
    else pure (st, -1, k + 1, i)

/-- Assignment of the cursor attribute word. -/
def set_c_attr (st : State) (a : Nat) : State :=
  { st with term := { st.term with c := { st.term.c with attr := a } } }

/-- Assignment of the cursor foreground. -/
def set_c_fg (st : State) (v : Nat) : State :=
  { st with term := { st.term with c := { st.term.c with fg := v } } }

/-- Assignment of the cursor background. -/
def set_c_bg (st : State) (v : Nat) : State :=
  { st with term := { st.term with c := { st.term.c with bg := v } } }

/-- One round of the loop of `t_set_attr` for the argument `attr` at offset
`k`, with `i` arguments left; the result is (the state, `args`, `i`) at the end
of the `switch`. -/
def t_set_attr_step (env : Env) (st : State) (attr : Int) (k : Nat) (i : Int) :
    Except Fault (State × Nat × Int) :=
  let a := st.term.c.attr
  if attr = 0 then
    .ok (set_c_bg (set_c_fg (set_c_attr st
      (a &&& cnot (ATTR_BOLD ||| ATTR_FAINT ||| ATTR_ITALIC ||| ATTR_UNDERLINE ||| ATTR_BLINK |||
        ATTR_REVERSE ||| ATTR_INVISIBLE ||| ATTR_STRUCK))) DEFAULT_FG) DEFAULT_BG, k, i)
  else if attr = 1 then .ok (set_c_attr st (a ||| ATTR_BOLD), k, i)
  else if attr = 2 then .ok (set_c_attr st (a ||| ATTR_FAINT), k, i)
  else if attr = 3 then .ok (set_c_attr st (a ||| ATTR_ITALIC), k, i)
  else if attr = 4 then .ok (set_c_attr st (a ||| ATTR_UNDERLINE), k, i)
  else if attr = 5 ∨ attr = 6 then .ok (set_c_attr st (a ||| ATTR_BLINK), k, i)
  else if attr = 7 then .ok (set_c_attr st (a ||| ATTR_REVERSE), k, i)
  else if attr = 8 then .ok (set_c_attr st (a ||| ATTR_INVISIBLE), k, i)
  else if attr = 9 then .ok (set_c_attr st (a ||| ATTR_STRUCK), k, i)
  else if attr = 22 then .ok (set_c_attr st (a &&& cnot (ATTR_BOLD ||| ATTR_FAINT)), k, i)
  else if attr = 23 then .ok (set_c_attr st (a &&& cnot ATTR_ITALIC), k, i)
  else if attr = 24 then .ok (set_c_attr st (a &&& cnot ATTR_UNDERLINE), k, i)
  else if attr = 25 then .ok (set_c_attr st (a &&& cnot ATTR_BLINK), k, i)
  else if attr = 27 then .ok (set_c_attr st (a &&& cnot ATTR_REVERSE), k, i)
  else if attr = 28 then .ok (set_c_attr st (a &&& cnot ATTR_INVISIBLE), k, i)
  else if attr = 29 then .ok (set_c_attr st (a &&& cnot ATTR_STRUCK), k, i)
  else if attr = 38 then
    match t_def_color env st k i with
    | .error e => .error e
    | .ok r => .ok (if r.2.1 ≠ -1 then set_c_fg r.1 (u32 r.2.1) else r.1, r.2.2.1, r.2.2.2)
  else if attr = 39 then .ok (set_c_fg st DEFAULT_FG, k, i)
  else if attr = 48 then
    match t_def_color env st k i with
    | .error e => .error e
    | .ok r => .ok (if r.2.1 ≠ -1 then set_c_bg r.1 (u32 r.2.1) else r.1, r.2.2.1, r.2.2.2)
  else if attr = 49 then .ok (set_c_bg st DEFAULT_BG, k, i)
  else if 30 ≤ attr ∧ attr ≤ 37 then .ok (set_c_fg st (u32 (attr - 30)), k, i)
  else if 40 ≤ attr ∧ attr ≤ 47 then .ok (set_c_bg st (u32 (attr - 40)), k, i)
  else if 90 ≤ attr ∧ attr ≤ 97 then .ok (set_c_fg st (u32 (attr - 90 + 8)), k, i)
  else if 100 ≤ attr ∧ attr ≤ 107 then .ok (set_c_bg st (u32 (attr - 100 + 8)), k, i)
  else .ok (st, k, i)

/-- The loop of `t_set_attr`: `i` arguments are left, `k` is the offset of
`args` in `csiescseq.args`. -/
def t_set_attr_loop (env : Env) : Nat → Int → Nat → State → Except Fault State
  | 0, i, _, st => if i > 0 then .error .fuel else .ok st
  | f + 1, i, k, st =>
    if i > 0 then
      match csi_arg st k with
      | .error e => .error e
      | .ok attr =>
        match t_set_attr_step env st attr k i with
        | .error e => .error e
        | .ok r => t_set_attr_loop env f (r.2.2 - 1) (r.2.1 + 1) r.1
    else .ok st

/-- Function `t_set_attr (void)`. -/
def t_set_attr (env : Env) (st : State) : Except Fault State :=
  t_set_attr_loop env st.csiescseq.narg (i32 st.csiescseq.narg) 0 st

/-- The `switch` of `t_set_mode` for one private-mode argument. -/
def t_set_mode_priv (env : Env) (st : State) (set : Bool) (arg : Int) : Except Fault State :=
  let swap_part (st : State) : Except Fault State := do
    let alt := term_flag st.term MODE_ALTSCREEN ≠ 0
    let t1 ← (if alt then tregion_clear st.term 0 0 (usub st.term.size.col 1) (usub st.term.size.row 1)
              else pure st.term)
    let t2 ← (if set != alt then t_swap_screen t1 else pure t1)
    pure { st with term := t2 }
  if arg = 1 then x_set_mode env st set MODE_APPCURSOR
  else if arg = 5 then x_set_mode env st set MODE_REVERSE
  else if arg = 6 then
    let f := if set then st.term.flags ||| CURSOR_ORIGIN else st.term.flags &&& cnot CURSOR_ORIGIN
    .ok { st with term := t_movea_to { st.term with flags := f } 0 0 }
  else if arg = 7 then
    let f := if set then st.term.flags ||| MODE_WRAP else st.term.flags &&& cnot MODE_WRAP
    .ok { st with term := { st.term with flags := f } }
  else if arg = 25 then x_set_mode env st (!set) MODE_HIDE
  else if arg = 9 then do
    let s1 ← x_set_mode env (x_set_pointer_motion st set) false MODE_MOUSE
    x_set_mode env s1 set MODE_MOUSEX10
  else if arg = 1000 then do
    let s1 ← x_set_mode env (x_set_pointer_motion st set) false MODE_MOUSE
    x_set_mode env s1 set MODE_MOUSEBTN
  else if arg = 1002 then do
    let s1 ← x_set_mode env (x_set_pointer_motion st set) false MODE_MOUSE
    x_set_mode env s1 set MODE_MOUSEMOTION
  else if arg = 1003 then do
    let s1 ← x_set_mode env (x_set_pointer_motion st set) false MODE_MOUSE
    x_set_mode env s1 set MODE_MOUSEMANY
  else if arg = 1004 then x_set_mode env st set MODE_FOCUS
  else if arg = 1006 then x_set_mode env st set MODE_MOUSESGR
  else if arg = 1034 then x_set_mode env st set MODE_8BIT
  else if arg = 1049 then
    if !env.allow_alt_screen then .ok st
    else do
      let s1 ← swap_part { st with term := tcursor_stack st.term set }
      pure { s1 with term := tcursor_stack s1.term set }
  else if arg = 47 ∨ arg = 1047 then
    if !env.allow_alt_screen then .ok st else swap_part st
  else if arg = 1048 then .ok { st with term := tcursor_stack st.term set }
  else if arg = 2004 then x_set_mode env st set MODE_BRCKTPASTE
  else .ok st

/-- The `switch` of `t_set_mode` for one argument without the private marker. -/
def t_set_mode_ansi (env : Env) (st : State) (set : Bool) (arg : Int) : Except Fault State :=
  let modbit (set : Bool) (bit : Nat) : State :=
    { st with term := { st.term with
        flags := if set then st.term.flags ||| bit else st.term.flags &&& cnot bit } }
  if arg = 2 then x_set_mode env st set MODE_KBDLOCK
  else if arg = 4 then .ok (modbit set MODE_INSERT)
  else if arg = 12 then .ok (modbit (!set) MODE_ECHO)
  else if arg = 20 then .ok (modbit set MODE_CRLF)
  else .ok st

/-- The loop of `t_set_mode`: `i` arguments are left, `k` is the offset of `v`. -/
def t_set_mode_loop (env : Env) (set : Bool) : Nat → Nat → State → Except Fault State
  | 0, _, st => .ok st
  | i + 1, k, st =>
    match csi_arg st k with
    | .error e => .error e
    | .ok arg =>
      let r := if term_flag st.term CSI_PRIV ≠ 0 then t_set_mode_priv env st set arg
               else t_set_mode_ansi env st set arg
      match r with
      | .error e => .error e
      | .ok s2 => t_set_mode_loop env set i (k + 1) s2

/-- Function `t_set_mode (int set)`. -/
def t_set_mode (env : Env) (st : State) (set : Bool) : Except Fault State :=
  t_set_mode_loop env set st.csiescseq.narg 0 st

/-- Function `csi_push_icon_title (void)`. -/
def csi_push_icon_title (st : State) : State :=
  match st.tw.icon_title with
  | none => st
  | some val => { st with term := { st.term with icontitles := val :: st.term.icontitles } }

/-- Function `csi_push_title (void)`. -/
def csi_push_title (st : State) : State :=
  match st.tw.title with
  | none => st
  | some val => { st with term := { st.term with titles := val :: st.term.titles } }

/-- Function `csi_pop_icon_title (void)`. -/
def csi_pop_icon_title (st : State) : State :=
  match st.term.icontitles with
  | [] => st
  | val :: rest => x_set_icon_title { st with term := { st.term with icontitles := rest } } val

/-- Function `csi_pop_title (void)`. -/
def csi_pop_title (st : State) : State :=
  match st.term.titles with
  | [] => st
  | val :: rest => x_set_title { st with term := { st.term with titles := rest } } val

/-- Function `csi_handle0 (void)`; `none` is the return value `False`. -/
def csi_handle0 (env : Env) (st : State) : Except Fault (Option State) :=
  let m := st.csiescseq.mode0
  if m = 0x68 then (t_set_mode env st true).map some
  else if m = 0x6c then (t_set_mode env st false).map some
  else if m = 0x6d then (t_set_attr env st).map some
  else if m = 0x73 then .ok (some { st with term := tcursor_save st.term })
  else if m = 0x75 then .ok (some { st with term := tcursor_load st.term })
  else .ok none

/-- The loop `while ( arg0-- > 0 ) t_putc (term.lastu)` of the REP command. -/
def csi_rep (putc : State → Nat → Except Fault State) : Nat → State → Except Fault State
  | 0, st => .ok st
  | n + 1, st =>
    match putc st st.term.lastu with
    | .error e => .error e
    | .ok s2 => csi_rep putc n s2

/-- Function `csi_handle1_optional (int arg0)`; `putc` is `t_putc`, `none` is
the return value `False`. -/
def csi_handle1_optional (env : Env) (putc : State → Nat → Except Fault State) (st : State)
    (arg0 : Int) : Except Fault (Option State) :=
  let arg0 := DEFAULT arg0 1
  let m := st.csiescseq.mode0
  let t := st.term
  let ok (r : Except Fault Term) : Except Fault (Option State) :=
    r.map fun t2 => some { st with term := t2 }
  if m = 0x40 then ok (t_insert_blank t (u32 arg0))
  else if m = 0x41 then ok (.ok (t_move_to t t.c.p.col (u32 (t.c.p.row - arg0))))
  else if m = 0x42 ∨ m = 0x65 then ok (.ok (t_move_to t t.c.p.col (u32 (t.c.p.row + arg0))))
  else if m = 0x62 then
    if t.lastu ≠ 0 then (csi_rep putc arg0.toNat st).map some else .ok (some st)
  else if m = 0x43 ∨ m = 0x61 then ok (.ok (t_move_to t (u32 (t.c.p.col + arg0)) t.c.p.row))
  else if m = 0x44 then ok (.ok (t_move_to t (u32 (t.c.p.col - arg0)) t.c.p.row))
  else if m = 0x45 then ok (.ok (t_move_to t 0 (u32 (t.c.p.row + arg0))))
  else if m = 0x46 then ok (.ok (t_move_to t 0 (u32 (t.c.p.row - arg0))))
  else if m = 0x47 ∨ m = 0x60 then ok (.ok (t_move_to t (u32 (arg0 - 1)) t.c.p.row))
  else if m = 0x49 then ok (t_put_next_tab t (u32 arg0))
  else if m = 0x53 then ok (t_scroll_up env t t.top (u32 arg0))
  else if m = 0x54 then ok (t_scroll_down env t t.top (u32 arg0))
  else if m = 0x4c then ok (t_insert_blank_line env t (u32 arg0))
  else if m = 0x4d then ok (t_delete_line env t (u32 arg0))
  else if m = 0x58 then
    ok (tregion_clear t t.c.p.col t.c.p.row (u32 (t.c.p.col + arg0 - 1)) t.c.p.row)
  else if m = 0x50 then ok (t_delete_char t (u32 arg0))
  else if m = 0x5a then ok (t_put_prev_tab t (u32 arg0))
  else if m = 0x64 then ok (.ok (t_movea_to t t.c.p.col (u32 (arg0 - 1))))
  else .ok none

/-- Function `csi_handle2_optional (int arg0, int arg1)`; `none` is the return
value `False`. -/
def csi_handle2_optional (st : State) (arg0 arg1 : Int) : Option State :=
  let m := st.csiescseq.mode0
  if m = 0x48 ∨ m = 0x66 then
    let a0 := DEFAULT arg0 1
    let a1 := DEFAULT arg1 1
    some { st with term := t_movea_to st.term (u32 (a1 - 1)) (u32 (a0 - 1)) }
  else if m = 0x74 then
    if arg0 = 22 then
      if arg1 = 0 then some (csi_push_title (csi_push_icon_title st))
      else if arg1 = 1 then some (csi_push_icon_title st)
      else if arg1 = 2 then some (csi_push_title st)
      else none
    else if arg0 = 23 then
      if arg1 = 0 then some (csi_pop_title (csi_pop_icon_title st))
      else if arg1 = 1 then some (csi_pop_icon_title st)
      else if arg1 = 2 then some (csi_pop_title st)
      else none
    else none
  else if m = 0x72 then
    if term_flag st.term CSI_PRIV ≠ 0 then none
    else
      let a0 := DEFAULT arg0 1
      let a1 := DEFAULT arg1 (i32 st.term.size.row)
      some { st with term := t_movea_to (t_set_scroll st.term (u32 (a0 - 1)) (u32 (a1 - 1))) 0 0 }
  else none

/-! ### Reports, selection text and string sequences -/

/-- The characters `printf` writes for the conversion `%d` (or `%i`). -/
def fmt_int (x : Int) : List Nat :=
  if x < 0 then 0x2d :: (Nat.toDigits 10 x.natAbs).map Char.toNat
  else (Nat.toDigits 10 x.toNat).map Char.toNat

/-- The characters `printf` writes for the conversion `%02x` of a byte. -/
def fmt_hex2 (b : Nat) : List Nat :=
  let d (v : Nat) : Nat := if v < 10 then 0x30 + v else 0x61 + (v - 10)
  [d (b / 16 % 16), d (b % 16)]

/-- The loop `while ( last >= tg && last->rune == ' ' ) last--` of `sel_get`:
the argument is the index of `last` plus one, `tg` the index of `tg`; the
result is the index of `last` at the end (it may be one before `tg`). -/
def sel_get_trim (ln : Line) (tg : Nat) : Nat → Except Fault Int
  | 0 => .ok (-1)
  | n + 1 =>
    if n ≥ tg then
      match get_cell ln n with
      | .error e => .error e
      | .ok g => if g.rune = 32 then sel_get_trim ln tg n else .ok n
    else .ok n

/-- The loop `for ( ; tg <= last; tg++ )` of `sel_get` that appends the
encoded cells: `count` cells from column `col` on. -/
def sel_get_emit (ln : Line) : Nat → Nat → List Nat → Except Fault (List Nat)
  | 0, _, out => .ok out
  | count + 1, col, out =>
    match get_cell ln col with
    | .error e => .error e
    | .ok g =>
      if g.attr &&& ATTR_WDUMMY ≠ 0 then sel_get_emit ln count (col + 1) out
      else
        match utf8_encode g.rune with
        | .error e => .error e
        | .ok bytes => sel_get_emit ln count (col + 1) (out ++ bytes)

/-- The body of the row loop of `sel_get` for the row `row`; `out` holds the
bytes written so far. -/
def sel_get_row (t : Term) (row : Nat) (out : List Nat) : Except Fault (List Nat) := do
  let ln ← get_row t row
  let linelen0 ← tline_len t ln
  if linelen0 = 0 then pure (out ++ [10])
  else
    let linelen := linelen0 - 1
    let rect := term_flag t SEL_RECT ≠ 0
    let tg := if rect then t.sel.nb.col else if t.sel.nb.row = row then t.sel.nb.col else 0
    let prevcol := if rect then t.sel.ne.col
                   else if t.sel.ne.row = row then t.sel.ne.col else usub t.size.col 1
    let prevcol := if prevcol > linelen then linelen else prevcol
    let last ← sel_get_trim ln tg (prevcol + 1)
    let out1 ← sel_get_emit ln (last + 1 - tg).toNat tg out
    if row < t.sel.ne.row ∨ prevcol > linelen then
      if last < 0 then throw Fault.cell
      else
        let g ← get_cell ln last.toNat
        if g.attr &&& ATTR_WRAP = 0 ∨ rect then pure (out1 ++ [10]) else pure out1
    else pure out1

/-- The row loop of `sel_get`: `n` rows remain, `row` is the next one. -/
def sel_get_loop (t : Term) : Nat → Nat → List Nat → Except Fault (List Nat)
  | 0, _, out => .ok out
  | n + 1, row, out =>
    match sel_get_row t row out with
    | .error e => .error e
    | .ok out2 => sel_get_loop t n (row + 1) out2

/-- Function `sel_get (void)`: `none` is the null pointer, otherwise the bytes
written to the buffer before the final zero byte. -/
def sel_get (t : Term) : Except Fault (Option (List Nat)) :=
  if t.sel.ob.col = UINT_MAX then .ok none
  else (sel_get_loop t (t.sel.ne.row + 1 - t.sel.nb.row) t.sel.nb.row []).map some

/-- Function `tsel_dump (void)`: the printed string ends at the first zero byte. -/
def tsel_dump (st : State) : Except Fault State :=
  match sel_get st.term with
  | .error e => .error e
  | .ok none => .ok st
  | .ok (some bytes) => .ok (t_printer st (bytes.takeWhile fun b => b ≠ 0))

/-- Function `csi_handle1 (int arg0)`; `wr` is `t_write` with `show_ctrl` set
(used by `tty_write`), `none` is the return value `False`. -/
def csi_handle1 (env : Env) (wr : State → List Nat → Except Fault State) (st : State)
    (arg0 : Int) : Except Fault (Option State) :=
  let m := st.csiescseq.mode0
  let t := st.term
  let ok (r : Except Fault Term) : Except Fault (Option State) :=
    r.map fun t2 => some { st with term := t2 }
  if m = 0x63 then
    if arg0 = 0 then (tty_write wr st env.vtiden false).map some else .ok none
  else if m = 0x67 then
    if arg0 = 0 then
      if t.c.p.col < t.tabs.length then ok (.ok { t with tabs := t.tabs.set t.c.p.col false })
      else .error .tabs
    else if arg0 = 3 then
      if t.tabs.length < t.size.col then .error .tabs
      else ok (.ok { t with tabs := List.replicate t.size.col false ++ t.tabs.drop t.size.col })
    else .ok none
  else if m = 0x69 then
    if arg0 = 0 then (t_dump st).map some
    else if arg0 = 1 then
      match get_row t t.c.p.row with
      | .error e => .error e
      | .ok ln => (tline_dump st ln).map some
    else if arg0 = 2 then (tsel_dump st).map some
    else if arg0 = 4 then ok (.ok { t with flags := t.flags &&& cnot MODE_PRINT })
    else if arg0 = 5 then ok (.ok { t with flags := t.flags ||| MODE_PRINT })
    else .ok none
  else if m = 0x4a then
    if arg0 = 0 then
      match tregion_clear t t.c.p.col t.c.p.row (usub t.size.col 1) t.c.p.row with
      | .error e => .error e
      | .ok t1 =>
        if t1.c.p.row < usub t1.size.row 1 then
          ok (tregion_clear t1 0 (uadd t1.c.p.row 1) (usub t1.size.col 1) (usub t1.size.row 1))
        else ok (.ok t1)
    else if arg0 = 1 then
      let r := if t.c.p.row > 1 then tregion_clear t 0 0 (usub t.size.col 1) (usub t.c.p.row 1)
               else .ok t
      match r with
      | .error e => .error e
      | .ok t1 => ok (tregion_clear t1 0 t1.c.p.row t1.c.p.col t1.c.p.row)
    else if arg0 = 2 then ok (tregion_clear t 0 0 (usub t.size.col 1) (usub t.size.row 1))
    else .ok none
  else if m = 0x4b then
    if arg0 = 0 then ok (tregion_clear t t.c.p.col t.c.p.row (usub t.size.col 1) t.c.p.row)
    else if arg0 = 1 then ok (tregion_clear t 0 t.c.p.row t.c.p.col t.c.p.row)
    else if arg0 = 2 then ok (tregion_clear t 0 t.c.p.row (usub t.size.col 1) t.c.p.row)
    else .ok none
  else if m = 0x6e then
    if arg0 = 6 then
      (tty_write wr st
        ([0x1b, 0x5b] ++ fmt_int (i32 (uadd t.c.p.row 1)) ++ [0x3b] ++
          fmt_int (i32 (uadd t.c.p.col 1)) ++ [0x52]) false).map some
    else .ok none
  else if m = 0x20 then
    if st.csiescseq.mode1 = 0x71 then
      let r := x_set_cursor st arg0
      if r.2 = 0 then .ok (some r.1) else .ok none
    else .ok none
  else .ok none

/-- Function `csi_handle (void)`; `putc` is `t_putc`, `wr` is `t_write` with
`show_ctrl` set.  The messages written to the log are not part of the state. -/
def csi_handle (env : Env) (putc : State → Nat → Except Fault State)
    (wr : State → List Nat → Except Fault State) (st : State) : Except Fault State := do
  let s1 ← csi_parse { st with term := { st.term with flags := st.term.flags &&& cnot ESC_MASK } }
  match ← csi_handle0 env s1 with
  | some s2 => pure s2
  | none =>
    let arg0 ← csi_arg s1 0
    match ← csi_handle1_optional env putc s1 arg0 with
    | some s2 => pure s2
    | none =>
      let arg1 ← csi_arg s1 1
      match csi_handle2_optional s1 arg0 arg1 with
      | some s2 => pure s2
      | none =>
        if s1.csiescseq.narg = 0 then pure s1
        else
          match ← csi_handle1 env wr s1 arg0 with
          | some s2 => pure s2
          | none => pure s1

/-- The string that starts at offset `off` of `items` and ends before the next
zero byte. -/
def cstr (items : List Nat) (off : Nat) : List Nat :=
  (items.drop off).takeWhile fun b => b ≠ 0

/-- The search for the separator in `str_parse`, from offset `s` on; the
result is the offset of the first `;` or zero byte and whether it is a `;`. -/
def str_parse_scan (items : List Nat) : Nat → Nat → Except Fault (Nat × Bool)
  | 0, _ => .error .fuel
  | f + 1, s =>
    match items[s]? with
    | none => .error .strbuf
    | some ch =>
      if ch = 0x3b then .ok (s, true)
      else if ch = 0 then .ok (s, false)
      else str_parse_scan items f (s + 1)

/-- The argument loop of `str_parse`; the result is (`items`, `args`, `narg`). -/
def str_parse_loop : Nat → List Nat → Nat → List Nat → Nat →
    Except Fault (List Nat × List Nat × Nat)
  | 0, _, _, _, _ => .error .fuel
  | f + 1, items, s, args, narg =>
    if narg < args.length then
      let args := args.set narg s
      let narg := narg + 1
      match str_parse_scan items (items.length + 1) s with
      | .error e => .error e
      | .ok (j, sep) =>
        if !sep then .ok (items, args, narg)
        else
          let items := items.set j 0
          if narg = STR_ARG_SIZ then .ok (items, args, narg)
          else str_parse_loop f items (j + 1) args narg
    else .error .strarg

/-- Function `str_parse (void)`. -/
def str_parse (st : State) : Except Fault State :=
  let q := st.strescseq
  if q.t.nelements = 0 then .ok { st with strescseq := { q with narg := 0 } }
  else if q.t.nelements < q.t.items.length then
    match str_parse_loop (STR_ARG_SIZ + 1) (q.t.items.set q.t.nelements 0) 0 q.args 0 with
    | .error e => .error e
    | .ok (items, args, narg) =>
      .ok { st with strescseq := { q with t := { q.t with items := items },
                                            args := args, narg := narg } }
  else .error .strbuf

/-- Function `str_reset (void)`: the buffer is reallocated to `STR_BUF_SIZ`
bytes (bytes beyond the old size are fresh memory, read as zero here; they are
never read before they are written). -/
def str_reset (st : State) : State :=
  let q := st.strescseq
  { st with strescseq := { q with t := { q.t with
      items := q.t.items.take STR_BUF_SIZ ++ List.replicate (STR_BUF_SIZ - q.t.items.length) 0,
      alloc_size := STR_BUF_SIZ, nelements := 0 } } }

/-- Read of the string `strescseq.args [k]`. -/
def str_arg (st : State) (k : Nat) : Except Fault (List Nat) :=
  match st.strescseq.args[k]? with
  | some off => .ok (cstr st.strescseq.t.items off)
  | none => .error .strarg

/-- Function `osc_color_response (int index, int id)`; the reply always fits
the 32 bytes of `buf`. -/
def osc_color_response (wr : State → List Nat → Except Fault State) (st : State)
    (index : Int) (id : Int) : Except Fault State :=
  match x_color_get st (u32 index) with
  | none => .ok st
  | some c =>
    let szidx := if id ≠ 4 then [] else (0x3b :: fmt_int index).take 5
    tty_write wr st
      ([0x1b, 0x5d] ++ fmt_int id ++ szidx ++ [0x3b, 0x72, 0x67, 0x62, 0x3a] ++
        fmt_hex2 c.1 ++ fmt_hex2 c.1 ++ [0x2f] ++ fmt_hex2 c.2.1 ++ fmt_hex2 c.2.1 ++ [0x2f] ++
        fmt_hex2 c.2.2 ++ fmt_hex2 c.2.2 ++ [0x07]) true

/-- The three branches of a colour command of `osc_handle`: a query, a colour
name that cannot be set, a colour that is set and drawn. -/
def osc_color (env : Env) (wr : State → List Nat → Except Fault State) (st : State)
    (index : Int) (id : Int) (name : List Nat) : Except Fault State :=
  if name = [0x3f] then osc_color_response wr st index id
  else
    let r := x_color_set_name env st (u32 index) (some name)
    if !r.2 then .ok r.1 else t_draw r.1 true

/-- Function `osc_handle (void)`; the result carries the return value. -/
def osc_handle (env : Env) (wr : State → List Nat → Except Fault State) (st : State) :
    Except Fault (State × Bool) := do
  if st.strescseq.narg < 2 then pure (st, false)
  else
    let a0 ← str_arg st 0
    let num0 := atoi a0
    let arg1 ← str_arg st 1
    if num0 = 0 then pure (x_set_icon_title (x_set_title st arg1) arg1, true)
    else if num0 = 1 then pure (x_set_icon_title st arg1, true)
    else if num0 = 2 then pure (x_set_title st arg1, true)
    else if num0 = 10 then do
      let s2 ← osc_color env wr st DEFAULT_FG 10 arg1
      pure (s2, true)
    else if num0 = 11 then do
      let s2 ← osc_color env wr st DEFAULT_BG 11 arg1
      pure (s2, true)
    else if num0 = 12 then do
      let s2 ← osc_color env wr st DEFAULT_CS 12 arg1
      pure (s2, true)
    else if num0 = 104 then
      let r := x_color_set_name env st (u32 (atoi arg1)) none
      if !r.2 then pure (r.1, true)
      else do
        let s2 ← t_draw r.1 true
        pure (s2, true)
    else if st.strescseq.narg = 2 then pure (st, false)
    else
      let arg2 ← str_arg st 2
      if num0 = 4 then do
        let s2 ← osc_color env wr st (atoi arg1) 4 arg2
        pure (s2, true)
      else pure (st, false)

/-- Function `str_handle (void)` (`FEATURE_SYNC_UPDATE` is not defined,
`FEATURE_TITLE` is). -/
def str_handle (env : Env) (wr : State → List Nat → Except Fault State) (st : State) :
    Except Fault State := do
  let s1 ← str_parse
    { st with term := { st.term with flags := st.term.flags &&& cnot (ESC_STR_END ||| ESC_STR) } }
  if s1.strescseq.type = 0x5d then do
    let r ← osc_handle env wr s1
    pure r.1
  else if s1.strescseq.narg = 0 then pure s1
  else
    let arg0 ← str_arg s1 0
    if s1.strescseq.type = 0x6b then pure (x_set_title s1 arg0) else pure s1

/-- Function `t_str_sequence (uchar c)`. -/
def t_str_sequence (st : State) (c : Nat) : State :=
  let ty := if c = 0x90 then 0x50 else if c = 0x9f then 0x5f else if c = 0x9e then 0x5e
            else if c = 0x9d then 0x5d else c
  let s1 := str_reset st
  { s1 with strescseq := { s1.strescseq with type := ty },
            term := { s1.term with flags := s1.term.flags ||| ESC_STR } }

/-- Function `t_control_code (uchar ascii)`; `wr` is `t_write` with
`show_ctrl` set. -/
def t_control_code (env : Env) (wr : State → List Nat → Except Fault State) (st : State)
    (ascii : Nat) : Except Fault State :=
  let t := st.term
  let finish (r : Except Fault State) : Except Fault State :=
    r.map fun s2 =>
      { s2 with term := { s2.term with flags := s2.term.flags &&& cnot (ESC_STR_END ||| ESC_STR) } }
  if ascii = 0x09 then (t_put_next_tab t 1).map fun t2 => { st with term := t2 }
  else if ascii = 0x08 then .ok { st with term := t_move_to t (usub t.c.p.col 1) t.c.p.row }
  else if ascii = 0x0d then .ok { st with term := t_move_to t 0 t.c.p.row }
  else if ascii = 0x0c ∨ ascii = 0x0b ∨ ascii = 0x0a then
    (tline_new env t (term_flag t MODE_CRLF ≠ 0)).map fun t2 => { st with term := t2 }
  else if ascii = 0x07 then
    if term_flag t ESC_STR_END ≠ 0 then finish (str_handle env wr st)
    else finish (.ok (x_bell st))
  else if ascii = 0x1b then
    let s1 := csi_reset st
    .ok { s1 with term := { s1.term with
      flags := (s1.term.flags &&& cnot (ESC_CSI ||| ESC_ALTCHARSET ||| ESC_TEST)) ||| ESC_START } }
  else if ascii = 0x0e ∨ ascii = 0x0f then
    .ok { st with term := { t with charset := 1 - ((ascii : Int) - 0x0e) } }
  else if ascii = 0x1a then
    finish ((t_set_char t 0x3f t.c.p.col t.c.p.row).map fun t2 => csi_reset { st with term := t2 })
  else if ascii = 0x18 then finish (.ok (csi_reset st))
  else if ascii = 0x05 ∨ ascii = 0x00 ∨ ascii = 0x11 ∨ ascii = 0x13 ∨ ascii = 0x7f then .ok st
  else if ascii = 0x85 then
    finish ((tline_new env t true).map fun t2 => { st with term := t2 })
  else if ascii = 0x88 then
    if t.c.p.col < t.tabs.length then
      finish (.ok { st with term := { t with tabs := t.tabs.set t.c.p.col true } })
    else .error .tabs
  else if ascii = 0x9a then finish (tty_write wr st env.vtiden false)
  else if ascii = 0x90 ∨ ascii = 0x9d ∨ ascii = 0x9e ∨ ascii = 0x9f then
    .ok (t_str_sequence st ascii)
  else finish (.ok st)

/-- Function `esc_handle (uchar ascii)`; the result carries the return value. -/
def esc_handle (env : Env) (wr : State → List Nat → Except Fault State) (st : State)
    (ascii : Nat) : Except Fault (State × Bool) :=
  let t := st.term
  let setflag (f : Nat) : State := { st with term := { t with flags := t.flags ||| f } }
  let done (r : Except Fault Term) : Except Fault (State × Bool) :=
    r.map fun t2 => ({ st with term := t2 }, true)
  if ascii = 0x5b then .ok (setflag ESC_CSI, false)
  else if ascii = 0x23 then .ok (setflag ESC_TEST, false)
  else if ascii = 0x25 then .ok (setflag ESC_UTF8, false)
  else if ascii = 0x50 ∨ ascii = 0x5f ∨ ascii = 0x5e ∨ ascii = 0x5d ∨ ascii = 0x6b then
    .ok (t_str_sequence st ascii, false)
  else if ascii = 0x6e ∨ ascii = 0x6f then
    done (.ok { t with charset := 2 + ((ascii : Int) - 0x6e) })
  else if ascii = 0x28 ∨ ascii = 0x29 ∨ ascii = 0x2a ∨ ascii = 0x2b then
    .ok ({ st with term := { t with icharset := (ascii : Int) - 0x28,
                                    flags := t.flags ||| ESC_ALTCHARSET } }, false)
  else if ascii = 0x44 then
    if t.c.p.row = t.bottom then done (t_scroll_up env t t.top 1)
    else done (.ok (t_move_to t t.c.p.col (uadd t.c.p.row 1)))
  else if ascii = 0x45 then done (tline_new env t true)
  else if ascii = 0x48 then
    if t.c.p.col < t.tabs.length then done (.ok { t with tabs := t.tabs.set t.c.p.col true })
    else .error .tabs
  else if ascii = 0x4d then
    if t.c.p.row = t.top then done (t_scroll_down env t t.top 1)
    else done (.ok (t_move_to t t.c.p.col (usub t.c.p.row 1)))
  else if ascii = 0x5a then (tty_write wr st env.vtiden false).map fun s2 => (s2, true)
  else if ascii = 0x63 then
    match t_reset t with
    | .error e => .error e
    | .ok t2 =>
      let s1 := x_set_title { st with term := { t2 with titles := [] } } env.a_title
      let s2 := x_set_icon_title { s1 with term := { s1.term with icontitles := [] } } env.a_title
      .ok (x_colors_load_index env s2, true)
  else if ascii = 0x3d then (x_set_mode env st true MODE_APPKEYPAD).map fun s2 => (s2, true)
  else if ascii = 0x3e then (x_set_mode env st false MODE_APPKEYPAD).map fun s2 => (s2, true)
  else if ascii = 0x37 then done (.ok (tcursor_save t))
  else if ascii = 0x38 then done (.ok (tcursor_load t))
  else if ascii = 0x5c then
    if term_flag t ESC_STR_END ≠ 0 then (str_handle env wr st).map fun s2 => (s2, true)
    else .ok (st, true)
  else .ok (st, true)

/-! ### The escape parser: `t_putc` and `t_write` -/

/-- Macro `ISCONTROLC0(c)`. -/
def ISCONTROLC0 (c : Nat) : Bool := BETWEEN c 0 0x1f || c = 0x7f

/-- Macro `ISCONTROLC1(c)`. -/
def ISCONTROLC1 (c : Nat) : Bool := BETWEEN c 0x80 0x9f

/-- Macro `ISCONTROL(c)`. -/
def ISCONTROL (c : Nat) : Bool := ISCONTROLC0 c || ISCONTROLC1 c

/-- Function `thunk_double_size (Thunk *thunk, uint min_size)` of `thunk.c` on
a byte buffer; bytes beyond the old size are fresh memory, read as zero here. -/
def thunk_double_size (th : Thunk) (min_size : Nat) : Thunk :=
  let double_size := (th.alloc_size <<< 1) % U32
  let double_size := if double_size < min_size then min_size else double_size
  let bytes := (th.element_size * double_size) % U32
  { th with items := th.items.take bytes ++ List.replicate (bytes - th.items.length) 0,
            alloc_size := double_size }

/-- The part of `t_putc` that collects a rune of a string sequence: `c` holds
the `len` encoded bytes. -/
def t_putc_str (st : State) (c : List Nat) : Except Fault State :=
  let th := st.strescseq.t
  let n := uadd th.nelements c.length
  let grown : Option Thunk :=
    if n ≥ th.alloc_size then
      if th.alloc_size > (SIZE_MAX - UTF_SIZ) >>> 1 then none
      else some (thunk_double_size th (uadd n 1))
    else some th
  match grown with
  | none => .ok st
  | some th2 =>
    if th2.nelements + c.length ≤ th2.items.length then
      .ok { st with strescseq := { st.strescseq with t := { th2 with
              items := th2.items.take th2.nelements ++ c ++
                       th2.items.drop (th2.nelements + c.length),
              nelements := n } } }
    else .error .strbuf

/-- The part of `t_putc` that writes a printable rune of width `width` at the
cursor. -/
def t_putc_print (env : Env) (st : State) (rune width : Nat) : Except Fault State := do
  let t0 := st.term
  let t1 ← (if t_selected t0 t0.c.p.col t0.c.p.row then sel_clear t0 else pure t0)
  let _ ← get_row t1 t1.c.p.row
  let t2 ←
    (if t1.flags &&& (MODE_WRAP ||| CURSOR_WRAPNEXT) = (MODE_WRAP ||| CURSOR_WRAPNEXT) then do
       let ln ← get_row t1 t1.c.p.row
       let g ← get_cell ln t1.c.p.col
       let t1a ← put_cell t1 t1.c.p.col t1.c.p.row { g with attr := u16 (g.attr ||| ATTR_WRAP) }
       let t1b ← tline_new env t1a true
       let _ ← get_row t1b t1b.c.p.row
       pure t1b
     else pure t1)
  let t3 ←
    (if term_flag t2 MODE_INSERT ≠ 0 ∧ uadd t2.c.p.col width < t2.size.col then do
       let ln ← get_row t2 t2.c.p.row
       let ln2 ← row_memmove ln (t2.c.p.col + width) t2.c.p.col
         (usub (usub t2.size.col t2.c.p.col) width)
       pure { t2 with line := t2.line.set t2.c.p.row ln2 }
     else pure t2)
  let t4 ←
    (if uadd t3.c.p.col width > t3.size.col then do
       let t3a ← tline_new env t3 true
       let _ ← get_row t3a t3a.c.p.row
       pure t3a
     else pure t3)
  let t5 ← t_set_char t4 rune t4.c.p.col t4.c.p.row
  let t6 := { t5 with lastu := rune }
  let t7 ←
    (if width = 2 then do
       let ln ← get_row t6 t6.c.p.row
       let g ← get_cell ln t6.c.p.col
       let t6a ← put_cell t6 t6.c.p.col t6.c.p.row { g with attr := u16 (g.attr ||| ATTR_WIDE) }
       if uadd t6a.c.p.col 1 < t6a.size.col then do
         let ln2 ← get_row t6a t6a.c.p.row
         let g2 ← get_cell ln2 (t6a.c.p.col + 1)
         put_cell t6a (t6a.c.p.col + 1) t6a.c.p.row { g2 with rune := 0, attr := ATTR_WDUMMY }
       else pure t6a
     else pure t6)
  if uadd t7.c.p.col width < t7.size.col then
    pure { st with term := t_move_to t7 (uadd t7.c.p.col width) t7.c.p.row }
  else pure { st with term := { t7 with flags := t7.flags ||| CURSOR_WRAPNEXT } }

/-- The part of `t_putc` that handles a rune inside an escape sequence
(`ESC_START` is set). -/
def t_putc_esc (env : Env) (putc : State → Nat → Except Fault State)
    (wr : State → List Nat → Except Fault State) (st : State) (rune : Nat) :
    Except Fault State :=
  let reset (s : State) : State :=
    { s with term := { s.term with flags := s.term.flags &&& cnot ESC_MASK } }
  if term_flag st.term ESC_CSI ≠ 0 then
    let c := st.csiescseq
    if c.len < c.buf.length then
      let c2 : CSIEscape := { c with buf := c.buf.set c.len (rune % 256), len := c.len + 1 }
      let s1 := { st with csiescseq := c2 }
      if BETWEEN rune 0x40 0x7E || s1.csiescseq.len = ESC_BUF_SIZ - 1 then
        csi_handle env putc wr s1
      else .ok s1
    else .error .csibuf
  else if term_flag st.term ESC_UTF8 ≠ 0 then
    .ok (reset { st with term := t_def_utf8 st.term (rune % 256) })
  else if term_flag st.term ESC_ALTCHARSET ≠ 0 then
    (t_def_tran st.term (rune % 256)).map fun t2 => reset { st with term := t2 }
  else if term_flag st.term ESC_TEST ≠ 0 then
    (t_dec_test st.term (rune % 256)).map fun t2 => reset { st with term := t2 }
  else
    match esc_handle env wr st (rune % 256) with
    | .error e => .error e
    | .ok r => if !r.2 then .ok r.1 else .ok (reset r.1)

/-- The body of `t_putc (Rune rune)`; `putc` stands for the recursive calls
of `t_putc` (from the REP command), `wr` for the calls of `t_write` with
`show_ctrl` set (the echo of `tty_write`).  The variable `width` is not
initialised for a control rune, which never reads it. -/
def t_putc_body (env : Env) (putc : State → Nat → Except Fault State)
    (wr : State → List Nat → Except Fault State) (st : State) (rune : Nat) :
    Except Fault State := do
  let control := ISCONTROL rune
  let enc : List Nat × Nat ←
    (if rune < 127 ∨ term_flag st.term MODE_UTF8 = 0 then pure ([rune % 256], 1)
     else do
       let bytes ← utf8_encode rune
       let w := u32 (env.wcwidth rune)
       pure (bytes, if control then 0 else if w = UINT_MAX then 1 else w))
  let s1 := if term_flag st.term MODE_PRINT ≠ 0 then t_printer st enc.1 else st
  let str_end := rune = 0x07 ∨ rune = 0x18 ∨ rune = 0x1a ∨ rune = 0x1b ∨ ISCONTROLC1 rune = true
  if term_flag s1.term ESC_STR ≠ 0 ∧ ¬ str_end then t_putc_str s1 enc.1
  else
    let s2 :=
      if term_flag s1.term ESC_STR ≠ 0 then
        { s1 with term := { s1.term with
            flags := (s1.term.flags &&& cnot (ESC_START ||| ESC_STR)) ||| ESC_STR_END } }
      else s1
    if control then do
      let s3 ← t_control_code env wr s2 rune
      if s3.term.flags &&& ESC_MASK = 0 then pure { s3 with term := { s3.term with lastu := 0 } }
      else pure s3
    else if term_flag s2.term ESC_START ≠ 0 then t_putc_esc env putc wr s2 rune
    else t_putc_print env s2 rune enc.2

/-- The value of `rune = *buf` for a byte of a `char` buffer (`char` is a
signed type on the platforms the program is built for). -/
def char_to_rune (b : Nat) : Nat :=
  if b % 256 < 128 then b % 256 else 0xFFFFFF00 + b % 256

/-- The loop of `t_write`: `buf` is the rest of the buffer (`buflen` is its
length), `n` the count of bytes consumed so far; every iteration consumes at
least one byte.  The result carries the return value. -/
def t_write_loop (putc : State → Nat → Except Fault State) (show_ctrl : Bool) :
    Nat → State → List Nat → Nat → Except Fault (State × Nat)
  | 0, st, buf, n => if buf.length ≠ 0 then .error .fuel else .ok (st, n)
  | f + 1, st, buf, n =>
    if buf.length = 0 then .ok (st, n)
    else
      let dec : Except Fault (Nat × Nat) :=
        if term_flag st.term MODE_UTF8 ≠ 0 then utf8_decode buf buf.length
        else
          match buf[0]? with
          | none => .error .buf
          | some b => .ok (1, char_to_rune b)
      match dec with
      | .error e => .error e
      | .ok (charsize, rune) =>
        if charsize = 0 then .ok (st, n)
        else
          let r : Except Fault (State × Nat) :=
            if show_ctrl && ISCONTROL rune then
              if rune &&& 0x80 ≠ 0 then
                match putc st 0x5e with
                | .error e => .error e
                | .ok s1 =>
                  match putc s1 0x5b with
                  | .error e => .error e
                  | .ok s2 => .ok (s2, rune &&& 0x7f)
              else if rune ≠ 0x0a ∧ rune ≠ 0x0d ∧ rune ≠ 0x09 then
                match putc st 0x5e with
                | .error e => .error e
                | .ok s1 => .ok (s1, rune ^^^ 0x40)
              else .ok (st, rune)
            else .ok (st, rune)
          match r with
          | .error e => .error e
          | .ok (s1, rune) =>
            match putc s1 rune with
            | .error e => .error e
            | .ok s2 => t_write_loop putc show_ctrl f s2 (buf.drop charsize) (n + charsize)

/-- Function `t_putc (Rune rune)` with the nesting of its recursive calls
bounded by `d`: a call nested deeper than that ends the run with `Fault.fuel`. -/
def t_putc_at (env : Env) : Nat → State → Nat → Except Fault State
  | 0 => fun _ _ => .error .fuel
  | d + 1 =>
    t_putc_body env (t_putc_at env d)
      (fun s bytes => (t_write_loop (t_putc_at env d) true bytes.length s bytes 0).map Prod.fst)

/-- Function `t_putc (Rune rune)`.  The calls of `t_putc` nest at most three
deep (the echo of a colour reply, a REP command inside it); the bound used
here leaves room. -/
def t_putc (env : Env) (st : State) (rune : Nat) : Except Fault State :=
  t_putc_at env 4 st rune

/-- Function `t_write (const char *buf, uint buflen, int show_ctrl)`
(`FEATURE_SYNC_UPDATE` is not defined); the result carries the return value. -/
def t_write (env : Env) (st : State) (buf : List Nat) (show_ctrl : Bool) :
    Except Fault (State × Nat) :=
  t_write_loop (t_putc env) show_ctrl buf.length st buf 0

/-- The globals of `st.c` once `main` has run `t_init ()` and
`t_new (cols, rows)`: `csiescseq` is zero-initialised static storage, the
buffer of `strescseq` has `STR_BUF_SIZ` bytes. -/
def start_state (env : Env) (cols rows : Nat) (w : Win) : Except Fault State :=
  (t_new env cols rows).map fun t =>
    { term := t,
      csiescseq := { mode0 := 0, mode1 := 0, buf := List.replicate ESC_BUF_SIZ 0, len := 0,
                     args := List.replicate ESC_ARG_SIZ 0, narg := 0 },
      strescseq := { type := 0,
                     t := { items := List.replicate STR_BUF_SIZ 0, alloc_size := STR_BUF_SIZ,
                            element_size := 1, nelements := 0 },
                     args := List.replicate STR_ARG_SIZ 0, narg := 0 },
      tw := w, cmd := [], prn := [] }

/-! ### Vocabulary of the proofs -/

/-- The rows of `term.line` and the array `term.dirty` have the sizes that
`term.size` announces, and the sizes are positive and fit an `int`. -/
def grid_ok (t : Term) : Prop :=
  t.line.length = t.size.row ∧ (∀ ln ∈ t.line, ln.length = t.size.col) ∧
  t.dirty.length = t.size.row ∧ 1 ≤ t.size.col ∧ 1 ≤ t.size.row ∧
  t.size.col < 2147483648 ∧ t.size.row < 2147483648

/-- The selection cannot be hit by a region clear: either the caller found no
selection (`sel` is the value of `tregion_is_sel`), or both normalised corners
are the cell (0, 0), as they are after `t_new`. -/
def sel_quiet (t : Term) (sel : Bool) : Prop :=
  sel = false ∨ (t.sel.nb = { row := 0, col := 0 } ∧ t.sel.ne = { row := 0, col := 0 })

/-- The entries `r .. r + n - 1` of `xs` replaced by their image under `f`:
the effect of a loop that visits these entries. -/
def map_range {α : Type} (f : α → α) (xs : List α) (r n : Nat) : List α :=
  xs.take r ++ ((xs.drop r).take n).map f ++ xs.drop (r + n)

/-- The cell of a cleared screen in the default colours. -/
def blank_cell : TermGlyph := { rune := 32, attr := 0, fg := DEFAULT_FG, bg := DEFAULT_BG }

/-- A screen of `rows` rows of `cols` cells, all equal to `g`. -/
def uniform_screen (cols rows : Nat) (g : TermGlyph) : List Line :=
  List.replicate rows (List.replicate cols g)

/-- The value of `term` that `t_new (cols, rows)` leaves (see `t_new_eq`). -/
def fresh_term (cols rows : Nat) : Term :=
  { size := { row := rows, col := cols },
    line := uniform_screen cols rows blank_cell,
    alt := uniform_screen cols rows blank_cell,
    dirty := List.replicate rows true,
    tabs := reset_tabs cols,
    c := { attr := 0, fg := DEFAULT_FG, bg := DEFAULT_BG, p := { row := 0, col := 0 } },
    cstack0 := { attr := 0, fg := 256, bg := 0, row := 0, col := 0 },
    cstack1 := { attr := 0, fg := 256, bg := 0, row := 0, col := 0 },
    oc := { row := 0, col := 0 }, top := 0, bottom := rows - 1,
    flags := MODE_WRAP ||| MODE_UTF8,
    trantbl := [CS_USA, CS_USA, CS_USA, CS_USA], charset := 0, icharset := 0, lastu := 0,
    sel := { ob := { row := 0, col := 0 }, oe := { row := 0, col := 0 },
             nb := { row := 0, col := 0 }, ne := { row := 0, col := 0 } },
    titles := [], icontitles := [] }

/-- No region clear can hit the selection `s`: it is empty (`oe.col` is
`UINT_MAX`) or its normalised corners are both the cell (0, 0). -/
def sel_idle (s : Selection) : Prop :=
  s.oe.col = UINT_MAX ∨ (s.nb = { row := 0, col := 0 } ∧ s.ne = { row := 0, col := 0 })

/-- A buffer of `n` zero bytes (static storage before its first use). -/
@[irreducible] def zeros (n : Nat) : List Nat := List.replicate n 0

/-- The globals of `st.c` after `t_init ()` and `t_new (cols, rows)` (see
`start_state_eq`). -/
def ground_state (cols rows : Nat) (w : Win) : State :=
  { term := fresh_term cols rows,
    csiescseq := { mode0 := 0, mode1 := 0, buf := zeros 512, len := 0,
                   args := List.replicate ESC_ARG_SIZ 0, narg := 0 },
    strescseq := { type := 0,
                   t := { items := zeros 512, alloc_size := STR_BUF_SIZ,
                          element_size := 1, nelements := 0 },
                   args := List.replicate STR_ARG_SIZ 0, narg := 0 },
    tw := w, cmd := [], prn := [] }

/-- A window system and child process to run examples with: every character is
one cell wide, no colour can be loaded. -/
def sample_env : Env where
  wcwidth := fun _ => 1
  vtiden := [0x1b, 0x5b, 0x3f, 0x36, 0x63]
  worddelimiters := [32]
  allow_alt_screen := true
  a_title := [0x73, 0x74]
  x_color_load_value := fun _ _ _ => false
  x_color_load_index := fun _ _ => none
  x_colors_reverse := id
  base_colors := []
  max_index_cache := 260
  junk_glyph := fun _ _ _ => { rune := 0x3f, attr := 0xffff, fg := 7, bg := 9 }
  junk_dirty := fun _ => false
  junk_tab := fun _ => true

/-- A window of the example runs: visible, with nothing drawn yet. -/
def sample_win : Win :=
  { flags := 0, cursor := 0, clrcache := [], title := none, icon_title := none, events := [] }

/-! ### States of the examples -/

/-- The terminal of 80 × 24 cells left by `t_new` with the cursor background set to the
colour 3 (as `CSI 43 m` sets it). -/
def bg3_term : Term :=
  { fresh_term 80 24 with
    c := { attr := 0, fg := DEFAULT_FG, bg := 3, p := { row := 0, col := 0 } } }

/-- The terminal of 10 × 2 cells left by `t_new` with the cells of columns 1 and 2 of row 0
selected. -/
def sel_term : Term :=
  { fresh_term 10 2 with
    sel := { ob := { row := 0, col := 1 }, oe := { row := 0, col := 2 },
             nb := { row := 0, col := 1 }, ne := { row := 0, col := 2 } } }

/-- The state after `t_init` and `t_new (cols, rows)` with the cursor `c` in the place of the
one `t_new` leaves. -/
def cursor_state (cols rows : Nat) (c : TermCursor) (w : Win) : State :=
  { ground_state cols rows w with term := { fresh_term cols rows with c := c } }

/-- A cursor in the default colours at row 2, column 4. -/
def sample_cursor : TermCursor :=
  { attr := 0, fg := DEFAULT_FG, bg := DEFAULT_BG, p := { row := 2, col := 4 } }

/-- The state after `t_new (80, 24)` in which `csi_parse` has stored the arguments of
`CSI 1 ; 38 ; 5 ; 300 m`. -/
def sgr_state : State :=
  { ground_state 80 24 sample_win with
    csiescseq := { mode0 := 0x6d, mode1 := 0, buf := zeros 512, len := 0,
                   args := [1, 38, 5, 300, 0, 0, 0, 0, 0, 0, 0, 0, 0, 0, 0, 0], narg := 4 } }

/-- The number written in decimal by the digit characters `ds`. -/
def dec_value (ds : List Nat) : Nat :=
  ds.foldl (fun acc d => acc * 10 + (d - 0x30)) 0

/-- The glyph at column `col` of row `row` of a screen (a blank cell outside the screen). -/
def cell_at (ls : List Line) (col row : Nat) : TermGlyph :=
  (ls.getD row []).getD col blank_cell

/-- The terminal `u` is `t` up to the grid of the active screen, the selection, the
selection bits of the flags (which may have been cleared) and the dirty flags (which may
have been set). -/
def sel_frame (t u : Term) : Prop :=
  u.size = t.size ∧ u.alt = t.alt ∧ u.tabs = t.tabs ∧ u.c = t.c ∧ u.cstack0 = t.cstack0 ∧
  u.cstack1 = t.cstack1 ∧ u.oc = t.oc ∧ u.top = t.top ∧ u.bottom = t.bottom ∧
  u.trantbl = t.trantbl ∧ u.charset = t.charset ∧ u.icharset = t.icharset ∧
  u.lastu = t.lastu ∧ u.titles = t.titles ∧ u.icontitles = t.icontitles ∧
  u.dirty.length = t.dirty.length ∧
  (∀ i, t.dirty.getD i false = true → u.dirty.getD i false = true) ∧
  (u.flags = t.flags ∨ u.flags = t.flags &&& cnot SEL_MASK)

/-- A terminal of one column and two rows that shows `A` on row 0 and `B` on row 1. -/
def ab_term : Term :=
  { fresh_term 1 2 with
    line := [[{ rune := 0x41, attr := 0, fg := DEFAULT_FG, bg := DEFAULT_BG }],
             [{ rune := 0x42, attr := 0, fg := DEFAULT_FG, bg := DEFAULT_BG }]] }

/-- The screen `ls` has `rows` rows of `cols` cells. -/
def screen_ok (ls : List Line) (cols rows : Nat) : Prop :=
  ls.length = rows ∧ ∀ l ∈ ls, l.length = cols

/-- The screen `new` of `col` by `row` cells shows the cells of `old` in the columns below
`mincol` of the rows below `minrow`, and cells with a space and no attribute elsewhere. -/
def cleared_from (old new : List Line) (mincol minrow col row : Nat) : Prop :=
  screen_ok new col row ∧
  ∀ c r, c < col → r < row →
    if c < mincol ∧ r < minrow then cell_at new c r = cell_at old c r
    else (cell_at new c r).rune = 32 ∧ (cell_at new c r).attr = 0

/-- The terminal `ab_term` with the cursor on row 1. -/
def ab_low_term : Term :=
  { ab_term with c := { attr := 0, fg := DEFAULT_FG, bg := DEFAULT_BG, p := { row := 1, col := 0 } } }

/-- The environment `sample_env` in which the character U+4E2D is two cells wide. -/
def wide_env : Env :=
  { sample_env with wcwidth := fun r => if r = 0x4E2D then 2 else 1 }

/-- The row `ln` after `t_set_char` at column `col` has dealt with the other half of a wide
glyph: the cell right of a cell flagged `ATTR_WIDE`, or the cell left of a cell flagged
`ATTR_WDUMMY`, takes a space and loses its flag. -/
def partner_row (t : Term) (ln : Line) (col : Nat) : Line :=
  if (ln.getD col blank_cell).attr &&& ATTR_WIDE ≠ 0 then
    if col + 1 < t.size.col then
      ln.set (col + 1) { ln.getD (col + 1) blank_cell with
        rune := 32, attr := u16 ((ln.getD (col + 1) blank_cell).attr &&& cnot ATTR_WDUMMY) }
    else ln
  else if (ln.getD col blank_cell).attr &&& ATTR_WDUMMY ≠ 0 then
    ln.set (col - 1) { ln.getD (col - 1) blank_cell with
      rune := 32, attr := u16 ((ln.getD (col - 1) blank_cell).attr &&& cnot ATTR_WIDE) }
  else ln

/-- A terminal of two columns and one row that shows the wide character U+4E2D. -/
def wide_term : Term :=
  { fresh_term 2 1 with
    line := [[{ rune := 0x4E2D, attr := ATTR_WIDE, fg := DEFAULT_FG, bg := DEFAULT_BG },
              { rune := 0, attr := ATTR_WDUMMY, fg := DEFAULT_FG, bg := DEFAULT_BG }]] }

/-! ### States of the examples: selection and string buffer -/

/-- A cell of plain text in the default colours. -/
def text_cell (u : Nat) : TermGlyph := { rune := u, attr := 0, fg := DEFAULT_FG, bg := DEFAULT_BG }

/-- The bytes of the text `hello world`. -/
def hello_bytes : List Nat := [0x68, 0x65, 0x6c, 0x6c, 0x6f, 0x20, 0x77, 0x6f, 0x72, 0x6c, 0x64]

/-- The bytes of the text `hello`. -/
def hello5_bytes : List Nat := [0x68, 0x65, 0x6c, 0x6c, 0x6f]

/-- A row of 80 cells that holds `hello world` from column 0 on, without a wrap mark. -/
def hello_line : Line := hello_bytes.map text_cell ++ List.replicate 69 blank_cell

/-- The terminal of 80 × 24 cells left by `t_new` with `hello world` on row 0. -/
def hello_term : Term :=
  { fresh_term 80 24 with line := (fresh_term 80 24).line.set 0 hello_line }

/-- The terminal `hello_term` with the cells of columns 0 to 4 of row 0 (`hello`) selected. -/
def hello_sel_term : Term :=
  { hello_term with
    sel := { ob := { row := 0, col := 0 }, oe := { row := 0, col := 4 },
             nb := { row := 0, col := 0 }, ne := { row := 0, col := 4 } } }

/-- The terminal `hello_sel_term` whose selection was made on the alternate screen, seen from
the primary screen. -/
def hello_alt_term : Term :=
  { hello_sel_term with flags := hello_sel_term.flags ||| SEL_ALTSCREEN }

/-- The terminal `hello_term` after a line-snap click at column `col` of row `row`:
`sel_start` has stored the anchor and the snap flag, `sel_extend` the extent, and
`sel_normalize` is about to run. -/
def snap_click (t : Term) (col row : Nat) : Term :=
  { t with flags := t.flags ||| SNAP_LINE,
           sel := { t.sel with ob := { row := row, col := col }, oe := { row := row, col := col } } }

/-- The selection `sel_normalize` computes for a line-snap click at column 2 of row 1 of
`hello_term`. -/
def hello_snapped : Term :=
  { snap_click hello_term 2 1 with
    sel := { ob := { row := 1, col := 2 }, oe := { row := 1, col := 2 },
             nb := { row := 0, col := 0 }, ne := { row := 1, col := 79 } } }

/-- A state in which an OSC string is collected and the buffer, grown by doubling from
`STR_BUF_SIZ` to 2^31 bytes, has room for one more byte and the final zero byte. -/
def big_str_state : State :=
  { ground_state 80 24 sample_win with
    term := { fresh_term 80 24 with flags := (fresh_term 80 24).flags ||| ESC_START ||| ESC_STR },
    strescseq := { type := 0x5d,
                   t := { items := List.replicate 2147483648 0x61, alloc_size := 2147483648,
                          element_size := 1, nelements := 2147483647 },
                   args := List.replicate STR_ARG_SIZ 0, narg := 0 } }

/-- The state after the bytes `ESC ] 0 ; a` on the start-up state of an 80 × 24 terminal: an
OSC string is collected. -/
def osc_open_state : State :=
  { ground_state 80 24 sample_win with
    term := { fresh_term 80 24 with flags := (fresh_term 80 24).flags ||| ESC_START ||| ESC_STR },
    strescseq := { type := 0x5d,
                   t := { items := 0x30 :: 0x3b :: 0x61 :: zeros 509, alloc_size := STR_BUF_SIZ,
                          element_size := 1, nelements := 3 },
                   args := List.replicate STR_ARG_SIZ 0, narg := 0 } }

/-- The final bytes and arguments of a parsed CSI sequence that fall through every `case` of
`csi_handle0`, `csi_handle1_optional`, `csi_handle2_optional` and `csi_handle1` (which
`csi_handle` calls only when the sequence has an argument). -/
def csi_unmatched (s : State) : Bool :=
  match s.csiescseq.args with
  | a0 :: a1 :: _ =>
    let m := s.csiescseq.mode0
    let m1 := s.csiescseq.mode1
    !([0x68, 0x6c, 0x6d, 0x73, 0x75].contains m) &&
    !([0x40, 0x41, 0x42, 0x65, 0x62, 0x43, 0x61, 0x44, 0x45, 0x46, 0x47, 0x60, 0x49, 0x53, 0x54,
       0x4c, 0x4d, 0x58, 0x50, 0x5a, 0x64].contains m) &&
    !(m = 0x48 || m = 0x66) &&
    !(m = 0x74 && (a0 = 22 || a0 = 23) && (a1 = 0 || a1 = 1 || a1 = 2)) &&
    !(m = 0x72 && term_flag s.term CSI_PRIV = 0) &&
    (s.csiescseq.narg = 0 ||
      !((m = 0x63 && a0 = 0) || (m = 0x67 && (a0 = 0 || a0 = 3)) ||
        (m = 0x69 && (a0 = 0 || a0 = 1 || a0 = 2 || a0 = 4 || a0 = 5)) ||
        ((m = 0x4a || m = 0x4b) && (a0 = 0 || a0 = 1 || a0 = 2)) ||
        (m = 0x6e && a0 = 6) ||
        (m = 0x20 && m1 = 0x71 && decide (0 ≤ a0) && decide (a0 ≤ 7))))
  | _ => false

/-- The state in which the bytes `ESC [ 7 J` have been stored on the start-up state of an
80 × 24 terminal and `csi_handle` is about to run. -/
def csi_7j_state : State :=
  { ground_state 80 24 sample_win with
    term := { fresh_term 80 24 with flags := (fresh_term 80 24).flags ||| ESC_START ||| ESC_CSI },
    csiescseq := { mode0 := 0, mode1 := 0, buf := 0x37 :: 0x4a :: zeros 510, len := 2,
                   args := List.replicate ESC_ARG_SIZ 0, narg := 0 } }

/-- The state `csi_parse` makes of `csi_7j_state` once the escape flags are cleared. -/
def csi_7j_parsed : State :=
  { ground_state 80 24 sample_win with
    csiescseq := { mode0 := 0x4a, mode1 := 0, buf := 0x37 :: 0x4a :: zeros 510, len := 2,
                   args := 7 :: List.replicate 15 0, narg := 1 } }

/-! ### The alternate screen -/

/-- The flags that printing, erasing and scrolling leave alone: the screen shown, the
encoding of the input and the state of the escape parser. -/
def KEEP_FLAGS : Nat := MODE_ALTSCREEN ||| MODE_UTF8 ||| ESC_MASK

/-- The terminal `u` has the hidden screen and the flags `KEEP_FLAGS` of `t`. -/
def alt_frame (t u : Term) : Prop :=
  u.alt = t.alt ∧ u.flags &&& KEEP_FLAGS = t.flags &&& KEEP_FLAGS

/-- The final bytes of the erase and scroll commands, which take one numeric parameter:
ICH `@`, ED `J`, EL `K`, IL `L`, DL `M`, DCH `P`, SU `S`, SD `T` and ECH `X`. -/
def erase_scroll_finals : List Nat := [0x40, 0x4a, 0x4b, 0x4c, 0x4d, 0x50, 0x53, 0x54, 0x58]

/-- What a program writes to the screen it is shown: a character, or an erase or scroll
command `CSI Ps F` with the digits `ps` of its parameter and its final byte. -/
inductive ScreenCmd where
  | text (u : Nat)
  | csi (ps : List Nat) (final : Nat)
  deriving DecidableEq, Repr

/-- The bytes of a command in the UTF-8 encoding. -/
def ScreenCmd.bytes : ScreenCmd → List Nat
  | .text u =>
    match utf8_encode u with
    | .ok bs => bs
    | .error _ => []
  | .csi ps final => 0x1b :: 0x5b :: (ps ++ [final])

/-- The commands of the claim: a printable character (no C0 or C1 control code, no DEL, a
Unicode scalar value), or an erase or scroll command whose parameter has at most 16
decimal digits. -/
def ScreenCmd.valid : ScreenCmd → Prop
  | .text u => 0x20 ≤ u ∧ u ≠ 0x7f ∧ ¬ (0x80 ≤ u ∧ u ≤ 0x9f) ∧ u ≤ 0x10FFFF ∧
      ¬ (0xD800 ≤ u ∧ u ≤ 0xDFFF)
  | .csi ps final => (∀ d ∈ ps, isdigit d = true) ∧ ps.length ≤ 16 ∧ final ∈ erase_scroll_finals

/-- The bytes of a list of commands. -/
def screen_bytes : List ScreenCmd → List Nat
  | [] => []
  | c :: cs => c.bytes ++ screen_bytes cs

/-- The bytes of `CSI ? 1049 h`: save the cursor and show the alternate screen. -/
def alt_enter : List Nat := [0x1b, 0x5b, 0x3f, 0x31, 0x30, 0x34, 0x39, 0x68]

/-- The bytes of `CSI ? 1049 l`: show the primary screen and restore the cursor. -/
def alt_leave : List Nat := [0x1b, 0x5b, 0x3f, 0x31, 0x30, 0x34, 0x39, 0x6c]

/-- What holds of the state between two commands while the screen with the kept flags `c` is
shown: the hidden screen is `A` and the escape buffers have their sizes. -/
def alt_inv (A : List Line) (c : Nat) (st : State) : Prop :=
  st.term.alt = A ∧ st.term.flags &&& KEEP_FLAGS = c ∧
  st.csiescseq.buf.length = ESC_BUF_SIZ ∧ st.csiescseq.args.length = ESC_ARG_SIZ

/-- The start-up state of an 80 × 24 terminal with `hello world` on row 0 of the primary
screen. -/
def hello_state : State := { ground_state 80 24 sample_win with term := hello_term }

/-- A full-screen program in short: print `x` and `é`, erase the whole screen (`CSI 2 J`),
insert a line (`CSI L`) and scroll up by three rows (`CSI 3 S`). -/
def alt_demo_cmds : List ScreenCmd :=
  [.text 0x78, .text 0xe9, .csi [0x32] 0x4a, .csi [] 0x4c, .csi [0x33] 0x53]

/-- The state and the number of bytes read that `t_write` returns for `CSI ? 1049 h`, the
commands `alt_demo_cmds` and `CSI ? 1049 l` on `hello_state`. -/
def alt_demo_run : State × Nat :=
  match t_write sample_env hello_state (alt_enter ++ screen_bytes alt_demo_cmds ++ alt_leave)
      false with
  | .ok r => r
  | .error _ => (hello_state, 0)

/-! ### The mouse selection (`st.c`, `win.c`) -/

/-- Macro `BORDERPX` of `def.h`. -/
def BORDERPX : Int := 2

/-- Macro `BORDERPY` of `def.h`. -/
def BORDERPY : Int := 2

/-- Function `evcol (XEvent *e)` of `win.c`: `x` is `e->xbutton.x` and `cw` is `tw.cw`, both
of type `int`; the quotient is returned as a `uint`. -/
def evcol (x cw : Int) : Nat :=
  let x := i32 (x - BORDERPX)
  let x := if x < 0 then 0 else x
  u32 (Int.tdiv x cw)

/-- Function `evrow (XEvent *e)` of `win.c`: `y` is `e->xbutton.y` and `ch` is `tw.ch`. -/
def evrow (y ch : Int) : Nat :=
  let y := i32 (y - BORDERPY)
  let y := if y < 0 then 0 else y
  u32 (Int.tdiv y ch)

/-- Function `sel_start (uint col, uint row, uint snap)`. -/
def sel_start (t : Term) (col row snap : Nat) : Except Fault Term := do
  let t1 ← (if t.sel.oe.col ≠ UINT_MAX then sel_clear t else pure t)
  let t2 := { t1 with flags := t1.flags ||| snap }
  let t3 := if term_flag t2 MODE_ALTSCREEN ≠ 0 then { t2 with flags := t2.flags ||| SEL_ALTSCREEN }
            else t2
  pure { t3 with sel := { t3.sel with ob := { row := row, col := col } } }

/-- Function `sel_extend (uint col, uint row, uint rect, int done)`; the argument `done` is
not used by the function. -/
def sel_extend (env : Env) (t : Term) (col row rect : Nat) : Except Fault Term := do
  let prev_oe := t.sel.oe
  let prev_rect := term_flag t SEL_RECT
  let prev_nb_row := t.sel.nb.row
  let prev_ne_row := t.sel.ne.row
  let oe : Cell := { col := if col < t.size.col then col else usub t.size.col 1,
                     row := if row < t.size.row then row else usub t.size.row 1 }
  let t1 ← sel_normalize env { t with sel := { t.sel with oe := oe } }
  let t2 := { t1 with flags := if rect ≠ 0 then t1.flags ||| SEL_RECT
                               else t1.flags &&& cnot SEL_RECT }
  if prev_oe.col ≠ t2.sel.oe.col ∨ prev_oe.row ≠ t2.sel.oe.row ∨ prev_rect ≠ rect then
    t_set_dirt t2 (if t2.sel.nb.row < prev_nb_row then t2.sel.nb.row else prev_nb_row)
      (if t2.sel.ne.row < prev_ne_row then prev_ne_row else t2.sel.ne.row)
  else pure t2

/-- A press of the mouse button at the cell (`c0`, `r0`) with the snap mode `snap`, followed
by a motion to the cell (`c1`, `r1`): `sel_start`, then `sel_extend` for a regular
selection. -/
def mouse_select (env : Env) (t : Term) (snap c0 r0 c1 r1 : Nat) : Except Fault Term := do
  let t1 ← sel_start t c0 r0 snap
  sel_extend env t1 c1 r1 0

/-! ### States of the examples: selections and scrolling -/

/-- The terminal `hello_term` with a stream selection dragged upwards, from the cell
(7, 3) to the cell (20, 1), before `sel_normalize` runs. -/
def sel_up_term : Term :=
  { hello_term with
    sel := { hello_term.sel with ob := { row := 3, col := 7 }, oe := { row := 1, col := 20 } } }

/-- The terminal `hello_term` with the cells of columns 0 to 4 of row 5 selected; the scroll
region is the whole screen (rows 0 to 23). -/
def sel_row5_term : Term :=
  { hello_term with
    sel := { ob := { row := 5, col := 0 }, oe := { row := 5, col := 4 },
             nb := { row := 5, col := 0 }, ne := { row := 5, col := 4 } } }

/-- The terminal `sel_row5_term` with the cursor in the last column of row 0. -/
def last_col_term : Term :=
  { sel_row5_term with c := { sel_row5_term.c with p := { row := 0, col := 79 } } }

/-! ## Theorems -/

theorem and_mod_two_pow (a b n : Nat) : (a &&& b) % 2 ^ n = (a % 2 ^ n) &&& (b % 2 ^ n) := by
  apply Nat.eq_of_testBit_eq
  intro i
  simp only [Nat.testBit_mod_two_pow, Nat.testBit_and]
  cases decide (i < n) <;> simp

theorem or_mod_two_pow (a b n : Nat) : (a ||| b) % 2 ^ n = (a % 2 ^ n) ||| (b % 2 ^ n) := by
  apply Nat.eq_of_testBit_eq
  intro i
  simp only [Nat.testBit_mod_two_pow, Nat.testBit_or]
  cases decide (i < n) <;> simp

set_option maxRecDepth 100000 in
theorem utf8_decode_byte_table : ∀ v, v < 256 → utf8_decode_byte v =
    (if v < 128 then (v, 1) else if v < 192 then (v - 128, 0) else if v < 224 then (v - 192, 2)
     else if v < 240 then (v - 224, 3) else if v < 248 then (v - 240, 4) else (0, 5)) := by
  decide

set_option maxRecDepth 100000 in
theorem enc_byte_table : ∀ v, v < 256 →
    (0x80 ||| (v &&& (cnot 0xC0 % 256)) = 128 + v % 64) ∧
    (0 ||| (v &&& (cnot 0x80 % 256)) = v % 128) ∧
    (0xC0 ||| (v &&& (cnot 0xE0 % 256)) = 192 + v % 32) ∧
    (0xE0 ||| (v &&& (cnot 0xF0 % 256)) = 224 + v % 16) ∧
    (0xF0 ||| (v &&& (cnot 0xF8 % 256)) = 240 + v % 8) := by
  decide

theorem enc_byte (b m u : Nat) (hb : b < 256) :
    (b ||| (u &&& cnot m)) % 256 = b ||| ((u % 256) &&& (cnot m % 256)) := by
  have h := or_mod_two_pow b (u &&& cnot m) 8
  have h2 := and_mod_two_pow u (cnot m) 8
  norm_num at h h2
  rw [h, h2, Nat.mod_eq_of_lt hb]

theorem enc_cont (u : Nat) : (0x80 ||| (u &&& cnot 0xC0)) % 256 = 128 + u % 64 := by
  rw [enc_byte _ _ _ (by norm_num), (enc_byte_table (u % 256) (Nat.mod_lt _ (by norm_num))).1]
  omega

theorem enc_lead1 (u : Nat) : (0 ||| (u &&& cnot 0x80)) % 256 = u % 128 := by
  rw [enc_byte _ _ _ (by norm_num), (enc_byte_table (u % 256) (Nat.mod_lt _ (by norm_num))).2.1]
  omega

theorem enc_lead2 (u : Nat) : (0xC0 ||| (u &&& cnot 0xE0)) % 256 = 192 + u % 32 := by
  rw [enc_byte _ _ _ (by norm_num), (enc_byte_table (u % 256) (Nat.mod_lt _ (by norm_num))).2.2.1]
  omega

theorem enc_lead3 (u : Nat) : (0xE0 ||| (u &&& cnot 0xF0)) % 256 = 224 + u % 16 := by
  rw [enc_byte _ _ _ (by norm_num), (enc_byte_table (u % 256) (Nat.mod_lt _ (by norm_num))).2.2.2.1]
  omega

theorem enc_lead4 (u : Nat) : (0xF0 ||| (u &&& cnot 0xF8)) % 256 = 240 + u % 8 := by
  rw [enc_byte _ _ _ (by norm_num), (enc_byte_table (u % 256) (Nat.mod_lt _ (by norm_num))).2.2.2.2]
  omega

/-- appending six payload bits -/
theorem shift_or (d b : Nat) (hd : d < 2 ^ 26) (hb : b < 64) :
    ((d <<< 6) % 2 ^ 32) ||| b = d * 64 + b := by
  rw [Nat.shiftLeft_eq, Nat.mod_eq_of_lt (by omega)]
  have h := Nat.mul_add_lt_is_or (i := 6) (b := b) (by omega) d
  rw [Nat.mul_comm (2 ^ 6) d] at h
  rw [← h]

theorem utf8_length_1 (r : Nat) (h : r ≤ 0x7F) : utf8_length r = .ok 1 := by
  simp [utf8_length, utfmax, utf8_length_from]; omega

theorem utf8_length_2 (r : Nat) (h1 : 0x7F < r) (h : r ≤ 0x7FF) : utf8_length r = .ok 2 := by
  simp [utf8_length, utfmax, utf8_length_from, h1]; omega

theorem utf8_length_3 (r : Nat) (h1 : 0x7FF < r) (h : r ≤ 0xFFFF) : utf8_length r = .ok 3 := by
  simp [utf8_length, utfmax, utf8_length_from, h1, show 127 < r by omega]; omega

theorem utf8_length_4 (r : Nat) (h1 : 0xFFFF < r) (h : r ≤ 0x10FFFF) : utf8_length r = .ok 4 := by
  simp [utf8_length, utfmax, utf8_length_from, h1, show 127 < r by omega, show 2047 < r by omega]; omega

theorem utf8_encode_1 (r : Nat) (h : r ≤ 0x7F) : utf8_encode r = .ok [r] := by
  have hl := utf8_length_1 r h
  simp only [utf8_encode, utfmin, utfmax, utfbyte, utfmask, BETWEEN, UTF_SIZ]
  simp [hl, utf8_encode_tail, show r ≤ 1114111 by omega, show ¬ (55296 ≤ r) by omega]
  have := enc_lead1 r
  simp at this
  omega

theorem utf8_encode_2 (r : Nat) (h1 : 0x7F < r) (h : r ≤ 0x7FF) :
    utf8_encode r = .ok [192 + r / 64, 128 + r % 64] := by
  have hl := utf8_length_2 r h1 h
  simp only [utf8_encode, utfmin, utfmax, utfbyte, utfmask, BETWEEN, UTF_SIZ]
  simp [hl, utf8_encode_tail, show r ≤ 1114111 by omega, show ¬ (55296 ≤ r) by omega]
  have e1 := enc_lead2 (r >>> 6)
  have e2 := enc_cont r
  simp only [Nat.shiftRight_eq_div_pow, show (2:ℕ) ^ 6 = 64 by norm_num] at e1 ⊢
  rw [e1, e2]
  omega

theorem utf8_encode_3 (r : Nat) (h1 : 0x7FF < r) (h : r ≤ 0xFFFF)
    (hs : ¬ (0xD800 ≤ r ∧ r ≤ 0xDFFF)) :
    utf8_encode r = .ok [224 + r / 4096, 128 + r / 64 % 64, 128 + r % 64] := by
  have hl := utf8_length_3 r h1 h
  simp only [utf8_encode, utfmin, utfmax, utfbyte, utfmask, BETWEEN, UTF_SIZ]
  have hs2 : ¬ (55296 ≤ r ∧ r ≤ 57343) := hs
  simp [hl, utf8_encode_tail, show r ≤ 1114111 by omega, hs2]
  have e1 := enc_lead3 (r >>> 6 >>> 6)
  have e2 := enc_cont (r >>> 6)
  have e3 := enc_cont r
  simp only [Nat.shiftRight_eq_div_pow, show (2:ℕ) ^ 6 = 64 by norm_num] at e1 e2 ⊢
  rw [e1, e2, e3]
  omega

theorem utf8_encode_4 (r : Nat) (h1 : 0xFFFF < r) (h : r ≤ 0x10FFFF) :
    utf8_encode r =
      .ok [240 + r / 262144, 128 + r / 4096 % 64, 128 + r / 64 % 64, 128 + r % 64] := by
  have hl := utf8_length_4 r h1 h
  simp only [utf8_encode, utfmin, utfmax, utfbyte, utfmask, BETWEEN, UTF_SIZ]
  simp [hl, utf8_encode_tail, show r ≤ 1114111 by omega, show ¬ (r ≤ 57343) by omega]
  have e1 := enc_lead4 (r >>> 6 >>> 6 >>> 6)
  have e2 := enc_cont (r >>> 6 >>> 6)
  have e3 := enc_cont (r >>> 6)
  have e4 := enc_cont r
  simp only [Nat.shiftRight_eq_div_pow, show (2:ℕ) ^ 6 = 64 by norm_num] at e1 e2 e3 ⊢
  rw [e1, e2, e3, e4]
  omega

theorem decode_byte_lead1 (b : Nat) (h : b < 128) : utf8_decode_byte (b % 256) = (b, 1) := by
  rw [Nat.mod_eq_of_lt (by omega), utf8_decode_byte_table _ (by omega), if_pos h]

theorem decode_byte_cont (b : Nat) (h1 : 128 ≤ b) (h2 : b < 192) :
    utf8_decode_byte (b % 256) = (b - 128, 0) := by
  rw [Nat.mod_eq_of_lt (by omega), utf8_decode_byte_table _ (by omega), if_neg (by omega),
    if_pos h2]

theorem decode_byte_lead2 (b : Nat) (h1 : 192 ≤ b) (h2 : b < 224) :
    utf8_decode_byte (b % 256) = (b - 192, 2) := by
  rw [Nat.mod_eq_of_lt (by omega), utf8_decode_byte_table _ (by omega), if_neg (by omega),
    if_neg (by omega), if_pos h2]

theorem decode_byte_lead3 (b : Nat) (h1 : 224 ≤ b) (h2 : b < 240) :
    utf8_decode_byte (b % 256) = (b - 224, 3) := by
  rw [Nat.mod_eq_of_lt (by omega), utf8_decode_byte_table _ (by omega), if_neg (by omega),
    if_neg (by omega), if_neg (by omega), if_pos h2]

theorem decode_byte_lead4 (b : Nat) (h1 : 240 ≤ b) (h2 : b < 248) :
    utf8_decode_byte (b % 256) = (b - 240, 4) := by
  rw [Nat.mod_eq_of_lt (by omega), utf8_decode_byte_table _ (by omega), if_neg (by omega),
    if_neg (by omega), if_neg (by omega), if_neg (by omega), if_pos h2]

theorem decode_byte_high (b : Nat) (h1 : 248 ≤ b) (h2 : b < 256) :
    utf8_decode_byte (b % 256) = (0, 5) := by
  rw [Nat.mod_eq_of_lt (by omega), utf8_decode_byte_table _ (by omega), if_neg (by omega),
    if_neg (by omega), if_neg (by omega), if_neg (by omega), if_neg (by omega)]

theorem utf8_decode_seq1 (b0 : Nat) (rest : List Nat) (len : Nat) (h0 : b0 < 128) (hlen : 1 ≤ len) :
    utf8_decode (b0 :: rest) len = .ok (1, b0) := by
  simp [utf8_decode, decode_byte_lead1 b0 h0, BETWEEN, UTF_SIZ, utf8_decode_cont, utfmin, utfmax]
  rw [if_neg (by omega), if_pos (by omega)]

set_option maxRecDepth 10000 in
theorem utf8_decode_seq2 (b0 b1 : Nat) (rest : List Nat) (len : Nat)
    (h0 : 192 ≤ b0 ∧ b0 < 224) (h1 : 128 ≤ b1 ∧ b1 < 192) (hlen : 2 ≤ len) :
    utf8_decode (b0 :: b1 :: rest) len
      = .ok (2, validated 2 ((b0 - 192) * 64 + (b1 - 128))) := by
  have e := shift_or (b0 - 192) (b1 - 128) (by omega) (by omega)
  simp only [utf8_decode, List.getElem?_cons_zero, decode_byte_lead2 b0 h0.1 h0.2, BETWEEN, UTF_SIZ,
    utf8_decode_cont, List.getElem?_cons_succ, decode_byte_cont b1 h1.1 h1.2, e, validated, utfmin,
    utfmax]
  simp
  rw [if_neg (by omega)]
  split_ifs <;> first | rfl | (exfalso; omega)

set_option maxRecDepth 10000 in
theorem utf8_decode_seq3 (b0 b1 b2 : Nat) (rest : List Nat) (len : Nat)
    (h0 : 224 ≤ b0 ∧ b0 < 240) (h1 : 128 ≤ b1 ∧ b1 < 192) (h2 : 128 ≤ b2 ∧ b2 < 192)
    (hlen : 3 ≤ len) :
    utf8_decode (b0 :: b1 :: b2 :: rest) len
      = .ok (3, validated 3 (((b0 - 224) * 64 + (b1 - 128)) * 64 + (b2 - 128))) := by
  have e := shift_or (b0 - 224) (b1 - 128) (by omega) (by omega)
  have e2 := shift_or ((b0 - 224) * 64 + (b1 - 128)) (b2 - 128) (by omega) (by omega)
  simp only [utf8_decode, List.getElem?_cons_zero, decode_byte_lead3 b0 h0.1 h0.2, BETWEEN, UTF_SIZ,
    utf8_decode_cont, List.getElem?_cons_succ, decode_byte_cont b1 h1.1 h1.2,
    decode_byte_cont b2 h2.1 h2.2, e, e2, validated, utfmin, utfmax]
  simp
  rw [if_neg (by omega)]
  split_ifs <;> first | rfl | (exfalso; omega)

set_option maxRecDepth 10000 in
theorem utf8_decode_seq4 (b0 b1 b2 b3 : Nat) (rest : List Nat) (len : Nat)
    (h0 : 240 ≤ b0 ∧ b0 < 248) (h1 : 128 ≤ b1 ∧ b1 < 192) (h2 : 128 ≤ b2 ∧ b2 < 192)
    (h3 : 128 ≤ b3 ∧ b3 < 192) (hlen : 4 ≤ len) :
    utf8_decode (b0 :: b1 :: b2 :: b3 :: rest) len
      = .ok (4, validated 4 ((((b0 - 240) * 64 + (b1 - 128)) * 64 + (b2 - 128)) * 64 + (b3 - 128))) := by
  have e := shift_or (b0 - 240) (b1 - 128) (by omega) (by omega)
  have e2 := shift_or ((b0 - 240) * 64 + (b1 - 128)) (b2 - 128) (by omega) (by omega)
  have e3 := shift_or (((b0 - 240) * 64 + (b1 - 128)) * 64 + (b2 - 128)) (b3 - 128)
    (by omega) (by omega)
  simp only [utf8_decode, List.getElem?_cons_zero, decode_byte_lead4 b0 h0.1 h0.2, BETWEEN, UTF_SIZ,
    utf8_decode_cont, List.getElem?_cons_succ, decode_byte_cont b1 h1.1 h1.2,
    decode_byte_cont b2 h2.1 h2.2, decode_byte_cont b3 h3.1 h3.2, e, e2, e3, validated, utfmin,
    utfmax]
  simp
  rw [if_neg (by omega)]
  split_ifs <;> first | rfl | (exfalso; omega)

theorem validated_good (k v : Nat) (h1 : utfmin.getD k 0 ≤ v) (h2 : v ≤ utfmax.getD k 0)
    (h3 : ¬ (0xD800 ≤ v ∧ v ≤ 0xDFFF)) : validated k v = v := by
  unfold validated
  rw [if_pos ⟨h1, h2, h3⟩]

theorem validated_bad (k v : Nat)
    (h : v < utfmin.getD k 0 ∨ utfmax.getD k 0 < v ∨ (0xD800 ≤ v ∧ v ≤ 0xDFFF)) :
    validated k v = UTF_INVALID := by
  unfold validated
  rw [if_neg]
  intro hc
  omega

/-- C1: for every rune `r ≤ 0x10FFFF` outside the surrogate range `0xD800 .. 0xDFFF`,
`utf8_encode` writes between one and four bytes, and `utf8_decode` applied to exactly
those bytes returns their count and the rune `r`. -/
theorem utf8_roundtrip (r : Nat) (h : r ≤ 0x10FFFF) (hs : ¬ (0xD800 ≤ r ∧ r ≤ 0xDFFF)) :
    ∃ bs, utf8_encode r = .ok bs ∧ 1 ≤ bs.length ∧ bs.length ≤ 4 ∧
      utf8_decode bs bs.length = .ok (bs.length, r) := by
  by_cases c1 : r ≤ 0x7F
  · refine ⟨_, utf8_encode_1 r c1, by simp, by simp, ?_⟩
    exact utf8_decode_seq1 r [] 1 (by omega) (by simp)
  by_cases c2 : r ≤ 0x7FF
  · refine ⟨_, utf8_encode_2 r (by omega) c2, by simp, by simp, ?_⟩
    have hd := utf8_decode_seq2 (192 + r / 64) (128 + r % 64) [] 2 (by omega) (by omega) (by simp)
    have hv : (192 + r / 64 - 192) * 64 + (128 + r % 64 - 128) = r := by omega
    rw [hv, validated_good 2 r (by simp [utfmin]; omega) (by simp [utfmax]; omega) hs] at hd
    exact hd
  by_cases c3 : r ≤ 0xFFFF
  · refine ⟨_, utf8_encode_3 r (by omega) c3 hs, by simp, by simp, ?_⟩
    have hd := utf8_decode_seq3 (224 + r / 4096) (128 + r / 64 % 64) (128 + r % 64) [] 3
      (by omega) (by omega) (by omega) (by simp)
    have hv : ((224 + r / 4096 - 224) * 64 + (128 + r / 64 % 64 - 128)) * 64
        + (128 + r % 64 - 128) = r := by omega
    rw [hv, validated_good 3 r (by simp [utfmin]; omega) (by simp [utfmax]; omega) hs] at hd
    exact hd
  · refine ⟨_, utf8_encode_4 r (by omega) h, by simp, by simp, ?_⟩
    have hd := utf8_decode_seq4 (240 + r / 262144) (128 + r / 4096 % 64) (128 + r / 64 % 64)
      (128 + r % 64) [] 4 (by omega) (by omega) (by omega) (by omega) (by simp)
    have hv : (((240 + r / 262144 - 240) * 64 + (128 + r / 4096 % 64 - 128)) * 64
        + (128 + r / 64 % 64 - 128)) * 64 + (128 + r % 64 - 128) = r := by omega
    rw [hv, validated_good 4 r (by simp [utfmin]; omega) (by simp [utfmax]; omega) hs] at hd
    exact hd

theorem utf8_roundtrip_witness :
    (0x20AC ≤ 0x10FFFF ∧ ¬ (0xD800 ≤ 0x20AC ∧ 0x20AC ≤ 0xDFFF)) ∧
    ∃ bs, utf8_encode 0x20AC = .ok bs ∧ 1 ≤ bs.length ∧ bs.length ≤ 4 ∧
      utf8_decode bs bs.length = .ok (bs.length, 0x20AC) :=
  ⟨by decide, utf8_roundtrip 0x20AC (by decide) (by decide)⟩

/-- C3: on an input of at least `k` bytes that starts with the lead byte of a `k`-byte
sequence followed by `k - 1` continuation bytes, `utf8_decode` returns the count `k` and the
rune `U+FFFD` when the value of the sequence is overlong for `k` bytes, a surrogate, or
above `U+10FFFF`. -/
theorem utf8_decode_rejects (k : Nat) (s : List Nat) (len : Nat)
    (hk : 1 ≤ k ∧ k ≤ 4) (hlen : k ≤ len) (hs : k ≤ s.length)
    (hlead : is_lead k (s.getD 0 0))
    (hcont : ∀ i, 1 ≤ i → i < k → is_cont (s.getD i 0))
    (hbad : seq_value k s < utfmin.getD k 0 ∨ (0xD800 ≤ seq_value k s ∧ seq_value k s ≤ 0xDFFF)
      ∨ 0x10FFFF < seq_value k s) :
    utf8_decode s len = .ok (k, 0xFFFD) := by
  obtain ⟨hk1, hk4⟩ := hk
  have hk' : k = 1 ∨ k = 2 ∨ k = 3 ∨ k = 4 := by omega
  rcases hk' with rfl | rfl | rfl | rfl
  · rcases s with _ | ⟨b0, rest⟩
    · simp at hs
    simp [is_lead, lead_base, lead_limit] at hlead
    simp [seq_value, lead_base, utfmin] at hbad
    omega
  · rcases s with _ | ⟨b0, _ | ⟨b1, rest⟩⟩
    · simp at hs
    · simp at hs
    simp [is_lead, lead_base, lead_limit] at hlead
    have hc1 := hcont 1 (by omega) (by omega)
    simp [is_cont] at hc1
    simp [seq_value, lead_base, utfmin] at hbad
    rw [utf8_decode_seq2 b0 b1 rest len hlead hc1 hlen, validated_bad]
    · rfl
    · simp [utfmin, utfmax]; omega
  · rcases s with _ | ⟨b0, _ | ⟨b1, _ | ⟨b2, rest⟩⟩⟩
    · simp at hs
    · simp at hs
    · simp at hs
    simp [is_lead, lead_base, lead_limit] at hlead
    have hc1 := hcont 1 (by omega) (by omega)
    have hc2 := hcont 2 (by omega) (by omega)
    simp [is_cont] at hc1 hc2
    simp [seq_value, lead_base, utfmin] at hbad
    rw [utf8_decode_seq3 b0 b1 b2 rest len hlead hc1 hc2 hlen, validated_bad]
    · rfl
    · simp [utfmin, utfmax]; omega
  · rcases s with _ | ⟨b0, _ | ⟨b1, _ | ⟨b2, _ | ⟨b3, rest⟩⟩⟩⟩
    · simp at hs
    · simp at hs
    · simp at hs
    · simp at hs
    simp [is_lead, lead_base, lead_limit] at hlead
    have hc1 := hcont 1 (by omega) (by omega)
    have hc2 := hcont 2 (by omega) (by omega)
    have hc3 := hcont 3 (by omega) (by omega)
    simp [is_cont] at hc1 hc2 hc3
    simp [seq_value, lead_base, utfmin] at hbad
    rw [utf8_decode_seq4 b0 b1 b2 b3 rest len hlead hc1 hc2 hc3 hlen, validated_bad]
    · rfl
    · simp [utfmin, utfmax]; omega

theorem utf8_decode_cont_take (s : List Nat) (len : Nat) :
    ∀ k i d, i + k ≤ len →
      utf8_decode_cont (s.take len) k i d = utf8_decode_cont s k i d := by
  intro k
  induction k with
  | zero => intro i d _; simp [utf8_decode_cont]
  | succ k ih =>
    intro i d h
    simp only [utf8_decode_cont]
    rw [List.getElem?_take_of_lt (by omega)]
    cases s[i]? with
    | none => rfl
    | some b =>
      simp only
      rw [ih (i + 1) _ (by omega)]

theorem utf8_decode_cont_range (s : List Nat) :
    ∀ k i d, i + k ≤ s.length →
      (∃ j, utf8_decode_cont s k i d = .ok (.inl j) ∧ i ≤ j ∧ j < i + k) ∨
      (∃ v, utf8_decode_cont s k i d = .ok (.inr v)) := by
  intro k
  induction k with
  | zero => intro i d _; right; exact ⟨d, by simp [utf8_decode_cont]⟩
  | succ k ih =>
    intro i d h
    simp only [utf8_decode_cont]
    rw [List.getElem?_eq_getElem (by omega)]
    simp only
    split_ifs with hc
    · left; exact ⟨i, rfl, by omega, by omega⟩
    · rcases ih (i + 1) (d <<< 6 % 2 ^ 32 ||| (utf8_decode_byte (s[i] % 256)).1) (by omega) with
        ⟨j, hj, h1, h2⟩ | ⟨v, hv⟩
      · left; exact ⟨j, hj, by omega, by omega⟩
      · right; exact ⟨v, hv⟩

theorem decode_byte_class (b : Nat) (hb : b < 256) :
    (utf8_decode_byte (b % 256)).2 ≤ 5 ∧
    ((utf8_decode_byte (b % 256)).2 = 1 ↔ is_lead 1 b) ∧
    ((utf8_decode_byte (b % 256)).2 = 2 ↔ is_lead 2 b) ∧
    ((utf8_decode_byte (b % 256)).2 = 3 ↔ is_lead 3 b) ∧
    ((utf8_decode_byte (b % 256)).2 = 4 ↔ is_lead 4 b) := by
  rw [Nat.mod_eq_of_lt hb, utf8_decode_byte_table b hb]
  simp only [is_lead, lead_base, lead_limit]
  split_ifs <;> simp <;> omega

/-- The count returned by `utf8_decode` on `len ≥ 1` bytes: `0` exactly for a lead byte whose
sequence is longer than `len`, between `1` and `len` otherwise, and the same on the first
`len` bytes alone. -/
theorem utf8_decode_count (s : List Nat) (len : Nat) (hlen : 1 ≤ len) (hs : len ≤ s.length)
    (hb : ∀ b ∈ s, b < 256) :
    ∃ n u, utf8_decode (s.take len) len = .ok (n, u) ∧ utf8_decode s len = .ok (n, u) ∧
      (n = 0 ↔ ∃ k, (k = 2 ∨ k = 3 ∨ k = 4) ∧ is_lead k (s.getD 0 0) ∧ len < k) ∧
      (n ≠ 0 → 1 ≤ n ∧ n ≤ len) := by
  rcases s with _ | ⟨b0, rest⟩
  · simp at hs; omega
  have hb0 : b0 < 256 := hb b0 (by simp)
  obtain ⟨c5, c1, c2, c3, c4⟩ := decode_byte_class b0 hb0
  have htake : utf8_decode ((b0 :: rest).take len) len = utf8_decode (b0 :: rest) len := by
    obtain ⟨m, rfl⟩ : ∃ m, len = m + 1 := ⟨len - 1, by omega⟩
    simp only [utf8_decode, List.take_succ_cons, List.getElem?_cons_zero]
    split_ifs with h1 h2
    · rfl
    · rfl
    · have := utf8_decode_cont_take (b0 :: rest) (m + 1)
        ((utf8_decode_byte (b0 % 256)).2 - 1) 1 (utf8_decode_byte (b0 % 256)).1 (by omega)
      rw [List.take_succ_cons] at this
      rw [this]
  rw [htake]
  simp only [utf8_decode, List.getElem?_cons_zero, List.getD_cons_zero]
  generalize hr : utf8_decode_byte (b0 % 256) = r at c5 c1 c2 c3 c4
  by_cases h1 : BETWEEN r.2 1 UTF_SIZ = true
  swap
  · simp only [h1, Bool.not_false, if_true]
    refine ⟨1, _, by simp, rfl, ?_, by intro; omega⟩
    simp only [BETWEEN, UTF_SIZ] at h1
    simp at h1
    constructor
    · intro h; omega
    · rintro ⟨k, hk, hl, _⟩
      rcases hk with rfl | rfl | rfl
      · have := c2.2 hl; omega
      · have := c3.2 hl; omega
      · have := c4.2 hl; omega
  simp only [h1, Bool.not_true, Bool.false_eq_true, if_false]
  simp only [BETWEEN, UTF_SIZ] at h1
  simp at h1
  by_cases h2 : len < r.2
  · rw [if_pos h2]
    refine ⟨0, _, by simp, rfl, ?_, by intro h; exact absurd rfl h⟩
    constructor
    · intro _
      have hk : r.2 = 2 ∨ r.2 = 3 ∨ r.2 = 4 := by omega
      refine ⟨r.2, hk, ?_, h2⟩
      rcases hk with e | e | e
      · rw [e]; exact c2.1 e
      · rw [e]; exact c3.1 e
      · rw [e]; exact c4.1 e
    · intro _; rfl
  rw [if_neg h2]
  have hnz : ¬ ∃ k, (k = 2 ∨ k = 3 ∨ k = 4) ∧ is_lead k b0 ∧ len < k := by
    rintro ⟨k, hk, hl, hlt⟩
    rcases hk with rfl | rfl | rfl
    · have := c2.2 hl; omega
    · have := c3.2 hl; omega
    · have := c4.2 hl; omega
  rcases utf8_decode_cont_range (b0 :: rest) (r.2 - 1) 1 r.1 (by omega) with
    ⟨j, hj, j1, j2⟩ | ⟨v, hv⟩
  · rw [hj]
    refine ⟨j, _, by simp, rfl, ?_, by intro; omega⟩
    constructor
    · intro h; omega
    · intro h; exact absurd h hnz
  · rw [hv]
    have hk : r.2 = 1 ∨ r.2 = 2 ∨ r.2 = 3 ∨ r.2 = 4 := by omega
    have hex : ∃ lo hi, utfmin[r.2]? = some lo ∧ utfmax[r.2]? = some hi := by
      rcases hk with e | e | e | e <;> rw [e] <;> simp [utfmin, utfmax]
    obtain ⟨lo, hi, e1, e2⟩ := hex
    simp only [e1, e2]
    split_ifs
    · refine ⟨r.2, _, by simp, rfl, ?_, by intro; omega⟩
      constructor
      · intro h; omega
      · intro h; exact absurd h hnz
    · refine ⟨r.2, _, by simp, rfl, ?_, by intro; omega⟩
      constructor
      · intro h; omega
      · intro h; exact absurd h hnz

/-- C2: for every buffer of bytes and every `len ≥ 1`, `utf8_decode` returns a count `n`
that is `0` exactly when the first byte is the lead byte of a sequence of `k = 2, 3, 4`
bytes and `len < k`, and lies between `1` and `len` otherwise; the result is the one
obtained on the first `len` bytes alone, so no byte at an index `≥ len` is read. -/
theorem utf8_decode_consumed (s : List Nat) (len : Nat) (hlen : 1 ≤ len) (hs : len ≤ s.length)
    (hb : ∀ b ∈ s, b < 256) :
    ∃ n u, utf8_decode (s.take len) len = .ok (n, u) ∧ utf8_decode s len = .ok (n, u) ∧
      (n = 0 ↔ ∃ k, (k = 2 ∨ k = 3 ∨ k = 4) ∧ is_lead k (s.getD 0 0) ∧ len < k) ∧
      (n ≠ 0 → 1 ≤ n ∧ n ≤ len) :=
  utf8_decode_count s len hlen hs hb

theorem utf8_decode_consumed_witness :
    (1 ≤ 2 ∧ 2 ≤ [0xE2, 0x82, 0xAC].length ∧ ∀ b ∈ [0xE2, 0x82, 0xAC], b < 256) ∧
    ∃ n u, utf8_decode ([0xE2, 0x82, 0xAC].take 2) 2 = .ok (n, u) ∧
      utf8_decode [0xE2, 0x82, 0xAC] 2 = .ok (n, u) ∧
      (n = 0 ↔ ∃ k, (k = 2 ∨ k = 3 ∨ k = 4) ∧ is_lead k ([0xE2, 0x82, 0xAC].getD 0 0) ∧ 2 < k) ∧
      (n ≠ 0 → 1 ≤ n ∧ n ≤ 2) :=
  ⟨by decide, utf8_decode_consumed [0xE2, 0x82, 0xAC] 2 (by decide) (by decide) (by decide)⟩

theorem utf8_decode_rejects_witness :
    ((1 ≤ 2 ∧ 2 ≤ 4) ∧ 2 ≤ 2 ∧ 2 ≤ [0xC0, 0x80].length ∧ is_lead 2 ([0xC0, 0x80].getD 0 0) ∧
      (∀ i, 1 ≤ i → i < 2 → is_cont ([0xC0, 0x80].getD i 0)) ∧
      seq_value 2 [0xC0, 0x80] < utfmin.getD 2 0) ∧
    utf8_decode [0xC0, 0x80] 2 = .ok (2, 0xFFFD) :=
  have h1 : is_lead 2 ([0xC0, 0x80].getD 0 0) := by
    simp [is_lead, lead_base, lead_limit]
  have h2 : ∀ i, 1 ≤ i → i < 2 → is_cont ([0xC0, 0x80].getD i 0) := by
    intro i hi hj
    have e : i = 1 := by omega
    subst e
    simp [is_cont]
  have h3 : seq_value 2 [0xC0, 0x80] < utfmin.getD 2 0 := by
    simp [seq_value, lead_base, utfmin]
  ⟨⟨by decide, by decide, by decide, h1, h2, h3⟩,
   utf8_decode_rejects 2 [0xC0, 0x80] 2 (by decide) (by decide) (by decide) h1 h2 (Or.inl h3)⟩

/-! ### The result monad -/

@[simp] theorem ok_bind {α β : Type} (a : α) (f : α → Except Fault β) :
    (Except.ok a >>= f) = f a := by
  simp only [bind, Except.bind]

@[simp] theorem error_bind {α β : Type} (e : Fault) (f : α → Except Fault β) :
    ((Except.error e : Except Fault α) >>= f) = Except.error e := by
  simp only [bind, Except.bind]

@[simp] theorem ok_bind2 {α β : Type} (a : α) (f : α → Except Fault β) :
    (Except.ok a : Except Fault α).bind f = f a := by
  simp only [Except.bind]

@[simp] theorem error_bind2 {α β : Type} (e : Fault) (f : α → Except Fault β) :
    (Except.error e : Except Fault α).bind f = Except.error e := by
  simp only [Except.bind]

@[simp] theorem pure_eq_ok {α : Type} (a : α) : (pure a : Except Fault α) = Except.ok a := by
  simp only [pure, Except.pure]

@[simp] theorem throw_eq_error {α : Type} (e : Fault) :
    (throw e : Except Fault α) = Except.error e := by
  simp only [throw, throwThe, MonadExceptOf.throw]

@[simp] theorem map_ok {α β : Type} (f : α → β) (a : α) :
    Except.map f (Except.ok a : Except Fault α) = Except.ok (f a) := by
  simp only [Except.map]

@[simp] theorem map_error {α β : Type} (f : α → β) (e : Fault) :
    Except.map f (Except.error e : Except Fault α) = Except.error e := by
  simp only [Except.map]

/-! ### Machine arithmetic -/

theorem uadd_eq (a b : Nat) : uadd a b = (a + b) % 4294967296 := by
  unfold uadd
  simp only [U32]

theorem usub_eq (a b : Nat) :
    usub a b = if b ≤ a then a - b else (a + 4294967296 - b) % 4294967296 := by
  unfold usub
  simp only [U32]

theorem usub_of_le (a b : Nat) (h : b ≤ a) : usub a b = a - b := by
  simp [usub, h]

theorem uadd_of_lt (a b : Nat) (h : a + b < 4294967296) : uadd a b = a + b := by
  simp [uadd, Nat.mod_eq_of_lt h]

theorem i16_of_lt (x : Int) (h0 : 0 ≤ x) (h : x < 32768) : i16 x = x := by
  unfold i16
  omega

theorem u16_of_lt (x : Nat) (h : x < 65536) : u16 x = x := by
  unfold u16
  omega

theorem u32_of_lt (x : Int) (h0 : 0 ≤ x) (h : x < 4294967296) : u32 x = x.toNat := by
  unfold u32
  congr 1
  omega

theorem i32_of_lt (x : Int) (h0 : -2147483648 ≤ x) (h : x < 2147483648) : i32 x = x := by
  unfold i32
  omega

@[simp] theorem i16_zero : i16 0 = 0 := i16_of_lt 0 (by omega) (by omega)
@[simp] theorem i16_256 : i16 256 = 256 := i16_of_lt 256 (by omega) (by omega)
@[simp] theorem u16_zero : u16 0 = 0 := u16_of_lt 0 (by omega)
@[simp] theorem u16_256 : u16 256 = 256 := u16_of_lt 256 (by omega)
@[simp] theorem u32_zero : u32 0 = 0 := u32_of_lt 0 (by omega) (by omega)
@[simp] theorem u32_256 : u32 256 = 256 := u32_of_lt 256 (by omega) (by omega)

/-! ### Clearing a region -/

theorem fill_range_length {α : Type} (xs : List α) (lo hi : Nat) (v : α)
    (h1 : lo ≤ hi) (h2 : hi < xs.length) : (fill_range xs lo hi v).length = xs.length := by
  simp [fill_range]; omega

theorem get_row_eq (t : Term) (row : Nat) (h : row < t.line.length) :
    get_row t row = .ok (t.line[row]) := by
  simp [get_row, List.getElem?_eq_getElem h]

/-- A row clear that cannot hit the selection writes the cells and reports
`False`. -/
theorem tline_clear_quiet (t : Term) (row c1 c2 : Nat) (sel : Bool)
    (hrow : row < t.line.length) (hc : c1 ≤ c2) (hlen : c2 < (t.line[row]).length)
    (hq : sel_quiet t sel) :
    tline_clear t row c1 c2 sel
      = .ok ({ t with line := t.line.set row (fill_range (t.line[row]) c1 c2 (blank_glyph t)) },
             false) := by
  unfold tline_clear
  rw [get_row_eq t row hrow]
  simp only [ok_bind, hc, if_true, hlen, pure_eq_ok]
  rcases hq with hq | ⟨hb, he⟩
  · subst hq
    simp
  · cases sel
    · simp
    · simp only [if_true, tline_sel_get_margin, hb, he, term_flag]
      by_cases hr : row = 0
      · subst hr
        simp
      · have : row > 0 := Nat.pos_of_ne_zero hr
        simp [this]

theorem sel_quiet_of_line (t : Term) (sel : Bool) (ls : List Line) (d : List Bool)
    (h : sel_quiet t sel) : sel_quiet { t with line := ls, dirty := d } sel := h

theorem map_range_succ {α : Type} (f : α → α) :
    ∀ (xs : List α) (r n : Nat) (h : r < xs.length),
      map_range f (xs.set r (f (xs[r]))) (r + 1) n = map_range f xs r (n + 1) := by
  intro xs
  induction xs with
  | nil => intro r n h; simp at h
  | cons a tl ih =>
    intro r n h
    cases r with
    | zero => simp [map_range, Nat.add_comm 1 n]
    | succ r =>
      have h2 : r < tl.length := by simpa using h
      have := ih r n h2
      simp only [map_range] at this ⊢
      have e : r + 1 + (n + 1) = (r + (n + 1)) + 1 := by omega
      have e2 : r + 1 + 1 + n = (r + 1 + n) + 1 := by omega
      simp only [List.set_cons_succ, List.take_succ_cons, List.drop_succ_cons, List.cons_append,
        List.getElem_cons_succ, e, e2]
      rw [this]

theorem map_range_zero {α : Type} (f : α → α) (xs : List α) (r : Nat) :
    map_range f xs r 0 = xs := by
  simp [map_range]

theorem map_range_all {α : Type} (f : α → α) (xs : List α) :
    map_range f xs 0 xs.length = xs.map f := by
  simp [map_range]

theorem map_range_length {α : Type} (f : α → α) (xs : List α) (r n : Nat) :
    (map_range f xs r n).length = xs.length := by
  simp [map_range]; omega

/-- The row loop of `tregion_clear` on rows inside the screen, with a
selection it cannot hit: the cells of columns `c1 .. c2` of the rows become
blank cells with the cursor colours and the rows are marked dirty. -/
theorem tregion_clear_loop_quiet (c1 c2 : Nat) (hc : c1 ≤ c2) :
    ∀ (n row : Nat) (sel : Bool) (t : Term),
      row + n ≤ t.line.length → t.dirty.length = t.line.length →
      (∀ l ∈ t.line, c2 < l.length) → sel_quiet t sel →
      tregion_clear_loop c1 c2 n row sel t
        = .ok { t with line := map_range (fun l => fill_range l c1 c2 (blank_glyph t)) t.line row n,
                       dirty := map_range (fun _ => true) t.dirty row n } := by
  intro n
  induction n with
  | zero =>
    intro row sel t _ _ _ _
    simp [tregion_clear_loop, map_range_zero]
  | succ n ih =>
    intro row sel t hrow hd hl hq
    have hr : row < t.line.length := by omega
    have hrd : row < t.dirty.length := by omega
    unfold tregion_clear_loop
    rw [if_pos hrd]
    have hlen : c2 < (t.line[row]).length := hl _ (List.getElem_mem _)
    rw [tline_clear_quiet { t with dirty := t.dirty.set row true } row c1 c2 sel hr hc hlen
      (by exact hq)]
    simp only [Bool.false_eq_true, if_false]
    rw [ih]
    · simp only [blank_glyph]
      rw [map_range_succ (fun l => fill_range l c1 c2 _) t.line row n hr]
      have := map_range_succ (fun _ => true) t.dirty row n hrd
      simp only at this
      rw [this]
    · simp; omega
    · simp [hd]
    · intro l hl2
      simp only at hl2
      rcases List.mem_or_eq_of_mem_set hl2 with h | h
      · exact hl l h
      · subst h
        rw [fill_range_length _ _ _ _ hc hlen]
        exact hlen
    · exact hq

/-- Region clear with ordered corners inside the screen. -/
theorem tregion_clear_quiet (t : Term) (c1 r1 c2 r2 : Nat) (hg : grid_ok t)
    (hc : c1 ≤ c2) (hc2 : c2 < t.size.col) (hr : r1 ≤ r2) (hr2 : r2 < t.size.row)
    (hq : sel_quiet t (tregion_is_sel t)) :
    tregion_clear t c1 r1 c2 r2
      = .ok { t with
          line := map_range (fun l => fill_range l c1 c2 (blank_glyph t)) t.line r1 (r2 + 1 - r1),
          dirty := map_range (fun _ => true) t.dirty r1 (r2 + 1 - r1) } := by
  obtain ⟨h1, h2, h3, _, _, _, _⟩ := hg
  unfold tregion_clear
  have a1 : ¬ c1 > c2 := by omega
  have a2 : ¬ c1 ≥ t.size.col := by omega
  have a3 : ¬ c2 ≥ t.size.col := by omega
  have a4 : ¬ r1 > r2 := by omega
  have a5 : ¬ r1 ≥ t.size.row := by omega
  have a6 : ¬ r2 ≥ t.size.row := by omega
  simp only [a1, a2, a3, a4, a5, a6, if_false]
  apply tregion_clear_loop_quiet c1 c2 hc
  · omega
  · omega
  · intro l hl
    rw [h2 l hl]
    exact hc2
  · exact hq

theorem fill_range_all {α : Type} (xs : List α) (n : Nat) (v : α) (h : xs.length = n + 1) :
    fill_range xs 0 n v = List.replicate (n + 1) v := by
  simp [fill_range, List.drop_eq_nil_of_le (Nat.le_of_eq h)]

theorem map_const_eq_replicate {α β : Type} (xs : List α) (v : β) :
    xs.map (fun _ => v) = List.replicate xs.length v := by
  induction xs with
  | nil => rfl
  | cons a tl ih => simp [List.replicate_succ, ih]

theorem map_fill_all (ls : List Line) (cols : Nat) (b : TermGlyph) (hc : 1 ≤ cols)
    (h : ∀ l ∈ ls, l.length = cols) :
    ls.map (fun l => fill_range l 0 (cols - 1) b)
      = List.replicate ls.length (List.replicate cols b) := by
  induction ls with
  | nil => rfl
  | cons a tl ih =>
    have ha : a.length = (cols - 1) + 1 := by
      rw [h a (List.mem_cons_self _ _)]; omega
    have e : cols - 1 + 1 = cols := by omega
    simp only [List.map_cons, List.length_cons, List.replicate_succ]
    rw [ih (fun l hl => h l (List.mem_cons_of_mem _ hl)), fill_range_all a (cols - 1) b ha, e]

/-- Clearing the whole screen leaves rows of blank cells with the cursor
colours, all marked dirty. -/
theorem tregion_clear_all (t : Term) (hg : grid_ok t)
    (hq : sel_quiet t (tregion_is_sel t)) :
    tregion_clear t 0 0 (t.size.col - 1) (t.size.row - 1)
      = .ok { t with
          line := List.replicate t.size.row (List.replicate t.size.col (blank_glyph t)),
          dirty := List.replicate t.size.row true } := by
  have hg2 := hg
  obtain ⟨h1, h2, h3, h4, h5, _, _⟩ := hg2
  rw [tregion_clear_quiet t 0 0 (t.size.col - 1) (t.size.row - 1) hg (Nat.zero_le _) (by omega)
    (Nat.zero_le _) (by omega) hq]
  have e : t.size.row - 1 + 1 - 0 = t.line.length := by omega
  have e2 : t.size.row - 1 + 1 - 0 = t.dirty.length := by omega
  congr 1
  congr 1
  · rw [e, map_range_all, map_fill_all t.line t.size.col _ h4 h2, h1]
  · rw [e2, map_range_all, map_const_eq_replicate, h3]

theorem sel_quiet_of_idle (t : Term) (h : sel_idle t.sel) : sel_quiet t (tregion_is_sel t) := by
  rcases h with h | h
  · left
    simp [tregion_is_sel, h]
  · right
    exact h

/-! ### Frame lemmas of the cursor functions -/

@[simp] theorem t_move_to_size (t : Term) (c r : Nat) : (t_move_to t c r).size = t.size := rfl
@[simp] theorem t_move_to_line (t : Term) (c r : Nat) : (t_move_to t c r).line = t.line := rfl
@[simp] theorem t_move_to_alt (t : Term) (c r : Nat) : (t_move_to t c r).alt = t.alt := rfl
@[simp] theorem t_move_to_dirty (t : Term) (c r : Nat) : (t_move_to t c r).dirty = t.dirty := rfl
@[simp] theorem t_move_to_sel (t : Term) (c r : Nat) : (t_move_to t c r).sel = t.sel := rfl
@[simp] theorem t_move_to_tabs (t : Term) (c r : Nat) : (t_move_to t c r).tabs = t.tabs := rfl
@[simp] theorem t_move_to_flags (t : Term) (c r : Nat) :
    (t_move_to t c r).flags = t.flags &&& cnot CURSOR_WRAPNEXT := rfl
@[simp] theorem t_move_to_attr (t : Term) (c r : Nat) : (t_move_to t c r).c.attr = t.c.attr := rfl
@[simp] theorem t_move_to_fg (t : Term) (c r : Nat) : (t_move_to t c r).c.fg = t.c.fg := rfl
@[simp] theorem t_move_to_bg (t : Term) (c r : Nat) : (t_move_to t c r).c.bg = t.c.bg := rfl

@[simp] theorem tcursor_save_size (t : Term) : (tcursor_save t).size = t.size := by
  unfold tcursor_save; split <;> rfl
@[simp] theorem tcursor_save_line (t : Term) : (tcursor_save t).line = t.line := by
  unfold tcursor_save; split <;> rfl
@[simp] theorem tcursor_save_alt (t : Term) : (tcursor_save t).alt = t.alt := by
  unfold tcursor_save; split <;> rfl
@[simp] theorem tcursor_save_dirty (t : Term) : (tcursor_save t).dirty = t.dirty := by
  unfold tcursor_save; split <;> rfl
@[simp] theorem tcursor_save_sel (t : Term) : (tcursor_save t).sel = t.sel := by
  unfold tcursor_save; split <;> rfl
@[simp] theorem tcursor_save_tabs (t : Term) : (tcursor_save t).tabs = t.tabs := by
  unfold tcursor_save; split <;> rfl
@[simp] theorem tcursor_save_flags (t : Term) : (tcursor_save t).flags = t.flags := by
  unfold tcursor_save; split <;> rfl
@[simp] theorem tcursor_save_c (t : Term) : (tcursor_save t).c = t.c := by
  unfold tcursor_save; split <;> rfl

theorem grid_ok_congr (t u : Term) (h : grid_ok t) (h1 : u.size = t.size) (h2 : u.line = t.line)
    (h3 : u.dirty = t.dirty) : grid_ok u := by
  unfold grid_ok at *
  rw [h1, h2, h3]
  exact h

@[simp] theorem blank_glyph_move (t : Term) (c r : Nat) :
    blank_glyph (t_move_to t c r) = blank_glyph t := rfl

@[simp] theorem blank_glyph_save (t : Term) : blank_glyph (tcursor_save t) = blank_glyph t := by
  simp [blank_glyph]

/-! ### Uniform screens -/

@[simp] theorem uniform_getElem? (cols rows r : Nat) (g : TermGlyph) :
    (uniform_screen cols rows g)[r]? = if r < rows then some (List.replicate cols g) else none := by
  simp [uniform_screen, List.getElem?_replicate]

@[simp] theorem uniform_getElem (cols rows r : Nat) (g : TermGlyph)
    (h : r < (uniform_screen cols rows g).length) :
    (uniform_screen cols rows g)[r] = List.replicate cols g := by
  simp [uniform_screen]

@[simp] theorem uniform_length (cols rows : Nat) (g : TermGlyph) :
    (uniform_screen cols rows g).length = rows := by
  simp [uniform_screen]

@[simp] theorem uniform_getD (cols rows r : Nat) (g : TermGlyph) (h : r < rows) :
    (uniform_screen cols rows g).getD r [] = List.replicate cols g := by
  rw [List.getD_eq_getElem?_getD, uniform_getElem?]
  simp [h]

theorem set_getD_self {α : Type} (xs : List α) (i : Nat) (a d : α) (h : i < xs.length) :
    (xs.set i a).getD i d = a := by
  rw [List.getD_eq_getElem?_getD]
  simp [h]

theorem uniform_mem (cols rows : Nat) (g : TermGlyph) (l : Line)
    (h : l ∈ uniform_screen cols rows g) : l = List.replicate cols g :=
  List.eq_of_mem_replicate h

theorem rows_ok_uniform (cols rows : Nat) (g : TermGlyph) :
    ∀ l ∈ uniform_screen cols rows g, l.length = cols := by
  intro l hl
  rw [uniform_mem cols rows g l hl]
  simp

theorem rows_ok_set (ls : List Line) (cols r : Nat) (l : Line)
    (h : ∀ x ∈ ls, x.length = cols) (hl : l.length = cols) :
    ∀ x ∈ ls.set r l, x.length = cols := by
  intro x hx
  rcases List.mem_or_eq_of_mem_set hx with h1 | h1
  · exact h x h1
  · rw [h1]; exact hl

/-- Clearing the whole screen of a terminal of `cols` by `rows` cells. -/
theorem tregion_clear_screen (t : Term) (cols rows : Nat)
    (hs : t.size = { row := rows, col := cols }) (hl : t.line.length = rows)
    (hl2 : ∀ l ∈ t.line, l.length = cols) (hd : t.dirty.length = rows)
    (hc : 1 ≤ cols) (hr : 1 ≤ rows) (hc2 : cols < 2147483648) (hr2 : rows < 2147483648)
    (hq : sel_idle t.sel) :
    tregion_clear t 0 0 (cols - 1) (rows - 1)
      = .ok { t with line := uniform_screen cols rows (blank_glyph t),
                     dirty := List.replicate rows true } := by
  have e1 : t.size.col = cols := by rw [hs]
  have e2 : t.size.row = rows := by rw [hs]
  have hg : grid_ok t := by
    refine ⟨?_, ?_, ?_, ?_, ?_, ?_, ?_⟩ <;> simp only [e1, e2] <;> assumption
  have := tregion_clear_all t hg (sel_quiet_of_idle t hq)
  rw [e1, e2] at this
  rw [this]
  rfl

theorem tregion_clear_screen2 (t : Term) (cols rows c2 r2 : Nat)
    (hs : t.size = { row := rows, col := cols }) (hl : t.line.length = rows)
    (hl2 : ∀ l ∈ t.line, l.length = cols) (hd : t.dirty.length = rows)
    (hc : 1 ≤ cols) (hr : 1 ≤ rows) (hc2 : cols < 2147483648) (hr2 : rows < 2147483648)
    (hq : sel_idle t.sel) (e1 : c2 = cols - 1) (e2 : r2 = rows - 1) :
    tregion_clear t 0 0 c2 r2
      = .ok { t with line := uniform_screen cols rows (blank_glyph t),
                     dirty := List.replicate rows true } := by
  rw [e1, e2]
  exact tregion_clear_screen t cols rows hs hl hl2 hd hc hr hc2 hr2 hq

theorem realloc_screen_nil_length (env : Env) (alt : Bool) (col row : Nat) :
    (realloc_screen env alt [] col row).length = row := by
  simp [realloc_screen]

theorem realloc_screen_nil_row (env : Env) (alt : Bool) (col row : Nat) :
    ∀ l ∈ realloc_screen env alt [] col row, l.length = col := by
  intro l hl
  simp [realloc_screen, realloc_line] at hl
  obtain ⟨a, _, rfl⟩ := hl
  simp

theorem t_set_dirt_all (t : Term) (h : t.dirty.length = t.size.row) (hr : 1 ≤ t.size.row) :
    t_set_dirt t 0 (usub t.size.row 1) = .ok { t with dirty := List.replicate t.size.row true } := by
  have e : usub t.size.row 1 = t.size.row - 1 := usub_of_le _ _ hr
  have a1 : ¬ t.size.row - 1 ≥ t.size.row := by omega
  have a2 : ¬ 0 ≥ t.size.row := by omega
  have a3 : t.size.row - 1 < t.dirty.length := by omega
  have a4 : t.dirty.length = (t.size.row - 1) + 1 := by omega
  have a5 : t.size.row - 1 + 1 = t.size.row := by omega
  simp only [t_set_dirt, e, a1, a2, a3, if_false, if_true, Nat.zero_le, fill_range_all _ _ _ a4, a5]

theorem t_swap_screen_eq (t : Term) (h : t.dirty.length = t.size.row) (hr : 1 ≤ t.size.row) :
    t_swap_screen t
      = .ok { t with line := t.alt, alt := t.line, flags := t.flags ^^^ MODE_ALTSCREEN,
                     dirty := List.replicate t.size.row true } := by
  unfold t_swap_screen t_full_dirt
  exact t_set_dirt_all _ h hr

theorem grid_ok_uniform (t : Term) (cols rows : Nat) (g : TermGlyph)
    (hs : t.size = { row := rows, col := cols }) (hl : t.line = uniform_screen cols rows g)
    (hd : t.dirty.length = rows) (hc : 1 ≤ cols) (hr : 1 ≤ rows)
    (hc2 : cols < 2147483648) (hr2 : rows < 2147483648) : grid_ok t := by
  refine ⟨?_, ?_, ?_, ?_, ?_, ?_, ?_⟩ <;> simp only [hs, hl, uniform_screen]
  · simp
  · intro ln h
    rw [List.eq_of_mem_replicate h]
    simp
  all_goals assumption

theorem i32_neg (n : Nat) (h1 : 1 ≤ n) (h2 : n < 2147483648) : i32 (usub 0 n) = -(n : Int) := by
  unfold i32 usub
  have : ¬ 0 ≥ n := by omega
  simp only [this, if_false, U32]
  omega

theorem i32_pos (n : Nat) (h2 : n < 2147483648) : i32 (usub n 0) = (n : Int) := by
  unfold i32 usub
  simp only [Nat.zero_le, if_true, Nat.sub_zero]
  omega

theorem t_resize_screens_succ (t : Term) (cols rows n : Nat)
    (hs : t.size = { row := rows, col := cols }) (hg : grid_ok t) (hq : sel_idle t.sel) :
    t_resize_screens 0 0 cols rows (n + 1) t
      = t_resize_screens 0 0 cols rows n
          (tcursor_load { t with
            line := t.alt,
            alt := uniform_screen cols rows (blank_glyph t),
            flags := t.flags ^^^ MODE_ALTSCREEN,
            dirty := List.replicate rows true }) := by
  have hg2 := hg
  obtain ⟨h1, h2, h3, h4, h5, _, _⟩ := hg2
  have hc : t.size.col = cols := by rw [hs]
  have hr : t.size.row = rows := by rw [hs]
  have a1 : 0 < cols := by omega
  have a2 : 0 < rows := by omega
  have := tregion_clear_all t hg (sel_quiet_of_idle t hq)
  rw [hc, hr] at this
  conv => lhs; unfold t_resize_screens
  simp only [a1, a2, gt_iff_lt, Nat.lt_irrefl, and_false, and_self, if_false, if_true, this]
  rw [t_swap_screen_eq]
  · simp [hr, uniform_screen]
  · simp [hr]
  · simpa [hr] using h5

theorem t_reset_screens_succ (t : Term) (n : Nat) (hg : grid_ok t) (hq : sel_idle t.sel) :
    t_reset_screens (n + 1) t
      = t_reset_screens n
          { tcursor_save (t_move_to t 0 0) with
            line := t.alt,
            alt := uniform_screen t.size.col t.size.row (blank_glyph t),
            flags := (t.flags &&& cnot CURSOR_WRAPNEXT) ^^^ MODE_ALTSCREEN,
            dirty := List.replicate t.size.row true } := by
  have hg1 : grid_ok (tcursor_save (t_move_to t 0 0)) :=
    grid_ok_congr t _ hg (by simp) (by simp) (by simp)
  have hq1 : sel_quiet (tcursor_save (t_move_to t 0 0))
      (tregion_is_sel (tcursor_save (t_move_to t 0 0))) :=
    sel_quiet_of_idle _ (by simpa using hq)
  obtain ⟨h1, h2, h3, h4, h5, _, _⟩ := hg
  have := tregion_clear_all _ hg1 hq1
  simp only [tcursor_save_size, t_move_to_size] at this
  conv => lhs; unfold t_reset_screens
  simp only [tcursor_save_size, t_move_to_size, usub_of_le _ _ h4, usub_of_le _ _ h5, this]
  rw [t_swap_screen_eq]
  · simp [uniform_screen]
  · simp
  · simpa using h5

theorem t_resize_drop_zero (rows : Nat) (hr : 1 ≤ rows) (hr2 : rows < 2147483648) :
    t_resize_drop term_zero rows = 0 := by
  have a2 : (-(rows : Int) < 0) := by omega
  simp [t_resize_drop, term_zero, i32_neg rows hr hr2, a2]

theorem t_resize_tabs_zero (cols : Nat) (tabs0 : List Bool) (hc2 : cols < 2147483648)
    (hc : 1 ≤ cols) :
    ∃ tabs : List Bool, tabs.length = cols ∧ t_resize_tabs term_zero cols tabs0 = .ok tabs := by
  have a3 : ((cols : Int) > 0) := by omega
  simp only [t_resize_tabs, term_zero, i32_pos cols hc2, a3, if_true]
  refine ⟨_, ?_, rfl⟩
  simp

theorem t_resize_zero (env : Env) (cols rows : Nat) (hc : 1 ≤ cols) (hr : 1 ≤ rows)
    (hc2 : cols < 2147483648) (hr2 : rows < 2147483648) :
    ∃ tabs : List Bool, tabs.length = cols ∧
    t_resize env term_zero cols rows
      = .ok { term_zero with
          size := { row := rows, col := cols },
          line := uniform_screen cols rows { rune := 32, attr := 0, fg := 0, bg := 0 },
          alt := uniform_screen cols rows { rune := 32, attr := 0, fg := 0, bg := 0 },
          dirty := List.replicate rows true,
          tabs := tabs,
          bottom := rows - 1 } := by
  unfold t_resize
  have a1 : ¬ (cols = 0 ∨ rows = 0) := by omega
  obtain ⟨tabs, hl, ht⟩ := t_resize_tabs_zero cols
    (List.take cols term_zero.tabs ++
      List.map (fun i => env.junk_tab (term_zero.tabs.length + i))
        (List.range (cols - term_zero.tabs.length))) hc2 hc
  refine ⟨tabs, hl, ?_⟩
  simp only [a1, if_false, t_resize_drop_zero rows hr hr2, ht]
  have a4 : ¬ rows - 1 ≥ rows := by omega
  have a5 : ¬ 0 ≥ rows := by omega
  have a6 : ¬ 0 ≥ cols := by omega
  simp [term_zero, t_set_scroll, t_move_to, a4, a5, a6]
  rw [t_resize_screens_succ _ cols rows 1 rfl]
  rotate_left
  · refine ⟨?_, ?_, ?_, ?_, ?_, ?_, ?_⟩ <;> simp only [] <;>
      first
        | exact realloc_screen_nil_length env false cols rows
        | exact realloc_screen_nil_row env false cols rows
        | simp
        | assumption
  · right; exact ⟨rfl, rfl⟩
  simp +decide [tcursor_load, t_move_to, term_flag, blank_glyph, a5, a6]
  rw [t_resize_screens_succ _ cols rows 0 rfl]
  rotate_left
  · refine ⟨?_, ?_, ?_, ?_, ?_, ?_, ?_⟩ <;> simp only [] <;>
      first
        | exact realloc_screen_nil_length env true cols rows
        | exact realloc_screen_nil_row env true cols rows
        | simp
        | assumption
  · right; exact ⟨rfl, rfl⟩
  simp +decide [tcursor_load, t_move_to, term_flag, blank_glyph, a5, a6, t_resize_screens]

/-- The state `t_new` builds: both screens blank in the default colours, the
cursor at home, wrap and UTF-8 modes on, tab stops every `TAB_SPACES` columns. -/
theorem t_new_eq (env : Env) (cols rows : Nat) (hc : 1 ≤ cols) (hr : 1 ≤ rows)
    (hc2 : cols < 2147483648) (hr2 : rows < 2147483648) :
    t_new env cols rows = .ok (fresh_term cols rows) := by
  obtain ⟨tabs, hl, h⟩ := t_resize_zero env cols rows hc hr hc2 hr2
  unfold t_new
  rw [h]
  have a1 : ¬ tabs.length < cols := by omega
  have a5 : ¬ 0 ≥ rows := by omega
  have a6 : ¬ 0 ≥ cols := by omega
  simp only [t_reset, a1, if_false, term_zero]
  rw [t_reset_screens_succ]
  rotate_left
  · exact grid_ok_uniform _ cols rows _ rfl rfl (by simp) hc hr hc2 hr2
  · right; exact ⟨rfl, rfl⟩
  simp +decide [tcursor_save, t_move_to, term_flag, blank_glyph, a5, a6]
  rw [t_reset_screens_succ]
  rotate_left
  · exact grid_ok_uniform _ cols rows _ rfl rfl (by simp) hc hr hc2 hr2
  · right; exact ⟨rfl, rfl⟩
  have e1 : List.drop cols tabs = [] := List.drop_eq_nil_of_le (by omega)
  simp +decide [tcursor_save, t_move_to, term_flag, blank_glyph, a5, a6, t_reset_screens,
    fresh_term, usub_of_le _ _ hr, e1, blank_cell]

/-! ### One round of the loop of `t_write` -/

/-- In UTF-8 mode an ASCII byte is one character: the loop hands it to
`t_putc` and goes on with the rest of the buffer. -/
theorem t_write_loop_ascii (putc : State → Nat → Except Fault State) (f : Nat) (st s2 : State)
    (b : Nat) (rest : List Nat) (n : Nat) (hb : b < 128)
    (hu : term_flag st.term MODE_UTF8 ≠ 0) (h : putc st b = .ok s2) :
    t_write_loop putc false (f + 1) st (b :: rest) n = t_write_loop putc false f s2 rest (n + 1) := by
  conv => lhs; unfold t_write_loop
  simp only [List.length_cons, Nat.add_one_ne_zero, if_false, hu, ne_eq, not_false_eq_true, if_true,
    utf8_decode_seq1 b rest _ hb (Nat.le_add_left 1 _), Bool.false_and, Bool.false_eq_true,
    Nat.one_ne_zero, h, List.drop_succ_cons, List.drop_zero]

theorem t_write_loop_cons (putc : State → Nat → Except Fault State) (f : Nat) (st : State)
    (b : Nat) (rest : List Nat) (n : Nat) (hb : b < 128)
    (hu : term_flag st.term MODE_UTF8 ≠ 0) :
    t_write_loop putc false (f + 1) st (b :: rest) n
      = (putc st b).bind fun s2 => t_write_loop putc false f s2 rest (n + 1) := by
  cases h : putc st b with
  | error e =>
    conv => lhs; unfold t_write_loop
    simp only [List.length_cons, Nat.add_one_ne_zero, if_false, hu, ne_eq, not_false_eq_true,
      if_true, utf8_decode_seq1 b rest _ hb (Nat.le_add_left 1 _), Bool.false_and,
      Bool.false_eq_true, Nat.one_ne_zero, h]
    rfl
  | ok s2 => exact t_write_loop_ascii putc f st s2 b rest n hb hu h

theorem t_write_loop_nil (putc : State → Nat → Except Fault State) (f : Nat) (st : State)
    (n : Nat) : t_write_loop putc false f st [] n = .ok (st, n) := by
  cases f <;> simp [t_write_loop]

/-- The body of `t_putc` for an ASCII rune outside a string sequence, printer
mode off. -/
theorem t_putc_body_ascii (env : Env) (putc : State → Nat → Except Fault State)
    (wr : State → List Nat → Except Fault State) (st : State) (rune : Nat) (hr : rune < 127)
    (hp : term_flag st.term MODE_PRINT = 0) (hs : term_flag st.term ESC_STR = 0) :
    t_putc_body env putc wr st rune
      = if ISCONTROL rune then
          (t_control_code env wr st rune).bind fun s3 =>
            if s3.term.flags &&& ESC_MASK = 0 then .ok { s3 with term := { s3.term with lastu := 0 } }
            else .ok s3
        else if term_flag st.term ESC_START ≠ 0 then t_putc_esc env putc wr st rune
        else t_putc_print env st rune 1 := by
  unfold t_putc_body
  simp only [hr, true_or, if_true, pure_eq_ok, ok_bind, hp, hs, ne_eq, not_true_eq_false, if_false,
    false_and]
  rfl

theorem t_putc_eq (env : Env) (st : State) (rune : Nat) :
    t_putc env st rune
      = t_putc_body env (t_putc_at env 3)
          (fun s bytes => (t_write_loop (t_putc_at env 3) true bytes.length s bytes 0).map Prod.fst)
          st rune := rfl

/-! ### Writing a cell -/

/-- The rune is stored as it is when the current character set is not the
graphic one. -/
theorem t_set_char_rune_plain (t : Term) (rune cs : Nat) (h0 : t.charset = 0)
    (h1 : t.trantbl[0]? = some cs) (h2 : cs ≠ CS_GRAPHIC0) :
    t_set_char_rune t rune = .ok rune := by
  have h3 : ¬ cs = 0 := h2
  simp [t_set_char_rune, h0, h1, h3]

/-- Function `t_set_char` on a cell that is neither half of a wide character:
the cell takes the rune and the cursor attributes, the row is marked dirty. -/
theorem t_set_char_plain (t : Term) (rune col row cs : Nat) (ln : Line) (tg : TermGlyph)
    (h0 : t.charset = 0) (h1 : t.trantbl[0]? = some cs) (h2 : cs ≠ CS_GRAPHIC0)
    (hrow : t.line[row]? = some ln) (hcol : ln[col]? = some tg)
    (hw : tg.attr &&& ATTR_WIDE = 0) (hd : tg.attr &&& ATTR_WDUMMY = 0)
    (hdirty : row < t.dirty.length) :
    t_set_char t rune col row
      = .ok { t with
          line := t.line.set row
            (ln.set col { rune := rune, attr := u16 t.c.attr, fg := u16 t.c.fg, bg := u16 t.c.bg }),
          dirty := t.dirty.set row true } := by
  have hc : col < ln.length := by
    rcases Nat.lt_or_ge col ln.length with h | h
    · exact h
    · rw [List.getElem?_eq_none h] at hcol
      cases hcol
  unfold t_set_char
  simp only [t_set_char_rune_plain t rune cs h0 h1 h2, get_row, hrow, get_cell, hcol, ok_bind, hw, hd,
    ne_eq, not_true_eq_false, if_false, pure_eq_ok, set_cell, hc, if_true, hdirty]

/-- Function `t_set_char` in the form used to run a trace: the row and the
cell are named through `getD`. -/
theorem t_set_char_at (t : Term) (rune col row : Nat)
    (h0 : t.charset = 0) (h1 : 0 < t.trantbl.length) (h2 : t.trantbl.getD 0 0 ≠ CS_GRAPHIC0)
    (hrow : row < t.line.length) (hcol : col < (t.line.getD row []).length)
    (hw : ((t.line.getD row []).getD col blank_cell).attr &&& ATTR_WIDE = 0)
    (hd : ((t.line.getD row []).getD col blank_cell).attr &&& ATTR_WDUMMY = 0)
    (hdirty : row < t.dirty.length) :
    t_set_char t rune col row
      = .ok { t with
          line := t.line.set row
            ((t.line.getD row []).set col
              { rune := rune, attr := u16 t.c.attr, fg := u16 t.c.fg, bg := u16 t.c.bg }),
          dirty := t.dirty.set row true } := by
  have e1 : t.line[row]? = some (t.line.getD row []) := by
    rw [List.getD_eq_getElem?_getD, List.getElem?_eq_getElem hrow]
    rfl
  have e2 : (t.line.getD row [])[col]? = some ((t.line.getD row []).getD col blank_cell) := by
    rw [List.getD_eq_getElem?_getD _ _ blank_cell, List.getElem?_eq_getElem hcol]
    rfl
  have e3 : t.trantbl[0]? = some (t.trantbl.getD 0 0) := by
    rw [List.getD_eq_getElem?_getD, List.getElem?_eq_getElem h1]
    rfl
  exact t_set_char_plain t rune col row _ _ _ h0 e3 h2 e1 e2 hw hd hdirty

/-- The part of `t_putc` that prints a rune one cell wide, when no wrap is
pending, insert mode is off and the cell fits; `t1` is the state after the
selection under the cursor has been cleared, `t5` the one after `t_set_char`. -/
theorem t_putc_print_plain (env : Env) (st : State) (rune : Nat) (t1 t5 : Term) (ln : Line)
    (hsel : (if t_selected st.term st.term.c.p.col st.term.c.p.row then sel_clear st.term
             else .ok st.term) = .ok t1)
    (hrow : t1.line[t1.c.p.row]? = some ln)
    (hwrap : t1.flags &&& (MODE_WRAP ||| CURSOR_WRAPNEXT) ≠ MODE_WRAP ||| CURSOR_WRAPNEXT)
    (hins : term_flag t1 MODE_INSERT = 0)
    (hfit : ¬ uadd t1.c.p.col 1 > t1.size.col)
    (hset : t_set_char t1 rune t1.c.p.col t1.c.p.row = .ok t5) :
    t_putc_print env st rune 1
      = if uadd t5.c.p.col 1 < t5.size.col then
          .ok { st with term := t_move_to { t5 with lastu := rune } (uadd t5.c.p.col 1) t5.c.p.row }
        else
          .ok { st with term := { t5 with lastu := rune, flags := t5.flags ||| CURSOR_WRAPNEXT } } := by
  unfold t_putc_print
  simp only [pure_eq_ok] at hsel ⊢
  simp only [hsel, ok_bind, get_row, hrow, hwrap, if_false, hins, ne_eq, not_true_eq_false, false_and,
    hfit, hset, pure_eq_ok, OfNat.one_ne_ofNat]

/-! ### Control codes and escape sequences -/

theorem or_and_ne_zero (a b m : Nat) (h : b &&& m ≠ 0) : (a ||| b) &&& m ≠ 0 := by
  intro h2
  apply h
  apply Nat.eq_of_testBit_eq
  intro i
  have := congrArg (fun n => Nat.testBit n i) h2
  simp only [Nat.testBit_and, Nat.testBit_or, Nat.zero_testBit] at this ⊢
  cases hb : b.testBit i <;> cases hm : m.testBit i <;> simp_all

theorem and_cnot_and (f m : Nat) (hm : m < 4294967296) : (f &&& cnot m) &&& m = 0 := by
  apply Nat.eq_of_testBit_eq
  intro i
  simp only [Nat.testBit_and, Nat.zero_testBit, cnot, Nat.testBit_xor]
  cases hb : m.testBit i
  · simp
  · have hi : i < 32 := by
      by_contra hge
      have h1 : m < 2 ^ i :=
        lt_of_lt_of_le hm (by
          calc 4294967296 = 2 ^ 32 := by norm_num
            _ ≤ 2 ^ i := Nat.pow_le_pow_right (by norm_num) (by omega))
      rw [Nat.testBit_lt_two_pow h1] at hb
      cases hb
    have h2 : Nat.testBit 4294967295 i = true := by
      have := Nat.testBit_two_pow_sub_one 32 i
      simpa [hi] using this
    simp [h2]

theorem and_sub_zero (f M m : Nat) (h : f &&& M = 0) (hm : m &&& M = m) : f &&& m = 0 := by
  rw [← hm, Nat.and_comm m M, ← Nat.and_assoc, h, Nat.zero_and]

/-- Control code ESC: a new escape sequence starts. -/
theorem t_putc_escape (env : Env) (st : State)
    (hp : term_flag st.term MODE_PRINT = 0) (hs : term_flag st.term ESC_STR = 0) :
    t_putc env st 0x1b
      = .ok { st with
          csiescseq := { st.csiescseq with len := 0 },
          term := { st.term with
            flags := (st.term.flags &&& cnot (ESC_CSI ||| ESC_ALTCHARSET ||| ESC_TEST)) ||| ESC_START } } := by
  rw [t_putc_eq, t_putc_body_ascii env _ _ st 0x1b (by decide) hp hs]
  have h1 : ISCONTROL 0x1b = true := by decide
  have h2 : ((st.term.flags &&& cnot (ESC_CSI ||| ESC_ALTCHARSET ||| ESC_TEST)) ||| ESC_START)
      &&& ESC_MASK ≠ 0 := or_and_ne_zero _ _ _ (by decide)
  simp only [h1, if_true, t_control_code, csi_reset]
  simp +decide only [Except.bind, h2, if_false]

/-- The byte `[` after ESC opens a CSI sequence. -/
theorem t_putc_bracket (env : Env) (st : State)
    (hp : term_flag st.term MODE_PRINT = 0) (hs : term_flag st.term ESC_STR = 0)
    (h1 : term_flag st.term ESC_START ≠ 0) (h2 : term_flag st.term ESC_CSI = 0)
    (h3 : term_flag st.term ESC_UTF8 = 0) (h4 : term_flag st.term ESC_ALTCHARSET = 0)
    (h5 : term_flag st.term ESC_TEST = 0) :
    t_putc env st 0x5b
      = .ok { st with term := { st.term with flags := st.term.flags ||| ESC_CSI } } := by
  rw [t_putc_eq, t_putc_body_ascii env _ _ st 0x5b (by decide) hp hs]
  have hc : ISCONTROL 0x5b = false := by decide
  simp only [hc, Bool.false_eq_true, if_false, h1, ne_eq, not_false_eq_true, if_true, t_putc_esc, h2,
    not_true_eq_false, h3, h4, h5, esc_handle]
  simp +decide

/-- A byte of a CSI sequence that does not end it is stored in the buffer. -/
theorem t_putc_csi_param (env : Env) (st : State) (rune : Nat) (hr : rune < 0x40)
    (hr2 : 0x20 ≤ rune)
    (hp : term_flag st.term MODE_PRINT = 0) (hs : term_flag st.term ESC_STR = 0)
    (h1 : term_flag st.term ESC_START ≠ 0) (h2 : term_flag st.term ESC_CSI ≠ 0)
    (hl : st.csiescseq.len < st.csiescseq.buf.length)
    (hl2 : st.csiescseq.len + 1 ≠ ESC_BUF_SIZ - 1) :
    t_putc env st rune
      = .ok { st with csiescseq := { st.csiescseq with
                buf := st.csiescseq.buf.set st.csiescseq.len rune,
                len := st.csiescseq.len + 1 } } := by
  rw [t_putc_eq, t_putc_body_ascii env _ _ st rune (by omega) hp hs]
  have hc : ISCONTROL rune = false := by
    simp [ISCONTROL, ISCONTROLC0, ISCONTROLC1, BETWEEN]
    omega
  have hb : BETWEEN rune 0x40 0x7E = false := by
    simp [BETWEEN]
    omega
  have hm : rune % 256 = rune := Nat.mod_eq_of_lt (by omega)
  simp only [hc, Bool.false_eq_true, if_false, h1, ne_eq, not_false_eq_true, if_true, t_putc_esc, h2,
    hl, hb, hm, Bool.false_or, decide_eq_true_eq, hl2]

/-- The final byte of a CSI sequence is stored and the sequence is handled. -/
theorem t_putc_csi_final (env : Env) (st : State) (rune : Nat) (hr : 0x40 ≤ rune)
    (hr2 : rune < 0x7f)
    (hp : term_flag st.term MODE_PRINT = 0) (hs : term_flag st.term ESC_STR = 0)
    (h1 : term_flag st.term ESC_START ≠ 0) (h2 : term_flag st.term ESC_CSI ≠ 0)
    (hl : st.csiescseq.len < st.csiescseq.buf.length) :
    t_putc env st rune
      = csi_handle env (t_putc_at env 3)
          (fun s bytes => (t_write_loop (t_putc_at env 3) true bytes.length s bytes 0).map Prod.fst)
          { st with csiescseq := { st.csiescseq with
                buf := st.csiescseq.buf.set st.csiescseq.len rune,
                len := st.csiescseq.len + 1 } } := by
  rw [t_putc_eq, t_putc_body_ascii env _ _ st rune (by omega) hp hs]
  have hc : ISCONTROL rune = false := by
    simp [ISCONTROL, ISCONTROLC0, ISCONTROLC1, BETWEEN]
    omega
  have hb : BETWEEN rune 0x40 0x7E = true := by
    simp [BETWEEN]
    omega
  have hm : rune % 256 = rune := Nat.mod_eq_of_lt (by omega)
  simp only [hc, Bool.false_eq_true, if_false, h1, ne_eq, not_false_eq_true, if_true, t_putc_esc, h2,
    hl, hb, hm, Bool.true_or]

/-- A printable ASCII rune outside an escape sequence is printed. -/
theorem t_putc_printable (env : Env) (st : State) (rune : Nat) (hr : 0x20 ≤ rune)
    (hr2 : rune < 0x7f)
    (hp : term_flag st.term MODE_PRINT = 0) (hs : term_flag st.term ESC_STR = 0)
    (h1 : term_flag st.term ESC_START = 0) :
    t_putc env st rune = t_putc_print env st rune 1 := by
  rw [t_putc_eq, t_putc_body_ascii env _ _ st rune (by omega) hp hs]
  have hc : ISCONTROL rune = false := by
    simp [ISCONTROL, ISCONTROLC0, ISCONTROLC1, BETWEEN]
    omega
  simp only [hc, Bool.false_eq_true, if_false, h1, ne_eq, not_true_eq_false]

/-- Control code HT outside any escape sequence: the cursor goes to the next
tab stop. -/
theorem t_putc_tab (env : Env) (st : State)
    (hp : term_flag st.term MODE_PRINT = 0) (hs : term_flag st.term ESC_MASK = 0) :
    t_putc env st 0x09
      = (t_put_next_tab st.term 1).map fun t2 => { st with term := { t2 with lastu := 0 } } := by
  have hs2 : term_flag st.term ESC_STR = 0 := and_sub_zero _ ESC_MASK _ hs (by decide)
  rw [t_putc_eq, t_putc_body_ascii env _ _ st 0x09 (by decide) hp hs2]
  have hc : ISCONTROL 0x09 = true := by decide
  simp only [hc, if_true, t_control_code]
  unfold t_put_next_tab
  cases h : t_put_next_tab_loop st.term.tabs (usub st.term.size.col 1) (st.term.tabs.length + 1)
      st.term.c.p.col 1 with
  | error e => rfl
  | ok col =>
    simp only [map_ok, Except.bind]
    have : term_flag st.term ESC_MASK = 0 := hs
    simp only [term_flag] at this
    simp only [this, if_true]

theorem zeros_eq (n : Nat) : zeros n = List.replicate n 0 := by
  unfold zeros
  rfl

@[simp] theorem zeros_length (n : Nat) : (zeros n).length = n := by simp [zeros_eq]

theorem zeros_succ (n : Nat) : zeros (n + 1) = 0 :: zeros n := by
  simp [zeros_eq, List.replicate_succ]

@[simp] theorem zeros_set_zero (n b : Nat) : (zeros (n + 1)).set 0 b = b :: zeros n := by
  simp [zeros_succ]

@[simp] theorem zeros_getElem?_zero (n : Nat) : (zeros (n + 1))[0]? = some 0 := by
  simp [zeros_succ]

theorem start_state_eq (env : Env) (cols rows : Nat) (w : Win) (hc : 1 ≤ cols) (hr : 1 ≤ rows)
    (hc2 : cols < 2147483648) (hr2 : rows < 2147483648) :
    start_state env cols rows w = .ok (ground_state cols rows w) := by
  unfold start_state ground_state
  rw [t_new_eq env cols rows hc hr hc2 hr2, zeros_eq]
  rfl

/-! ### Parsing the arguments of a CSI sequence -/

theorem strtol_eq (s : List Nat) :
    strtol s =
      (let ws := (s.takeWhile isspace).length
       let s1 := s.drop ws
       let neg := s1.head? = some 0x2d
       let sg := if s1.head? = some 0x2d ∨ s1.head? = some 0x2b then 1 else 0
       let r := strtol_digits (s1.drop sg) 0 0
       if r.2 = 0 then (0, 0)
       else
         let v : Int := if neg then -(r.1 : Int) else (r.1 : Int)
         let v := if v > LONG_MAX then LONG_MAX else if v < LONG_MIN then LONG_MIN else v
         (v, ws + sg + r.2)) := by
  unfold strtol
  rfl

/-! ### The trace of `A ESC [ 2 J ESC [ H B` -/

theorem replicate_set_zero {α : Type} (n : Nat) (a b : α) (h : 1 ≤ n) :
    (List.replicate n a).set 0 b = b :: List.replicate (n - 1) a := by
  obtain ⟨m, rfl⟩ : ∃ m, n = m + 1 := ⟨n - 1, by omega⟩
  simp [List.replicate_succ]

theorem uniform_set_zero (cols rows : Nat) (g : TermGlyph) (l : Line) (h : 1 ≤ rows) :
    (uniform_screen cols rows g).set 0 l = l :: List.replicate (rows - 1) (List.replicate cols g) := by
  unfold uniform_screen
  exact replicate_set_zero rows _ l h

theorem erase_home_write_wide (env : Env) (cols rows : Nat) (w : Win) (hc : 1 < cols) (hr : 1 ≤ rows)
    (hc2 : cols < 2147483648) (hr2 : rows < 2147483648) (x : Except Fault (State × Nat))
    (hx : t_write env (ground_state cols rows w)
      [0x41, 0x1b, 0x5b, 0x32, 0x4a, 0x1b, 0x5b, 0x48, 0x42] false = x) :
    ∃ st, x = .ok (st, 9) ∧
      st.term.line = (uniform_screen cols rows blank_cell).set 0
        ((List.replicate cols blank_cell).set 0
          { rune := 0x42, attr := 0, fg := DEFAULT_FG, bg := DEFAULT_BG }) ∧
      st.term.c.p = { row := 0, col := 1 } := by
  have a1 : 0 < rows := by omega
  have a2 : 0 < cols := by omega
  have a3 : rows ≠ 0 := by omega
  have a4 : ¬ cols < 1 := by omega
  have a5 : cols ≠ 0 := by omega
  have a6 : ¬ cols ≤ 1 := by omega
  have hc1 : 1 ≤ cols := by omega
  unfold t_write at hx
  simp only [List.length_cons, List.length_nil, Nat.zero_add, Nat.reduceAdd] at hx
  simp +decide only [t_write_loop_cons, t_putc_printable, term_flag, ground_state, fresh_term,
    MODE_UTF8, MODE_WRAP, MODE_PRINT, ESC_STR, ESC_START] at hx
  simp +decide [t_putc_print, t_selected, tregion_is_sel, tline_sel_get_margin, sel_clear,
    t_set_dirt, get_row, term_flag, BETWEEN, fill_range, usub_eq, a1, a2, a3, a4, a5, a6, hc,
    uadd_eq, t_set_char, t_set_char_rune, get_cell, set_cell, blank_cell, t_move_to] at hx
  simp +decide only [t_write_loop_cons, t_putc_escape, t_putc_bracket, t_putc_csi_param,
    t_putc_csi_final, term_flag, ok_bind2, zeros_length, List.length_set,
    MODE_UTF8, MODE_WRAP, MODE_PRINT, ESC_STR, ESC_START, ESC_CSI, ESC_UTF8, ESC_ALTCHARSET,
    ESC_TEST, ESC_BUF_SIZ] at hx
  simp +decide [csi_handle, csi_parse, csi_parse_loop, strtol_eq, strtol_digits, isdigit, isspace,
    i32_of_lt] at hx
  simp +decide [csi_handle0, csi_arg, csi_handle1_optional, csi_handle2_optional, csi_handle1,
    DEFAULT, usub_eq, a1, a2, hc1, hr] at hx
  rw [tregion_clear_screen _ cols rows rfl (by simp)
    (rows_ok_set _ cols _ _ (rows_ok_uniform _ _ _) (by simp)) (by simp; omega) hc1 hr hc2 hr2
    (Or.inl rfl)] at hx
  simp +decide [blank_glyph] at hx
  simp +decide only [t_write_loop_cons, t_putc_escape, t_putc_bracket, t_putc_csi_param,
    t_putc_csi_final, term_flag, ok_bind2, zeros_length, List.length_set, List.length_cons,
    MODE_UTF8, MODE_WRAP, MODE_PRINT, ESC_STR, ESC_START, ESC_CSI, ESC_UTF8, ESC_ALTCHARSET,
    ESC_TEST, ESC_BUF_SIZ] at hx
  simp +decide [csi_handle, csi_parse, csi_parse_loop, strtol_eq, strtol_digits, isdigit, isspace,
    i32_of_lt] at hx
  simp +decide [csi_handle0, csi_arg, csi_handle1_optional, csi_handle2_optional, csi_handle1,
    DEFAULT, usub_eq, a1, a2, a3, a5, hc1, hr, t_movea_to, t_move_to, term_flag] at hx
  simp +decide only [t_write_loop_cons, t_putc_printable, term_flag,
    MODE_UTF8, MODE_WRAP, MODE_PRINT, ESC_STR, ESC_START] at hx
  simp +decide [t_putc_print, t_selected, tregion_is_sel, tline_sel_get_margin, sel_clear,
    t_set_dirt, get_row, term_flag, BETWEEN, fill_range, usub_eq, a1, a2, a3, a4, a5, a6, hc,
    uadd_eq, t_set_char, t_set_char_rune, get_cell, set_cell, blank_cell, t_move_to,
    t_write_loop_nil] at hx
  subst hx
  refine ⟨_, rfl, ?_, ?_⟩
  · simp only [blank_cell, DEFAULT_FG, DEFAULT_BG]
  · simp only
theorem erase_home_write_narrow (env : Env) (rows : Nat) (w : Win) (hr : 1 ≤ rows)
    (hr2 : rows < 2147483648) (x : Except Fault (State × Nat))
    (hx : t_write env (ground_state 1 rows w)
      [0x41, 0x1b, 0x5b, 0x32, 0x4a, 0x1b, 0x5b, 0x48, 0x42] false = x) :
    ∃ st, x = .ok (st, 9) ∧
      st.term.line = (uniform_screen 1 rows blank_cell).set 0
        ((List.replicate 1 blank_cell).set 0
          { rune := 0x42, attr := 0, fg := DEFAULT_FG, bg := DEFAULT_BG }) ∧
      st.term.c.p = { row := 0, col := 0 } := by
  have a1 : 0 < rows := by omega
  have a3 : rows ≠ 0 := by omega
  unfold t_write at hx
  simp only [List.length_cons, List.length_nil, Nat.zero_add, Nat.reduceAdd] at hx
  simp +decide only [t_write_loop_cons, t_putc_printable, term_flag, ground_state, fresh_term,
    MODE_UTF8, MODE_WRAP, MODE_PRINT, ESC_STR, ESC_START] at hx
  simp +decide [t_putc_print, t_selected, tregion_is_sel, tline_sel_get_margin, sel_clear,
    t_set_dirt, get_row, term_flag, BETWEEN, fill_range, usub_eq, a1, a3,
    uadd_eq, t_set_char, t_set_char_rune, get_cell, set_cell, blank_cell, t_move_to] at hx
  simp +decide only [t_write_loop_cons, t_putc_escape, t_putc_bracket, t_putc_csi_param,
    t_putc_csi_final, term_flag, ok_bind2, zeros_length, List.length_set,
    MODE_UTF8, MODE_WRAP, MODE_PRINT, ESC_STR, ESC_START, ESC_CSI, ESC_UTF8, ESC_ALTCHARSET,
    ESC_TEST, ESC_BUF_SIZ] at hx
  simp +decide [csi_handle, csi_parse, csi_parse_loop, strtol_eq, strtol_digits, isdigit, isspace,
    i32_of_lt] at hx
  simp +decide [csi_handle0, csi_arg, csi_handle1_optional, csi_handle2_optional, csi_handle1,
    DEFAULT, usub_eq, a1, hr] at hx
  rw [tregion_clear_screen2 _ 1 rows 0 (rows - 1) rfl (by simp)
    (rows_ok_set _ 1 _ _ (rows_ok_uniform _ _ _) (by simp)) (by simp; omega) (by decide) hr
    (by decide) hr2 (Or.inl rfl) rfl rfl] at hx
  simp +decide [blank_glyph] at hx
  simp +decide only [t_write_loop_cons, t_putc_escape, t_putc_bracket, t_putc_csi_param,
    t_putc_csi_final, term_flag, ok_bind2, zeros_length, List.length_set, List.length_cons,
    MODE_UTF8, MODE_WRAP, MODE_PRINT, ESC_STR, ESC_START, ESC_CSI, ESC_UTF8, ESC_ALTCHARSET,
    ESC_TEST, ESC_BUF_SIZ] at hx
  simp +decide [csi_handle, csi_parse, csi_parse_loop, strtol_eq, strtol_digits, isdigit, isspace,
    i32_of_lt] at hx
  simp +decide [csi_handle0, csi_arg, csi_handle1_optional, csi_handle2_optional, csi_handle1,
    DEFAULT, usub_eq, a1, a3, hr, t_movea_to, t_move_to, term_flag] at hx
  simp +decide only [t_write_loop_cons, t_putc_printable, term_flag,
    MODE_UTF8, MODE_WRAP, MODE_PRINT, ESC_STR, ESC_START] at hx
  simp +decide [t_putc_print, t_selected, tregion_is_sel, tline_sel_get_margin, sel_clear,
    t_set_dirt, get_row, term_flag, BETWEEN, fill_range, usub_eq, a1, a3,
    uadd_eq, t_set_char, t_set_char_rune, get_cell, set_cell, blank_cell, t_move_to,
    t_write_loop_nil] at hx
  subst hx
  refine ⟨_, rfl, ?_, ?_⟩
  · simp [blank_cell]
  · simp only

/-- C6: from the state built by `t_new (cols, rows)`, the bytes `A`, `ESC [ 2 J`, `ESC [ H`, `B`
are all consumed and leave the rune `B` in the cell of column 0 and row 0 and a blank cell
(a space in the default colours, no attribute) everywhere else on the screen. -/
theorem erase_home_write (env : Env) (cols rows : Nat) (w : Win) (hc : 1 ≤ cols) (hr : 1 ≤ rows)
    (hc2 : cols < 2147483648) (hr2 : rows < 2147483648) :
    ∃ s0 st, start_state env cols rows w = .ok s0 ∧
      t_write env s0 [0x41, 0x1b, 0x5b, 0x32, 0x4a, 0x1b, 0x5b, 0x48, 0x42] false = .ok (st, 9) ∧
      st.term.line
        = ({ rune := 0x42, attr := 0, fg := DEFAULT_FG, bg := DEFAULT_BG }
            :: List.replicate (cols - 1) blank_cell)
          :: List.replicate (rows - 1) (List.replicate cols blank_cell) := by
  refine ⟨ground_state cols rows w, ?_⟩
  rcases Nat.lt_or_ge 1 cols with h | h
  · obtain ⟨st, h1, h2, _⟩ := erase_home_write_wide env cols rows w h hr hc2 hr2 _ rfl
    refine ⟨st, start_state_eq env cols rows w hc hr hc2 hr2, h1, ?_⟩
    rw [h2, uniform_set_zero _ _ _ _ hr, replicate_set_zero _ _ _ hc]
  · have e : cols = 1 := by omega
    subst e
    obtain ⟨st, h1, h2, _⟩ := erase_home_write_narrow env rows w hr hr2 _ rfl
    refine ⟨st, start_state_eq env 1 rows w hc hr hc2 hr2, h1, ?_⟩
    rw [h2, uniform_set_zero _ _ _ _ hr, replicate_set_zero _ _ _ hc]

theorem erase_home_write_witness :
    (1 ≤ 80 ∧ 1 ≤ 24 ∧ 80 < 2147483648 ∧ 24 < 2147483648) ∧
    ∃ s0 st, start_state sample_env 80 24 sample_win = .ok s0 ∧
      t_write sample_env s0 [0x41, 0x1b, 0x5b, 0x32, 0x4a, 0x1b, 0x5b, 0x48, 0x42] false
        = .ok (st, 9) ∧
      st.term.line
        = ({ rune := 0x42, attr := 0, fg := DEFAULT_FG, bg := DEFAULT_BG }
            :: List.replicate (80 - 1) blank_cell)
          :: List.replicate (24 - 1) (List.replicate 80 blank_cell) :=
  ⟨by decide, erase_home_write sample_env 80 24 sample_win (by decide) (by decide) (by decide)
    (by decide)⟩

/-! ### The count returned by `t_write` -/

/-- What `utf8_decode` returns on a whole non-empty buffer of bytes. -/
theorem utf8_decode_whole (buf : List Nat) (hlen : 1 ≤ buf.length) (hb : ∀ b ∈ buf, b < 256) :
    ∃ k u, utf8_decode buf buf.length = .ok (k, u) ∧ k ≤ buf.length ∧
      (k = 0 → buf.length ≤ 3) := by
  obtain ⟨n, u, _, h2, h3, h4⟩ := utf8_decode_count buf buf.length hlen (Nat.le_refl _) hb
  refine ⟨n, u, h2, ?_, ?_⟩
  · by_cases hn : n = 0
    · omega
    · exact (h4 hn).2
  · intro hn
    obtain ⟨k, hk, _, hl⟩ := h3.mp hn
    omega

/-- The loop of `t_write` with enough fuel, for any function in the place of
`t_putc`: it ends with a fault of one of the calls of that function, or it
returns the count `n0 + m` where `m` bytes of the buffer were consumed, the
rest being an incomplete UTF-8 sequence of at most three bytes met in UTF-8
mode. -/
theorem t_write_loop_spec (putc : State → Nat → Except Fault State) (sc : Bool) :
    ∀ (f : Nat) (st : State) (buf : List Nat) (n0 : Nat), buf.length ≤ f →
      (∀ b ∈ buf, b < 256) →
      (∃ st' m, t_write_loop putc sc f st buf n0 = .ok (st', n0 + m) ∧ m ≤ buf.length ∧
          buf.length - m ≤ 3 ∧
          (m < buf.length → term_flag st'.term MODE_UTF8 ≠ 0 ∧
            ∃ u, utf8_decode (buf.drop m) (buf.length - m) = .ok (0, u))) ∨
      (∃ e s r, t_write_loop putc sc f st buf n0 = .error e ∧ putc s r = .error e) := by
  intro f
  induction f with
  | zero =>
    intro st buf n0 hf _
    left
    have : buf.length = 0 := by omega
    exact ⟨st, 0, by simp [t_write_loop, this], by omega, by omega, by omega⟩
  | succ f ih =>
    intro st buf n0 hf hb
    by_cases hlen : buf.length = 0
    · left
      exact ⟨st, 0, by simp [t_write_loop, hlen], by omega, by omega, by omega⟩
    unfold t_write_loop
    simp only [hlen, if_false]
    generalize hdq : (ite (term_flag st.term MODE_UTF8 ≠ 0) _ _ : Except Fault (Nat × Nat)) = dec
    -- the decoded character
    have hdec : ∃ k u, dec = .ok (k, u) ∧ k ≤ buf.length ∧
        (k = 0 → buf.length ≤ 3 ∧ term_flag st.term MODE_UTF8 ≠ 0 ∧
          utf8_decode buf buf.length = .ok (0, u)) := by
      by_cases hu : term_flag st.term MODE_UTF8 ≠ 0
      · obtain ⟨k, u, h1, h2, h3⟩ := utf8_decode_whole buf (by omega) hb
        rw [if_pos hu, h1] at hdq
        refine ⟨k, u, hdq.symm, h2, ?_⟩
        intro hk
        subst hk
        exact ⟨h3 rfl, hu, h1⟩
      · rcases buf with _ | ⟨b, rest⟩
        · simp at hlen
        · rw [if_neg hu] at hdq
          simp only [List.getElem?_cons_zero] at hdq
          refine ⟨1, char_to_rune b, hdq.symm, by simp, ?_⟩
          intro h
          omega
    obtain ⟨k, u, hd, hk, hz⟩ := hdec
    subst hd
    simp only []
    by_cases hk0 : k = 0
    · left
      subst hk0
      obtain ⟨h3, hu, h1⟩ := hz rfl
      refine ⟨st, 0, by simp, by omega, by omega, ?_⟩
      intro _
      exact ⟨hu, u, by simpa using h1⟩
    simp only [hk0, if_false]
    -- the calls of `putc` for a control character that is shown
    have hr : ∀ (r : Except Fault (State × Nat)),
        ((∃ s1 r1, r = .ok (s1, r1)) ∨ ∃ e s c, r = .error e ∧ putc s c = .error e) →
        (∃ st' m,
            ((match r with
              | .error e => .error e
              | .ok (s1, rune) =>
                match putc s1 rune with
                | .error e => .error e
                | .ok s2 => t_write_loop putc sc f s2 (buf.drop k) (n0 + k) :
                Except Fault (State × Nat)))
              = .ok (st', n0 + m) ∧ m ≤ buf.length ∧ buf.length - m ≤ 3 ∧
            (m < buf.length → term_flag st'.term MODE_UTF8 ≠ 0 ∧
              ∃ u, utf8_decode (buf.drop m) (buf.length - m) = .ok (0, u))) ∨
        (∃ e s c,
            ((match r with
              | .error e => .error e
              | .ok (s1, rune) =>
                match putc s1 rune with
                | .error e => .error e
                | .ok s2 => t_write_loop putc sc f s2 (buf.drop k) (n0 + k) :
                Except Fault (State × Nat)))
              = .error e ∧ putc s c = .error e) := by
      intro r hr
      rcases hr with ⟨s1, r1, rfl⟩ | ⟨e, s, c, rfl, he⟩
      · simp only
        cases hp : putc s1 r1 with
        | error e => right; exact ⟨e, s1, r1, rfl, hp⟩
        | ok s2 =>
          simp only
          have hl : (buf.drop k).length ≤ f := by
            rw [List.length_drop]; omega
          have hb2 : ∀ b ∈ buf.drop k, b < 256 := fun b hb3 => hb b (List.mem_of_mem_drop hb3)
          rcases ih s2 (buf.drop k) (n0 + k) hl hb2 with ⟨st', m, h1, h2, h3, h4⟩ | ⟨e, s, c, h1, h2⟩
          · left
            rw [List.length_drop] at h2 h3 h4
            refine ⟨st', k + m, by rw [h1]; simp [Nat.add_assoc], by omega, by omega, ?_⟩
            intro hm
            obtain ⟨h5, u2, h6⟩ := h4 (by omega)
            refine ⟨h5, u2, ?_⟩
            rw [List.drop_drop] at h6
            have e1 : buf.length - (k + m) = buf.length - k - m := by omega
            rw [e1]
            exact h6
          · right
            exact ⟨e, s, c, h1, h2⟩
      · right
        exact ⟨e, s, c, rfl, he⟩
    apply hr
    by_cases c1 : (sc && ISCONTROL u) = true
    · simp only [c1, if_true]
      by_cases c2 : u &&& 0x80 ≠ 0
      · simp only [c2, ne_eq, not_false_eq_true, if_true]
        cases hp : putc st 0x5e with
        | error e => right; exact ⟨e, st, 0x5e, rfl, hp⟩
        | ok s1 =>
          simp only
          cases hp2 : putc s1 0x5b with
          | error e => right; exact ⟨e, s1, 0x5b, rfl, hp2⟩
          | ok s2 => left; exact ⟨_, _, rfl⟩
      · simp only [c2, if_false]
        by_cases c3 : u ≠ 0x0a ∧ u ≠ 0x0d ∧ u ≠ 0x09
        · rw [if_pos c3]
          cases hp : putc st 0x5e with
          | error e => right; exact ⟨e, st, 0x5e, rfl, hp⟩
          | ok s1 => left; exact ⟨_, _, rfl⟩
        · rw [if_neg c3]
          left; exact ⟨_, _, rfl⟩
    · simp only [c1, if_false]
      left; exact ⟨_, _, rfl⟩

/-- C4: for every buffer of `buflen ≥ 1` bytes, `t_write` either ends with a fault of one of its
calls of `t_putc`, or returns a count `n ≤ buflen` with at most three bytes left; it stops
before the end of the buffer only in UTF-8 mode, on a tail for which `utf8_decode` returns `0`
(an incomplete sequence), so with UTF-8 mode off at the end of the call `n = buflen`. -/
theorem t_write_consumed (env : Env) (st : State) (buf : List Nat) (sc : Bool)
    (hlen : 1 ≤ buf.length) (hb : ∀ b ∈ buf, b < 256) :
    (∃ st' n, t_write env st buf sc = .ok (st', n) ∧ n ≤ buf.length ∧ buf.length - n ≤ 3 ∧
        (n < buf.length → term_flag st'.term MODE_UTF8 ≠ 0 ∧
          ∃ u, utf8_decode (buf.drop n) (buf.length - n) = .ok (0, u)) ∧
        (term_flag st'.term MODE_UTF8 = 0 → n = buf.length)) ∨
    (∃ e s r, t_write env st buf sc = .error e ∧ t_putc env s r = .error e) := by
  have _ := hlen
  unfold t_write
  rcases t_write_loop_spec (t_putc env) sc buf.length st buf 0 (Nat.le_refl _) hb with
    ⟨st', m, h1, h2, h3, h4⟩ | h
  · left
    rw [Nat.zero_add] at h1
    refine ⟨st', m, h1, h2, h3, h4, ?_⟩
    intro hu
    by_contra hne
    exact (h4 (by omega)).1 hu
  · right
    exact h

theorem t_write_consumed_witness :
    (1 ≤ [0xE2, 0x82].length ∧ ∀ b ∈ [0xE2, 0x82], b < 256) ∧
    ((∃ st' n, t_write sample_env (ground_state 80 24 sample_win) [0xE2, 0x82] false
            = .ok (st', n) ∧ n ≤ [0xE2, 0x82].length ∧ [0xE2, 0x82].length - n ≤ 3 ∧
        (n < [0xE2, 0x82].length → term_flag st'.term MODE_UTF8 ≠ 0 ∧
          ∃ u, utf8_decode ([0xE2, 0x82].drop n) ([0xE2, 0x82].length - n) = .ok (0, u)) ∧
        (term_flag st'.term MODE_UTF8 = 0 → n = [0xE2, 0x82].length)) ∨
    (∃ e s r, t_write sample_env (ground_state 80 24 sample_win) [0xE2, 0x82] false = .error e ∧
        t_putc sample_env s r = .error e)) :=
  ⟨⟨by decide, by decide⟩,
   t_write_consumed sample_env (ground_state 80 24 sample_win) [0xE2, 0x82] false
     (by decide) (by decide)⟩

/-! ### `t_resize` with a zero dimension -/

/-- C14: `t_resize (col, row)` with `col = 0` or `row = 0` returns the terminal state it was
given: size, both grids, cursor, scroll region, tab stops, dirty flags and mode flags are
exactly as before the call. -/
theorem t_resize_zero_dim (env : Env) (t : Term) (col row : Nat) (h : col = 0 ∨ row = 0) :
    t_resize env t col row = .ok t := by
  unfold t_resize
  rw [if_pos h]

theorem t_resize_zero_dim_witness :
    ((0 : Nat) = 0 ∨ (24 : Nat) = 0) ∧
    t_resize sample_env (fresh_term 80 24) 0 24 = .ok (fresh_term 80 24) :=
  ⟨Or.inl rfl, t_resize_zero_dim sample_env (fresh_term 80 24) 0 24 (Or.inl rfl)⟩

/-! ### Saving and loading the cursor -/

theorem tcursor_save_bg0 (t : Term) : (tcursor_save t).cstack0.bg = t.cstack0.bg := by
  unfold tcursor_save
  split <;> rfl

theorem tcursor_save_bg1 (t : Term) : (tcursor_save t).cstack1.bg = t.cstack1.bg := by
  unfold tcursor_save
  split <;> rfl

theorem tcursor_load_bg (t : Term) :
    (tcursor_load t).c.bg = u32 (if term_flag t MODE_ALTSCREEN ≠ 0 then t.cstack1 else t.cstack0).bg := by
  unfold tcursor_load t_move_to
  rfl

/-- After `tcursor_save` and any change of the cursor, `tcursor_load` sets the background to
the value the slot of the active screen held before the save: the save does not store it. -/
theorem tcursor_save_keeps_bg (t : Term) (c2 : TermCursor) :
    (tcursor_load { tcursor_save t with c := c2 }).c.bg =
      u32 (if term_flag t MODE_ALTSCREEN ≠ 0 then t.cstack1 else t.cstack0).bg := by
  rw [tcursor_load_bg]
  have hf : term_flag { tcursor_save t with c := c2 } MODE_ALTSCREEN = term_flag t MODE_ALTSCREEN := by
    unfold term_flag
    rw [show ({ tcursor_save t with c := c2 } : Term).flags = (tcursor_save t).flags from rfl,
      tcursor_save_flags]
  rw [hf]
  by_cases h : term_flag t MODE_ALTSCREEN ≠ 0
  · rw [if_pos h, if_pos h]
    rw [show ({ tcursor_save t with c := c2 } : Term).cstack1 = (tcursor_save t).cstack1 from rfl,
      tcursor_save_bg1]
  · rw [if_neg h, if_neg h]
    rw [show ({ tcursor_save t with c := c2 } : Term).cstack0 = (tcursor_save t).cstack0 from rfl,
      tcursor_save_bg0]

/-- C20: on the 80 × 24 terminal left by `t_new` with the cursor background 3, `tcursor_save`
followed by `tcursor_load` leaves the background 0, and so does `tcursor_save`, a change of
the background to 5 and `tcursor_load`: the background of the save is not restored, while the
attributes, the foreground and the position are. -/
theorem tcursor_save_load_bg :
    bg3_term.c.bg = 3 ∧
    (tcursor_load (tcursor_save bg3_term)).c.bg = 0 ∧
    (tcursor_load { tcursor_save bg3_term with c := { bg3_term.c with bg := 5 } }).c.bg = 0 ∧
    (tcursor_load { tcursor_save bg3_term with c := { bg3_term.c with bg := 5 } }).c.fg = 256 ∧
    (tcursor_load { tcursor_save bg3_term with c := { bg3_term.c with bg := 5 } }).c.attr = 0 ∧
    (tcursor_load { tcursor_save bg3_term with c := { bg3_term.c with bg := 5 } }).c.p
      = { row := 0, col := 0 } := by
  refine ⟨rfl, ?_, ?_, ?_, ?_, ?_⟩
  · have h := tcursor_save_keeps_bg bg3_term bg3_term.c
    simpa [bg3_term, fresh_term, term_flag] using h
  · have h := tcursor_save_keeps_bg bg3_term { bg3_term.c with bg := 5 }
    simpa [bg3_term, fresh_term, term_flag] using h
  · simp +decide [tcursor_load, tcursor_save, t_move_to, bg3_term, fresh_term, term_flag,
      i16_of_lt, u32_of_lt, usub_eq]
  · simp +decide [tcursor_load, tcursor_save, t_move_to, bg3_term, fresh_term, term_flag,
      i16_of_lt, u32_of_lt, usub_eq]
  · simp +decide [tcursor_load, tcursor_save, t_move_to, bg3_term, fresh_term, term_flag,
      i16_of_lt, u32_of_lt, usub_eq]

/-! ### Region clear and the selection -/

/-- C18: on the 10 × 2 terminal whose selection is the cells of columns 1 and 2 of row 0,
the cell (1, 0) is selected, and `tregion_clear (0, 0, 9, 0)`, which clears the whole row 0,
returns with the selection as it was: `oe.col` is 2, not `UINT_MAX`. -/
theorem tregion_clear_keeps_sel :
    t_selected sel_term 1 0 = true ∧
    ∃ t, tregion_clear sel_term 0 0 9 0 = .ok t ∧ t.sel = sel_term.sel ∧ t.sel.oe.col = 2 ∧
      t.line.getD 0 [] = List.replicate 10 blank_cell := by
  constructor
  · simp +decide [t_selected, tregion_is_sel, tline_sel_get_margin, sel_term, fresh_term,
      term_flag, BETWEEN]
  · simp +decide [tregion_clear, tregion_clear_loop, tline_clear, tregion_is_sel,
      tline_sel_get_margin, sel_term, fresh_term, term_flag, get_row, uniform_screen,
      usub_eq, uadd_eq, fill_range, blank_glyph, blank_cell, u16_of_lt]

/-! ### The trace of `CSI 1 ; 31 m` and `CSI 0 m` -/

theorem sgr_bold_red_trace (env : Env) (cols rows : Nat) (c : TermCursor) (w : Win)
    (x : Except Fault (State × Nat))
    (hx : t_write env (cursor_state cols rows c w)
      [0x1b, 0x5b, 0x31, 0x3b, 0x33, 0x31, 0x6d] false = x) :
    x = .ok
      ({ cursor_state cols rows { c with attr := c.attr ||| ATTR_BOLD, fg := 1 } w with
         csiescseq := { mode0 := 0x6d, mode1 := 0,
                        buf := 0x31 :: 0x3b :: 0x33 :: 0x31 :: 0x6d :: 0 :: zeros 506, len := 5,
                        args := [1, 31, 0, 0, 0, 0, 0, 0, 0, 0, 0, 0, 0, 0, 0, 0], narg := 2 } },
       7) := by
  unfold t_write at hx
  simp only [List.length_cons, List.length_nil, Nat.zero_add, Nat.reduceAdd] at hx
  simp +decide only [t_write_loop_cons, t_putc_escape, t_putc_bracket, t_putc_csi_param,
    t_putc_csi_final, term_flag, ok_bind2, zeros_length, List.length_set, cursor_state,
    ground_state, fresh_term,
    MODE_UTF8, MODE_WRAP, MODE_PRINT, ESC_STR, ESC_START, ESC_CSI, ESC_UTF8, ESC_ALTCHARSET,
    ESC_TEST, ESC_BUF_SIZ] at hx
  simp +decide [csi_handle, csi_parse, csi_parse_loop, strtol_eq, strtol_digits, isdigit, isspace,
    i32_of_lt] at hx
  simp +decide [csi_handle0, t_set_attr, t_set_attr_loop, t_set_attr_step, csi_arg, i32_of_lt,
    u32_of_lt, set_c_attr, set_c_fg, set_c_bg, t_write_loop_nil] at hx
  subst hx
  simp +decide [cursor_state, ground_state, fresh_term]

theorem sgr_reset_trace (env : Env) (cols rows : Nat) (c : TermCursor) (w : Win)
    (x : Except Fault (State × Nat))
    (hx : t_write env
      { cursor_state cols rows c w with
         csiescseq := { mode0 := 0x6d, mode1 := 0,
                        buf := 0x31 :: 0x3b :: 0x33 :: 0x31 :: 0x6d :: 0 :: zeros 506, len := 5,
                        args := [1, 31, 0, 0, 0, 0, 0, 0, 0, 0, 0, 0, 0, 0, 0, 0], narg := 2 } }
      [0x1b, 0x5b, 0x30, 0x6d] false = x) :
    ∃ st, x = .ok (st, 4) ∧
      st.term = { fresh_term cols rows with
        c := { attr := c.attr &&& cnot (ATTR_BOLD ||| ATTR_FAINT ||| ATTR_ITALIC ||| ATTR_UNDERLINE
                 ||| ATTR_BLINK ||| ATTR_REVERSE ||| ATTR_INVISIBLE ||| ATTR_STRUCK),
               fg := DEFAULT_FG, bg := DEFAULT_BG, p := c.p } } := by
  unfold t_write at hx
  simp only [List.length_cons, List.length_nil, Nat.zero_add, Nat.reduceAdd] at hx
  simp +decide only [t_write_loop_cons, t_putc_escape, t_putc_bracket, t_putc_csi_param,
    t_putc_csi_final, term_flag, ok_bind2, zeros_length, List.length_set, List.length_cons,
    cursor_state, ground_state, fresh_term,
    MODE_UTF8, MODE_WRAP, MODE_PRINT, ESC_STR, ESC_START, ESC_CSI, ESC_UTF8, ESC_ALTCHARSET,
    ESC_TEST, ESC_BUF_SIZ] at hx
  simp +decide [csi_handle, csi_parse, csi_parse_loop, strtol_eq, strtol_digits, isdigit, isspace,
    i32_of_lt] at hx
  simp +decide [csi_handle0, t_set_attr, t_set_attr_loop, t_set_attr_step, csi_arg, i32_of_lt,
    u32_of_lt, set_c_attr, set_c_fg, set_c_bg, t_write_loop_nil] at hx
  subst hx
  refine ⟨_, rfl, ?_⟩
  simp +decide [fresh_term]

/-- C7: from the state left by `t_new` with any cursor `c` (any attributes, colours and
position), the bytes of `CSI 1 ; 31 m` are consumed and leave the terminal as it was except
for the cursor, whose attribute word is `c.attr` with `ATTR_BOLD` set and whose foreground is
the colour 1 (background and position unchanged); the bytes of `CSI 0 m` that follow leave
the cursor with the bits bold, faint, italic, underline, blink, reverse, invisible and struck
cleared, `fg = DEFAULT_FG` and `bg = DEFAULT_BG`. -/
theorem sgr_bold_red_reset (env : Env) (cols rows : Nat) (c : TermCursor) (w : Win) :
    ∃ s1 s2,
      t_write env (cursor_state cols rows c w) [0x1b, 0x5b, 0x31, 0x3b, 0x33, 0x31, 0x6d] false
        = .ok (s1, 7) ∧
      s1.term = { fresh_term cols rows with
                  c := { attr := c.attr ||| ATTR_BOLD, fg := 1, bg := c.bg, p := c.p } } ∧
      t_write env s1 [0x1b, 0x5b, 0x30, 0x6d] false = .ok (s2, 4) ∧
      s2.term.c.attr = (c.attr ||| ATTR_BOLD) &&& cnot 255 ∧
      s2.term.c.attr &&& (ATTR_BOLD ||| ATTR_FAINT ||| ATTR_ITALIC ||| ATTR_UNDERLINE |||
        ATTR_BLINK ||| ATTR_REVERSE ||| ATTR_INVISIBLE ||| ATTR_STRUCK) = 0 ∧
      s2.term.c.fg = DEFAULT_FG ∧ s2.term.c.bg = DEFAULT_BG ∧ s2.term.c.p = c.p := by
  have h1 := sgr_bold_red_trace env cols rows c w _ rfl
  obtain ⟨s2, h2, h3⟩ := sgr_reset_trace env cols rows
    { c with attr := c.attr ||| ATTR_BOLD, fg := 1 } w _ rfl
  refine ⟨_, s2, h1, rfl, h2, ?_, ?_, ?_, ?_, ?_⟩
  · rw [h3]
    rfl
  · rw [h3]
    exact and_cnot_and _ 255 (by decide)
  · rw [h3]
  · rw [h3]
  · rw [h3]

/-! ### The cursor position report -/

theorem fmt_int_nat (n : Nat) : fmt_int (n : Int) = (Nat.toDigits 10 n).map Char.toNat := by
  unfold fmt_int
  rw [if_neg (by omega)]
  simp

theorem tty_write_quiet (wr : State → List Nat → Except Fault State) (s : State)
    (bytes : List Nat) :
    tty_write wr s bytes false = .ok { s with cmd := s.cmd ++ tty_out s.term bytes } := by
  unfold tty_write
  simp only [Bool.false_and, Bool.false_eq_true, if_false, pure_eq_ok, ok_bind]

theorem tty_out_plain (t : Term) (bytes : List Nat) (h : term_flag t MODE_CRLF = 0) :
    tty_out t bytes = bytes := by
  unfold tty_out
  rw [if_pos h]

theorem csi_handle1_dsr (env : Env) (wr : State → List Nat → Except Fault State) (st : State)
    (hm : st.csiescseq.mode0 = 0x6e) (hf : term_flag st.term MODE_CRLF = 0)
    (hr : st.term.c.p.row < 2147483647) (hc : st.term.c.p.col < 2147483647) :
    csi_handle1 env wr st 6
      = .ok (some { st with
          cmd := st.cmd ++ (0x1b :: 0x5b :: ((Nat.toDigits 10 (st.term.c.p.row + 1)).map Char.toNat ++
            0x3b :: ((Nat.toDigits 10 (st.term.c.p.col + 1)).map Char.toNat ++ [0x52]))) }) := by
  unfold csi_handle1
  simp +decide only [hm, if_false, if_true, tty_write_quiet, map_ok]
  rw [tty_out_plain _ _ hf, uadd_of_lt _ _ (by omega), uadd_of_lt _ _ (by omega),
    i32_of_lt _ (by omega) (by omega), i32_of_lt _ (by omega) (by omega), fmt_int_nat, fmt_int_nat]
  simp only [List.cons_append, List.nil_append, List.append_assoc]

theorem dsr_trace (env : Env) (cols rows : Nat) (c : TermCursor) (w : Win)
    (hr : c.p.row < 2147483647) (hc : c.p.col < 2147483647)
    (x : Except Fault (State × Nat))
    (hx : t_write env (cursor_state cols rows c w) [0x1b, 0x5b, 0x36, 0x6e] false = x) :
    ∃ st, x = .ok (st, 4) ∧
      st.cmd = 0x1b :: 0x5b :: ((Nat.toDigits 10 (c.p.row + 1)).map Char.toNat ++
        0x3b :: ((Nat.toDigits 10 (c.p.col + 1)).map Char.toNat ++ [0x52])) ∧
      st.term = (cursor_state cols rows c w).term ∧ st.tw = w ∧ st.prn = [] := by
  unfold t_write at hx
  simp only [List.length_cons, List.length_nil, Nat.zero_add, Nat.reduceAdd] at hx
  simp +decide only [t_write_loop_cons, t_putc_escape, t_putc_bracket, t_putc_csi_param,
    t_putc_csi_final, term_flag, ok_bind2, zeros_length, List.length_set, cursor_state,
    ground_state, fresh_term,
    MODE_UTF8, MODE_WRAP, MODE_PRINT, ESC_STR, ESC_START, ESC_CSI, ESC_UTF8, ESC_ALTCHARSET,
    ESC_TEST, ESC_BUF_SIZ] at hx
  simp +decide [csi_handle, csi_parse, csi_parse_loop, strtol_eq, strtol_digits, isdigit, isspace,
    i32_of_lt] at hx
  simp +decide [csi_handle0, csi_arg, csi_handle1_optional, csi_handle2_optional,
    DEFAULT, csi_handle1_dsr, t_write_loop_nil, term_flag, hr, hc] at hx
  subst hx
  refine ⟨_, rfl, rfl, ?_, rfl, rfl⟩
  simp +decide [cursor_state, ground_state, fresh_term]

/-- C13: from the state left by `t_new` with the cursor at any row and column (below
`2^31 - 1`), the bytes of `CSI 6 n` are consumed and append to the byte sink of the child
process exactly `ESC [ <row + 1> ; <col + 1> R` with both numbers in decimal; the terminal
(grid, cursor, flags), the window and the printer sink are as before. -/
theorem dsr_reply (env : Env) (cols rows : Nat) (c : TermCursor) (w : Win)
    (hr : c.p.row < 2147483647) (hc : c.p.col < 2147483647) :
    ∃ st, t_write env (cursor_state cols rows c w) [0x1b, 0x5b, 0x36, 0x6e] false = .ok (st, 4) ∧
      st.cmd = [0x1b, 0x5b] ++ (Nat.toDigits 10 (c.p.row + 1)).map Char.toNat ++ [0x3b] ++
          (Nat.toDigits 10 (c.p.col + 1)).map Char.toNat ++ [0x52] ∧
      st.term = (cursor_state cols rows c w).term ∧ st.tw = w ∧ st.prn = [] := by
  obtain ⟨st, h1, h2, h3, h4, h5⟩ := dsr_trace env cols rows c w hr hc _ rfl
  refine ⟨st, h1, ?_, h3, h4, h5⟩
  rw [h2]
  simp only [List.cons_append, List.nil_append, List.append_assoc]

theorem dsr_reply_witness :
    (sample_cursor.p.row < 2147483647 ∧ sample_cursor.p.col < 2147483647) ∧
    ∃ st, t_write sample_env (cursor_state 80 24 sample_cursor sample_win)
        [0x1b, 0x5b, 0x36, 0x6e] false = .ok (st, 4) ∧
      st.cmd = [0x1b, 0x5b] ++ (Nat.toDigits 10 (sample_cursor.p.row + 1)).map Char.toNat ++
          [0x3b] ++ (Nat.toDigits 10 (sample_cursor.p.col + 1)).map Char.toNat ++ [0x52] ∧
      st.term = (cursor_state 80 24 sample_cursor sample_win).term ∧ st.tw = sample_win ∧
      st.prn = [] :=
  ⟨⟨by simp [sample_cursor], by simp [sample_cursor]⟩,
   dsr_reply sample_env 80 24 sample_cursor sample_win (by simp [sample_cursor])
     (by simp [sample_cursor])⟩

/-! ### Extended colours in `t_set_attr` -/

theorem t_set_attr_loop_done (env : Env) (f : Nat) (k : Nat) (st : State) :
    t_set_attr_loop env f 0 k st = .ok st := by
  cases f <;> simp [t_set_attr_loop]

theorem u32_two : u32 2 = 2 := u32_of_lt 2 (by omega) (by omega)

theorem u32_five : u32 5 = 5 := u32_of_lt 5 (by omega) (by omega)

/-- One round of the loop of `t_set_attr` on a 38 or 48 whose sub-command returns `-1` with
one argument left: the state is unchanged and the loop ends. -/
theorem t_set_attr_loop_skip (env : Env) (st : State) (f k k2 : Nat) (i a : Int)
    (hk : csi_arg st k = .ok a) (ha : a = 38 ∨ a = 48) (hi : 0 < i)
    (hd : t_def_color env st k i = .ok (st, -1, k2, 1)) :
    t_set_attr_loop env (f + 1) i k st = .ok st := by
  unfold t_set_attr_loop
  rw [if_pos hi, hk]
  rcases ha with rfl | rfl
  · simp +decide [t_set_attr_step, hd, t_set_attr_loop_done]
  · simp +decide [t_set_attr_step, hd, t_set_attr_loop_done]

/-- C11 (amended): when the loop of `t_set_attr` reaches, with `i` arguments left, a 38 or
48 that ends the list as a sub-command of one of the forms: alone (`i = 1`); followed by one
argument only (`i = 2`: a type with no component or index); followed by 5 and an index outside
`0 .. 255` (`i = 3`); or followed by 2 and three components not all in `0 .. 255` (`i = 5`),
the call returns the state it had at that point: `attr`, `fg` and `bg` of the cursor keep the
values given by the arguments processed before. -/
theorem t_set_attr_skips (env : Env) (st : State) (f k : Nat) (i a : Int)
    (hk : csi_arg st k = .ok a) (ha : a = 38 ∨ a = 48) (hf : i.toNat ≤ f)
    (ht : i = 1 ∨
      (i = 2 ∧ ∃ ty, csi_arg st (k + 1) = .ok ty) ∨
      (i = 3 ∧ csi_arg st (k + 1) = .ok 5 ∧
        ∃ v, csi_arg st (k + 2) = .ok v ∧ ¬ (0 ≤ v ∧ v ≤ 255)) ∨
      (i = 5 ∧ csi_arg st (k + 1) = .ok 2 ∧
        ∃ r g b, csi_arg st (k + 2) = .ok r ∧ csi_arg st (k + 3) = .ok g ∧
          csi_arg st (k + 4) = .ok b ∧
          ¬ ((0 ≤ r ∧ r ≤ 255) ∧ (0 ≤ g ∧ g ≤ 255) ∧ (0 ≤ b ∧ b ≤ 255)))) :
    t_set_attr_loop env f i k st = .ok st := by
  have hi : 0 < i := by
    rcases ht with h | ⟨h, _⟩ | ⟨h, _⟩ | ⟨h, _⟩ <;> omega
  obtain ⟨f, rfl⟩ : ∃ g, f = g + 1 := ⟨f - 1, by omega⟩
  rcases ht with h | ⟨h, ty, hty⟩ | ⟨h, h5, v, hv, hbad⟩ | ⟨h, h2, r, g, b, hr, hg, hb, hbad⟩
  · subst h
    unfold t_set_attr_loop
    rw [if_pos hi, hk]
    rcases ha with rfl | rfl
    · simp +decide [t_set_attr_step, t_def_color, t_set_attr_loop_done]
    · simp +decide [t_set_attr_step, t_def_color, t_set_attr_loop_done]
  · subst h
    by_cases c2 : u32 ty = 2
    · exact t_set_attr_loop_skip env st f k (k + 1) 2 a hk ha hi
        (by simp +decide [t_def_color, hty, c2, t_def_color_rgb])
    · by_cases c5 : u32 ty = 5
      · exact t_set_attr_loop_skip env st f k (k + 1) 2 a hk ha hi
          (by simp +decide [t_def_color, hty, c2, c5, t_def_color_index])
      · exact t_set_attr_loop_skip env st f k (k + 1) 2 a hk ha hi
          (by simp +decide [t_def_color, hty, c2, c5])
  · subst h
    have hbad2 : v < 0 ∨ 255 < v := by omega
    exact t_set_attr_loop_skip env st f k (k + 2) 3 a hk ha hi
      (by simp +decide [t_def_color, h5, u32_five, t_def_color_index, hv, hbad2])
  · subst h
    have hbad2 : (!(decide (0 ≤ r ∧ r ≤ 255)) || !(decide (0 ≤ g ∧ g ≤ 255)) ||
        !(decide (0 ≤ b ∧ b ≤ 255))) = true := by
      by_contra hn
      apply hbad
      simp only [Bool.or_eq_true, Bool.not_eq_true', decide_eq_false_iff_not, not_or,
        not_not] at hn
      exact ⟨hn.1.1, hn.1.2, hn.2⟩
    exact t_set_attr_loop_skip env st f k (k + 4) 5 a hk ha hi
      (by
        simp only [t_def_color, t_def_color_rgb, h2, u32_two, hr, hg, hb, hbad2, ok_bind,
          pure_eq_ok, if_true]
        simp +decide)

theorem t_set_attr_skips_witness :
    (csi_arg sgr_state 1 = .ok 38 ∧ ((38 : Int) = 38 ∨ (38 : Int) = 48) ∧
      (3 : Int).toNat ≤ 3 ∧
      ((3 : Int) = 1 ∨
        ((3 : Int) = 2 ∧ ∃ ty, csi_arg sgr_state (1 + 1) = .ok ty) ∨
        ((3 : Int) = 3 ∧ csi_arg sgr_state (1 + 1) = .ok 5 ∧
          ∃ v, csi_arg sgr_state (1 + 2) = .ok v ∧ ¬ (0 ≤ v ∧ v ≤ 255)) ∨
        ((3 : Int) = 5 ∧ csi_arg sgr_state (1 + 1) = .ok 2 ∧
          ∃ r g b, csi_arg sgr_state (1 + 2) = .ok r ∧ csi_arg sgr_state (1 + 3) = .ok g ∧
            csi_arg sgr_state (1 + 4) = .ok b ∧
            ¬ ((0 ≤ r ∧ r ≤ 255) ∧ (0 ≤ g ∧ g ≤ 255) ∧ (0 ≤ b ∧ b ≤ 255))))) ∧
    t_set_attr_loop sample_env 3 3 1 sgr_state = .ok sgr_state :=
  have h1 : csi_arg sgr_state 1 = .ok 38 := by simp [csi_arg, sgr_state]
  have h2 : (3 : Int).toNat ≤ 3 := by decide
  have h3 : ((3 : Int) = 1 ∨
        ((3 : Int) = 2 ∧ ∃ ty, csi_arg sgr_state (1 + 1) = .ok ty) ∨
        ((3 : Int) = 3 ∧ csi_arg sgr_state (1 + 1) = .ok 5 ∧
          ∃ v, csi_arg sgr_state (1 + 2) = .ok v ∧ ¬ (0 ≤ v ∧ v ≤ 255)) ∨
        ((3 : Int) = 5 ∧ csi_arg sgr_state (1 + 1) = .ok 2 ∧
          ∃ r g b, csi_arg sgr_state (1 + 2) = .ok r ∧ csi_arg sgr_state (1 + 3) = .ok g ∧
            csi_arg sgr_state (1 + 4) = .ok b ∧
            ¬ ((0 ≤ r ∧ r ≤ 255) ∧ (0 ≤ g ∧ g ≤ 255) ∧ (0 ≤ b ∧ b ≤ 255)))) :=
    Or.inr (Or.inr (Or.inl ⟨rfl, by simp [csi_arg, sgr_state],
      300, by simp [csi_arg, sgr_state], by omega⟩))
  ⟨⟨h1, Or.inl rfl, h2, h3⟩,
   t_set_attr_skips sample_env sgr_state 3 1 3 38 h1 (Or.inl rfl) h2 h3⟩

theorem sgr_bold_trace (x : Except Fault (State × Nat))
    (hx : t_write sample_env (ground_state 80 24 sample_win) [0x1b, 0x5b, 0x31, 0x6d] false = x) :
    ∃ st, x = .ok (st, 4) ∧ st.term.c.attr = ATTR_BOLD := by
  unfold t_write at hx
  simp only [List.length_cons, List.length_nil, Nat.zero_add, Nat.reduceAdd] at hx
  simp +decide only [t_write_loop_cons, t_putc_escape, t_putc_bracket, t_putc_csi_param,
    t_putc_csi_final, term_flag, ok_bind2, zeros_length, List.length_set,
    ground_state, fresh_term,
    MODE_UTF8, MODE_WRAP, MODE_PRINT, ESC_STR, ESC_START, ESC_CSI, ESC_UTF8, ESC_ALTCHARSET,
    ESC_TEST, ESC_BUF_SIZ] at hx
  simp +decide [csi_handle, csi_parse, csi_parse_loop, strtol_eq, strtol_digits, isdigit, isspace,
    i32_of_lt] at hx
  simp +decide [csi_handle0, t_set_attr, t_set_attr_loop, t_set_attr_step, csi_arg, i32_of_lt,
    u32_of_lt, set_c_attr, set_c_fg, set_c_bg, t_write_loop_nil] at hx
  subst hx
  exact ⟨_, rfl, rfl⟩

theorem sgr_short_rgb_trace (x : Except Fault (State × Nat))
    (hx : t_write sample_env (ground_state 80 24 sample_win)
      [0x1b, 0x5b, 0x31, 0x3b, 0x33, 0x38, 0x3b, 0x32, 0x3b, 0x30, 0x6d] false = x) :
    ∃ st, x = .ok (st, 11) ∧ st.term.c.attr = 0 ∧
      st.csiescseq.args = [1, 38, 2, 0, 0, 0, 0, 0, 0, 0, 0, 0, 0, 0, 0, 0] ∧
      st.csiescseq.narg = 4 := by
  unfold t_write at hx
  simp only [List.length_cons, List.length_nil, Nat.zero_add, Nat.reduceAdd] at hx
  simp +decide only [t_write_loop_cons, t_putc_escape, t_putc_bracket, t_putc_csi_param,
    t_putc_csi_final, term_flag, ok_bind2, zeros_length, List.length_set,
    ground_state, fresh_term,
    MODE_UTF8, MODE_WRAP, MODE_PRINT, ESC_STR, ESC_START, ESC_CSI, ESC_UTF8, ESC_ALTCHARSET,
    ESC_TEST, ESC_BUF_SIZ] at hx
  simp +decide [csi_handle, csi_parse, csi_parse_loop, strtol_eq, strtol_digits, isdigit, isspace,
    i32_of_lt] at hx
  simp +decide [csi_handle0, t_set_attr, t_set_attr_loop, t_set_attr_step, csi_arg, i32_of_lt,
    u32_of_lt, u32_two, set_c_attr, set_c_fg, set_c_bg, t_def_color, t_def_color_rgb,
    t_write_loop_nil] at hx
  subst hx
  exact ⟨_, rfl, rfl, rfl, rfl⟩

/-- C11 (counterexample): on the 80 × 24 terminal left by `t_new`, `CSI 1 m` leaves the
cursor attribute `ATTR_BOLD`, but `CSI 1 ; 38 ; 2 ; 0 m`, whose argument list is the same `1`
followed by an RGB sub-command with one component, leaves the attribute word 0: the
component `0` is read as the SGR argument 0 and resets the attributes applied before. -/
theorem sgr_short_rgb_resets :
    (∃ st, t_write sample_env (ground_state 80 24 sample_win) [0x1b, 0x5b, 0x31, 0x6d] false
        = .ok (st, 4) ∧ st.term.c.attr = ATTR_BOLD) ∧
    (∃ st, t_write sample_env (ground_state 80 24 sample_win)
        [0x1b, 0x5b, 0x31, 0x3b, 0x33, 0x38, 0x3b, 0x32, 0x3b, 0x30, 0x6d] false = .ok (st, 11) ∧
      st.term.c.attr = 0 ∧
      st.csiescseq.args = [1, 38, 2, 0, 0, 0, 0, 0, 0, 0, 0, 0, 0, 0, 0, 0] ∧
      st.csiescseq.narg = 4) :=
  ⟨sgr_bold_trace _ rfl, sgr_short_rgb_trace _ rfl⟩

/-! ### The arguments stored by `csi_parse` -/

theorem strtol_digits_append (ds : List Nat) (hd : ∀ d ∈ ds, isdigit d = true) (c : Nat)
    (rest : List Nat) (hc : isdigit c = false) :
    ∀ acc k, strtol_digits (ds ++ c :: rest) acc k
      = (ds.foldl (fun a d => a * 10 + (d - 0x30)) acc, k + ds.length) := by
  induction ds with
  | nil =>
    intro acc k
    simp [strtol_digits, hc]
  | cons d tl ih =>
    intro acc k
    have h1 : isdigit d = true := hd d (List.mem_cons_self _ _)
    have h2 : ∀ x ∈ tl, isdigit x = true := fun x hx => hd x (List.mem_cons_of_mem _ hx)
    rw [List.cons_append]
    unfold strtol_digits
    rw [if_pos h1, ih h2]
    simp only [List.foldl_cons, List.length_cons]
    congr 1
    omega

/-- Function `strtol` on a field of decimal digits that ends at `;` or at the final byte of
the sequence: the value of the digits and their count (nothing is converted when the field
is empty). -/
theorem strtol_field (ds : List Nat) (hd : ∀ d ∈ ds, isdigit d = true) (c : Nat)
    (rest : List Nat) (hc : c = 0x3b ∨ (0x40 ≤ c ∧ c ≤ 0x7e))
    (hv : dec_value ds < 2147483648) :
    strtol (ds ++ c :: rest) = ((dec_value ds : Int), ds.length) := by
  have hc1 : isdigit c = false := by
    rcases hc with rfl | ⟨h1, h2⟩
    · decide
    · simp [isdigit]; omega
  have hc2 : isspace c = false := by
    rcases hc with rfl | ⟨h1, h2⟩
    · decide
    · simp [isspace]; omega
  have hc3 : c ≠ 0x2d ∧ c ≠ 0x2b := by
    rcases hc with rfl | ⟨h1, h2⟩
    · decide
    · omega
  rw [strtol_eq]
  cases ds with
  | nil =>
    simp [hc2, hc3.1, hc3.2, strtol_digits, hc1, dec_value]
  | cons d tl =>
    have h1 : isdigit d = true := hd d (List.mem_cons_self _ _)
    have h2 : isspace d = false := by
      simp only [isdigit, isspace] at h1 ⊢
      simp only [Bool.and_eq_true, decide_eq_true_eq] at h1
      simp
      omega
    have h3 : d ≠ 0x2d ∧ d ≠ 0x2b := by
      simp only [isdigit, Bool.and_eq_true, decide_eq_true_eq] at h1
      omega
    have h4 := strtol_digits_append (d :: tl) hd c rest hc1 0 0
    simp only [List.cons_append] at h4
    have h5 : (dec_value (d :: tl) : Int) ≤ LONG_MAX := by
      unfold LONG_MAX
      omega
    have h6 : LONG_MIN ≤ (dec_value (d :: tl) : Int) := by
      unfold LONG_MIN
      omega
    simp only [List.cons_append, List.takeWhile_cons, h2, Bool.false_eq_true, if_false,
      List.length_nil, List.drop_zero, List.head?_cons, Option.some.injEq, h3.1, h3.2, or_self,
      h4, List.length_cons, Nat.zero_add]
    simp only [dec_value] at h5 h6 ⊢
    simp only [Nat.add_one_ne_zero, if_false, decide_False, Bool.false_eq_true, not_lt.mpr h5,
      not_lt.mpr h6]

/-- C10 (amended): one round of the argument loop of `csi_parse` on a field of decimal
digits `ds` that ends at `;` or at the final byte, with a value below `2^31`: the argument
stored is the decimal value of the field (0 for an empty field), the loop stops at a final
byte or after the 16th argument and goes on behind the `;` otherwise. -/
theorem csi_parse_loop_field (buf : List Nat) (e f s : Nat) (args : List Int) (narg : Nat)
    (ds : List Nat) (c : Nat) (rest : List Nat) (hs : s < e) (hn : narg < args.length)
    (hbuf : buf.drop s = ds ++ c :: rest) (hd : ∀ d ∈ ds, isdigit d = true)
    (hc : c = 0x3b ∨ (0x40 ≤ c ∧ c ≤ 0x7e)) (hv : dec_value ds < 2147483648) :
    csi_parse_loop buf e (f + 1) s args narg
      = if c ≠ 0x3b then .ok (s + ds.length, args.set narg (dec_value ds : Int), narg + 1)
        else if narg + 1 = ESC_ARG_SIZ then
          .ok (s + ds.length, args.set narg (dec_value ds : Int), narg + 1)
        else csi_parse_loop buf e f (s + ds.length + 1) (args.set narg (dec_value ds : Int))
          (narg + 1) := by
  have hget : buf[s + ds.length]? = some c := by
    have h := congrArg (fun l => l[ds.length]?) hbuf
    simp only [List.getElem?_drop] at h
    rw [h, List.getElem?_append_right (Nat.le_refl _)]
    simp
  have hval : (if ds.length = 0 then (0 : Int)
      else if (dec_value ds : Int) = LONG_MAX ∨ (dec_value ds : Int) = LONG_MIN then -1
      else (dec_value ds : Int)) = (dec_value ds : Int) := by
    by_cases h0 : ds.length = 0
    · rw [if_pos h0]
      have : ds = [] := List.length_eq_zero.mp h0
      subst this
      rfl
    · rw [if_neg h0, if_neg]
      unfold LONG_MAX LONG_MIN
      omega
  conv => lhs; unfold csi_parse_loop
  rw [if_pos hs, hbuf, strtol_field ds hd c rest hc hv]
  simp only [hval, if_pos hn, hget]
  rw [i32_of_lt _ (by omega) (by omega)]

theorem csi_parse_loop_field_witness :
    ((0 : Nat) < 5 ∧ 0 < (List.replicate 16 (0 : Int)).length ∧
      [0x31, 0x32, 0x3b, 0x35, 0x6d].drop 0 = [0x31, 0x32] ++ 0x3b :: [0x35, 0x6d] ∧
      (∀ d ∈ [0x31, 0x32], isdigit d = true) ∧
      ((0x3b : Nat) = 0x3b ∨ (0x40 ≤ (0x3b : Nat) ∧ (0x3b : Nat) ≤ 0x7e)) ∧
      dec_value [0x31, 0x32] < 2147483648) ∧
    csi_parse_loop [0x31, 0x32, 0x3b, 0x35, 0x6d] 5 (16 + 1) 0 (List.replicate 16 (0 : Int)) 0
      = if (0x3b : Nat) ≠ 0x3b then
          .ok (0 + [0x31, 0x32].length,
            (List.replicate 16 (0 : Int)).set 0 (dec_value [0x31, 0x32] : Int), 0 + 1)
        else if 0 + 1 = ESC_ARG_SIZ then
          .ok (0 + [0x31, 0x32].length,
            (List.replicate 16 (0 : Int)).set 0 (dec_value [0x31, 0x32] : Int), 0 + 1)
        else csi_parse_loop [0x31, 0x32, 0x3b, 0x35, 0x6d] 5 16 (0 + [0x31, 0x32].length + 1)
          ((List.replicate 16 (0 : Int)).set 0 (dec_value [0x31, 0x32] : Int)) (0 + 1) :=
  ⟨⟨by decide, by decide, rfl, by decide, Or.inl rfl, by decide⟩,
   csi_parse_loop_field [0x31, 0x32, 0x3b, 0x35, 0x6d] 5 16 0 (List.replicate 16 (0 : Int)) 0
     [0x31, 0x32] 0x3b [0x35, 0x6d] (by decide) (by decide) rfl (by decide) (Or.inl rfl)
     (by decide)⟩

theorem csi_negative_trace (x : Except Fault (State × Nat))
    (hx : t_write sample_env (ground_state 80 24 sample_win) [0x1b, 0x5b, 0x2d, 0x35, 0x6d] false
      = x) :
    ∃ st, x = .ok (st, 5) ∧ st.csiescseq.args.getD 0 0 = -5 ∧ st.csiescseq.narg = 1 := by
  unfold t_write at hx
  simp only [List.length_cons, List.length_nil, Nat.zero_add, Nat.reduceAdd] at hx
  simp +decide only [t_write_loop_cons, t_putc_escape, t_putc_bracket, t_putc_csi_param,
    t_putc_csi_final, term_flag, ok_bind2, zeros_length, List.length_set,
    ground_state, fresh_term,
    MODE_UTF8, MODE_WRAP, MODE_PRINT, ESC_STR, ESC_START, ESC_CSI, ESC_UTF8, ESC_ALTCHARSET,
    ESC_TEST, ESC_BUF_SIZ] at hx
  simp +decide [csi_handle, csi_parse, csi_parse_loop, strtol_eq, strtol_digits, isdigit, isspace,
    i32_of_lt, LONG_MAX, LONG_MIN] at hx
  simp +decide [csi_handle0, t_set_attr, t_set_attr_loop, t_set_attr_step, csi_arg, i32_of_lt,
    u32_of_lt, set_c_attr, set_c_fg, set_c_bg, t_write_loop_nil] at hx
  subst hx
  exact ⟨_, rfl, rfl, rfl⟩

/-- C10 (counterexample): on the 80 × 24 terminal left by `t_new`, the bytes
`ESC [ - 5 m` are consumed and `csi_parse` stores the argument `-5`, a negative value other
than `-1`: `strtol` reads the sign of the field. -/
theorem csi_parse_stores_negative :
    ∃ st, t_write sample_env (ground_state 80 24 sample_win) [0x1b, 0x5b, 0x2d, 0x35, 0x6d] false
        = .ok (st, 5) ∧ st.csiescseq.args.getD 0 0 = -5 ∧ st.csiescseq.narg = 1 :=
  csi_negative_trace _ rfl

/-! ### `CSI H` after a sequence with two arguments -/

theorem cup_stale_trace (x : Except Fault (State × Nat))
    (hx : t_write sample_env (ground_state 80 24 sample_win)
      [0x1b, 0x5b, 0x32, 0x3b, 0x33, 0x48, 0x1b, 0x5b, 0x48] false = x) :
    ∃ st, x = .ok (st, 9) ∧ st.term.c.p = { row := 0, col := 2 } ∧
      st.csiescseq.args = [0, 3, 0, 0, 0, 0, 0, 0, 0, 0, 0, 0, 0, 0, 0, 0] ∧
      st.csiescseq.narg = 1 := by
  unfold t_write at hx
  simp only [List.length_cons, List.length_nil, Nat.zero_add, Nat.reduceAdd] at hx
  simp +decide only [t_write_loop_cons, t_putc_escape, t_putc_bracket, t_putc_csi_param,
    t_putc_csi_final, term_flag, ok_bind2, zeros_length, List.length_set,
    ground_state, fresh_term,
    MODE_UTF8, MODE_WRAP, MODE_PRINT, ESC_STR, ESC_START, ESC_CSI, ESC_UTF8, ESC_ALTCHARSET,
    ESC_TEST, ESC_BUF_SIZ] at hx
  simp +decide [csi_handle, csi_parse, csi_parse_loop, strtol_eq, strtol_digits, isdigit, isspace,
    i32_of_lt] at hx
  simp +decide [csi_handle0, csi_arg, csi_handle1_optional, csi_handle2_optional, csi_handle1,
    DEFAULT, usub_eq, uadd_eq, t_movea_to, t_move_to, term_flag, u32_of_lt] at hx
  simp +decide only [t_write_loop_cons, t_putc_escape, t_putc_bracket, t_putc_csi_param,
    t_putc_csi_final, term_flag, ok_bind2, zeros_length, List.length_set, List.length_cons,
    MODE_UTF8, MODE_WRAP, MODE_PRINT, ESC_STR, ESC_START, ESC_CSI, ESC_UTF8, ESC_ALTCHARSET,
    ESC_TEST, ESC_BUF_SIZ] at hx
  simp +decide [csi_handle, csi_parse, csi_parse_loop, strtol_eq, strtol_digits, isdigit, isspace,
    i32_of_lt] at hx
  simp +decide [csi_handle0, csi_arg, csi_handle1_optional, csi_handle2_optional, csi_handle1,
    DEFAULT, usub_eq, uadd_eq, t_movea_to, t_move_to, term_flag, u32_of_lt,
    t_write_loop_nil] at hx
  subst hx
  exact ⟨_, rfl, rfl, rfl, rfl⟩

/-- C9: on the 80 × 24 terminal left by `t_new`, the bytes `ESC [ 2 ; 3 H` followed by
`ESC [ H` are consumed and leave the cursor at row 0, column 2: the second sequence has no
parameter, `csi_parse` stores one argument (0) and `CUP` reads the second one as the 3 left
by the first sequence, not as the default 1. -/
theorem cup_reads_stale_arg :
    ∃ st, t_write sample_env (ground_state 80 24 sample_win)
        [0x1b, 0x5b, 0x32, 0x3b, 0x33, 0x48, 0x1b, 0x5b, 0x48] false = .ok (st, 9) ∧
      st.term.c.p = { row := 0, col := 2 } ∧
      st.csiescseq.args = [0, 3, 0, 0, 0, 0, 0, 0, 0, 0, 0, 0, 0, 0, 0, 0] ∧
      st.csiescseq.narg = 1 :=
  cup_stale_trace _ rfl

/-! ### A CSI sequence with seventeen arguments -/

theorem sgr_17_trace (x : Except Fault (State × Nat))
    (hx : t_write sample_env (ground_state 80 24 sample_win)
      [0x1b, 0x5b, 0x31, 0x3b, 0x31, 0x3b, 0x31, 0x3b, 0x31, 0x3b, 0x31, 0x3b, 0x31,
       0x3b, 0x31, 0x3b, 0x31, 0x3b, 0x31, 0x3b, 0x31, 0x3b, 0x31, 0x3b, 0x31, 0x3b,
       0x31, 0x3b, 0x31, 0x3b, 0x31, 0x3b, 0x31, 0x3b, 0x31, 0x6d] false = x) :
    ∃ st, x = .ok (st, 36) ∧ st.term.c.attr = 0 ∧ st.csiescseq.mode0 = 0x3b ∧
      st.csiescseq.narg = 16 ∧
      st.csiescseq.args = [1, 1, 1, 1, 1, 1, 1, 1, 1, 1, 1, 1, 1, 1, 1, 1] ∧
      st.term = fresh_term 80 24 := by
  unfold t_write at hx
  simp only [List.length_cons, List.length_nil, Nat.zero_add, Nat.reduceAdd] at hx
  simp +decide only [t_write_loop_cons, t_putc_escape, t_putc_bracket, t_putc_csi_param,
    t_putc_csi_final, term_flag, ok_bind2, zeros_length, List.length_set, List.length_cons,
    ground_state, fresh_term,
    MODE_UTF8, MODE_WRAP, MODE_PRINT, ESC_STR, ESC_START, ESC_CSI, ESC_UTF8, ESC_ALTCHARSET,
    ESC_TEST, ESC_BUF_SIZ] at hx
  simp +decide [csi_handle, csi_parse, csi_parse_loop, strtol_eq, strtol_digits, isdigit, isspace,
    i32_of_lt] at hx
  simp +decide [csi_handle0, csi_arg, csi_handle1_optional, csi_handle2_optional, csi_handle1,
    DEFAULT, t_write_loop_nil] at hx
  subst hx
  refine ⟨_, rfl, rfl, rfl, rfl, rfl, ?_⟩
  simp +decide [fresh_term]

/-- C8: on the 80 × 24 terminal left by `t_new`, the 36 bytes of the SGR sequence
`ESC [ 1 ; 1 ; ... ; 1 m` with seventeen arguments `1` are consumed, sixteen arguments are
stored, the command byte recorded is `;` and not `m`, and the terminal is exactly as before:
`ATTR_BOLD` is not set, the command named by the final byte is not executed. -/
theorem sgr_17_not_executed :
    ∃ st, t_write sample_env (ground_state 80 24 sample_win)
      [0x1b, 0x5b, 0x31, 0x3b, 0x31, 0x3b, 0x31, 0x3b, 0x31, 0x3b, 0x31, 0x3b, 0x31,
       0x3b, 0x31, 0x3b, 0x31, 0x3b, 0x31, 0x3b, 0x31, 0x3b, 0x31, 0x3b, 0x31, 0x3b,
       0x31, 0x3b, 0x31, 0x3b, 0x31, 0x3b, 0x31, 0x3b, 0x31, 0x6d] false = .ok (st, 36) ∧
      st.term.c.attr = 0 ∧ st.csiescseq.mode0 = 0x3b ∧ st.csiescseq.narg = 16 ∧
      st.csiescseq.args = [1, 1, 1, 1, 1, 1, 1, 1, 1, 1, 1, 1, 1, 1, 1, 1] ∧
      st.term = fresh_term 80 24 :=
  sgr_17_trace _ rfl

/-! ### A tab from the last column -/

theorem reset_tabs_length (cols : Nat) : (reset_tabs cols).length = cols := by
  simp [reset_tabs]

theorem tab_last_column_trace (x : Except Fault (State × Nat))
    (hx : t_write sample_env (ground_state 80 24 sample_win)
      [0x1b, 0x5b, 0x38, 0x30, 0x47, 0x09] false = x) :
    x = .error .tabs := by
  unfold t_write at hx
  simp only [List.length_cons, List.length_nil, Nat.zero_add, Nat.reduceAdd] at hx
  simp +decide only [t_write_loop_cons, t_putc_escape, t_putc_bracket, t_putc_csi_param,
    t_putc_csi_final, term_flag, ok_bind2, zeros_length, List.length_set,
    ground_state, fresh_term,
    MODE_UTF8, MODE_WRAP, MODE_PRINT, ESC_STR, ESC_START, ESC_CSI, ESC_UTF8, ESC_ALTCHARSET,
    ESC_TEST, ESC_BUF_SIZ] at hx
  simp +decide [csi_handle, csi_parse, csi_parse_loop, strtol_eq, strtol_digits, isdigit, isspace,
    i32_of_lt] at hx
  simp +decide [csi_handle0, csi_arg, csi_handle1_optional, csi_handle2_optional, csi_handle1,
    DEFAULT, usub_eq, uadd_eq, t_movea_to, t_move_to, term_flag, u32_of_lt] at hx
  have hnone : (reset_tabs 80)[80]? = none :=
    List.getElem?_eq_none (Nat.le_of_eq (reset_tabs_length 80))
  simp +decide only [t_write_loop_cons, t_putc_tab, term_flag, MODE_UTF8, MODE_PRINT,
    ESC_MASK] at hx
  simp +decide [t_put_next_tab, t_put_next_tab_loop, reset_tabs_length, usub_eq, uadd_eq,
    hnone] at hx
  exact hx.symm

/-- C5: on the 80 × 24 terminal left by `t_new`, the bytes `ESC [ 8 0 G` (cursor to the last
column) followed by a tab character make `t_write` read `term.tabs [80]`, one entry past the
end of the array of 80 tab stops: the run ends with the fault of the tab-stop array. -/
theorem tab_last_column_fault :
    t_write sample_env (ground_state 80 24 sample_win) [0x1b, 0x5b, 0x38, 0x30, 0x47, 0x09] false
      = .error .tabs :=
  tab_last_column_trace _ rfl

/-! ### String sequences -/

/-- The byte `]` after ESC opens an OSC string. -/
theorem t_putc_osc_open (env : Env) (st : State)
    (hp : term_flag st.term MODE_PRINT = 0) (hs : term_flag st.term ESC_STR = 0)
    (h1 : term_flag st.term ESC_START ≠ 0) (h2 : term_flag st.term ESC_CSI = 0)
    (h3 : term_flag st.term ESC_UTF8 = 0) (h4 : term_flag st.term ESC_ALTCHARSET = 0)
    (h5 : term_flag st.term ESC_TEST = 0) :
    t_putc env st 0x5d = .ok (t_str_sequence st 0x5d) := by
  rw [t_putc_eq, t_putc_body_ascii env _ _ st 0x5d (by decide) hp hs]
  have hc : ISCONTROL 0x5d = false := by decide
  simp only [hc, Bool.false_eq_true, if_false, h1, ne_eq, not_false_eq_true, if_true, t_putc_esc, h2,
    not_true_eq_false, h3, h4, h5, esc_handle]
  simp +decide

/-- Inside a string sequence an ASCII rune that does not end the string is collected. -/
theorem t_putc_collect (env : Env) (st : State) (rune : Nat) (hr : rune < 127)
    (hp : term_flag st.term MODE_PRINT = 0) (hs : term_flag st.term ESC_STR ≠ 0)
    (h7 : rune ≠ 0x07) (h18 : rune ≠ 0x18) (h1a : rune ≠ 0x1a) (h1b : rune ≠ 0x1b) :
    t_putc env st rune = t_putc_str st [rune] := by
  rw [t_putc_eq]
  unfold t_putc_body
  have hc1 : ISCONTROLC1 rune = false := by
    simp [ISCONTROLC1, BETWEEN]
    omega
  have hm : rune % 256 = rune := Nat.mod_eq_of_lt (by omega)
  simp only [hr, true_or, if_true, pure_eq_ok, ok_bind, hp, hs, ne_eq, not_true_eq_false,
    if_false, h7, h18, h1a, h1b, hc1, Bool.false_eq_true, or_self, not_false_eq_true, and_self,
    hm]

/-- The collected byte is stored behind the bytes already in the buffer when there is
room for it. -/
theorem t_putc_str_set (st : State) (c : Nat)
    (h1 : st.strescseq.t.nelements + 1 < st.strescseq.t.alloc_size)
    (h2 : st.strescseq.t.nelements < st.strescseq.t.items.length)
    (h3 : st.strescseq.t.alloc_size < 4294967296) :
    t_putc_str st [c]
      = .ok { st with strescseq := { st.strescseq with t := { st.strescseq.t with
                items := st.strescseq.t.items.set st.strescseq.t.nelements c,
                nelements := st.strescseq.t.nelements + 1 } } } := by
  unfold t_putc_str
  have e1 : uadd st.strescseq.t.nelements [c].length = st.strescseq.t.nelements + 1 := by
    rw [uadd_of_lt _ _ (by simp; omega)]
    rfl
  have e2 : ¬ st.strescseq.t.nelements + 1 ≥ st.strescseq.t.alloc_size := by omega
  have e3 : st.strescseq.t.nelements + [c].length ≤ st.strescseq.t.items.length := by
    simp; omega
  have e4 : st.strescseq.t.items.take st.strescseq.t.nelements ++ [c] ++
      st.strescseq.t.items.drop (st.strescseq.t.nelements + [c].length)
      = st.strescseq.t.items.set st.strescseq.t.nelements c := by
    rw [List.set_eq_take_append_cons_drop, if_pos h2]
    simp
  simp only [e1, e2, if_false, e3, if_true, e4]

/-- The byte BEL inside a string sequence ends the string: the sequence is handled and the
escape flags are cleared. -/
theorem t_putc_bel_str (env : Env) (st : State)
    (hp : term_flag st.term MODE_PRINT = 0) (hs : term_flag st.term ESC_STR ≠ 0) :
    t_putc env st 0x07
      = (str_handle env
          (fun s bytes => (t_write_loop (t_putc_at env 3) true bytes.length s bytes 0).map Prod.fst)
          { st with term := { st.term with
              flags := (st.term.flags &&& cnot (ESC_START ||| ESC_STR)) ||| ESC_STR_END } }).bind
        fun s =>
          if (s.term.flags &&& cnot (ESC_STR_END ||| ESC_STR)) &&& ESC_MASK = 0 then
            .ok { s with term := { s.term with
                    flags := s.term.flags &&& cnot (ESC_STR_END ||| ESC_STR), lastu := 0 } }
          else
            .ok { s with term := { s.term with
                    flags := s.term.flags &&& cnot (ESC_STR_END ||| ESC_STR) } } := by
  rw [t_putc_eq]
  unfold t_putc_body
  have hc : ISCONTROL 0x07 = true := by decide
  have he : term_flag
      { st.term with flags := (st.term.flags &&& cnot (ESC_START ||| ESC_STR)) ||| ESC_STR_END }
      ESC_STR_END ≠ 0 := or_and_ne_zero _ _ _ (by decide)
  simp +decide only [true_or, if_true, pure_eq_ok, ok_bind, hp, hs, ne_eq, not_true_eq_false,
    if_false, not_false_eq_true, and_false, hc, t_control_code, he]
  cases h : str_handle env
      (fun s bytes => (t_write_loop (t_putc_at env 3) true bytes.length s bytes 0).map Prod.fst)
      { st with term := { st.term with
          flags := (st.term.flags &&& cnot (ESC_START ||| ESC_STR)) ||| ESC_STR_END } } with
  | error e => simp [h, Except.map, bind, Except.bind]
  | ok s =>
    simp only [h, map_ok, ok_bind, ok_bind2]

/-- Function `str_reset` on a buffer that has its initial size. -/
theorem str_reset_sized (st : State) (h : st.strescseq.t.items.length = STR_BUF_SIZ) :
    str_reset st
      = { st with strescseq := { st.strescseq with t := { st.strescseq.t with
            alloc_size := STR_BUF_SIZ, nelements := 0 } } } := by
  unfold str_reset
  have e : st.strescseq.t.items.take STR_BUF_SIZ ++
      List.replicate (STR_BUF_SIZ - st.strescseq.t.items.length) 0 = st.strescseq.t.items := by
    rw [h, Nat.sub_self, List.replicate_zero, List.append_nil, ← h, List.take_length]
  simp only [e]

/-- Function `osc_handle` on `OSC 0 ; text`: the window title and the icon title are set. -/
theorem osc_handle_title (env : Env) (wr : State → List Nat → Except Fault State) (st : State)
    (a0 arg1 : List Nat) (hn : ¬ st.strescseq.narg < 2) (h0 : str_arg st 0 = .ok a0)
    (h1 : str_arg st 1 = .ok arg1) (hz : atoi a0 = 0) :
    osc_handle env wr st = .ok (x_set_icon_title (x_set_title st arg1) arg1, true) := by
  unfold osc_handle
  simp only [hn, if_false, h0, h1, ok_bind, hz, if_true, pure_eq_ok]

theorem atoi_zero : atoi [0x30] = 0 := by
  simp +decide [atoi, strtol_eq, strtol_digits, isdigit, isspace, i32_of_lt]

/-! ### The trace of `OSC 0 ; title BEL` -/

theorem osc_title_trace (env : Env) (cols rows : Nat) (w : Win)
    (x : Except Fault (State × Nat))
    (hx : t_write env (ground_state cols rows w)
      [0x1b, 0x5d, 0x30, 0x3b, 0x74, 0x69, 0x74, 0x6c, 0x65, 0x07] false = x) :
    ∃ st, x = .ok (st, 10) ∧
      st.tw.events = WinEvent.icon_title [0x74, 0x69, 0x74, 0x6c, 0x65] ::
        WinEvent.title [0x74, 0x69, 0x74, 0x6c, 0x65] :: w.events ∧
      st.tw.title = some [0x74, 0x69, 0x74, 0x6c, 0x65] ∧
      st.term = fresh_term cols rows := by
  unfold t_write at hx
  simp only [List.length_cons, List.length_nil, Nat.zero_add, Nat.reduceAdd] at hx
  simp +decide only [t_write_loop_cons, t_putc_escape, t_putc_osc_open, term_flag, ok_bind2,
    ground_state, fresh_term,
    MODE_UTF8, MODE_WRAP, MODE_PRINT, ESC_STR, ESC_START, ESC_CSI, ESC_UTF8, ESC_ALTCHARSET,
    ESC_TEST, ESC_BUF_SIZ] at hx
  simp +decide only [t_str_sequence, str_reset_sized, zeros_length, STR_BUF_SIZ] at hx
  simp +decide only [t_write_loop_cons, t_putc_collect, t_putc_str_set, term_flag, ok_bind2,
    zeros_length, List.length_set, List.length_cons,
    MODE_UTF8, MODE_WRAP, MODE_PRINT, ESC_STR, ESC_START, ESC_CSI, ESC_UTF8, ESC_ALTCHARSET,
    ESC_TEST, ESC_BUF_SIZ, STR_BUF_SIZ] at hx
  simp +decide only [t_putc_bel_str, term_flag, MODE_PRINT, ESC_STR, Nat.reduceAdd, Nat.zero_add,
    if_false, if_true, zeros_set_zero, List.set_cons_succ, List.set_cons_zero] at hx
  simp +decide [str_handle, str_parse, str_parse_loop, str_parse_scan] at hx
  rw [osc_handle_title _ _ _ [0x30] [0x74, 0x69, 0x74, 0x6c, 0x65] (by simp)
    (by simp +decide [str_arg, cstr]) (by simp +decide [str_arg, cstr]) atoi_zero] at hx
  simp +decide [x_set_title, x_set_icon_title, t_write_loop_nil] at hx
  subst hx
  refine ⟨_, rfl, rfl, rfl, ?_⟩
  simp +decide [fresh_term]

/-- C12: from the state left by `t_init` and `t_new`, the ten bytes `ESC ] 0 ; t i t l e BEL`
are consumed and issue exactly one window-title request, whose string is `title` (with the
icon-title request of `OSC 0` before it in the list of requests, latest first); afterwards
the terminal is exactly as `t_new` left it, so no escape-state flag is set. -/
theorem osc_title (env : Env) (cols rows : Nat) (w : Win) :
    ∃ st, t_write env (ground_state cols rows w)
        [0x1b, 0x5d, 0x30, 0x3b, 0x74, 0x69, 0x74, 0x6c, 0x65, 0x07] false = .ok (st, 10) ∧
      st.tw.events = WinEvent.icon_title [0x74, 0x69, 0x74, 0x6c, 0x65] ::
        WinEvent.title [0x74, 0x69, 0x74, 0x6c, 0x65] :: w.events ∧
      st.tw.title = some [0x74, 0x69, 0x74, 0x6c, 0x65] ∧
      st.term = fresh_term cols rows ∧ term_flag st.term ESC_MASK = 0 := by
  obtain ⟨st, h1, h2, h3, h4⟩ := osc_title_trace env cols rows w _ rfl
  refine ⟨st, h1, h2, h3, h4, ?_⟩
  rw [h4]
  simp +decide [term_flag, fresh_term]

/-! ### Region clear with any selection -/

theorem sel_frame_refl (t : Term) : sel_frame t t :=
  ⟨rfl, rfl, rfl, rfl, rfl, rfl, rfl, rfl, rfl, rfl, rfl, rfl, rfl, rfl, rfl, rfl,
   fun _ h => h, Or.inl rfl⟩

theorem and_cnot_idem (f m : Nat) : (f &&& cnot m) &&& cnot m = f &&& cnot m := by
  rw [Nat.and_assoc, Nat.and_self]

theorem sel_frame_trans (t u v : Term) (h1 : sel_frame t u) (h2 : sel_frame u v) :
    sel_frame t v := by
  obtain ⟨a1, a2, a3, a4, a5, a6, a7, a8, a9, a10, a11, a12, a13, a14, a15, a16, a17, a18⟩ := h1
  obtain ⟨b1, b2, b3, b4, b5, b6, b7, b8, b9, b10, b11, b12, b13, b14, b15, b16, b17, b18⟩ := h2
  refine ⟨b1.trans a1, b2.trans a2, b3.trans a3, b4.trans a4, b5.trans a5, b6.trans a6,
    b7.trans a7, b8.trans a8, b9.trans a9, b10.trans a10, b11.trans a11, b12.trans a12,
    b13.trans a13, b14.trans a14, b15.trans a15, b16.trans a16, fun i h => b17 i (a17 i h),
    ?_⟩
  rcases a18 with e1 | e1 <;> rcases b18 with e2 | e2
  · exact Or.inl (e2.trans e1)
  · exact Or.inr (by rw [e2, e1])
  · exact Or.inr (e2.trans e1)
  · exact Or.inr (by rw [e2, e1, and_cnot_idem])

/-- A change of the grid of the active screen does not touch the frame. -/
theorem sel_frame_line (t : Term) (ls : List Line) : sel_frame t { t with line := ls } :=
  ⟨rfl, rfl, rfl, rfl, rfl, rfl, rfl, rfl, rfl, rfl, rfl, rfl, rfl, rfl, rfl, rfl,
   fun _ h => h, Or.inl rfl⟩

theorem getD_set_true (d : List Bool) (r i : Nat) (h : d.getD i false = true) :
    (d.set r true).getD i false = true := by
  rw [List.getD_eq_getElem?_getD] at h ⊢
  rw [List.getElem?_set]
  by_cases e : r = i
  · subst e
    by_cases hl : r < d.length
    · simp [hl]
    · simp [hl]
      rw [List.getElem?_eq_none (by omega)] at h
      simp at h
  · simp [e, h]

/-- Marking a row dirty does not touch the frame. -/
theorem sel_frame_dirty (t : Term) (r : Nat) :
    sel_frame t { t with dirty := t.dirty.set r true } :=
  ⟨rfl, rfl, rfl, rfl, rfl, rfl, rfl, rfl, rfl, rfl, rfl, rfl, rfl, rfl, rfl,
   by simp, fun i h => getD_set_true _ _ _ h, Or.inl rfl⟩

theorem fill_range_getD {α : Type} (xs : List α) (lo hi : Nat) (v d : α) (i : Nat)
    (h1 : lo ≤ hi) (h2 : hi < xs.length) :
    (fill_range xs lo hi v).getD i d = if lo ≤ i ∧ i ≤ hi then v else xs.getD i d := by
  unfold fill_range
  have hl : (List.take lo xs).length = lo := by
    rw [List.length_take]
    omega
  rw [List.getD_eq_getElem?_getD, List.getD_eq_getElem?_getD, List.append_assoc]
  by_cases c1 : i < lo
  · rw [List.getElem?_append_left (by rw [hl]; exact c1)]
    rw [List.getElem?_take_of_lt c1, if_neg (by omega)]
  · rw [List.getElem?_append_right (by rw [hl]; omega), hl]
    by_cases c2 : i ≤ hi
    · rw [List.getElem?_append_left (by rw [List.length_replicate]; omega), if_pos (by omega)]
      rw [List.getElem?_replicate, if_pos (by omega)]
      rfl
    · rw [List.getElem?_append_right (by rw [List.length_replicate]; omega), if_neg (by omega)]
      rw [List.length_replicate, List.getElem?_drop]
      congr 2
      omega

theorem fill_range_true_mono (d : List Bool) (lo hi i : Nat) (h1 : lo ≤ hi) (h2 : hi < d.length)
    (h : d.getD i false = true) : (fill_range d lo hi true).getD i false = true := by
  rw [fill_range_getD d lo hi true false i h1 h2]
  split
  · rfl
  · exact h

/-- Function `t_set_dirt` on a terminal whose dirty array has one entry per row: it returns,
and only sets dirty flags. -/
theorem t_set_dirt_spec (t : Term) (top bottom : Nat) (hd : t.dirty.length = t.size.row)
    (hr : 1 ≤ t.size.row) :
    ∃ d, t_set_dirt t top bottom = .ok { t with dirty := d } ∧ d.length = t.dirty.length ∧
      ∀ i, t.dirty.getD i false = true → d.getD i false = true := by
  unfold t_set_dirt
  simp only [usub_of_le _ _ hr]
  generalize (if top ≥ t.size.row then t.size.row - 1 else top) = tp
  generalize hbot : (if bottom ≥ t.size.row then t.size.row - 1 else bottom) = bt
  have hb : bt < t.dirty.length := by
    rw [← hbot]
    split <;> omega
  by_cases hle : tp ≤ bt
  · rw [if_pos hle, if_pos hb]
    exact ⟨_, rfl, fill_range_length _ _ _ _ hle hb,
      fun i h => fill_range_true_mono _ _ _ _ hle hb h⟩
  · rw [if_neg hle]
    exact ⟨t.dirty, rfl, rfl, fun _ h => h⟩

/-- Function `sel_clear` returns and changes nothing outside the frame. -/
theorem sel_clear_spec (t : Term) (hd : t.dirty.length = t.size.row) (hr : 1 ≤ t.size.row) :
    ∃ u, sel_clear t = .ok u ∧ u.line = t.line ∧ sel_frame t u ∧ u.sel.oe.col = UINT_MAX := by
  unfold sel_clear
  obtain ⟨d, h1, h2, h3⟩ := t_set_dirt_spec
    { t with sel := { t.sel with oe := { t.sel.oe with col := UINT_MAX } },
             flags := t.flags &&& cnot SEL_MASK } t.sel.nb.row t.sel.ne.row hd hr
  rw [h1]
  exact ⟨_, rfl, rfl, ⟨rfl, rfl, rfl, rfl, rfl, rfl, rfl, rfl, rfl, rfl, rfl, rfl, rfl, rfl, rfl,
    h2, h3, Or.inr rfl⟩, rfl⟩

/-- A row clear returns, writes the cells of the row and changes nothing else outside the
frame. -/
theorem tline_clear_spec (t : Term) (row c1 c2 : Nat) (sel : Bool)
    (hrow : row < t.line.length) (hc : c1 ≤ c2) (hlen : c2 < (t.line[row]).length)
    (hd : t.dirty.length = t.size.row) (hr : 1 ≤ t.size.row) :
    ∃ u b, tline_clear t row c1 c2 sel = .ok (u, b) ∧
      u.line = t.line.set row (fill_range (t.line[row]) c1 c2 (blank_glyph t)) ∧
      sel_frame t u := by
  unfold tline_clear
  rw [get_row_eq t row hrow]
  simp only [ok_bind, hc, if_true, hlen, pure_eq_ok]
  split
  · rename_i cmin cmax _
    split
    · obtain ⟨u, h1, h2, h3, _⟩ := sel_clear_spec
        { t with line := t.line.set row (fill_range (t.line[row]) c1 c2 (blank_glyph t)) } hd hr
      rw [h1]
      exact ⟨u, true, rfl, h2, sel_frame_trans _ _ _ (sel_frame_line t _) h3⟩
    · exact ⟨_, false, rfl, rfl, sel_frame_line t _⟩
  · exact ⟨_, false, rfl, rfl, sel_frame_line t _⟩

theorem blank_glyph_frame (t u : Term) (h : sel_frame t u) : blank_glyph u = blank_glyph t := by
  unfold blank_glyph
  rw [h.2.2.2.1]

/-- The row loop of `tregion_clear` on rows inside the screen returns; the cells of columns
`c1 .. c2` of the rows become blank cells with the cursor colours, the rows are marked
dirty, and nothing else changes outside the frame. -/
theorem tregion_clear_loop_spec (c1 c2 : Nat) (hc : c1 ≤ c2) :
    ∀ (n row : Nat) (sel : Bool) (t : Term),
      row + n ≤ t.line.length → t.dirty.length = t.line.length → t.size.row = t.line.length →
      (∀ l ∈ t.line, c2 < l.length) →
      ∃ u, tregion_clear_loop c1 c2 n row sel t = .ok u ∧
        u.line = map_range (fun l => fill_range l c1 c2 (blank_glyph t)) t.line row n ∧
        sel_frame t u ∧ ∀ i, row ≤ i → i < row + n → u.dirty.getD i false = true := by
  intro n
  induction n with
  | zero =>
    intro row sel t _ _ _ _
    exact ⟨t, by simp [tregion_clear_loop], by simp [map_range_zero], sel_frame_refl t,
      fun i h1 h2 => by omega⟩
  | succ n ih =>
    intro row sel t hrow hd hs hl
    have hr : row < t.line.length := by omega
    have hrd : row < t.dirty.length := by omega
    unfold tregion_clear_loop
    rw [if_pos hrd]
    have hlen : c2 < (t.line[row]).length := hl _ (List.getElem_mem _)
    obtain ⟨u1, b, h1, h2, h3⟩ := tline_clear_spec { t with dirty := t.dirty.set row true }
      row c1 c2 sel hr hc hlen (by simp; omega) (by simp only; omega)
    rw [h1]
    simp only []
    have hf1 : sel_frame t u1 := sel_frame_trans _ _ _ (sel_frame_dirty t row) h3
    have hl1 : u1.line.length = t.line.length := by rw [h2]; simp
    obtain ⟨u, k1, k2, k3, k4⟩ := ih (row + 1) (if b then false else sel) u1
      (by rw [hl1]; omega)
      (by rw [hl1, hf1.2.2.2.2.2.2.2.2.2.2.2.2.2.2.2.1]; exact hd)
      (by rw [hl1, hf1.1]; exact hs)
      (by
        intro l hl2
        rw [h2] at hl2
        rcases List.mem_or_eq_of_mem_set hl2 with h | h
        · exact hl l h
        · subst h
          rw [fill_range_length _ _ _ _ hc hlen]
          exact hlen)
    refine ⟨u, k1, ?_, sel_frame_trans _ _ _ hf1 k3, ?_⟩
    · rw [k2, blank_glyph_frame t u1 hf1, h2]
      exact map_range_succ (fun l => fill_range l c1 c2 (blank_glyph t)) t.line row n hr
    · intro i hi1 hi2
      by_cases e : i = row
      · subst e
        apply k3.2.2.2.2.2.2.2.2.2.2.2.2.2.2.2.2.1
        apply h3.2.2.2.2.2.2.2.2.2.2.2.2.2.2.2.2.1
        simp only
        exact set_getD_self _ _ _ _ hrd
      · exact k4 i (by omega) (by omega)

/-- Region clear with ordered corners inside the screen, for any selection. -/
theorem tregion_clear_spec (t : Term) (c1 r1 c2 r2 : Nat) (hg : grid_ok t)
    (hc : c1 ≤ c2) (hc2 : c2 < t.size.col) (hr : r1 ≤ r2) (hr2 : r2 < t.size.row) :
    ∃ u, tregion_clear t c1 r1 c2 r2 = .ok u ∧
      u.line = map_range (fun l => fill_range l c1 c2 (blank_glyph t)) t.line r1 (r2 + 1 - r1) ∧
      sel_frame t u ∧ ∀ i, r1 ≤ i → i ≤ r2 → u.dirty.getD i false = true := by
  obtain ⟨h1, h2, h3, _, _, _, _⟩ := hg
  unfold tregion_clear
  have a1 : ¬ c1 > c2 := by omega
  have a2 : ¬ c1 ≥ t.size.col := by omega
  have a3 : ¬ c2 ≥ t.size.col := by omega
  have a4 : ¬ r1 > r2 := by omega
  have a5 : ¬ r1 ≥ t.size.row := by omega
  have a6 : ¬ r2 ≥ t.size.row := by omega
  simp only [a1, a2, a3, a4, a5, a6, if_false]
  obtain ⟨u, k1, k2, k3, k4⟩ := tregion_clear_loop_spec c1 c2 hc (r2 + 1 - r1) r1
    (tregion_is_sel t) t (by omega) (by omega) (by omega)
    (by intro l hl; rw [h2 l hl]; exact hc2)
  exact ⟨u, k1, k2, k3, fun i hi1 hi2 => k4 i hi1 (by omega)⟩

theorem map_range_getD {α : Type} (f : α → α) (xs : List α) (r n i : Nat) (d : α) :
    (map_range f xs r n).getD i d
      = if r ≤ i ∧ i < r + n ∧ i < xs.length then f (xs.getD i d) else xs.getD i d := by
  by_cases hi : i < xs.length
  swap
  · rw [if_neg (by omega), List.getD_eq_getElem?_getD, List.getD_eq_getElem?_getD,
      List.getElem?_eq_none (by rw [map_range_length]; omega), List.getElem?_eq_none (by omega)]
  unfold map_range
  rw [List.getD_eq_getElem?_getD, List.getD_eq_getElem?_getD, List.append_assoc]
  · by_cases c1 : i < r
    · have hl : i < (List.take r xs).length := by
        rw [List.length_take]
        omega
      rw [List.getElem?_append_left hl, List.getElem?_take_of_lt c1, if_neg (by omega)]
    · have hl : (List.take r xs).length = r := by
        rw [List.length_take]
        omega
      rw [List.getElem?_append_right (by rw [hl]; omega), hl]
      by_cases c2 : i < r + n
      · have hm : i - r < (List.map f (List.take n (List.drop r xs))).length := by
          rw [List.length_map, List.length_take, List.length_drop]
          omega
        rw [List.getElem?_append_left hm, if_pos ⟨by omega, c2, hi⟩, List.getElem?_map,
          List.getElem?_take_of_lt (by omega), List.getElem?_drop]
        have e : r + (i - r) = i := by omega
        rw [e, List.getElem?_eq_getElem hi]
        rfl
      · have hm : (List.map f (List.take n (List.drop r xs))).length = n := by
          rw [List.length_map, List.length_take, List.length_drop]
          omega
        rw [List.getElem?_append_right (by rw [hm]; omega), hm, if_neg (by omega),
          List.getElem?_drop]
        congr 2
        omega

/-- The cells of a screen after the columns `c1 .. c2` of the rows `r .. r + n - 1` have
been overwritten by `b`. -/
theorem cell_at_map_fill (ls : List Line) (c1 c2 r n col row : Nat) (b : TermGlyph)
    (hc : c1 ≤ c2) (hl : ∀ l ∈ ls, c2 < l.length) (hrow : row < ls.length) :
    cell_at (map_range (fun l => fill_range l c1 c2 b) ls r n) col row
      = if r ≤ row ∧ row < r + n ∧ c1 ≤ col ∧ col ≤ c2 then b else cell_at ls col row := by
  unfold cell_at
  rw [map_range_getD]
  by_cases h : r ≤ row ∧ row < r + n
  · rw [if_pos ⟨h.1, h.2, hrow⟩]
    have hm : ls.getD row [] ∈ ls := by
      rw [List.getD_eq_getElem?_getD, List.getElem?_eq_getElem hrow]
      exact List.getElem_mem _
    rw [fill_range_getD _ _ _ _ _ _ hc (hl _ hm)]
    by_cases h2 : c1 ≤ col ∧ col ≤ c2
    · rw [if_pos h2, if_pos ⟨h.1, h.2, h2.1, h2.2⟩]
    · rw [if_neg h2, if_neg (by tauto)]
  · rw [if_neg (by tauto), if_neg (by tauto)]

/-- The frame keeps every flag outside the selection bits. -/
theorem sel_frame_flag (t u : Term) (h : sel_frame t u) (m : Nat) (hm : cnot SEL_MASK &&& m = m) :
    term_flag u m = term_flag t m := by
  unfold term_flag
  rcases h.2.2.2.2.2.2.2.2.2.2.2.2.2.2.2.2.2 with e | e
  · rw [e]
  · rw [e, Nat.and_assoc, hm]

theorem grid_ok_rows (t : Term) (hg : grid_ok t) : ∀ l ∈ t.line, l.length = t.size.col :=
  hg.2.1

theorem getD_set_ne {α : Type} (xs : List α) (i j : Nat) (a d : α) (h : i ≠ j) :
    (xs.set i a).getD j d = xs.getD j d := by
  rw [List.getD_eq_getElem?_getD, List.getD_eq_getElem?_getD, List.getElem?_set_ne h]

theorem grid_ok_getD_mem (t : Term) (hg : grid_ok t) (r : Nat) (h : r < t.size.row) :
    t.line.getD r [] ∈ t.line := by
  have hl : r < t.line.length := by rw [hg.1]; exact h
  rw [List.getD_eq_getElem?_getD, List.getElem?_eq_getElem hl]
  exact List.getElem_mem _

theorem grid_ok_row_length (t : Term) (hg : grid_ok t) (r : Nat) (h : r < t.size.row) :
    (t.line.getD r []).length = t.size.col :=
  hg.2.1 _ (grid_ok_getD_mem t hg r h)

theorem screen_ok_map_fill (ls : List Line) (c1 c2 r n col row : Nat) (b : TermGlyph)
    (h : screen_ok ls col row) (hc : c1 ≤ c2) (hc2 : c2 < col) :
    screen_ok (map_range (fun l => fill_range l c1 c2 b) ls r n) col row := by
  refine ⟨by rw [map_range_length]; exact h.1, ?_⟩
  intro l hl
  unfold map_range at hl
  simp only [List.mem_append, List.mem_map] at hl
  rcases hl with (h1 | ⟨a, ha, rfl⟩) | h1
  · exact h.2 l (List.mem_of_mem_take h1)
  · have ha2 : a ∈ ls := List.mem_of_mem_drop (List.mem_of_mem_take ha)
    rw [fill_range_length _ _ _ _ hc (by rw [h.2 a ha2]; exact hc2)]
    exact h.2 a ha2
  · exact h.2 l (List.mem_of_mem_drop h1)

theorem grid_ok_screen (t : Term) (hg : grid_ok t) : screen_ok t.line t.size.col t.size.row :=
  ⟨hg.1, hg.2.1⟩

/-- One conditional clear of `t_resize`: it returns, the cells of the rectangle become
blank cells, the other cells and the frame are unchanged. -/
theorem resize_clear_step (t : Term) (p : Prop) [Decidable p] (c1 r1 c2 r2 : Nat)
    (hg : grid_ok t) (hp : p → c1 ≤ c2 ∧ c2 < t.size.col ∧ r1 ≤ r2 ∧ r2 < t.size.row) :
    ∃ u, (if p then tregion_clear t c1 r1 c2 r2 else .ok t) = .ok u ∧ sel_frame t u ∧
      grid_ok u ∧
      ∀ c r, c < t.size.col → r < t.size.row →
        cell_at u.line c r
          = if p ∧ c1 ≤ c ∧ c ≤ c2 ∧ r1 ≤ r ∧ r ≤ r2 then blank_glyph t else cell_at t.line c r := by
  by_cases h : p
  · obtain ⟨a1, a2, a3, a4⟩ := hp h
    obtain ⟨u, k1, k2, k3, _⟩ := tregion_clear_spec t c1 r1 c2 r2 hg a1 a2 a3 a4
    have hg2 := hg
    obtain ⟨g1, g2, g3, g4, g5, g6, g7⟩ := hg2
    have hso := screen_ok_map_fill t.line c1 c2 r1 (r2 + 1 - r1) t.size.col t.size.row
      (blank_glyph t) ⟨g1, g2⟩ a1 a2
    rw [← k2] at hso
    refine ⟨u, by rw [if_pos h]; exact k1, k3, ?_, ?_⟩
    · exact ⟨by rw [k3.1]; exact hso.1, by rw [k3.1]; exact hso.2,
        by rw [k3.2.2.2.2.2.2.2.2.2.2.2.2.2.2.2.1, k3.1]; exact g3, by rw [k3.1]; exact g4,
        by rw [k3.1]; exact g5, by rw [k3.1]; exact g6, by rw [k3.1]; exact g7⟩
    · intro c r _ hr
      rw [k2, cell_at_map_fill t.line c1 c2 r1 (r2 + 1 - r1) c r _ a1
        (by intro l hl; rw [g2 l hl]; exact a2) (by rw [g1]; exact hr)]
      by_cases q : c1 ≤ c ∧ c ≤ c2 ∧ r1 ≤ r ∧ r ≤ r2
      · have e1 : r1 ≤ r ∧ r < r1 + (r2 + 1 - r1) ∧ c1 ≤ c ∧ c ≤ c2 := by omega
        have e2 : p ∧ c1 ≤ c ∧ c ≤ c2 ∧ r1 ≤ r ∧ r ≤ r2 := ⟨h, q⟩
        rw [if_pos e1, if_pos e2]
      · have e1 : ¬ (r1 ≤ r ∧ r < r1 + (r2 + 1 - r1) ∧ c1 ≤ c ∧ c ≤ c2) := by omega
        have e2 : ¬ (p ∧ c1 ≤ c ∧ c ≤ c2 ∧ r1 ≤ r ∧ r ≤ r2) := fun x => q x.2
        rw [if_neg e1, if_neg e2]
  · refine ⟨t, by rw [if_neg h], sel_frame_refl t, hg, ?_⟩
    intro c r _ _
    have e2 : ¬ (p ∧ c1 ≤ c ∧ c ≤ c2 ∧ r1 ≤ r ∧ r ≤ r2) := fun x => h x.1
    rw [if_neg e2]

theorem blank_glyph_rune (t : Term) : (blank_glyph t).rune = 32 ∧ (blank_glyph t).attr = 0 :=
  ⟨rfl, rfl⟩

theorem tcursor_load_line (t : Term) : (tcursor_load t).line = t.line := rfl
theorem tcursor_load_alt (t : Term) : (tcursor_load t).alt = t.alt := rfl
theorem tcursor_load_size (t : Term) : (tcursor_load t).size = t.size := rfl
theorem tcursor_load_dirty (t : Term) : (tcursor_load t).dirty = t.dirty := rfl

/-- One round of the clearing loop of `t_resize`: the active screen is cleared outside the
old rectangle and becomes the other screen. -/
theorem t_resize_round (t : Term) (mincol minrow col row k : Nat)
    (hs : t.size = { row := row, col := col }) (hg : grid_ok t)
    (h1 : mincol ≤ col) (h2 : minrow ≤ row) :
    ∃ u, t_resize_screens mincol minrow col row (k + 1) t
        = t_resize_screens mincol minrow col row k (tcursor_load u) ∧
      u.size = t.size ∧ u.line = t.alt ∧ cleared_from t.line u.alt mincol minrow col row ∧
      u.dirty.length = row := by
  have ec : t.size.col = col := by rw [hs]
  have er : t.size.row = row := by rw [hs]
  have hg2 := hg
  obtain ⟨g1, g2, g3, g4, g5, g6, g7⟩ := hg2
  obtain ⟨t1, k1, k2, k3, k4⟩ := resize_clear_step t (mincol < col ∧ minrow > 0) mincol 0
    (col - 1) (minrow - 1) hg (by intro h; omega)
  obtain ⟨t2, j1, j2, j3, j4⟩ := resize_clear_step t1 (col > 0 ∧ row > minrow) 0 minrow
    (col - 1) (row - 1) k3 (by intro h; rw [k2.1]; omega)
  have hf : sel_frame t t2 := sel_frame_trans _ _ _ k2 j2
  have hsw := t_swap_screen_eq t2 (by rw [j3.2.2.1]) j3.2.2.2.2.1
  refine ⟨{ t2 with line := t2.alt, alt := t2.line, flags := t2.flags ^^^ MODE_ALTSCREEN,
                    dirty := List.replicate t2.size.row true }, ?_, hf.1, hf.2.1, ?_, ?_⟩
  · conv => lhs; unfold t_resize_screens
    simp only [k1, j1, hsw]
  · refine ⟨⟨by simp only; rw [j3.1, hf.1, er], ?_⟩, ?_⟩
    · intro l hl
      simp only at hl
      rw [j3.2.1 l hl, hf.1, ec]
    · intro c r hc hr
      simp only
      rw [j4 c r (by rw [k2.1, ec]; exact hc) (by rw [k2.1, er]; exact hr),
        k4 c r (by rw [ec]; exact hc) (by rw [er]; exact hr)]
      by_cases q : c < mincol ∧ r < minrow
      · have e1 : ¬ ((col > 0 ∧ row > minrow) ∧ 0 ≤ c ∧ c ≤ col - 1 ∧ minrow ≤ r ∧ r ≤ row - 1) := by
          omega
        have e2 : ¬ ((mincol < col ∧ minrow > 0) ∧ mincol ≤ c ∧ c ≤ col - 1 ∧ 0 ≤ r ∧
            r ≤ minrow - 1) := by omega
        rw [if_pos q, if_neg e1, if_neg e2]
      · rw [if_neg q]
        by_cases q2 : (col > 0 ∧ row > minrow) ∧ 0 ≤ c ∧ c ≤ col - 1 ∧ minrow ≤ r ∧ r ≤ row - 1
        · rw [if_pos q2]
          exact blank_glyph_rune t1
        · have e2 : (mincol < col ∧ minrow > 0) ∧ mincol ≤ c ∧ c ≤ col - 1 ∧ 0 ≤ r ∧
              r ≤ minrow - 1 := by omega
          rw [if_neg q2, if_pos e2]
          exact blank_glyph_rune t
  · simp only [List.length_replicate]
    rw [hf.1, er]

/-! ### Reallocation -/

theorem realloc_line_length (env : Env) (alt : Bool) (r : Nat) (ln : Line) (col : Nat) :
    (realloc_line env alt r ln col).length = col := by
  unfold realloc_line
  simp only [List.length_append, List.length_take, List.length_map, List.length_range]
  omega

theorem realloc_line_getD (env : Env) (alt : Bool) (r : Nat) (ln : Line) (col c : Nat)
    (h1 : c < col) (h2 : c < ln.length) :
    (realloc_line env alt r ln col).getD c blank_cell = ln.getD c blank_cell := by
  unfold realloc_line
  rw [List.getD_eq_getElem?_getD, List.getD_eq_getElem?_getD,
    List.getElem?_append_left (by rw [List.length_take]; omega), List.getElem?_take_of_lt h1]

theorem realloc_screen_ok (env : Env) (alt : Bool) (kept : List Line) (col row : Nat)
    (h : kept.length ≤ row) : screen_ok (realloc_screen env alt kept col row) col row := by
  unfold realloc_screen
  constructor
  · simp only [List.length_append, List.length_zipWith, List.length_range, List.length_map,
      Nat.min_self]
    omega
  · intro l hl
    simp only [List.mem_append, List.mem_map] at hl
    rcases hl with hl | ⟨i, _, rfl⟩
    · obtain ⟨i, hi, rfl⟩ := List.getElem_of_mem hl
      rw [List.getElem_zipWith]
      exact realloc_line_length _ _ _ _ _
    · exact realloc_line_length _ _ _ _ _

theorem realloc_screen_getD (env : Env) (alt : Bool) (kept : List Line) (col row r : Nat)
    (h : r < kept.length) :
    (realloc_screen env alt kept col row).getD r []
      = realloc_line env alt r (kept.getD r []) col := by
  unfold realloc_screen
  have hl : r < (List.zipWith (fun i ln => realloc_line env alt i ln col)
      (List.range kept.length) kept).length := by
    simp only [List.length_zipWith, List.length_range, Nat.min_self]
    exact h
  rw [List.getD_eq_getElem?_getD, List.getElem?_append_left hl, List.getElem?_eq_getElem hl,
    List.getElem_zipWith, List.getElem_range, List.getD_eq_getElem?_getD,
    List.getElem?_eq_getElem h]
  rfl

theorem drop_take_getD (ls : List Line) (n m r : Nat) (h : r < m) :
    ((ls.drop n).take m).getD r [] = ls.getD (r + n) [] := by
  rw [List.getD_eq_getElem?_getD, List.getD_eq_getElem?_getD, List.getElem?_take_of_lt h,
    List.getElem?_drop, Nat.add_comm]

/-- The cells of a reallocated screen inside the old rectangle. -/
theorem realloc_screen_cell (env : Env) (alt : Bool) (ls : List Line) (n minrow col row : Nat)
    (c r : Nat) (cols : Nat) (hr : r < minrow) (hn : minrow + n ≤ ls.length)
    (hw : ∀ l ∈ ls, l.length = cols) (hc : c < col) (hc2 : c < cols) :
    cell_at (realloc_screen env alt ((ls.drop n).take minrow) col row) c r
      = cell_at ls c (r + n) := by
  have hk : r < ((ls.drop n).take minrow).length := by
    rw [List.length_take, List.length_drop]
    omega
  unfold cell_at
  rw [realloc_screen_getD env alt _ col row r hk, drop_take_getD ls n minrow r hr]
  have hm : ls.getD (r + n) [] ∈ ls := by
    have : r + n < ls.length := by omega
    rw [List.getD_eq_getElem?_getD, List.getElem?_eq_getElem this]
    exact List.getElem_mem _
  exact realloc_line_getD env alt r _ col c hc (by rw [hw _ hm]; exact hc2)

/-! ### The tab stops -/

theorem last_tab_ok (tabs : List Bool) : ∀ i, i < tabs.length → ∃ j, last_tab tabs i = .ok j := by
  intro i
  induction i with
  | zero => intro _; exact ⟨0, rfl⟩
  | succ i ih =>
    intro h
    unfold last_tab
    rw [List.getElem?_eq_getElem h]
    simp only []
    split
    · exact ⟨_, rfl⟩
    · exact ih (by omega)

theorem i32_usub_pos (a b : Nat) (ha : a < 2147483648) (hb : b < 2147483648)
    (h : i32 (usub a b) > 0) : b < a := by
  by_contra hx
  by_cases e : a = b
  · subst e
    rw [usub_of_le _ _ (Nat.le_refl _), Nat.sub_self] at h
    unfold i32 at h
    omega
  · rw [usub_eq, if_neg (by omega)] at h
    unfold i32 at h
    omega

theorem i32_usub_neg (a b : Nat) (ha : a < 2147483648) (hb : b < 2147483648) (h : a < b) :
    i32 (usub a b) = (a : Int) - b := by
  rw [usub_eq, if_neg (by omega)]
  unfold i32
  omega

theorem i32_usub_nonneg (a b : Nat) (ha : a < 2147483648) (h : b ≤ a) :
    i32 (usub a b) = (a : Int) - b := by
  rw [usub_of_le _ _ h]
  unfold i32
  omega

theorem t_resize_tabs_ok (t : Term) (col : Nat) (tabs0 : List Bool) (h0 : tabs0.length = col)
    (hc : 1 ≤ t.size.col) (hc2 : col < 2147483648) (hs2 : t.size.col < 2147483648) :
    ∃ tabs, t_resize_tabs t col tabs0 = .ok tabs := by
  unfold t_resize_tabs
  simp only []
  split
  · rename_i hpos
    have hlt : t.size.col < col := i32_usub_pos col t.size.col hc2 hs2 hpos
    have hne : ¬ t.size.col = 0 := by omega
    rw [if_neg hne]
    obtain ⟨j, hj⟩ := last_tab_ok
      (tabs0.take t.size.col ++ List.replicate (col - t.size.col) false) (t.size.col - 1)
      (by simp only [List.length_append, List.length_take, List.length_replicate]; omega)
    rw [hj]
    exact ⟨_, rfl⟩
  · exact ⟨_, rfl⟩

/-- The count of rows `t_resize` drops from the top: none when the cursor row fits the new
height, else as many as it takes to bring the cursor to the last row. -/
theorem t_resize_drop_eq (t : Term) (row : Nat) (hr : row < 2147483648)
    (hp : t.c.p.row < 2147483648) :
    t_resize_drop t row = if t.c.p.row < row then 0 else t.c.p.row - row + 1 := by
  unfold t_resize_drop
  simp only []
  by_cases h : t.c.p.row < row
  · rw [if_pos h, i32_usub_neg _ _ hp hr h, if_pos (by omega)]
  · rw [if_neg h, i32_usub_nonneg _ _ hp (by omega), if_neg (by omega)]
    omega

/-! ### `t_resize` -/

theorem t_resize_screens_zero (mincol minrow col row : Nat) (t : Term) :
    t_resize_screens mincol minrow col row 0 t = .ok t := by
  simp [t_resize_screens]

theorem cell_at_drop (ls : List Line) (n c r : Nat) :
    cell_at (ls.drop n) c r = cell_at ls c (r + n) := by
  unfold cell_at
  have e : (ls.drop n).getD r [] = ls.getD (r + n) [] := by
    rw [List.getD_eq_getElem?_getD, List.getD_eq_getElem?_getD, List.getElem?_drop, Nat.add_comm]
  rw [e]

/-- Function `t_resize (col, row)` with positive dimensions on a terminal whose two screens
have the announced sizes and whose cursor row is inside the grid: it returns a terminal of
the new size; on both screens the cells inside the old rectangle show the old cells, moved
up by the count of rows dropped from the top, and the other cells hold a space and no
attribute. -/
theorem t_resize_spec (env : Env) (t : Term) (col row : Nat) (hg : grid_ok t)
    (ha : screen_ok t.alt t.size.col t.size.row) (hc : 1 ≤ col) (hc2 : col < 2147483648)
    (hr : 1 ≤ row) (hr2 : row < 2147483648) (hcur : t.c.p.row < t.size.row) :
    ∃ u, t_resize env t col row = .ok u ∧ u.size = { row := row, col := col } ∧
      cleared_from (t.line.drop (if t.c.p.row < row then 0 else t.c.p.row - row + 1)) u.line
        (min col t.size.col) (min row t.size.row) col row ∧
      cleared_from (t.alt.drop (if t.c.p.row < row then 0 else t.c.p.row - row + 1)) u.alt
        (min col t.size.col) (min row t.size.row) col row := by
  have hg2 := hg
  obtain ⟨g1, g2, g3, g4, g5, g6, g7⟩ := hg2
  have h0 : ¬ (col = 0 ∨ row = 0) := by omega
  have hd := t_resize_drop_eq t row hr2 (by omega)
  generalize hn : (if t.c.p.row < row then 0 else t.c.p.row - row + 1) = n at hd ⊢
  have hn1 : n + min row t.size.row ≤ t.size.row := by
    rw [← hn]
    split <;> omega
  have hn2 : n ≠ 0 → n + row ≤ t.size.row := by
    rw [← hn]
    split <;> omega
  have e1 : ¬ (n > t.line.length ∨ n > t.alt.length) := by
    rw [g1, ha.1]
    omega
  have e2 : ¬ (n ≠ 0 ∧ (n + row > t.line.length ∨ n + row > t.alt.length)) := by
    rw [g1, ha.1]
    intro h
    have := hn2 h.1
    omega
  have e3 : (if row < t.size.row then row else t.size.row) = min row t.size.row := by
    split <;> omega
  have e4 : (if col < t.size.col then col else t.size.col) = min col t.size.col := by
    split <;> omega
  obtain ⟨tabs, ht⟩ := t_resize_tabs_ok t col
    (t.tabs.take col ++ (List.range (col - t.tabs.length)).map fun i =>
      env.junk_tab (t.tabs.length + i))
    (by simp only [List.length_append, List.length_take, List.length_map, List.length_range]
        omega) g4 hc2 g6
  unfold t_resize
  rw [if_neg h0]
  simp only [hd, if_neg e1, if_neg e2, e3, e4, ht]
  generalize hline : realloc_screen env false ((t.line.drop n).take (min row t.size.row)) col row
    = line
  generalize halt : realloc_screen env true ((t.alt.drop n).take (min row t.size.row)) col row
    = alt
  generalize hdirty : (t.dirty.take row ++ (List.range (row - t.dirty.length)).map fun i =>
    env.junk_dirty (t.dirty.length + i)) = dirty
  have hl1 : screen_ok line col row := by
    rw [← hline]
    exact realloc_screen_ok env false _ col row
      (by rw [List.length_take, List.length_drop]; omega)
  have hl2 : screen_ok alt col row := by
    rw [← halt]
    exact realloc_screen_ok env true _ col row
      (by rw [List.length_take, List.length_drop]; omega)
  have hl3 : dirty.length = row := by
    rw [← hdirty]
    simp only [List.length_append, List.length_take, List.length_map, List.length_range]
    omega
  generalize ht3 : t_move_to
      (t_set_scroll { t with line := line, alt := alt, dirty := dirty, tabs := tabs,
                             size := { row := row, col := col } } 0 (row - 1))
      (t_set_scroll { t with line := line, alt := alt, dirty := dirty, tabs := tabs,
                             size := { row := row, col := col } } 0 (row - 1)).c.p.col
      (t_set_scroll { t with line := line, alt := alt, dirty := dirty, tabs := tabs,
                             size := { row := row, col := col } } 0 (row - 1)).c.p.row = t3
  have s1 : t3.size = { row := row, col := col } := by rw [← ht3]; rfl
  have s2 : t3.line = line := by rw [← ht3]; rfl
  have s3 : t3.alt = alt := by rw [← ht3]; rfl
  have s4 : t3.dirty = dirty := by rw [← ht3]; rfl
  have hg3 : grid_ok t3 := by
    refine ⟨?_, ?_, ?_, ?_, ?_, ?_, ?_⟩ <;> rw [s1]
    · rw [s2]; exact hl1.1
    · rw [s2]; exact hl1.2
    · rw [s4]; exact hl3
    · exact hc
    · exact hr
    · exact hc2
    · exact hr2
  obtain ⟨u1, k1, k2, k3, k4, k5⟩ := t_resize_round t3 (min col t.size.col)
    (min row t.size.row) col row 1 s1 hg3 (by omega) (by omega)
  have hgl : grid_ok (tcursor_load u1) := by
    refine ⟨?_, ?_, ?_, ?_, ?_, ?_, ?_⟩ <;> rw [tcursor_load_size, k2, s1]
    · rw [tcursor_load_line, k3, s3]; exact hl2.1
    · rw [tcursor_load_line, k3, s3]; exact hl2.2
    · rw [tcursor_load_dirty]; exact k5
    · exact hc
    · exact hr
    · exact hc2
    · exact hr2
  obtain ⟨u2, j1, j2, j3, j4, _⟩ := t_resize_round (tcursor_load u1) (min col t.size.col)
    (min row t.size.row) col row 0 (by rw [tcursor_load_size, k2, s1]) hgl (by omega)
    (by omega)
  rw [k1, j1, t_resize_screens_zero]
  simp only []
  refine ⟨_, rfl, ?_, ?_, ?_⟩
  · simp only
    rw [tcursor_load_size, j2, tcursor_load_size, k2, s1]
  · simp only
    rw [tcursor_load_line, j3, tcursor_load_alt]
    refine ⟨k4.1, ?_⟩
    intro c r hc3 hr3
    have := k4.2 c r hc3 hr3
    by_cases q : c < min col t.size.col ∧ r < min row t.size.row
    · rw [if_pos q] at this ⊢
      rw [this, s2, ← hline, cell_at_drop]
      exact realloc_screen_cell env false t.line n _ col row c r t.size.col q.2
        (by rw [g1]; omega) g2 hc3 (by omega)
    · rw [if_neg q] at this ⊢
      exact this
  · simp only
    rw [tcursor_load_alt]
    refine ⟨j4.1, ?_⟩
    intro c r hc3 hr3
    have := j4.2 c r hc3 hr3
    by_cases q : c < min col t.size.col ∧ r < min row t.size.row
    · rw [if_pos q] at this ⊢
      rw [this, tcursor_load_line, k3, s3, ← halt, cell_at_drop]
      exact realloc_screen_cell env true t.alt n _ col row c r t.size.col q.2
        (by rw [ha.1]; omega) ha.2 hc3 (by omega)
    · rw [if_neg q] at this ⊢
      exact this

/-! ### The cells kept by `t_resize` -/

/-- C15 (amended): for `t_resize (cols', rows')` with `cols', rows' ≥ 1` on a terminal whose
two screens have the announced sizes and whose cursor row is inside the grid, with `n` the
count of rows dropped from the top (`0` when the cursor row is below `rows'`, else
`cursor row - rows' + 1`): the call returns, and every cell `(c, r)` with
`c < min (cols, cols')` and `r < min (rows, rows')` holds, on both screens, the glyph that
the cell `(c, r + n)` held before; so when the cursor row is below `rows'`, in particular
when the dimensions do not change, every cell of the overlap keeps its glyph. -/
theorem t_resize_keeps (env : Env) (t : Term) (col row : Nat) (hg : grid_ok t)
    (ha : screen_ok t.alt t.size.col t.size.row) (hc : 1 ≤ col) (hc2 : col < 2147483648)
    (hr : 1 ≤ row) (hr2 : row < 2147483648) (hcur : t.c.p.row < t.size.row) :
    ∃ u, t_resize env t col row = .ok u ∧ u.size = { row := row, col := col } ∧
      ∀ c r, c < min col t.size.col → r < min row t.size.row →
        cell_at u.line c r
          = cell_at t.line c (r + if t.c.p.row < row then 0 else t.c.p.row - row + 1) ∧
        cell_at u.alt c r
          = cell_at t.alt c (r + if t.c.p.row < row then 0 else t.c.p.row - row + 1) := by
  obtain ⟨u, h1, h2, h3, h4⟩ := t_resize_spec env t col row hg ha hc hc2 hr hr2 hcur
  refine ⟨u, h1, h2, ?_⟩
  intro c r hc3 hr3
  have a := h3.2 c r (by omega) (by omega)
  have b := h4.2 c r (by omega) (by omega)
  rw [if_pos ⟨hc3, hr3⟩, cell_at_drop] at a b
  exact ⟨a, b⟩

theorem ab_low_grid_ok : grid_ok ab_low_term := by
  refine ⟨rfl, ?_, rfl, by decide, by decide, by decide, by decide⟩
  intro ln h
  simp only [ab_low_term, ab_term, List.mem_cons, List.mem_singleton, List.not_mem_nil,
    or_false] at h
  rcases h with h | h <;> rw [h] <;> rfl

theorem ab_low_alt_ok : screen_ok ab_low_term.alt ab_low_term.size.col ab_low_term.size.row := by
  refine ⟨rfl, ?_⟩
  intro l hl
  have : l = List.replicate 1 blank_cell := List.eq_of_mem_replicate hl
  rw [this]
  rfl

theorem t_resize_keeps_witness :
    (grid_ok ab_low_term ∧ screen_ok ab_low_term.alt ab_low_term.size.col ab_low_term.size.row ∧
      1 ≤ 3 ∧ 3 < 2147483648 ∧ 1 ≤ 2 ∧ 2 < 2147483648 ∧
      ab_low_term.c.p.row < ab_low_term.size.row) ∧
    ∃ u, t_resize sample_env ab_low_term 3 2 = .ok u ∧ u.size = { row := 2, col := 3 } ∧
      ∀ c r, c < min 3 ab_low_term.size.col → r < min 2 ab_low_term.size.row →
        cell_at u.line c r
          = cell_at ab_low_term.line c
              (r + if ab_low_term.c.p.row < 2 then 0 else ab_low_term.c.p.row - 2 + 1) ∧
        cell_at u.alt c r
          = cell_at ab_low_term.alt c
              (r + if ab_low_term.c.p.row < 2 then 0 else ab_low_term.c.p.row - 2 + 1) :=
  ⟨⟨ab_low_grid_ok, ab_low_alt_ok, by decide, by decide, by decide, by decide, by decide⟩,
   t_resize_keeps sample_env ab_low_term 3 2 ab_low_grid_ok ab_low_alt_ok (by decide)
     (by decide) (by decide) (by decide) (by decide)⟩

/-- C15 (counterexample): on the terminal of one column and two rows that shows `A` on row 0
and `B` on row 1, with the cursor on row 1, `t_resize (1, 1)` returns a terminal whose cell
`(0, 0)`, which lies in the overlap of the old and the new dimensions, holds `B`, not the
`A` it held before: the screen slides up to keep the cursor row. -/
theorem t_resize_slides :
    cell_at ab_low_term.line 0 0 = { rune := 0x41, attr := 0, fg := DEFAULT_FG, bg := DEFAULT_BG } ∧
    ∃ u, t_resize sample_env ab_low_term 1 1 = .ok u ∧
      cell_at u.line 0 0 = { rune := 0x42, attr := 0, fg := DEFAULT_FG, bg := DEFAULT_BG } := by
  refine ⟨rfl, ?_⟩
  obtain ⟨u, h1, _, h3, _⟩ := t_resize_spec sample_env ab_low_term 1 1 ab_low_grid_ok
    ab_low_alt_ok (by decide) (by decide) (by decide) (by decide) (by decide)
  refine ⟨u, h1, ?_⟩
  have a := h3.2 0 0 (by decide) (by decide)
  rw [if_pos (by decide), cell_at_drop] at a
  rw [a]
  rfl

/-! ### The cells exposed by `t_resize` -/

/-- C16: after `t_resize (cols', rows')` with `cols', rows' ≥ 1` on a `cols × rows` terminal
whose two screens have the announced sizes and whose cursor row is inside the grid, the call
returns and every cell `(c, r)` of the new grid, on both screens, that lies in the newly
exposed area (`c ≥ cols` or `r ≥ rows`) holds the rune `' '` and no attribute bit, whatever
the reallocated memory held. -/
theorem t_resize_exposed (env : Env) (t : Term) (col row : Nat) (hg : grid_ok t)
    (ha : screen_ok t.alt t.size.col t.size.row) (hc : 1 ≤ col) (hc2 : col < 2147483648)
    (hr : 1 ≤ row) (hr2 : row < 2147483648) (hcur : t.c.p.row < t.size.row) :
    ∃ u, t_resize env t col row = .ok u ∧ u.size = { row := row, col := col } ∧
      screen_ok u.line col row ∧ screen_ok u.alt col row ∧
      ∀ c r, c < col → r < row → (t.size.col ≤ c ∨ t.size.row ≤ r) →
        ((cell_at u.line c r).rune = 32 ∧ (cell_at u.line c r).attr = 0) ∧
        ((cell_at u.alt c r).rune = 32 ∧ (cell_at u.alt c r).attr = 0) := by
  obtain ⟨u, h1, h2, h3, h4⟩ := t_resize_spec env t col row hg ha hc hc2 hr hr2 hcur
  refine ⟨u, h1, h2, h3.1, h4.1, ?_⟩
  intro c r hc3 hr3 hx
  have a := h3.2 c r hc3 hr3
  have b := h4.2 c r hc3 hr3
  have q : ¬ (c < min col t.size.col ∧ r < min row t.size.row) := by omega
  rw [if_neg q] at a b
  exact ⟨a, b⟩

theorem t_resize_exposed_witness :
    (grid_ok (fresh_term 80 24) ∧
      screen_ok (fresh_term 80 24).alt (fresh_term 80 24).size.col (fresh_term 80 24).size.row ∧
      1 ≤ 100 ∧ 100 < 2147483648 ∧ 1 ≤ 30 ∧ 30 < 2147483648 ∧
      (fresh_term 80 24).c.p.row < (fresh_term 80 24).size.row) ∧
    ∃ u, t_resize sample_env (fresh_term 80 24) 100 30 = .ok u ∧
      u.size = { row := 30, col := 100 } ∧
      screen_ok u.line 100 30 ∧ screen_ok u.alt 100 30 ∧
      ∀ c r, c < 100 → r < 30 →
        ((fresh_term 80 24).size.col ≤ c ∨ (fresh_term 80 24).size.row ≤ r) →
        ((cell_at u.line c r).rune = 32 ∧ (cell_at u.line c r).attr = 0) ∧
        ((cell_at u.alt c r).rune = 32 ∧ (cell_at u.alt c r).attr = 0) :=
  have hg : grid_ok (fresh_term 80 24) :=
    grid_ok_uniform (fresh_term 80 24) 80 24 blank_cell rfl rfl rfl (by decide) (by decide)
      (by decide) (by decide)
  have ha : screen_ok (fresh_term 80 24).alt (fresh_term 80 24).size.col
      (fresh_term 80 24).size.row :=
    ⟨by simp [fresh_term], rows_ok_uniform 80 24 blank_cell⟩
  ⟨⟨hg, ha, by decide, by decide, by decide, by decide, by decide⟩,
   t_resize_exposed sample_env (fresh_term 80 24) 100 30 hg ha (by decide) (by decide)
     (by decide) (by decide) (by decide)⟩

/-! ### Steps of a trace with a wide character -/

/-- A round of the loop of `t_write` on a character of `k` bytes, control characters not
shown. -/
theorem t_write_loop_char (putc : State → Nat → Except Fault State) (f : Nat) (st : State)
    (buf : List Nat) (n k u : Nat) (hb : buf.length ≠ 0)
    (hu : term_flag st.term MODE_UTF8 ≠ 0) (hd : utf8_decode buf buf.length = .ok (k, u))
    (hk : k ≠ 0) :
    t_write_loop putc false (f + 1) st buf n
      = (putc st u).bind fun s2 => t_write_loop putc false f s2 (buf.drop k) (n + k) := by
  conv => lhs; unfold t_write_loop
  rw [if_neg hb]
  simp only [hu, ne_eq, not_false_eq_true, if_true, hd, hk, if_false, Bool.false_and,
    Bool.false_eq_true]
  cases putc st u <;> rfl

/-- A printable rune above 126 in UTF-8 mode, outside any sequence, is printed with the
width `wcwidth` gives. -/
theorem t_putc_high (env : Env) (st : State) (rune : Nat) (bytes : List Nat) (hr : ¬ rune < 127)
    (hu : term_flag st.term MODE_UTF8 ≠ 0) (he : utf8_encode rune = .ok bytes)
    (hc : ISCONTROL rune = false)
    (hp : term_flag st.term MODE_PRINT = 0) (hs : term_flag st.term ESC_STR = 0)
    (h1 : term_flag st.term ESC_START = 0) :
    t_putc env st rune
      = t_putc_print env st rune
          (if u32 (env.wcwidth rune) = UINT_MAX then 1 else u32 (env.wcwidth rune)) := by
  rw [t_putc_eq]
  unfold t_putc_body
  have h2 : ¬ (rune < 127 ∨ term_flag st.term MODE_UTF8 = 0) := by
    intro h
    rcases h with h | h
    · exact hr h
    · exact hu h
  simp only [h2, if_false, he, ok_bind, pure_eq_ok, hc, Bool.false_eq_true, hp, ne_eq,
    not_true_eq_false, hs, false_and, h1]

/-- Control code CR outside any sequence: the cursor goes to column 0. -/
theorem t_putc_cr (env : Env) (st : State)
    (hp : term_flag st.term MODE_PRINT = 0) (hs : term_flag st.term ESC_MASK = 0) :
    t_putc env st 0x0d
      = .ok { st with term := { t_move_to st.term 0 st.term.c.p.row with lastu := 0 } } := by
  have hs2 : term_flag st.term ESC_STR = 0 := and_sub_zero _ ESC_MASK _ hs (by decide)
  rw [t_putc_eq, t_putc_body_ascii env _ _ st 0x0d (by decide) hp hs2]
  have hc : ISCONTROL 0x0d = true := by decide
  simp only [hc, if_true, t_control_code]
  have h3 : (t_move_to st.term 0 st.term.c.p.row).flags &&& ESC_MASK = 0 := by
    rw [t_move_to_flags]
    have : term_flag st.term ESC_MASK = 0 := hs
    unfold term_flag at this
    rw [Nat.and_assoc, Nat.and_comm (cnot CURSOR_WRAPNEXT), ← Nat.and_assoc, this, Nat.zero_and]
  simp +decide only [if_false, ok_bind, ok_bind2, h3, if_true, pure_eq_ok]

theorem utf8_wide_char (rest : List Nat) (len : Nat) (h : 3 ≤ len) :
    utf8_decode (0xE4 :: 0xB8 :: 0xAD :: rest) len = .ok (3, 0x4E2D) := by
  rw [utf8_decode_seq3 0xE4 0xB8 0xAD rest len (by decide) (by decide) (by decide) h]
  decide

theorem utf8_encode_wide : utf8_encode 0x4E2D = .ok [0xE4, 0xB8, 0xAD] := by
  decide

/-! ### Writing a cell: `t_set_char` -/

theorem get_cell_getD (ln : Line) (col : Nat) (h : col < ln.length) :
    get_cell ln col = .ok (ln.getD col blank_cell) := by
  unfold get_cell
  rw [List.getElem?_eq_getElem h, List.getD_eq_getElem?_getD, List.getElem?_eq_getElem h]
  rfl

theorem get_row_getD (t : Term) (row : Nat) (h : row < t.line.length) :
    get_row t row = .ok (t.line.getD row []) := by
  unfold get_row
  rw [List.getElem?_eq_getElem h, List.getD_eq_getElem?_getD, List.getElem?_eq_getElem h]
  rfl

theorem set_cell_ok (ln : Line) (col : Nat) (g : TermGlyph) (h : col < ln.length) :
    set_cell ln col g = .ok (ln.set col g) := by
  unfold set_cell
  rw [if_pos h]

theorem partner_row_length (t : Term) (ln : Line) (col : Nat) :
    (partner_row t ln col).length = ln.length := by
  unfold partner_row
  split
  · split
    · simp
    · rfl
  · split
    · simp
    · rfl

/-- Function `t_set_char` on a cell of the grid, with no character-set translation, when
the cell is not a dummy cell in column 0: it returns; the other half of a wide glyph is
blanked, the cell takes the rune and the cursor attributes, the row is marked dirty. -/
theorem t_set_char_spec (t : Term) (rune col row : Nat) (hg : grid_ok t)
    (hcol : col < t.size.col) (hrow : row < t.size.row)
    (hrune : t_set_char_rune t rune = .ok rune)
    (h0 : (cell_at t.line col row).attr &&& ATTR_WIDE = 0 →
      (cell_at t.line col row).attr &&& ATTR_WDUMMY ≠ 0 → 1 ≤ col) :
    t_set_char t rune col row
      = .ok { t with
          line := t.line.set row
            ((partner_row t (t.line.getD row []) col).set col
              { rune := rune, attr := u16 t.c.attr, fg := u16 t.c.fg, bg := u16 t.c.bg }),
          dirty := t.dirty.set row true } := by
  have hg2 := hg
  obtain ⟨g1, g2, g3, g4, g5, g6, g7⟩ := hg2
  have hl : (t.line.getD row []).length = t.size.col := grid_ok_row_length t hg row hrow
  unfold t_set_char
  rw [hrune, get_row_getD t row (by rw [g1]; exact hrow)]
  simp only [ok_bind]
  rw [get_cell_getD _ col (by rw [hl]; exact hcol)]
  simp only [ok_bind, pure_eq_ok]
  unfold cell_at at h0
  have e1 : uadd col 1 = col + 1 := uadd_of_lt _ _ (by omega)
  have hd : row < t.dirty.length := by rw [g3]; exact hrow
  by_cases c1 : ((t.line.getD row []).getD col blank_cell).attr &&& ATTR_WIDE ≠ 0
  · by_cases c2 : col + 1 < t.size.col
    · have p : partner_row t (t.line.getD row []) col
          = (t.line.getD row []).set (col + 1) { (t.line.getD row []).getD (col + 1) blank_cell with
              rune := 32,
              attr := u16 (((t.line.getD row []).getD (col + 1) blank_cell).attr &&&
                cnot ATTR_WDUMMY) } := by
        unfold partner_row
        rw [if_pos c1, if_pos c2]
      rw [if_pos c1, e1, if_pos c2, get_cell_getD _ (col + 1) (by rw [hl]; exact c2)]
      simp only [ok_bind]
      rw [set_cell_ok _ _ _ (by rw [hl]; exact c2)]
      simp only [ok_bind]
      rw [← p, set_cell_ok _ _ _ (by rw [partner_row_length, hl]; exact hcol)]
      simp only [ok_bind, if_pos hd]
    · have p : partner_row t (t.line.getD row []) col = t.line.getD row [] := by
        unfold partner_row
        rw [if_pos c1, if_neg c2]
      rw [if_pos c1, e1, if_neg c2]
      simp only [ok_bind]
      rw [p, set_cell_ok _ _ _ (by rw [hl]; exact hcol)]
      simp only [ok_bind, if_pos hd]
  · rw [if_neg c1]
    by_cases c3 : ((t.line.getD row []).getD col blank_cell).attr &&& ATTR_WDUMMY ≠ 0
    · have h1 : 1 ≤ col := h0 (by simpa using c1) c3
      have e2 : usub col 1 = col - 1 := usub_of_le _ _ h1
      have p : partner_row t (t.line.getD row []) col
          = (t.line.getD row []).set (col - 1) { (t.line.getD row []).getD (col - 1) blank_cell with
              rune := 32,
              attr := u16 (((t.line.getD row []).getD (col - 1) blank_cell).attr &&&
                cnot ATTR_WIDE) } := by
        unfold partner_row
        rw [if_neg c1, if_pos c3]
      rw [if_pos c3, e2, get_cell_getD _ (col - 1) (by rw [hl]; omega)]
      simp only [ok_bind]
      rw [set_cell_ok _ _ _ (by rw [hl]; omega)]
      simp only [ok_bind]
      rw [← p, set_cell_ok _ _ _ (by rw [partner_row_length, hl]; exact hcol)]
      simp only [ok_bind, if_pos hd]
    · have p : partner_row t (t.line.getD row []) col = t.line.getD row [] := by
        unfold partner_row
        rw [if_neg c1, if_neg c3]
      rw [if_neg c3]
      simp only [ok_bind]
      rw [p, set_cell_ok _ _ _ (by rw [hl]; exact hcol)]
      simp only [ok_bind, if_pos hd]

theorem u16_and_cnot (a m : Nat) (hm : m < 65536) : u16 (a &&& cnot m) &&& m = 0 := by
  unfold u16
  have e : m % 2 ^ 16 = m := Nat.mod_eq_of_lt (by norm_num; exact hm)
  have h := and_mod_two_pow (a &&& cnot m) m 16
  rw [e, and_cnot_and a m (by omega)] at h
  simpa using h.symm

/-! ### A dummy cell without its wide glyph -/

theorem wide_erase_trace (x : Except Fault (State × Nat))
    (hx : t_write wide_env (ground_state 80 24 sample_win)
      [0xE4, 0xB8, 0xAD, 0x0d, 0x1b, 0x5b, 0x58] false = x) :
    ∃ st, x = .ok (st, 7) ∧ cell_at st.term.line 1 0 = { rune := 0, attr := ATTR_WDUMMY, fg := 256, bg := 0 } ∧
      cell_at st.term.line 0 0 = blank_cell := by
  unfold t_write at hx
  simp only [List.length_cons, List.length_nil, Nat.zero_add, Nat.reduceAdd] at hx
  rw [t_write_loop_char _ _ _ _ _ 3 0x4E2D (by simp) (by decide)
    (utf8_wide_char _ _ (by simp)) (by decide)] at hx
  rw [t_putc_high wide_env _ 0x4E2D _ (by decide) (by decide) utf8_encode_wide (by decide)
    (by decide) (by decide) (by decide)] at hx
  have hw : (if u32 (wide_env.wcwidth 20013) = UINT_MAX then 1 else u32 (wide_env.wcwidth 20013))
      = 2 := by
    have e : wide_env.wcwidth 20013 = 2 := by decide
    rw [e, u32_of_lt 2 (by omega) (by omega)]
    decide
  rw [hw] at hx
  have a1 : (0 : Nat) < 24 := by decide
  simp +decide [t_putc_print, t_selected, tregion_is_sel, tline_sel_get_margin, sel_clear,
    t_set_dirt, get_row, term_flag, BETWEEN, fill_range, usub_eq,
    uadd_eq, t_set_char, t_set_char_rune, get_cell, set_cell, put_cell, blank_cell, t_move_to,
    ground_state, fresh_term, u16_of_lt] at hx
  simp +decide only [t_write_loop_cons, t_putc_cr, t_putc_escape, t_putc_bracket,
    t_putc_csi_param, t_putc_csi_final, term_flag, ok_bind2, zeros_length, List.length_set,
    MODE_UTF8, MODE_WRAP, MODE_PRINT, ESC_STR, ESC_START, ESC_CSI, ESC_UTF8, ESC_ALTCHARSET,
    ESC_TEST, ESC_BUF_SIZ, ESC_MASK, t_move_to_flags] at hx
  simp +decide [csi_handle, csi_parse, csi_parse_loop, strtol_eq, strtol_digits, isdigit, isspace,
    i32_of_lt] at hx
  simp +decide [csi_handle0, csi_arg, csi_handle1_optional, DEFAULT, u32_of_lt, t_move_to,
    usub_eq] at hx
  simp +decide [tregion_clear, tregion_clear_loop, tline_clear, tregion_is_sel,
    tline_sel_get_margin, term_flag, get_row, usub_eq, uadd_eq, fill_range, blank_glyph,
    u16_of_lt, t_write_loop_nil] at hx
  subst hx
  refine ⟨_, rfl, ?_, ?_⟩
  · simp [cell_at]
  · simp [cell_at, blank_cell]

/-- C19 (counterexample): on the 80 × 24 terminal left by `t_new`, with a `wcwidth` that
gives the character U+4E2D two cells, the bytes of that character, a carriage return and
`ESC [ X` (erase one character) are consumed and leave the cell of column 1 of row 0 flagged
`ATTR_WDUMMY` next to a blank cell in column 0 that is not flagged `ATTR_WIDE`:
`tregion_clear` erased the wide glyph and kept its dummy partner. -/
theorem dummy_without_wide :
    ∃ st, t_write wide_env (ground_state 80 24 sample_win)
        [0xE4, 0xB8, 0xAD, 0x0d, 0x1b, 0x5b, 0x58] false = .ok (st, 7) ∧
      (cell_at st.term.line 1 0).attr &&& ATTR_WDUMMY ≠ 0 ∧
      (cell_at st.term.line 0 0).attr &&& ATTR_WIDE = 0 := by
  obtain ⟨st, h1, h2, h3⟩ := wide_erase_trace _ rfl
  refine ⟨st, h1, ?_, ?_⟩
  · rw [h2]
    decide
  · rw [h3]
    decide

/-- C19 (amended): `t_set_char` on a cell of the grid, with no character-set translation,
returns, and when the cell it overwrites is the primary cell of a wide glyph (`ATTR_WIDE`,
not in the last column) the cell to its right ends with a space and `ATTR_WDUMMY` cleared;
when it overwrites a dummy cell (`ATTR_WDUMMY`, not in column 0) the cell to its left ends
with a space and `ATTR_WIDE` cleared. -/
theorem t_set_char_clears_partner (t : Term) (rune col row : Nat) (hg : grid_ok t)
    (hcol : col < t.size.col) (hrow : row < t.size.row)
    (hrune : t_set_char_rune t rune = .ok rune)
    (h0 : (cell_at t.line col row).attr &&& ATTR_WIDE = 0 →
      (cell_at t.line col row).attr &&& ATTR_WDUMMY ≠ 0 → 1 ≤ col) :
    ∃ u, t_set_char t rune col row = .ok u ∧
      ((cell_at t.line col row).attr &&& ATTR_WIDE ≠ 0 → col + 1 < t.size.col →
        (cell_at u.line (col + 1) row).rune = 32 ∧
        (cell_at u.line (col + 1) row).attr &&& ATTR_WDUMMY = 0) ∧
      ((cell_at t.line col row).attr &&& ATTR_WIDE = 0 →
        (cell_at t.line col row).attr &&& ATTR_WDUMMY ≠ 0 →
        (cell_at u.line (col - 1) row).rune = 32 ∧
        (cell_at u.line (col - 1) row).attr &&& ATTR_WIDE = 0) := by
  have hl : (t.line.getD row []).length = t.size.col := grid_ok_row_length t hg row hrow
  have hr : row < t.line.length := by rw [hg.1]; exact hrow
  refine ⟨_, t_set_char_spec t rune col row hg hcol hrow hrune h0, ?_, ?_⟩
  · intro c1 c2
    unfold cell_at at c1 ⊢
    simp only
    rw [set_getD_self _ _ _ _ hr, getD_set_ne _ _ _ _ _ (by omega)]
    unfold partner_row
    rw [if_pos c1, if_pos c2, set_getD_self _ _ _ _ (by rw [hl]; exact c2)]
    exact ⟨rfl, u16_and_cnot _ _ (by decide)⟩
  · intro c1 c3
    have h1 : 1 ≤ col := h0 c1 c3
    unfold cell_at at c1 c3 ⊢
    simp only
    rw [set_getD_self _ _ _ _ hr, getD_set_ne _ _ _ _ _ (by omega)]
    unfold partner_row
    rw [if_neg (by simpa using c1), if_pos c3, set_getD_self _ _ _ _ (by rw [hl]; omega)]
    exact ⟨rfl, u16_and_cnot _ _ (by decide)⟩

theorem wide_term_grid_ok : grid_ok wide_term := by
  refine ⟨rfl, ?_, rfl, by decide, by decide, by decide, by decide⟩
  intro ln h
  simp only [wide_term, List.mem_singleton] at h
  rw [h]
  rfl

theorem t_set_char_clears_partner_witness :
    (grid_ok wide_term ∧ 0 < wide_term.size.col ∧ 0 < wide_term.size.row ∧
      t_set_char_rune wide_term 0x61 = .ok 0x61 ∧
      ((cell_at wide_term.line 0 0).attr &&& ATTR_WIDE = 0 →
        (cell_at wide_term.line 0 0).attr &&& ATTR_WDUMMY ≠ 0 → 1 ≤ 0)) ∧
    ∃ u, t_set_char wide_term 0x61 0 0 = .ok u ∧
      ((cell_at wide_term.line 0 0).attr &&& ATTR_WIDE ≠ 0 → 0 + 1 < wide_term.size.col →
        (cell_at u.line (0 + 1) 0).rune = 32 ∧
        (cell_at u.line (0 + 1) 0).attr &&& ATTR_WDUMMY = 0) ∧
      ((cell_at wide_term.line 0 0).attr &&& ATTR_WIDE = 0 →
        (cell_at wide_term.line 0 0).attr &&& ATTR_WDUMMY ≠ 0 →
        (cell_at u.line (0 - 1) 0).rune = 32 ∧
        (cell_at u.line (0 - 1) 0).attr &&& ATTR_WIDE = 0) :=
  have h1 : t_set_char_rune wide_term 0x61 = .ok 0x61 := by decide
  have h2 : (cell_at wide_term.line 0 0).attr &&& ATTR_WIDE = 0 →
      (cell_at wide_term.line 0 0).attr &&& ATTR_WDUMMY ≠ 0 → 1 ≤ 0 := by decide
  ⟨⟨wide_term_grid_ok, by decide, by decide, h1, h2⟩,
   t_set_char_clears_partner wide_term 0x61 0 0 wide_term_grid_ok (by decide) (by decide) h1 h2⟩

/-! ### C25: the selection of the start-up state -/

/-- C25: in the state `main` builds with `t_init ()` and `t_new (80, 24)`, for every window
system and window, the end of the selection is column 0 of row 0, not the mark `UINT_MAX` that
`t_init` stored (the `memset` of `t_new` wipes it): `tregion_is_sel` answers true and the
cell (0, 0) counts as selected. -/
theorem start_state_selected (env : Env) (w : Win) :
    ∃ st, start_state env 80 24 w = .ok st ∧
      st.term.sel.oe.col = 0 ∧ st.term.sel.oe.col ≠ UINT_MAX ∧
      tregion_is_sel st.term = true ∧ t_selected st.term 0 0 = true := by
  refine ⟨ground_state 80 24 w,
    start_state_eq env 80 24 w (by decide) (by decide) (by decide) (by decide), rfl, ?_, ?_, ?_⟩
  · show (fresh_term 80 24).sel.oe.col ≠ UINT_MAX
    decide
  · show tregion_is_sel (fresh_term 80 24) = true
    decide
  · show t_selected (fresh_term 80 24) 0 0 = true
    decide

/-! ### The text of the selection and its normalisation -/

/-- C24: on the 80 × 24 terminal that holds `hello world` with the cells of `hello` selected,
`sel_clear` stores the mark `UINT_MAX` in `oe.col` and `tregion_is_sel` then answers false,
yet `sel_get` still returns the text `hello`, not the null pointer; the same holds when the
selection belongs to the alternate screen while the primary one is shown. -/
theorem sel_get_after_clear :
    ∃ t, sel_clear hello_sel_term = .ok t ∧ t.sel.oe.col = UINT_MAX ∧
      tregion_is_sel t = false ∧ sel_get t = .ok (some hello5_bytes) ∧
      tregion_is_sel hello_alt_term = false ∧
      sel_get hello_alt_term = .ok (some hello5_bytes) := by
  refine ⟨_, by with_unfolding_all rfl, ?_, ?_, ?_, ?_, ?_⟩ <;> with_unfolding_all rfl

/-- C22: on the 80 × 24 terminal that holds `hello world` on row 0, `sel_normalize` after a
line-snap click at column 2 of row 0 reads the row pointer at index `UINT_MAX` (no result);
after a line-snap click at column 2 of the empty row 1 it sets `nb` to the cell (0, 0) of the
row above, which no wrap mark joins to row 1, and `sel_get` returns `hello world` and two line
feeds. -/
theorem line_snap_row_above (env : Env) :
    sel_normalize env (snap_click hello_term 2 0) = .error .row ∧
    ∃ t, sel_normalize env (snap_click hello_term 2 1) = .ok t ∧
      t.sel.nb = { row := 0, col := 0 } ∧ t.sel.ne = { row := 1, col := 79 } ∧
      sel_get t = .ok (some (hello_bytes ++ [10, 10])) := by
  refine ⟨by with_unfolding_all rfl, hello_snapped, by with_unfolding_all rfl, rfl, rfl, ?_⟩
  with_unfolding_all rfl

/-- The result of `sel_normalize` does not depend on the corners `nb` and `ne` of its input. -/
theorem sel_normalize_corners (env : Env) (t : Term) (nb ne : Cell) :
    sel_normalize env { t with sel := { t.sel with nb := nb, ne := ne } } = sel_normalize env t :=
  rfl

/-- The term `sel_normalize` returns is its input with new corners `nb` and `ne`. -/
theorem sel_normalize_shape (env : Env) (t u : Term) (h : sel_normalize env t = .ok u) :
    u = { t with sel := { t.sel with nb := u.sel.nb, ne := u.sel.ne } } := by
  unfold sel_normalize at h
  simp only [bind, Except.bind, pure, Except.pure] at h
  split at h
  · cases h
  · split at h
    · cases h
    · cases h
      rfl

/-- C23: when `sel_normalize` returns the term `u`, a second call on `u` (same grid, same
anchor `ob`, extent `oe` and flags) returns `u` again, with the same corners `nb` and `ne`,
whatever the selection type and the snap mode. -/
theorem sel_normalize_idem (env : Env) (t u : Term) (h : sel_normalize env t = .ok u) :
    sel_normalize env u = .ok u := by
  rw [sel_normalize_shape env t u h, sel_normalize_corners]
  rw [← sel_normalize_shape env t u h]
  exact h

theorem sel_normalize_idem_witness :
    sel_normalize sample_env (snap_click hello_term 2 1) = .ok hello_snapped ∧
    sel_normalize sample_env hello_snapped = .ok hello_snapped :=
  ⟨by with_unfolding_all rfl,
   sel_normalize_idem sample_env (snap_click hello_term 2 1) hello_snapped
     (by with_unfolding_all rfl)⟩

/-! ### C26: the growth of the string buffer -/

/-- The hard-cap test of `t_putc` compares the `uint` field `alloc_size` with
`(SIZE_MAX - UTF_SIZ) >> 1`, a value of 63 bits: it never holds. -/
theorem cap_test_dead (a : Nat) (h : a < 4294967296) : ¬ a > (SIZE_MAX - UTF_SIZ) >>> 1 := by
  have e : (SIZE_MAX - UTF_SIZ) >>> 1 = 9223372036854775805 := by decide
  rw [e]
  omega

/-- C26: with a buffer of 2^31 bytes that holds 2^31 - 1 bytes, the next byte passes the
hard-cap test and `thunk_double_size` runs; `alloc_size << 1` wraps to 0, so the new
`alloc_size` is `nelements + len + 1` = 2^31 + 1, below twice the old size: the buffer grows
by one byte, not geometrically, and the growth is computed with wrap-around. -/
theorem t_putc_str_wraps (st : State) (b : Nat)
    (ha : st.strescseq.t.alloc_size = 2147483648)
    (hn : st.strescseq.t.nelements = 2147483647)
    (he : st.strescseq.t.element_size = 1)
    (hl : st.strescseq.t.items.length = 2147483648) :
    ¬ st.strescseq.t.alloc_size > (SIZE_MAX - UTF_SIZ) >>> 1 ∧
    ∃ st2, t_putc_str st [b] = .ok st2 ∧
      st2.strescseq.t.alloc_size = 2147483649 ∧ st2.strescseq.t.nelements = 2147483648 ∧
      st2.strescseq.t.alloc_size < 2 * st.strescseq.t.alloc_size := by
  refine ⟨cap_test_dead _ (by omega), ?_⟩
  have e1 : uadd 2147483647 [b].length = 2147483648 := by
    rw [uadd_eq]; rfl
  have e2 : uadd 2147483648 1 = 2147483649 := by rw [uadd_eq]
  have e3 : (2147483648 <<< 1) % U32 = 0 := by decide
  have e4 : (1 * 2147483649) % U32 = 2147483649 := by decide
  have e5 : (List.take 2147483649 st.strescseq.t.items ++
      List.replicate (2147483649 - st.strescseq.t.items.length) 0).length = 2147483649 := by
    rw [List.length_append, List.length_take, List.length_replicate, hl]
    decide
  have e6 : 2147483647 + [b].length ≤ 2147483649 := by
    show 2147483647 + 1 ≤ 2147483649
    decide
  have e7 : (0 : Nat) < 2147483649 := by decide
  unfold t_putc_str
  simp only [hn, e1, ha, ge_iff_le, le_refl, if_true, cap_test_dead 2147483648 (by omega),
    if_false, thunk_double_size, e2, e3, he, e4, Nat.lt_irrefl, e5, e6, e7]
  refine ⟨_, rfl, rfl, rfl, ?_⟩
  show 2147483649 < 2 * 2147483648
  decide

theorem t_putc_str_wraps_witness :
    ¬ big_str_state.strescseq.t.alloc_size > (SIZE_MAX - UTF_SIZ) >>> 1 ∧
    ∃ st2, t_putc_str big_str_state [0x61] = .ok st2 ∧
      st2.strescseq.t.alloc_size = 2147483649 ∧ st2.strescseq.t.nelements = 2147483648 ∧
      st2.strescseq.t.alloc_size < 2 * big_str_state.strescseq.t.alloc_size :=
  t_putc_str_wraps big_str_state 0x61 rfl rfl rfl (List.length_replicate _ _)

/-- With a buffer of 2^32 - 1 bytes that holds 2^32 - 2 bytes (the sizes reached from the
state of `t_putc_str_wraps` one byte at a time), `nelements + len + 1` wraps to 0 and
`alloc_size << 1` to 2^32 - 2: the buffer shrinks and the `memcpy` of the byte runs over
its end. -/
theorem t_putc_str_overrun (st : State) (b : Nat)
    (ha : st.strescseq.t.alloc_size = 4294967295)
    (hn : st.strescseq.t.nelements = 4294967294)
    (he : st.strescseq.t.element_size = 1)
    (hl : st.strescseq.t.items.length = 4294967295) :
    t_putc_str st [b] = .error .strbuf := by
  have e1 : uadd 4294967294 [b].length = 4294967295 := by
    rw [uadd_eq]; rfl
  have e2 : uadd 4294967295 1 = 0 := by rw [uadd_eq]
  have e3 : (4294967295 <<< 1) % U32 = 4294967294 := by decide
  have e4 : (1 * 4294967294) % U32 = 4294967294 := by decide
  have e5 : (List.take 4294967294 st.strescseq.t.items ++
      List.replicate (4294967294 - st.strescseq.t.items.length) 0).length = 4294967294 := by
    rw [List.length_append, List.length_take, List.length_replicate, hl]
    decide
  have e6 : ¬ 4294967294 + [b].length ≤ 4294967294 := by
    show ¬ 4294967294 + 1 ≤ 4294967294
    decide
  have e7 : ¬ (4294967294 : Nat) < 0 := by decide
  unfold t_putc_str
  simp only [hn, e1, ha, ge_iff_le, le_refl, if_true, cap_test_dead 4294967295 (by omega),
    if_false, thunk_double_size, e2, e3, he, e4, e5, e6, e7]

/-! ### C27: CSI sequences no handler matches -/

/-- The state `csi_parse` returns differs from its input in the private marker `CSI_PRIV` and
in the parsed fields of `csiescseq` only. -/
theorem csi_parse_frame (st s1 : State) (h : csi_parse st = .ok s1) :
    s1.term = { st.term with flags := s1.term.flags } ∧
    s1.term.flags = (if st.csiescseq.buf[0]? = some 0x3f then st.term.flags ||| CSI_PRIV
                     else st.term.flags &&& cnot CSI_PRIV) ∧
    s1.tw = st.tw ∧ s1.strescseq = st.strescseq ∧ s1.cmd = st.cmd ∧ s1.prn = st.prn := by
  simp only [csi_parse] at h
  split at h
  · cases h
  · rename_i b0 hb0
    split at h
    · split at h
      · cases h
      · split at h
        · cases h
        · split at h
          · cases h
          · cases h
            simp only [hb0, Option.some.injEq]
            by_cases hq : b0 = 0x3f
            · simp [hq]
            · simp [hq]
    · cases h

/-- When the final byte and the arguments are not matched, the four dispatchers return
`False` one after the other and `csi_handle` returns the parsed state. -/
theorem csi_dispatch_unmatched (env : Env) (putc : State → Nat → Except Fault State)
    (wr : State → List Nat → Except Fault State) (st s1 : State)
    (hp : csi_parse { st with term := { st.term with flags := st.term.flags &&& cnot ESC_MASK } }
            = .ok s1)
    (hu : csi_unmatched s1 = true) :
    csi_handle env putc wr st = .ok s1 := by
  unfold csi_unmatched at hu
  split at hu
  · rename_i a0 a1 rest hargs
    simp only [Bool.and_eq_true, Bool.not_eq_true', Bool.or_eq_true, decide_eq_true_eq,
      List.contains_eq_any_beq, List.any_cons, List.any_nil, Bool.or_false, beq_iff_eq,
      Bool.or_eq_false_iff, beq_eq_false_iff_ne, ne_eq, Bool.and_eq_false_imp,
      decide_eq_false_iff_not, Bool.decide_eq_true] at hu
    obtain ⟨⟨⟨⟨⟨h0, h1⟩, h2⟩, h3⟩, h4⟩, h5⟩ := hu
    unfold csi_handle
    simp only [hp, ok_bind, csi_handle0, csi_arg, hargs, List.getElem?_cons_zero,
      List.getElem?_cons_succ, csi_handle1_optional, csi_handle2_optional, csi_handle1]
    simp only [h0, h1, h2, if_false, or_self, ok_bind, pure_eq_ok]
    by_cases h116 : s1.csiescseq.mode0 = 116
    · have e3 : (a0 = 22 ∨ a0 = 23) → (¬a1 = 0 ∧ ¬a1 = 1) ∧ ¬a1 = 2 := fun h => h3 ⟨h116, h⟩
      by_cases h22 : a0 = 22
      · simp +decide [h116, h22, (e3 (Or.inl h22)).1.1, (e3 (Or.inl h22)).1.2, (e3 (Or.inl h22)).2]
      · by_cases h23 : a0 = 23
        · simp +decide [h116, h23, (e3 (Or.inr h23)).1.1, (e3 (Or.inr h23)).1.2,
            (e3 (Or.inr h23)).2]
        · simp +decide [h116, h22, h23]
    · by_cases h114 : s1.csiescseq.mode0 = 114
      · have e4 := h4 h114
        simp only [CSI_PRIV] at e4
        simp +decide [h114, e4]
      · simp only [h116, h114, if_false]
        by_cases hn : s1.csiescseq.narg = 0
        · simp only [hn, if_true]
        · simp only [hn, if_false]
          rcases h5 with h5 | ⟨⟨⟨⟨⟨k1, k2⟩, k3⟩, k4⟩, k5⟩, k6⟩
          · exact absurd h5 hn
          · by_cases c99 : s1.csiescseq.mode0 = 99
            · simp +decide [c99, k1 c99]
            · by_cases c103 : s1.csiescseq.mode0 = 103
              · simp +decide [c103, (k2 c103).1, (k2 c103).2]
              · by_cases c105 : s1.csiescseq.mode0 = 105
                · have k := k3 c105
                  simp +decide [c105, k.1.1.1.1, k.1.1.1.2, k.1.1.2, k.1.2, k.2]
                · by_cases c74 : s1.csiescseq.mode0 = 74
                  · have k := k4 (Or.inl c74)
                    simp +decide [c74, k.1.1, k.1.2, k.2]
                  · by_cases c75 : s1.csiescseq.mode0 = 75
                    · have k := k4 (Or.inr c75)
                      simp +decide [c75, k.1.1, k.1.2, k.2]
                    · by_cases c110 : s1.csiescseq.mode0 = 110
                      · simp +decide [c110, k5 c110]
                      · by_cases c32 : s1.csiescseq.mode0 = 32
                        · by_cases c113 : s1.csiescseq.mode1 = 113
                          · have k : ¬ (0 ≤ a0 ∧ a0 ≤ 7) := fun h => k6 ⟨⟨c32, c113⟩, h.1⟩ h.2
                            simp +decide [c32, c113, x_set_cursor, k]
                          · simp +decide [c32, c113]
                        · simp +decide [c99, c103, c105, c74, c75, c110, c32]
  · cases hu

theorem or_and_distrib (a b m : Nat) : (a ||| b) &&& m = (a &&& m) ||| (b &&& m) := by
  apply Nat.eq_of_testBit_eq
  intro i
  simp only [Nat.testBit_and, Nat.testBit_or]
  cases a.testBit i <;> cases b.testBit i <;> cases m.testBit i <;> rfl

theorem and_and_comm (a b c : Nat) : a &&& b &&& c = a &&& c &&& b := by
  rw [Nat.and_assoc, Nat.and_comm b c, ← Nat.and_assoc]

/-- Neither way of recording the private marker sets an escape-state flag. -/
theorem priv_keeps_ground (f : Nat) (p : Prop) [Decidable p] :
    (if p then (f &&& cnot ESC_MASK) ||| CSI_PRIV else (f &&& cnot ESC_MASK) &&& cnot CSI_PRIV)
      &&& ESC_MASK = 0 := by
  have e : (f &&& cnot ESC_MASK) &&& ESC_MASK = 0 := and_cnot_and f ESC_MASK (by decide)
  split
  · rw [or_and_distrib, e]
    decide
  · rw [and_and_comm, e, Nat.zero_and]

/-- C27: when `csi_parse` returns the state `s1` and its final byte and arguments fall
through every case of the dispatchers (`csi_unmatched`), `csi_handle` returns `s1`: grid,
cursor, scroll region, tab stops, selection, window and string buffer are those of the input;
of the flags only those of `ESC_MASK` are cleared and `CSI_PRIV` is set or cleared after the
first byte of the sequence, so no escape-state flag is left. -/
theorem csi_handle_unmatched (env : Env) (putc : State → Nat → Except Fault State)
    (wr : State → List Nat → Except Fault State) (st s1 : State)
    (hp : csi_parse { st with term := { st.term with flags := st.term.flags &&& cnot ESC_MASK } }
            = .ok s1)
    (hu : csi_unmatched s1 = true) :
    csi_handle env putc wr st = .ok s1 ∧
    s1.term = { st.term with flags := s1.term.flags } ∧
    s1.term.flags = (if st.csiescseq.buf[0]? = some 0x3f
                     then (st.term.flags &&& cnot ESC_MASK) ||| CSI_PRIV
                     else (st.term.flags &&& cnot ESC_MASK) &&& cnot CSI_PRIV) ∧
    term_flag s1.term ESC_MASK = 0 ∧
    s1.tw = st.tw ∧ s1.strescseq = st.strescseq ∧ s1.cmd = st.cmd ∧ s1.prn = st.prn := by
  obtain ⟨f1, f2, f3, f4, f5, f6⟩ := csi_parse_frame _ s1 hp
  refine ⟨csi_dispatch_unmatched env putc wr st s1 hp hu, f1, f2, ?_, f3, f4, f5, f6⟩
  unfold term_flag
  rw [f2]
  exact priv_keeps_ground _ _

theorem csi_handle_unmatched_witness :
    csi_handle sample_env (t_putc sample_env)
        (fun s bytes => (t_write sample_env s bytes true).map Prod.fst) csi_7j_state
      = .ok csi_7j_parsed ∧
    csi_7j_parsed.term = { csi_7j_state.term with flags := csi_7j_parsed.term.flags } ∧
    csi_7j_parsed.term.flags = (if csi_7j_state.csiescseq.buf[0]? = some 0x3f
                     then (csi_7j_state.term.flags &&& cnot ESC_MASK) ||| CSI_PRIV
                     else (csi_7j_state.term.flags &&& cnot ESC_MASK) &&& cnot CSI_PRIV) ∧
    term_flag csi_7j_parsed.term ESC_MASK = 0 ∧
    csi_7j_parsed.tw = csi_7j_state.tw ∧ csi_7j_parsed.strescseq = csi_7j_state.strescseq ∧
    csi_7j_parsed.cmd = csi_7j_state.cmd ∧ csi_7j_parsed.prn = csi_7j_state.prn :=
  csi_handle_unmatched sample_env _ _ csi_7j_state csi_7j_parsed (by decide!) (by decide!)

/-! ### C28: CAN and SUB inside a string sequence -/

/-- The flags of the terminal do not enter `t_set_char`. -/
theorem t_set_char_flags (t : Term) (f rune col row : Nat) :
    t_set_char { t with flags := f } rune col row
      = (t_set_char t rune col row).map fun u => { u with flags := f } := by
  unfold t_set_char
  have e1 : t_set_char_rune { t with flags := f } rune = t_set_char_rune t rune := rfl
  have e2 : get_row { t with flags := f } row = get_row t row := rfl
  simp only [bind, Except.bind, pure, Except.pure, Except.map, e1, e2]
  cases t_set_char_rune t rune with
  | error e => rfl
  | ok v =>
    simp only []
    cases get_row t row with
    | error e => rfl
    | ok ln =>
      simp only []
      cases get_cell ln col with
      | error e => rfl
      | ok g =>
        simp only []
        generalize (if g.attr &&& ATTR_WIDE ≠ 0 then _ else _ : Except Fault Line) = x
        cases x with
        | error e => rfl
        | ok ln1 =>
          simp only []
          cases set_cell ln1 col _ with
          | error e => rfl
          | ok ln2 =>
            simp only []
            split <;> rfl

/-- The flags after the abort of a string: `t_putc` clears `ESC_START` and `ESC_STR` and sets
`ESC_STR_END`, `t_control_code` then clears `ESC_STR_END` and `ESC_STR`. -/
theorem str_abort_flags (f : Nat) :
    ((f &&& cnot (ESC_START ||| ESC_STR)) ||| ESC_STR_END) &&& cnot (ESC_STR_END ||| ESC_STR)
      = f &&& cnot (ESC_START ||| ESC_STR ||| ESC_STR_END) := by
  have e1 : ESC_STR_END &&& cnot (ESC_STR_END ||| ESC_STR) = 0 := by decide
  have e2 : cnot (ESC_START ||| ESC_STR) &&& cnot (ESC_STR_END ||| ESC_STR)
      = cnot (ESC_START ||| ESC_STR ||| ESC_STR_END) := by decide
  rw [or_and_distrib, e1, Nat.or_zero, Nat.and_assoc, e2]

/-- The state `t_putc` returns for CAN or SUB inside a string sequence, `t1` being the
terminal after the `t_set_char` of SUB (the input terminal for CAN). -/
theorem t_putc_str_abort (env : Env) (st : State) (b : Nat) (t1 : Term)
    (hp : term_flag st.term MODE_PRINT = 0) (hs : term_flag st.term ESC_STR ≠ 0)
    (hb : (b = 0x18 ∧ t1 = st.term) ∨
          (b = 0x1a ∧ t_set_char st.term 0x3f st.term.c.p.col st.term.c.p.row = .ok t1)) :
    t_putc env st b
      = .ok { st with csiescseq := { st.csiescseq with len := 0 },
                      term := { t1 with
                        flags := st.term.flags &&& cnot (ESC_START ||| ESC_STR ||| ESC_STR_END),
                        lastu := if st.term.flags &&& cnot (ESC_START ||| ESC_STR ||| ESC_STR_END)
                                      &&& ESC_MASK = 0 then 0 else t1.lastu } } := by
  rw [t_putc_eq]
  unfold t_putc_body
  rcases hb with ⟨rfl, rfl⟩ | ⟨rfl, h1⟩
  · simp +decide only [true_or, if_true, pure_eq_ok, ok_bind, hp, hs, ne_eq, not_true_eq_false,
      if_false, not_false_eq_true, and_false, or_true, t_control_code, csi_reset, map_ok,
      str_abort_flags]
    by_cases hc : st.term.flags &&& cnot (ESC_START ||| ESC_STR ||| ESC_STR_END) &&& ESC_MASK = 0
    · simp only [hc, if_true]
    · simp only [hc, if_false]
  · simp +decide only [true_or, if_true, pure_eq_ok, ok_bind, hp, hs, ne_eq, not_true_eq_false,
      if_false, not_false_eq_true, and_false, or_true, t_control_code, csi_reset, map_ok,
      t_set_char_flags, h1, str_abort_flags]
    by_cases hc : st.term.flags &&& cnot (ESC_START ||| ESC_STR ||| ESC_STR_END) &&& ESC_MASK = 0
    · simp only [hc, if_true]
    · simp only [hc, if_false]

/-- A flag that is clear stays clear when other flags are cleared. -/
theorem and_cnot_keep_zero (f m k : Nat) (h : f &&& k = 0) : (f &&& cnot m) &&& k = 0 := by
  rw [and_and_comm, h, Nat.zero_and]

/-- The bytes `ESC (` set `ESC_ALTCHARSET`; the OSC introducer U+009D that follows opens a
string, of which `a` is collected; after CAN the flag `ESC_ALTCHARSET` is still set. -/
theorem can_leaves_charset_flag :
    (t_write sample_env (ground_state 80 24 sample_win) [0x1b, 0x28, 0xc2, 0x9d, 0x61] false).map
        (fun r => (term_flag r.1.term ESC_STR, r.1.strescseq.t.nelements, r.2))
      = .ok (ESC_STR, 1, 5) ∧
    (t_write sample_env (ground_state 80 24 sample_win) [0x1b, 0x28, 0xc2, 0x9d, 0x61, 0x18]
        false).map (fun r => (term_flag r.1.term ESC_MASK, r.2))
      = .ok (ESC_ALTCHARSET, 6) := by
  constructor <;> decide!

/-- C28 (amended): while a string sequence is collected (`ESC_STR` set, printer mode off), CAN
and SUB end it without a call of `str_handle`: window, reply queue, printer output and string
buffer are unchanged, the grid is unchanged but for the `?` that SUB stores at the cursor,
and the flags `ESC_START`, `ESC_STR` and `ESC_STR_END` are clear (the other flags keep their
value), so `t_putc` prints every printable ASCII byte that follows. -/
theorem str_abort (env : Env) (st : State) (b : Nat) (t1 : Term)
    (hp : term_flag st.term MODE_PRINT = 0) (hs : term_flag st.term ESC_STR ≠ 0)
    (hb : (b = 0x18 ∧ t1 = st.term) ∨
          (b = 0x1a ∧ t_set_char st.term 0x3f st.term.c.p.col st.term.c.p.row = .ok t1)) :
    ∃ st2, t_putc env st b = .ok st2 ∧
      st2.tw = st.tw ∧ st2.cmd = st.cmd ∧ st2.prn = st.prn ∧ st2.strescseq = st.strescseq ∧
      st2.term.line = t1.line ∧
      st2.term.flags = st.term.flags &&& cnot (ESC_START ||| ESC_STR ||| ESC_STR_END) ∧
      term_flag st2.term (ESC_START ||| ESC_STR ||| ESC_STR_END) = 0 ∧
      ∀ x, 0x20 ≤ x → x < 0x7f → t_putc env st2 x = t_putc_print env st2 x 1 := by
  have hz : (st.term.flags &&& cnot (ESC_START ||| ESC_STR ||| ESC_STR_END))
      &&& (ESC_START ||| ESC_STR ||| ESC_STR_END) = 0 := and_cnot_and _ _ (by decide)
  refine ⟨_, t_putc_str_abort env st b t1 hp hs hb, rfl, rfl, rfl, rfl, rfl, rfl, hz, ?_⟩
  intro x h1 h2
  apply t_putc_printable env _ x h1 h2
  · exact and_cnot_keep_zero _ _ _ hp
  · exact and_sub_zero _ _ _ hz (by decide)
  · exact and_sub_zero _ _ _ hz (by decide)

theorem str_abort_witness :
    ∃ st2, t_putc sample_env osc_open_state 0x18 = .ok st2 ∧
      st2.tw = osc_open_state.tw ∧ st2.cmd = osc_open_state.cmd ∧
      st2.prn = osc_open_state.prn ∧ st2.strescseq = osc_open_state.strescseq ∧
      st2.term.line = osc_open_state.term.line ∧
      st2.term.flags
        = osc_open_state.term.flags &&& cnot (ESC_START ||| ESC_STR ||| ESC_STR_END) ∧
      term_flag st2.term (ESC_START ||| ESC_STR ||| ESC_STR_END) = 0 ∧
      ∀ x, 0x20 ≤ x → x < 0x7f → t_putc sample_env st2 x = t_putc_print sample_env st2 x 1 :=
  str_abort sample_env osc_open_state 0x18 osc_open_state.term (by decide!) (by decide!)
    (Or.inl ⟨rfl, rfl⟩)

/-! ### What printing, erasing and scrolling leave alone -/

/-- A sequence of two steps that returns has an intermediate result. -/
theorem bind_ok_inv {α β : Type} {x : Except Fault α} {f : α → Except Fault β} {b : β}
    (h : (x >>= f) = .ok b) : ∃ a, x = .ok a ∧ f a = .ok b := by
  cases x with
  | error e => cases h
  | ok a => exact ⟨a, rfl, h⟩

theorem alt_frame_refl (t : Term) : alt_frame t t := ⟨rfl, rfl⟩

theorem alt_frame_trans (t u v : Term) (h1 : alt_frame t u) (h2 : alt_frame u v) :
    alt_frame t v := ⟨h2.1.trans h1.1, h2.2.trans h1.2⟩

theorem keep_and_cnot (f m : Nat) (h : cnot m &&& KEEP_FLAGS = KEEP_FLAGS) :
    (f &&& cnot m) &&& KEEP_FLAGS = f &&& KEEP_FLAGS := by
  rw [Nat.and_assoc, h]

theorem keep_or (f m : Nat) (h : m &&& KEEP_FLAGS = 0) :
    (f ||| m) &&& KEEP_FLAGS = f &&& KEEP_FLAGS := by
  rw [or_and_distrib, h, Nat.or_zero]

theorem t_set_dirt_aframe (t u : Term) (top bottom : Nat)
    (h : t_set_dirt t top bottom = .ok u) : alt_frame t u := by
  unfold t_set_dirt at h
  simp only at h
  split_ifs at h <;> (cases h; exact ⟨rfl, rfl⟩)

theorem sel_clear_aframe (t u : Term) (h : sel_clear t = .ok u) : alt_frame t u := by
  unfold sel_clear at h
  have h2 := t_set_dirt_aframe _ u _ _ h
  exact ⟨h2.1, h2.2.trans (keep_and_cnot _ _ (by decide))⟩

theorem t_move_to_aframe (t : Term) (col row : Nat) : alt_frame t (t_move_to t col row) := by
  unfold t_move_to
  exact ⟨rfl, keep_and_cnot _ _ (by decide)⟩

theorem tline_clear_aframe (t u : Term) (row col1 col2 : Nat) (sel b : Bool)
    (h : tline_clear t row col1 col2 sel = .ok (u, b)) : alt_frame t u := by
  unfold tline_clear at h
  obtain ⟨line, -, h⟩ := bind_ok_inv h
  obtain ⟨t1, h1, h⟩ := bind_ok_inv h
  have f1 : alt_frame t t1 := by
    split_ifs at h1 <;> (cases h1; exact ⟨rfl, rfl⟩)
  simp only at h
  split at h
  · rename_i cmin cmax hm
    by_cases hc : (decide (cmin < col2) &&
        decide (cmax > if col1 ≤ col2 then uadd col2 1 else col1)) = true
    · rw [if_pos hc] at h
      obtain ⟨t2, h2, h⟩ := bind_ok_inv h
      cases h
      exact alt_frame_trans _ _ _ f1 (sel_clear_aframe _ _ h2)
    · rw [if_neg hc] at h
      cases h
      exact f1
  · cases h
    exact f1

theorem tregion_clear_loop_aframe (col1 col2 : Nat) :
    ∀ (n row : Nat) (sel : Bool) (t u : Term),
      tregion_clear_loop col1 col2 n row sel t = .ok u → alt_frame t u := by
  intro n
  induction n with
  | zero =>
    intro row sel t u h
    cases h
    exact alt_frame_refl _
  | succ n ih =>
    intro row sel t u h
    unfold tregion_clear_loop at h
    split_ifs at h
    split at h
    · cases h
    · rename_i t2 cleared h2
      have f1 := tline_clear_aframe _ _ _ _ _ _ _ h2
      exact alt_frame_trans _ _ _ f1 (ih _ _ _ _ h)

theorem tregion_clear_aframe (t u : Term) (col1 row1 col2 row2 : Nat)
    (h : tregion_clear t col1 row1 col2 row2 = .ok u) : alt_frame t u :=
  tregion_clear_loop_aframe _ _ _ _ _ _ _ h

theorem sel_normalize_aframe (env : Env) (t u : Term) (h : sel_normalize env t = .ok u) :
    alt_frame t u := by
  rw [sel_normalize_shape env t u h]
  exact ⟨rfl, rfl⟩

theorem sel_scroll_aframe (env : Env) (t u : Term) (orig : Nat) (n : Int)
    (h : sel_scroll env t orig n = .ok u) : alt_frame t u := by
  unfold sel_scroll at h
  by_cases c1 : t.sel.ob.col = UINT_MAX
  · rw [if_pos c1] at h
    cases h
    exact alt_frame_refl _
  · rw [if_neg c1] at h
    by_cases c2 : (BETWEEN t.sel.nb.row orig t.bottom != BETWEEN t.sel.ne.row orig t.bottom) = true
    · rw [if_pos c2] at h
      exact sel_clear_aframe _ _ h
    · rw [if_neg c2] at h
      by_cases c3 : BETWEEN t.sel.nb.row orig t.bottom = true
      · rw [if_pos c3] at h
        simp only at h
        split_ifs at h
        · have f := sel_clear_aframe _ _ h
          exact ⟨f.1, f.2⟩
        · have f := sel_normalize_aframe env _ _ h
          exact ⟨f.1, f.2⟩
      · rw [if_neg c3] at h
        cases h
        exact alt_frame_refl _

theorem t_scroll_up_aframe (env : Env) (t u : Term) (orig n : Nat)
    (h : t_scroll_up env t orig n = .ok u) : alt_frame t u := by
  unfold t_scroll_up at h
  obtain ⟨t1, h1, h⟩ := bind_ok_inv h
  obtain ⟨t2, h2, h⟩ := bind_ok_inv h
  obtain ⟨l, -, h⟩ := bind_ok_inv h
  have f1 := tregion_clear_aframe _ _ _ _ _ _ h1
  have f2 := t_set_dirt_aframe _ _ _ _ h2
  have f3 := sel_scroll_aframe env _ _ _ _ h
  exact alt_frame_trans _ _ _ (alt_frame_trans _ _ _ f1 f2) f3

theorem t_scroll_down_aframe (env : Env) (t u : Term) (orig n : Nat)
    (h : t_scroll_down env t orig n = .ok u) : alt_frame t u := by
  unfold t_scroll_down at h
  obtain ⟨t1, h1, h⟩ := bind_ok_inv h
  obtain ⟨t2, h2, h⟩ := bind_ok_inv h
  obtain ⟨l, -, h⟩ := bind_ok_inv h
  have f1 := t_set_dirt_aframe _ _ _ _ h1
  have f2 := tregion_clear_aframe _ _ _ _ _ _ h2
  have f3 := sel_scroll_aframe env _ _ _ _ h
  exact alt_frame_trans _ _ _ (alt_frame_trans _ _ _ f1 f2) f3

theorem tline_new_aframe (env : Env) (t u : Term) (first_col : Bool)
    (h : tline_new env t first_col = .ok u) : alt_frame t u := by
  unfold tline_new at h
  simp only at h
  by_cases c1 : t.c.p.row = t.bottom
  · rw [if_pos c1] at h
    obtain ⟨t1, h1, h⟩ := bind_ok_inv h
    cases h
    exact alt_frame_trans _ _ _ (t_scroll_up_aframe env _ _ _ _ h1) (t_move_to_aframe _ _ _)
  · rw [if_neg c1] at h
    cases h
    exact t_move_to_aframe _ _ _

theorem put_cell_aframe (t u : Term) (col row : Nat) (g : TermGlyph)
    (h : put_cell t col row g = .ok u) : alt_frame t u := by
  unfold put_cell at h
  obtain ⟨l, -, h⟩ := bind_ok_inv h
  obtain ⟨l2, -, h⟩ := bind_ok_inv h
  cases h
  exact ⟨rfl, rfl⟩

theorem t_set_char_aframe (t u : Term) (rune col row : Nat)
    (h : t_set_char t rune col row = .ok u) : alt_frame t u := by
  unfold t_set_char at h
  obtain ⟨r, -, h⟩ := bind_ok_inv h
  obtain ⟨ln, -, h⟩ := bind_ok_inv h
  obtain ⟨tg, -, h⟩ := bind_ok_inv h
  obtain ⟨ln1, -, h⟩ := bind_ok_inv h
  obtain ⟨ln2, -, h⟩ := bind_ok_inv h
  split_ifs at h
  cases h
  exact ⟨rfl, rfl⟩

theorem t_insert_blank_line_aframe (env : Env) (t u : Term) (n : Nat)
    (h : t_insert_blank_line env t n = .ok u) : alt_frame t u := by
  unfold t_insert_blank_line at h
  split_ifs at h
  · exact t_scroll_down_aframe env _ _ _ _ h
  · cases h
    exact alt_frame_refl _

theorem t_delete_line_aframe (env : Env) (t u : Term) (n : Nat)
    (h : t_delete_line env t n = .ok u) : alt_frame t u := by
  unfold t_delete_line at h
  split_ifs at h
  · exact t_scroll_up_aframe env _ _ _ _ h
  · cases h
    exact alt_frame_refl _

theorem t_delete_char_aframe (t u : Term) (n : Nat)
    (h : t_delete_char t n = .ok u) : alt_frame t u := by
  unfold t_delete_char at h
  obtain ⟨ln, -, h⟩ := bind_ok_inv h
  obtain ⟨ln2, -, h⟩ := bind_ok_inv h
  have f := tregion_clear_aframe _ _ _ _ _ _ h
  exact ⟨f.1, f.2⟩

theorem t_insert_blank_aframe (t u : Term) (n : Nat)
    (h : t_insert_blank t n = .ok u) : alt_frame t u := by
  unfold t_insert_blank at h
  obtain ⟨ln, -, h⟩ := bind_ok_inv h
  obtain ⟨ln2, -, h⟩ := bind_ok_inv h
  have f := tregion_clear_aframe _ _ _ _ _ _ h
  exact ⟨f.1, f.2⟩

/-- Printing a rune changes neither the hidden screen nor the kept flags, and leaves the
escape buffers, the window and the output queues alone. -/
theorem t_putc_print_aframe (env : Env) (st st2 : State) (rune width : Nat)
    (h : t_putc_print env st rune width = .ok st2) :
    alt_frame st.term st2.term ∧ st2.csiescseq = st.csiescseq := by
  unfold t_putc_print at h
  obtain ⟨t1, h1, h⟩ := bind_ok_inv h
  obtain ⟨_, -, h⟩ := bind_ok_inv h
  obtain ⟨t2, h2, h⟩ := bind_ok_inv h
  obtain ⟨t3, h3, h⟩ := bind_ok_inv h
  obtain ⟨t4, h4, h⟩ := bind_ok_inv h
  obtain ⟨t5, h5, h⟩ := bind_ok_inv h
  obtain ⟨t7, h7, h⟩ := bind_ok_inv h
  have f1 : alt_frame st.term t1 := by
    split_ifs at h1
    · exact sel_clear_aframe _ _ h1
    · cases h1
      exact alt_frame_refl _
  have f2 : alt_frame t1 t2 := by
    split_ifs at h2
    · obtain ⟨ln, -, h2⟩ := bind_ok_inv h2
      obtain ⟨g, -, h2⟩ := bind_ok_inv h2
      obtain ⟨t1a, ha, h2⟩ := bind_ok_inv h2
      obtain ⟨t1b, hb, h2⟩ := bind_ok_inv h2
      obtain ⟨_, -, h2⟩ := bind_ok_inv h2
      cases h2
      exact alt_frame_trans _ _ _ (put_cell_aframe _ _ _ _ _ ha) (tline_new_aframe env _ _ _ hb)
    · cases h2
      exact alt_frame_refl _
  have f3 : alt_frame t2 t3 := by
    split_ifs at h3
    · obtain ⟨ln, -, h3⟩ := bind_ok_inv h3
      obtain ⟨ln2, -, h3⟩ := bind_ok_inv h3
      cases h3
      exact ⟨rfl, rfl⟩
    · cases h3
      exact alt_frame_refl _
  have f4 : alt_frame t3 t4 := by
    split_ifs at h4
    · obtain ⟨t3a, ha, h4⟩ := bind_ok_inv h4
      obtain ⟨_, -, h4⟩ := bind_ok_inv h4
      cases h4
      exact tline_new_aframe env _ _ _ ha
    · cases h4
      exact alt_frame_refl _
  have f5 : alt_frame t4 t5 := t_set_char_aframe _ _ _ _ _ h5
  have f7 : alt_frame t5 t7 := by
    split_ifs at h7
    · obtain ⟨ln, -, h7⟩ := bind_ok_inv h7
      obtain ⟨g, -, h7⟩ := bind_ok_inv h7
      obtain ⟨t6a, ha, h7⟩ := bind_ok_inv h7
      have fa := put_cell_aframe _ _ _ _ _ ha
      split_ifs at h7
      · obtain ⟨ln2, -, h7⟩ := bind_ok_inv h7
        obtain ⟨g2, -, h7⟩ := bind_ok_inv h7
        have fb := put_cell_aframe _ _ _ _ _ h7
        exact ⟨fb.1.trans fa.1, fb.2.trans fa.2⟩
      · cases h7
        exact ⟨fa.1, fa.2⟩
    · cases h7
      exact ⟨rfl, rfl⟩
  have f17 := alt_frame_trans _ _ _ (alt_frame_trans _ _ _ (alt_frame_trans _ _ _
    (alt_frame_trans _ _ _ (alt_frame_trans _ _ _ f1 f2) f3) f4) f5) f7
  split_ifs at h
  · cases h
    exact ⟨alt_frame_trans _ _ _ f17 (t_move_to_aframe _ _ _), rfl⟩
  · cases h
    exact ⟨⟨f17.1, (keep_or _ _ (by decide)).trans f17.2⟩, rfl⟩

/-! ### The steps of the parser, printer mode on or off -/

/-- The body of `t_putc` for an ASCII rune outside a string sequence: `s1` is the state after
the copy to the printer, which touches neither the terminal nor the escape buffers. -/
theorem t_putc_ascii_any (env : Env) (st : State) (rune : Nat) (hr : rune < 127)
    (hs : term_flag st.term ESC_STR = 0) :
    ∃ s1 : State, s1.term = st.term ∧ s1.csiescseq = st.csiescseq ∧
      t_putc env st rune
        = if ISCONTROL rune then
            (t_control_code env
              (fun s bytes => (t_write_loop (t_putc_at env 3) true bytes.length s bytes 0).map
                Prod.fst) s1 rune).bind fun s3 =>
              if s3.term.flags &&& ESC_MASK = 0 then
                .ok { s3 with term := { s3.term with lastu := 0 } }
              else .ok s3
          else if term_flag s1.term ESC_START ≠ 0 then
            t_putc_esc env (t_putc_at env 3)
              (fun s bytes => (t_write_loop (t_putc_at env 3) true bytes.length s bytes 0).map
                Prod.fst) s1 rune
          else t_putc_print env s1 rune 1 := by
  by_cases hp : term_flag st.term MODE_PRINT = 0
  · refine ⟨st, rfl, rfl, ?_⟩
    rw [t_putc_eq, t_putc_body_ascii env _ _ st rune hr hp hs]
  · refine ⟨t_printer st [rune % 256], rfl, rfl, ?_⟩
    rw [t_putc_eq]
    unfold t_putc_body
    have hs2 : term_flag (t_printer st [rune % 256]).term ESC_STR = 0 := hs
    simp only [hr, true_or, if_true, pure_eq_ok, ok_bind, hp, ne_eq, not_false_eq_true, hs2,
      not_true_eq_false, if_false, false_and]
    rfl

/-- Control code ESC outside a string sequence. -/
theorem t_putc_escape_any (env : Env) (st : State) (hs : term_flag st.term ESC_STR = 0) :
    ∃ s2 : State, t_putc env st 0x1b = .ok s2 ∧
      s2.term = { st.term with flags :=
        (st.term.flags &&& cnot (ESC_CSI ||| ESC_ALTCHARSET ||| ESC_TEST)) ||| ESC_START } ∧
      s2.csiescseq = { st.csiescseq with len := 0 } := by
  obtain ⟨s1, e1, e2, h⟩ := t_putc_ascii_any env st 0x1b (by decide) hs
  have h1 : ISCONTROL 0x1b = true := by decide
  have h2 : ((s1.term.flags &&& cnot (ESC_CSI ||| ESC_ALTCHARSET ||| ESC_TEST)) ||| ESC_START)
      &&& ESC_MASK ≠ 0 := or_and_ne_zero _ _ _ (by decide)
  simp only [h1, if_true, t_control_code, csi_reset] at h
  simp +decide only [Except.bind, h2, if_false] at h
  refine ⟨_, h, ?_, ?_⟩
  · simp only [e1]
  · simp only [e2]

/-- The byte `[` after ESC. -/
theorem t_putc_bracket_any (env : Env) (st : State) (hs : term_flag st.term ESC_STR = 0)
    (h1 : term_flag st.term ESC_START ≠ 0) (h2 : term_flag st.term ESC_CSI = 0)
    (h3 : term_flag st.term ESC_UTF8 = 0) (h4 : term_flag st.term ESC_ALTCHARSET = 0)
    (h5 : term_flag st.term ESC_TEST = 0) :
    ∃ s2 : State, t_putc env st 0x5b = .ok s2 ∧
      s2.term = { st.term with flags := st.term.flags ||| ESC_CSI } ∧
      s2.csiescseq = st.csiescseq := by
  obtain ⟨s1, e1, e2, h⟩ := t_putc_ascii_any env st 0x5b (by decide) hs
  have hc : ISCONTROL 0x5b = false := by decide
  rw [← e1] at h1 h2 h3 h4 h5
  simp only [hc, Bool.false_eq_true, if_false, h1, ne_eq, not_false_eq_true, if_true, t_putc_esc,
    h2, not_true_eq_false, h3, h4, h5, esc_handle] at h
  simp +decide at h
  refine ⟨_, h, ?_, ?_⟩
  · rw [e1]
    rfl
  · simp only [e2]

/-- A parameter byte of a CSI sequence. -/
theorem t_putc_csi_param_any (env : Env) (st : State) (rune : Nat) (hr : rune < 0x40)
    (hr2 : 0x20 ≤ rune) (hs : term_flag st.term ESC_STR = 0)
    (h1 : term_flag st.term ESC_START ≠ 0) (h2 : term_flag st.term ESC_CSI ≠ 0)
    (hl : st.csiescseq.len < st.csiescseq.buf.length)
    (hl2 : st.csiescseq.len + 1 ≠ ESC_BUF_SIZ - 1) :
    ∃ s2 : State, t_putc env st rune = .ok s2 ∧ s2.term = st.term ∧
      s2.csiescseq = { st.csiescseq with buf := st.csiescseq.buf.set st.csiescseq.len rune,
                                         len := st.csiescseq.len + 1 } := by
  obtain ⟨s1, e1, e2, h⟩ := t_putc_ascii_any env st rune (by omega) hs
  have hc : ISCONTROL rune = false := by
    simp [ISCONTROL, ISCONTROLC0, ISCONTROLC1, BETWEEN]
    omega
  have hb : BETWEEN rune 0x40 0x7E = false := by
    simp [BETWEEN]
    omega
  have hm : rune % 256 = rune := Nat.mod_eq_of_lt (by omega)
  rw [← e1] at h1 h2
  rw [← e2] at hl hl2
  simp only [hc, Bool.false_eq_true, if_false, h1, ne_eq, not_false_eq_true, if_true, t_putc_esc,
    h2, hl, hb, hm, Bool.false_or, decide_eq_true_eq, hl2] at h
  refine ⟨_, h, e1, ?_⟩
  simp only [e2]

/-- The final byte of a CSI sequence. -/
theorem t_putc_csi_final_any (env : Env) (st : State) (rune : Nat) (hr : 0x40 ≤ rune)
    (hr2 : rune < 0x7f) (hs : term_flag st.term ESC_STR = 0)
    (h1 : term_flag st.term ESC_START ≠ 0) (h2 : term_flag st.term ESC_CSI ≠ 0)
    (hl : st.csiescseq.len < st.csiescseq.buf.length) :
    ∃ s1 : State, s1.term = st.term ∧
      s1.csiescseq = { st.csiescseq with buf := st.csiescseq.buf.set st.csiescseq.len rune,
                                         len := st.csiescseq.len + 1 } ∧
      t_putc env st rune
        = csi_handle env (t_putc_at env 3)
            (fun s bytes => (t_write_loop (t_putc_at env 3) true bytes.length s bytes 0).map
              Prod.fst) s1 := by
  obtain ⟨s1, e1, e2, h⟩ := t_putc_ascii_any env st rune (by omega) hs
  have hc : ISCONTROL rune = false := by
    simp [ISCONTROL, ISCONTROLC0, ISCONTROLC1, BETWEEN]
    omega
  have hb : BETWEEN rune 0x40 0x7E = true := by
    simp [BETWEEN]
    omega
  have hm : rune % 256 = rune := Nat.mod_eq_of_lt (by omega)
  rw [← e1] at h1 h2
  rw [← e2] at hl
  simp only [hc, Bool.false_eq_true, if_false, h1, ne_eq, not_false_eq_true, if_true, t_putc_esc,
    h2, hl, hb, hm, Bool.true_or] at h
  refine ⟨_, ?_, ?_, h⟩
  · exact e1
  · simp only [e2]

/-- A rune that is no control code, outside any escape or string sequence, is printed:
the hidden screen, the kept flags and the escape buffers stay as they are. -/
theorem t_putc_text_aframe (env : Env) (st st2 : State) (rune : Nat)
    (hc : ISCONTROL rune = false) (hs : term_flag st.term ESC_STR = 0)
    (h1 : term_flag st.term ESC_START = 0) (h : t_putc env st rune = .ok st2) :
    alt_frame st.term st2.term ∧ st2.csiescseq = st.csiescseq := by
  rw [t_putc_eq] at h
  unfold t_putc_body at h
  obtain ⟨enc, -, h⟩ := bind_ok_inv h
  simp only [hc, Bool.false_eq_true, if_false] at h
  by_cases hp : term_flag st.term MODE_PRINT = 0
  · simp only [hp, ne_eq, not_true_eq_false, if_false, hs, false_and, h1] at h
    exact t_putc_print_aframe env _ _ _ _ h
  · have e1 : term_flag (t_printer st enc.1).term ESC_STR = 0 := hs
    have e2 : term_flag (t_printer st enc.1).term ESC_START = 0 := h1
    simp only [hp, ne_eq, not_false_eq_true, if_true, e1, not_true_eq_false, false_and,
      if_false, e2] at h
    have f := t_putc_print_aframe env _ _ _ _ h
    exact ⟨⟨f.1.1, f.1.2⟩, f.2⟩

/-! ### Parsing a CSI sequence with one numeric parameter -/

/-- Function `strtol` reads all the digits of a field that ends at the final byte, whatever
their value. -/
theorem strtol_count (ds : List Nat) (hd : ∀ d ∈ ds, isdigit d = true) (c : Nat)
    (rest : List Nat) (hc : 0x40 ≤ c ∧ c ≤ 0x7e) :
    (strtol (ds ++ c :: rest)).2 = ds.length := by
  have hc1 : isdigit c = false := by
    simp [isdigit]; omega
  cases ds with
  | nil =>
    rw [strtol_field [] hd c rest (Or.inr hc) (by decide)]
  | cons d tl =>
    have h1 : isdigit d = true := hd d (List.mem_cons_self _ _)
    have h2 : isspace d = false := by
      simp only [isdigit, isspace] at h1 ⊢
      simp only [Bool.and_eq_true, decide_eq_true_eq] at h1
      simp
      omega
    have h3 : d ≠ 0x2d ∧ d ≠ 0x2b := by
      simp only [isdigit, Bool.and_eq_true, decide_eq_true_eq] at h1
      omega
    have h4 := strtol_digits_append (d :: tl) hd c rest hc1 0 0
    simp only [List.cons_append] at h4
    rw [strtol_eq]
    simp only [List.cons_append, List.takeWhile_cons, h2, Bool.false_eq_true, if_false,
      List.length_nil, List.drop_zero, List.head?_cons, Option.some.injEq, h3.1, h3.2, or_self,
      h4, List.length_cons, Nat.zero_add, Nat.add_one_ne_zero]

/-- One round of the argument loop of `csi_parse` on a field of digits that ends at the final
byte: one argument is stored and the loop ends at the final byte. -/
theorem csi_parse_loop_single (buf : List Nat) (e f s : Nat) (args : List Int)
    (ds : List Nat) (c : Nat) (rest : List Nat) (hs : s < e) (hn : 0 < args.length)
    (hbuf : buf.drop s = ds ++ c :: rest) (hd : ∀ d ∈ ds, isdigit d = true)
    (hc : 0x40 ≤ c ∧ c ≤ 0x7e) :
    ∃ v : Int, csi_parse_loop buf e (f + 1) s args 0 = .ok (s + ds.length, args.set 0 v, 1) ∧
      (dec_value ds < 2147483648 → v = dec_value ds) := by
  have hget : buf[s + ds.length]? = some c := by
    have h := congrArg (fun l => l[ds.length]?) hbuf
    simp only [List.getElem?_drop] at h
    rw [h, List.getElem?_append_right (Nat.le_refl _)]
    simp
  have hc3 : c ≠ 0x3b := by omega
  refine ⟨i32 (if (strtol (ds ++ c :: rest)).2 = 0 then 0
      else if (strtol (ds ++ c :: rest)).1 = LONG_MAX ∨ (strtol (ds ++ c :: rest)).1 = LONG_MIN
      then -1 else (strtol (ds ++ c :: rest)).1), ?_, ?_⟩
  · conv => lhs; unfold csi_parse_loop
    rw [if_pos hs, hbuf]
    simp only [if_pos hn, strtol_count ds hd c rest hc, hget, ne_eq, hc3, not_false_eq_true,
      if_true, Nat.zero_add]
  · intro hv
    rw [strtol_field ds hd c rest (Or.inr hc) hv]
    by_cases h0 : ds.length = 0
    · have : ds = [] := List.length_eq_zero.mp h0
      subst this
      simp only [List.length_nil, if_true]
      rw [i32_of_lt _ (by omega) (by omega)]
      rfl
    · simp only [h0, if_false]
      rw [if_neg (by unfold LONG_MAX LONG_MIN; omega), i32_of_lt _ (by omega) (by omega)]

/-- Function `csi_parse` on a buffer that holds an optional `?`, a field of digits and the
final byte. -/
theorem csi_parse_single (s : State) (priv : Bool) (ds : List Nat) (F x : Nat)
    (tail : List Nat)
    (hbuf : s.csiescseq.buf = (if priv then [0x3f] else []) ++ ds ++ F :: x :: tail)
    (hlen : s.csiescseq.len = (if priv then 1 else 0) + ds.length + 1)
    (hd : ∀ d ∈ ds, isdigit d = true) (hF : 0x40 ≤ F ∧ F ≤ 0x7e)
    (ha : 0 < s.csiescseq.args.length) :
    ∃ v : Int, csi_parse s = .ok { s with
        term := { s.term with
          flags := if priv then s.term.flags ||| CSI_PRIV else s.term.flags &&& cnot CSI_PRIV },
        csiescseq := { s.csiescseq with
          buf := (if priv then [0x3f] else []) ++ ds ++ F :: 0 :: tail,
          args := s.csiescseq.args.set 0 v, narg := 1, mode0 := F, mode1 := 0 } } ∧
      (dec_value ds < 2147483648 → v = dec_value ds) := by
  have hset : ∀ (pre : List Nat), (pre ++ ds ++ F :: x :: tail).set (pre.length + ds.length + 1) 0
      = pre ++ ds ++ F :: 0 :: tail := by
    intro pre
    have e : pre ++ ds ++ F :: x :: tail = (pre ++ ds ++ [F]) ++ x :: tail := by simp
    rw [e, List.set_append_right _ _ (by simp; omega)]
    have e2 : pre.length + ds.length + 1 - (pre ++ ds ++ [F]).length = 0 := by simp; omega
    rw [e2]
    simp
  have hget : ∀ (pre : List Nat), (pre ++ ds ++ F :: 0 :: tail)[pre.length + ds.length]? = some F := by
    intro pre
    rw [List.getElem?_append_right (by simp)]
    simp
  cases priv with
  | true =>
    simp only [if_true] at hbuf hlen ⊢
    have hs := hset [0x3f]
    have hg := hget [0x3f]
    simp only [List.length_singleton] at hs hg
    obtain ⟨v, hv, hval⟩ := csi_parse_loop_single ([0x3f] ++ ds ++ F :: 0 :: tail)
      (1 + ds.length + 1) ESC_ARG_SIZ 1 s.csiescseq.args ds F (0 :: tail) (by omega) ha
      (by simp) hd hF
    refine ⟨v, ?_, hval⟩
    unfold csi_parse
    simp only [hbuf, hlen, hs]
    simp only [List.singleton_append, List.cons_append, List.getElem?_cons_zero, if_true,
      List.length_cons, List.length_append] at hv hg ⊢
    rw [if_pos (by omega), hv]
    simp only [hg]
    rw [if_neg (by omega)]
  | false =>
    simp only [Bool.false_eq_true, if_false, List.nil_append, Nat.zero_add] at hbuf hlen ⊢
    have hs := hset []
    have hg := hget []
    simp only [List.length_nil, List.nil_append, Nat.zero_add] at hs hg
    obtain ⟨v, hv, hval⟩ := csi_parse_loop_single (ds ++ F :: 0 :: tail)
      (ds.length + 1) ESC_ARG_SIZ 0 s.csiescseq.args ds F (0 :: tail) (by omega) ha
      (by simp) hd hF
    have h0 : ∃ b0, (ds ++ F :: x :: tail)[0]? = some b0 ∧ b0 ≠ 0x3f := by
      cases ds with
      | nil => exact ⟨F, by simp, by omega⟩
      | cons d tl =>
        refine ⟨d, by simp, ?_⟩
        have h1 : isdigit d = true := hd d (List.mem_cons_self _ _)
        simp only [isdigit, Bool.and_eq_true, decide_eq_true_eq] at h1
        omega
    obtain ⟨b0, hb0, hne⟩ := h0
    refine ⟨v, ?_, hval⟩
    unfold csi_parse
    simp only [hbuf, hlen, hs, hb0, hne, if_false, List.length_append, List.length_cons]
    simp only [Nat.zero_add] at hv
    rw [if_pos (by omega), hv]
    simp only [hg]
    rw [if_neg (by omega)]

/-- The facts about the state `csi_parse` returns in the situation of `csi_parse_single`. -/
theorem csi_parse_single_ex (s : State) (priv : Bool) (ds : List Nat) (F x : Nat)
    (tail : List Nat)
    (hbuf : s.csiescseq.buf = (if priv then [0x3f] else []) ++ ds ++ F :: x :: tail)
    (hlen : s.csiescseq.len = (if priv then 1 else 0) + ds.length + 1)
    (hd : ∀ d ∈ ds, isdigit d = true) (hF : 0x40 ≤ F ∧ F ≤ 0x7e)
    (ha : 0 < s.csiescseq.args.length) :
    ∃ (sp : State) (v : Int), csi_parse s = .ok sp ∧
      sp.term = { s.term with
        flags := if priv then s.term.flags ||| CSI_PRIV else s.term.flags &&& cnot CSI_PRIV } ∧
      sp.csiescseq.mode0 = F ∧ sp.csiescseq.narg = 1 ∧
      sp.csiescseq.args[0]? = some v ∧
      sp.csiescseq.args.length = s.csiescseq.args.length ∧
      sp.csiescseq.buf.length = s.csiescseq.buf.length ∧
      (dec_value ds < 2147483648 → v = dec_value ds) := by
  obtain ⟨v, hp, hv⟩ := csi_parse_single s priv ds F x tail hbuf hlen hd hF ha
  refine ⟨_, v, hp, rfl, rfl, rfl, ?_, ?_, ?_, hv⟩
  · simp [List.getElem?_set, ha]
  · simp
  · simp [hbuf]

/-! ### The erase and scroll commands -/

/-- A mapped result that is there comes from a result that is there. -/
theorem map_ok_inv {α β : Type} {x : Except Fault α} {f : α → β} {b : β}
    (h : x.map f = .ok b) : ∃ a, x = .ok a ∧ b = f a := by
  cases x with
  | error e => cases h
  | ok a =>
    cases h
    exact ⟨a, rfl, rfl⟩

/-- An erase or scroll command changes neither the hidden screen nor the kept flags. -/
theorem csi_erase_scroll_aframe (env : Env) (putc : State → Nat → Except Fault State)
    (wr : State → List Nat → Except Fault State) (st s1 st2 : State) (F : Nat)
    (hF : F ∈ erase_scroll_finals)
    (hp : csi_parse { st with term := { st.term with flags := st.term.flags &&& cnot ESC_MASK } }
            = .ok s1)
    (hm : s1.csiescseq.mode0 = F)
    (h : csi_handle env putc wr st = .ok st2) :
    alt_frame s1.term st2.term ∧ st2.csiescseq = s1.csiescseq := by
  unfold csi_handle at h
  simp only [hp, ok_bind] at h
  replace h := bind_ok_inv h
  obtain ⟨r0, h0, h⟩ := h
  have e0 : r0 = none := by
    unfold csi_handle0 at h0
    simp only [erase_scroll_finals, List.mem_cons, List.mem_singleton, List.not_mem_nil,
      or_false] at hF
    rw [hm] at h0
    rcases hF with rfl | rfl | rfl | rfl | rfl | rfl | rfl | rfl | rfl <;>
      simp +decide at h0 <;> exact h0.symm
  subst e0
  simp only at h
  replace h := bind_ok_inv h
  obtain ⟨arg0, ha0, h⟩ := h
  replace h := bind_ok_inv h
  obtain ⟨r1, h1, h⟩ := h
  unfold csi_handle1_optional at h1
  simp only [erase_scroll_finals, List.mem_cons, List.mem_singleton, List.not_mem_nil,
    or_false] at hF
  rw [hm] at h1
  have hJK : (s1.csiescseq.mode0 = 0x4a ∨ s1.csiescseq.mode0 = 0x4b) → r1 = none →
      alt_frame s1.term st2.term ∧ st2.csiescseq = s1.csiescseq := by
    intro hjk hr
    subst hr
    simp only at h
    replace h := bind_ok_inv h
    obtain ⟨arg1, -, h⟩ := h
    have e2 : csi_handle2_optional s1 arg0 arg1 = none := by
      unfold csi_handle2_optional
      rcases hjk with e | e <;> rw [e] <;> simp +decide
    simp only [e2] at h
    split_ifs at h
    · cases h
      exact ⟨alt_frame_refl _, rfl⟩
    · replace h := bind_ok_inv h
      obtain ⟨r3, h3, h⟩ := h
      unfold csi_handle1 at h3
      rcases hjk with e | e
      · rw [e] at h3
        simp +decide only [if_true, if_false] at h3
        by_cases c0 : arg0 = 0
        · simp only [c0, if_true] at h3
          cases ht1 : tregion_clear s1.term s1.term.c.p.col s1.term.c.p.row
              (usub s1.term.size.col 1) s1.term.c.p.row with
          | error e => rw [ht1] at h3; cases h3
          | ok t1 =>
            rw [ht1] at h3
            simp only at h3
            have f1 := tregion_clear_aframe _ _ _ _ _ _ ht1
            by_cases c3 : t1.c.p.row < usub t1.size.row 1
            · simp only [c3, if_true] at h3
              obtain ⟨t2, ht, rfl⟩ := map_ok_inv h3
              cases h
              exact ⟨alt_frame_trans _ _ _ f1 (tregion_clear_aframe _ _ _ _ _ _ ht), rfl⟩
            · simp only [c3, if_false] at h3
              obtain ⟨t2, ht, rfl⟩ := map_ok_inv h3
              cases ht
              cases h
              exact ⟨f1, rfl⟩
        · simp only [c0, if_false] at h3
          by_cases c1 : arg0 = 1
          · simp only [c1, if_true] at h3
            cases ht1 : (if s1.term.c.p.row > 1 then
                tregion_clear s1.term 0 0 (usub s1.term.size.col 1) (usub s1.term.c.p.row 1)
                else Except.ok s1.term) with
            | error e => rw [ht1] at h3; cases h3
            | ok t1 =>
              rw [ht1] at h3
              simp only at h3
              have f1 : alt_frame s1.term t1 := by
                split_ifs at ht1
                · exact tregion_clear_aframe _ _ _ _ _ _ ht1
                · cases ht1
                  exact alt_frame_refl _
              obtain ⟨t2, ht, rfl⟩ := map_ok_inv h3
              cases h
              exact ⟨alt_frame_trans _ _ _ f1 (tregion_clear_aframe _ _ _ _ _ _ ht), rfl⟩
          · simp only [c1, if_false] at h3
            by_cases c2 : arg0 = 2
            · simp only [c2, if_true] at h3
              obtain ⟨t2, ht, rfl⟩ := map_ok_inv h3
              cases h
              exact ⟨tregion_clear_aframe _ _ _ _ _ _ ht, rfl⟩
            · simp only [c2, if_false] at h3
              cases h3
              cases h
              exact ⟨alt_frame_refl _, rfl⟩
      · rw [e] at h3
        simp +decide only [if_true, if_false] at h3
        by_cases c0 : arg0 = 0
        · simp only [c0, if_true] at h3
          obtain ⟨t2, ht, rfl⟩ := map_ok_inv h3
          cases h
          exact ⟨tregion_clear_aframe _ _ _ _ _ _ ht, rfl⟩
        · simp only [c0, if_false] at h3
          by_cases c1 : arg0 = 1
          · simp only [c1, if_true] at h3
            obtain ⟨t2, ht, rfl⟩ := map_ok_inv h3
            cases h
            exact ⟨tregion_clear_aframe _ _ _ _ _ _ ht, rfl⟩
          · simp only [c1, if_false] at h3
            by_cases c2 : arg0 = 2
            · simp only [c2, if_true] at h3
              obtain ⟨t2, ht, rfl⟩ := map_ok_inv h3
              cases h
              exact ⟨tregion_clear_aframe _ _ _ _ _ _ ht, rfl⟩
            · simp only [c2, if_false] at h3
              cases h3
              cases h
              exact ⟨alt_frame_refl _, rfl⟩
  rcases hF with rfl | rfl | rfl | rfl | rfl | rfl | rfl | rfl | rfl
  · simp +decide only [if_true, if_false] at h1
    obtain ⟨t2, ht, rfl⟩ := map_ok_inv h1
    cases h
    exact ⟨t_insert_blank_aframe _ _ _ ht, rfl⟩
  · simp +decide only [if_true, if_false] at h1
    cases h1
    exact hJK (Or.inl hm) rfl
  · simp +decide only [if_true, if_false] at h1
    cases h1
    exact hJK (Or.inr hm) rfl
  · simp +decide only [if_true, if_false] at h1
    obtain ⟨t2, ht, rfl⟩ := map_ok_inv h1
    cases h
    exact ⟨t_insert_blank_line_aframe env _ _ _ ht, rfl⟩
  · simp +decide only [if_true, if_false] at h1
    obtain ⟨t2, ht, rfl⟩ := map_ok_inv h1
    cases h
    exact ⟨t_delete_line_aframe env _ _ _ ht, rfl⟩
  · simp +decide only [if_true, if_false] at h1
    obtain ⟨t2, ht, rfl⟩ := map_ok_inv h1
    cases h
    exact ⟨t_delete_char_aframe _ _ _ ht, rfl⟩
  · simp +decide only [if_true, if_false] at h1
    obtain ⟨t2, ht, rfl⟩ := map_ok_inv h1
    cases h
    exact ⟨t_scroll_up_aframe env _ _ _ _ ht, rfl⟩
  · simp +decide only [if_true, if_false] at h1
    obtain ⟨t2, ht, rfl⟩ := map_ok_inv h1
    cases h
    exact ⟨t_scroll_down_aframe env _ _ _ _ ht, rfl⟩
  · simp +decide only [if_true, if_false] at h1
    obtain ⟨t2, ht, rfl⟩ := map_ok_inv h1
    cases h
    exact ⟨tregion_clear_aframe _ _ _ _ _ _ ht, rfl⟩

/-! ### Collecting a CSI sequence -/

/-- A flag among the kept ones is read off the kept value. -/
theorem keep_flag (f c m : Nat) (h : f &&& KEEP_FLAGS = c) (hm : KEEP_FLAGS &&& m = m) :
    f &&& m = c &&& m := by
  rw [← h, Nat.and_assoc, hm]

theorem set_take_succ (l : List Nat) (k x : Nat) (h : k < l.length) :
    (l.set k x).take (k + 1) = l.take k ++ [x] := by
  induction l generalizing k with
  | nil => simp at h
  | cons a l ih =>
    cases k with
    | zero => simp
    | succ k =>
      simp only [List.length_cons, Nat.add_lt_add_iff_right] at h
      simp [ih k h]

theorem set_drop_succ (l : List Nat) (k x j : Nat) :
    (l.set k x).drop (k + 1 + j) = l.drop (k + 1 + j) := by
  induction l generalizing k with
  | nil => simp
  | cons a l ih =>
    cases k with
    | zero => simp [Nat.add_comm 1 j]
    | succ k =>
      have e : k + 1 + 1 + j = (k + 1 + j) + 1 := by omega
      rw [e]
      simp [ih k]

/-- The parameter bytes `ps` of a CSI sequence are stored one after the other behind the
bytes the buffer holds. -/
theorem csi_params_collect (env : Env) (c : Nat)
    (hc : c = MODE_UTF8 ∨ c = MODE_ALTSCREEN ||| MODE_UTF8) :
    ∀ (ps : List Nat) (st : State) (f : Nat) (rest : List Nat) (n : Nat) (r : State × Nat),
      (∀ p ∈ ps, 0x20 ≤ p ∧ p < 0x40) →
      st.term.flags &&& KEEP_FLAGS = c ||| ESC_START ||| ESC_CSI →
      st.csiescseq.buf.length = ESC_BUF_SIZ →
      st.csiescseq.len + ps.length + 2 < ESC_BUF_SIZ →
      ps.length + rest.length ≤ f →
      t_write_loop (t_putc env) false f st (ps ++ rest) n = .ok r →
      ∃ (s2 : State) (f2 : Nat), s2.term = st.term ∧
        s2.csiescseq = { st.csiescseq with
          buf := st.csiescseq.buf.take st.csiescseq.len ++ ps ++
                 st.csiescseq.buf.drop (st.csiescseq.len + ps.length),
          len := st.csiescseq.len + ps.length } ∧
        rest.length ≤ f2 ∧ t_write_loop (t_putc env) false f2 s2 rest (n + ps.length) = .ok r := by
  intro ps
  induction ps with
  | nil =>
    intro st f rest n r _ _ _ _ hf h
    refine ⟨st, f, rfl, ?_, by simpa using hf, by simpa using h⟩
    simp
  | cons p ps ih =>
    intro st f rest n r hps hk hbl hlen hf h
    have hp := hps p (List.mem_cons_self _ _)
    have hutf : term_flag st.term MODE_UTF8 ≠ 0 := by
      unfold term_flag
      rw [keep_flag _ _ _ hk (by decide)]
      rcases hc with rfl | rfl <;> decide
    have hstr : term_flag st.term ESC_STR = 0 := by
      unfold term_flag
      rw [keep_flag _ _ _ hk (by decide)]
      rcases hc with rfl | rfl <;> decide
    have hstart : term_flag st.term ESC_START ≠ 0 := by
      unfold term_flag
      rw [keep_flag _ _ _ hk (by decide)]
      rcases hc with rfl | rfl <;> decide
    have hcsi : term_flag st.term ESC_CSI ≠ 0 := by
      unfold term_flag
      rw [keep_flag _ _ _ hk (by decide)]
      rcases hc with rfl | rfl <;> decide
    obtain ⟨f0, rfl⟩ : ∃ f0, f = f0 + 1 := ⟨f - 1, by simp at hf; omega⟩
    rw [List.cons_append, t_write_loop_cons _ _ _ _ _ _ (by omega) hutf] at h
    obtain ⟨s1, h1, h⟩ := bind_ok_inv h
    simp only [ESC_BUF_SIZ, List.length_cons] at hlen hbl
    obtain ⟨s1', e1, et, ec⟩ := t_putc_csi_param_any env st p hp.2 hp.1 hstr hstart hcsi
      (by omega) (by simp; omega)
    rw [h1] at e1
    cases e1
    have hk1 : s1.term.flags &&& KEEP_FLAGS = c ||| ESC_START ||| ESC_CSI := by rw [et]; exact hk
    have hbl1 : s1.csiescseq.buf.length = ESC_BUF_SIZ := by
      rw [ec]; simp [hbl]
    have hlen1 : s1.csiescseq.len + ps.length + 2 < ESC_BUF_SIZ := by
      rw [ec]; simp; omega
    obtain ⟨s2, f2, a1, a2, a3, a4⟩ := ih s1 f0 rest (n + 1) r
      (fun q hq => hps q (List.mem_cons_of_mem _ hq)) hk1 hbl1 hlen1
      (by simp at hf; omega) h
    refine ⟨s2, f2, a1.trans et, ?_, a3, ?_⟩
    · rw [a2, ec]
      simp only [List.length_cons]
      rw [set_take_succ _ _ _ (by omega), set_drop_succ]
      simp [Nat.add_assoc, Nat.add_comm 1 ps.length]
    · rw [← a4]
      simp only [List.length_cons]
      congr 1
      omega

/-- The kept flags once ESC has been read in the ground state. -/
theorem keep_after_esc (f c : Nat) (hc : c = MODE_UTF8 ∨ c = MODE_ALTSCREEN ||| MODE_UTF8)
    (hk : f &&& KEEP_FLAGS = c) :
    ((f &&& cnot (ESC_CSI ||| ESC_ALTCHARSET ||| ESC_TEST)) ||| ESC_START) &&& KEEP_FLAGS
      = c ||| ESC_START := by
  rw [or_and_distrib, and_and_comm, hk]
  rcases hc with rfl | rfl <;> decide

/-- The kept flags once ESC and `[` have been read in the ground state. -/
theorem keep_after_bracket (f c : Nat) (hc : c = MODE_UTF8 ∨ c = MODE_ALTSCREEN ||| MODE_UTF8)
    (hk : f &&& KEEP_FLAGS = c) :
    (((f &&& cnot (ESC_CSI ||| ESC_ALTCHARSET ||| ESC_TEST)) ||| ESC_START) ||| ESC_CSI)
      &&& KEEP_FLAGS = c ||| ESC_START ||| ESC_CSI := by
  rw [or_and_distrib, keep_after_esc f c hc hk]
  rcases hc with rfl | rfl <;> decide

/-- The bytes `ESC [`, the parameter bytes `ps` and the final byte `F`, read in the ground
state: the buffer holds `ps` and `F`, and `csi_handle` runs. -/
theorem csi_seq_collect (env : Env) (c : Nat)
    (hc : c = MODE_UTF8 ∨ c = MODE_ALTSCREEN ||| MODE_UTF8)
    (ps : List Nat) (F : Nat) (rest : List Nat) (st : State) (f n : Nat) (r : State × Nat)
    (hps : ∀ p ∈ ps, 0x20 ≤ p ∧ p < 0x40) (hF : 0x40 ≤ F ∧ F ≤ 0x7e)
    (hk : st.term.flags &&& KEEP_FLAGS = c)
    (hbl : st.csiescseq.buf.length = ESC_BUF_SIZ) (hlen : ps.length ≤ 16)
    (hf : ps.length + 3 + rest.length ≤ f)
    (h : t_write_loop (t_putc env) false f st (0x1b :: 0x5b :: (ps ++ F :: rest)) n = .ok r) :
    ∃ (s1 s2 : State) (f2 x : Nat) (tail : List Nat),
      s1.term = { st.term with flags :=
        ((st.term.flags &&& cnot (ESC_CSI ||| ESC_ALTCHARSET ||| ESC_TEST)) ||| ESC_START)
          ||| ESC_CSI } ∧
      s1.csiescseq = { st.csiescseq with buf := ps ++ F :: x :: tail, len := ps.length + 1 } ∧
      (ps ++ F :: x :: tail).length = ESC_BUF_SIZ ∧
      csi_handle env (t_putc_at env 3)
        (fun s bytes => (t_write_loop (t_putc_at env 3) true bytes.length s bytes 0).map
          Prod.fst) s1 = .ok s2 ∧
      rest.length ≤ f2 ∧
      t_write_loop (t_putc env) false f2 s2 rest (n + ps.length + 3) = .ok r := by
  have hutf : term_flag st.term MODE_UTF8 ≠ 0 := by
    unfold term_flag
    rw [keep_flag _ _ _ hk (by decide)]
    rcases hc with rfl | rfl <;> decide
  have hstr : term_flag st.term ESC_STR = 0 := by
    unfold term_flag
    rw [keep_flag _ _ _ hk (by decide)]
    rcases hc with rfl | rfl <;> decide
  obtain ⟨f0, rfl⟩ : ∃ f0, f = f0 + 1 := ⟨f - 1, by omega⟩
  rw [t_write_loop_cons _ _ _ _ _ _ (by decide) hutf] at h
  obtain ⟨sA, hA, h⟩ := bind_ok_inv h
  obtain ⟨sA', eA, etA, ecA⟩ := t_putc_escape_any env st hstr
  rw [hA] at eA
  cases eA
  have hkA : sA.term.flags &&& KEEP_FLAGS = c ||| ESC_START := by
    rw [etA]
    exact keep_after_esc _ _ hc hk
  have fl : ∀ m, KEEP_FLAGS &&& m = m → term_flag sA.term m = (c ||| ESC_START) &&& m := by
    intro m hm
    unfold term_flag
    exact keep_flag _ _ _ hkA hm
  obtain ⟨f1, rfl⟩ : ∃ f1, f0 = f1 + 1 := ⟨f0 - 1, by omega⟩
  have hutfA : term_flag sA.term MODE_UTF8 ≠ 0 := by
    rw [fl _ (by decide)]
    rcases hc with rfl | rfl <;> decide
  rw [t_write_loop_cons _ _ _ _ _ _ (by decide) hutfA] at h
  obtain ⟨sB, hB, h⟩ := bind_ok_inv h
  obtain ⟨sB', eB, etB, ecB⟩ := t_putc_bracket_any env sA
    (by rw [fl _ (by decide)]; rcases hc with rfl | rfl <;> decide)
    (by rw [fl _ (by decide)]; rcases hc with rfl | rfl <;> decide)
    (by rw [fl _ (by decide)]; rcases hc with rfl | rfl <;> decide)
    (by rw [fl _ (by decide)]; rcases hc with rfl | rfl <;> decide)
    (by rw [fl _ (by decide)]; rcases hc with rfl | rfl <;> decide)
    (by rw [fl _ (by decide)]; rcases hc with rfl | rfl <;> decide)
  rw [hB] at eB
  cases eB
  have hkB : sB.term.flags &&& KEEP_FLAGS = c ||| ESC_START ||| ESC_CSI := by
    rw [etB, etA]
    exact keep_after_bracket _ _ hc hk
  have hblB : sB.csiescseq.buf.length = ESC_BUF_SIZ := by
    rw [ecB, ecA]
    exact hbl
  have hlenB : sB.csiescseq.len = 0 := by
    rw [ecB, ecA]
  have e3 : ps ++ F :: rest = ps ++ (F :: rest) := rfl
  obtain ⟨sC, f2, tC, cC, hfC, h⟩ := csi_params_collect env c hc ps sB f1 (F :: rest) (n + 1 + 1) r
    hps hkB hblB (by rw [hlenB]; simp; omega) (by simp; omega) h
  have flC : ∀ m, KEEP_FLAGS &&& m = m →
      term_flag sC.term m = (c ||| ESC_START ||| ESC_CSI) &&& m := by
    intro m hm
    unfold term_flag
    rw [tC]
    exact keep_flag _ _ _ hkB hm
  obtain ⟨f3, rfl⟩ : ∃ f3, f2 = f3 + 1 := ⟨f2 - 1, by simp at hfC; omega⟩
  rw [t_write_loop_cons _ _ _ _ _ _ (by omega)
    (by rw [flC _ (by decide)]; rcases hc with rfl | rfl <;> decide)] at h
  obtain ⟨s2, h2, h⟩ := bind_ok_inv h
  have hbufC : sC.csiescseq.buf = ps ++ sB.csiescseq.buf.drop ps.length := by
    rw [cC, hlenB]
    simp
  have hlenC : sC.csiescseq.len = ps.length := by
    rw [cC, hlenB]
    simp
  have hdl : (sB.csiescseq.buf.drop ps.length).length = ESC_BUF_SIZ - ps.length := by
    rw [List.length_drop, hblB]
  obtain ⟨s1, t1, c1, e1⟩ := t_putc_csi_final_any env sC F hF.1 (by omega)
    (by rw [flC _ (by decide)]; rcases hc with rfl | rfl <;> decide)
    (by rw [flC _ (by decide)]; rcases hc with rfl | rfl <;> decide)
    (by rw [flC _ (by decide)]; rcases hc with rfl | rfl <;> decide)
    (by rw [hlenC, hbufC]; simp [hdl]; omega)
  rw [h2] at e1
  obtain ⟨y, tl1, hy⟩ : ∃ y tl1, sB.csiescseq.buf.drop ps.length = y :: tl1 := by
    cases hd : sB.csiescseq.buf.drop ps.length with
    | nil => rw [hd] at hdl; simp at hdl; omega
    | cons y tl1 => exact ⟨y, tl1, rfl⟩
  obtain ⟨x, tail, hx⟩ : ∃ x tail, tl1 = x :: tail := by
    cases tl1 with
    | nil => rw [hy] at hdl; simp at hdl; omega
    | cons x tail => exact ⟨x, tail, rfl⟩
  subst hx
  refine ⟨s1, s2, f3, x, tail, ?_, ?_, ?_, e1.symm, by simp at hfC; omega, ?_⟩
  · rw [t1, tC, etB, etA]
  · rw [c1, hlenC, hbufC, hy, List.set_append_right _ _ (Nat.le_refl _)]
    simp only [Nat.sub_self, List.set_cons_zero]
    rw [cC, ecB, ecA]
  · rw [hy] at hdl
    simp only [List.length_cons, ESC_BUF_SIZ] at hdl
    simp only [List.length_append, List.length_cons, ESC_BUF_SIZ]
    omega
  · rw [← h]
    congr 1
    omega

/-! ### Entering and leaving the alternate screen -/

theorem xor_and_distrib (a b m : Nat) : (a ^^^ b) &&& m = (a &&& m) ^^^ (b &&& m) := by
  apply Nat.eq_of_testBit_eq
  intro i
  simp only [Nat.testBit_and, Nat.testBit_xor]
  cases a.testBit i <;> cases b.testBit i <;> cases m.testBit i <;> rfl

/-- What `t_swap_screen` returns: the screens exchanged, the flag toggled, every row marked
dirty. -/
theorem t_swap_screen_ok (t u : Term) (h : t_swap_screen t = .ok u) :
    u.line = t.alt ∧ u.alt = t.line ∧ u.flags = t.flags ^^^ MODE_ALTSCREEN ∧ u.size = t.size ∧
    ∀ r, r < u.size.row → u.dirty.getD r false = true := by
  unfold t_swap_screen t_full_dirt t_set_dirt at h
  simp only at h
  by_cases hr : t.size.row = 0
  · split_ifs at h <;> (cases h; exact ⟨rfl, rfl, rfl, rfl, fun r hlt => by simp [hr] at hlt⟩)
  · have e : usub t.size.row 1 = t.size.row - 1 := usub_of_le _ _ (by omega)
    rw [e] at h
    have a1 : ¬ 0 ≥ t.size.row := by omega
    have a2 : ¬ t.size.row - 1 ≥ t.size.row := by omega
    simp only [a1, a2, if_false, Nat.zero_le, if_true] at h
    split_ifs at h with hb
    cases h
    refine ⟨rfl, rfl, rfl, rfl, ?_⟩
    intro r hlt
    simp only at hlt ⊢
    rw [fill_range_getD _ _ _ _ _ _ (Nat.zero_le _) hb, if_pos ⟨Nat.zero_le _, by omega⟩]

/-- The sequences `CSI ? 1049 h` and `CSI ? 1049 l` reach the case 1049 of `t_set_mode`. -/
theorem csi_1049 (env : Env) (putc : State → Nat → Except Fault State)
    (wr : State → List Nat → Except Fault State) (s1 s2 : State) (x : Nat) (tail : List Nat)
    (set : Bool)
    (hbuf : s1.csiescseq.buf
      = [0x3f, 0x31, 0x30, 0x34, 0x39] ++ (if set then 0x68 else 0x6c) :: x :: tail)
    (hlen : s1.csiescseq.len = 6) (hargs : 0 < s1.csiescseq.args.length)
    (h : csi_handle env putc wr s1 = .ok s2) :
    ∃ sp : State,
      sp.term = { s1.term with flags := (s1.term.flags &&& cnot ESC_MASK) ||| CSI_PRIV } ∧
      sp.csiescseq.buf.length = s1.csiescseq.buf.length ∧
      sp.csiescseq.args.length = s1.csiescseq.args.length ∧
      t_set_mode_priv env sp set 1049 = .ok s2 := by
  obtain ⟨sp, v, hp, ht, hm, hn, ha0, hal, hbl, hv⟩ := csi_parse_single_ex
    { s1 with term := { s1.term with flags := s1.term.flags &&& cnot ESC_MASK } }
    true [0x31, 0x30, 0x34, 0x39] (if set then 0x68 else 0x6c) x tail
    (by simpa using hbuf) (by simpa using hlen) (by decide)
    (by cases set <;> decide) hargs
  have hv2 : v = 1049 := by
    rw [hv (by decide)]
    rfl
  subst hv2
  unfold csi_handle at h
  rw [hp] at h
  simp only [ok_bind] at h
  replace h := bind_ok_inv h
  obtain ⟨r0, h0, h⟩ := h
  have hpriv : term_flag sp.term CSI_PRIV ≠ 0 := by
    unfold term_flag
    rw [ht]
    exact or_and_ne_zero _ _ _ (by decide)
  have hmode : t_set_mode env sp set = t_set_mode_priv env sp set 1049 := by
    unfold t_set_mode
    rw [hn]
    unfold t_set_mode_loop csi_arg
    simp only [ha0, hpriv, ne_eq, not_false_eq_true, if_true]
    cases t_set_mode_priv env sp set 1049 with
    | error e => rfl
    | ok s => simp [t_set_mode_loop]
  have h00 : csi_handle0 env sp = (t_set_mode_priv env sp set 1049).map some := by
    unfold csi_handle0
    rw [hm, ← hmode]
    cases set <;> simp +decide
  rw [h00] at h0
  obtain ⟨s3, h3, rfl⟩ := map_ok_inv h0
  cases h
  exact ⟨sp, ht, hbl, hal, h3⟩

/-- The case 1049 of `t_set_mode` with `set`, on the primary screen: the cursor is saved and
the screens are exchanged. -/
theorem alt_enter_priv (env : Env) (sp s2 : State) (ha : env.allow_alt_screen = true)
    (hprim : term_flag sp.term MODE_ALTSCREEN = 0)
    (h : t_set_mode_priv env sp true 1049 = .ok s2) :
    s2.term.alt = sp.term.line ∧ s2.term.flags = sp.term.flags ^^^ MODE_ALTSCREEN ∧
    s2.csiescseq = sp.csiescseq := by
  unfold t_set_mode_priv at h
  have e1 : term_flag (tcursor_stack sp.term true) MODE_ALTSCREEN = 0 := by
    unfold tcursor_stack term_flag
    simp only [if_true, tcursor_save_flags]
    exact hprim
  simp +decide only [if_false, if_true, ha, Bool.not_true, Bool.false_eq_true, e1, ne_eq,
    not_true_eq_false, pure_eq_ok, ok_bind] at h
  replace h := bind_ok_inv h
  obtain ⟨sa, h1, h⟩ := h
  replace h1 := bind_ok_inv h1
  obtain ⟨t2, h2, h1⟩ := h1
  cases h1
  cases h
  obtain ⟨a1, a2, a3, -, -⟩ := t_swap_screen_ok _ _ h2
  simp only [tcursor_stack, if_true, tcursor_save_alt, tcursor_save_flags, tcursor_save_line]
    at a1 a2 a3 ⊢
  exact ⟨a2, a3, trivial⟩

/-- The case 1049 of `t_set_mode` with `reset`, on the alternate screen: the screen shown is
the hidden one again and every row is marked dirty. -/
theorem alt_leave_priv (env : Env) (sp s2 : State) (ha : env.allow_alt_screen = true)
    (halt : term_flag sp.term MODE_ALTSCREEN ≠ 0)
    (h : t_set_mode_priv env sp false 1049 = .ok s2) :
    s2.term.line = sp.term.alt ∧
    (∀ r, r < s2.term.size.row → s2.term.dirty.getD r false = true) ∧
    term_flag s2.term MODE_ALTSCREEN = 0 := by
  unfold t_set_mode_priv at h
  have e0 : (tcursor_stack sp.term false).flags &&& MODE_ALTSCREEN
      = sp.term.flags &&& MODE_ALTSCREEN := by
    unfold tcursor_stack tcursor_load
    simp only [Bool.false_eq_true, if_false, t_move_to_flags]
    rw [Nat.and_assoc]
    rfl
  have e1 : term_flag (tcursor_stack sp.term false) MODE_ALTSCREEN ≠ 0 := by
    unfold term_flag
    rw [e0]
    exact halt
  simp +decide only [if_false, if_true, ha, Bool.not_true, Bool.false_eq_true, e1, ne_eq,
    not_false_eq_true, pure_eq_ok, ok_bind] at h
  replace h := bind_ok_inv h
  obtain ⟨sa, h1, h⟩ := h
  replace h1 := bind_ok_inv h1
  obtain ⟨t1, ht1, h1⟩ := h1
  replace h1 := bind_ok_inv h1
  obtain ⟨t2, ht2, h1⟩ := h1
  cases h1
  cases h
  have f1 := tregion_clear_aframe _ _ _ _ _ _ ht1
  obtain ⟨a1, a2, a3, a4, a5⟩ := t_swap_screen_ok _ _ ht2
  have b1 : t1.flags &&& MODE_ALTSCREEN = 1 := by
    have q : t1.flags &&& MODE_ALTSCREEN = sp.term.flags &&& MODE_ALTSCREEN := by
      rw [keep_flag _ _ _ f1.2 (by decide), ← keep_flag _ _ _ rfl (by decide), e0]
    have q2 : sp.term.flags &&& MODE_ALTSCREEN ≤ 1 := Nat.and_le_right
    unfold term_flag at halt
    omega
  refine ⟨?_, ?_, ?_⟩
  · show (tcursor_stack t2 false).line = sp.term.alt
    simp only [tcursor_stack, Bool.false_eq_true, if_false]
    show t2.line = sp.term.alt
    rw [a1, f1.1]
    rfl
  · intro r hr
    exact a5 r hr
  · show (tcursor_stack t2 false).flags &&& MODE_ALTSCREEN = 0
    unfold tcursor_stack tcursor_load
    simp only [Bool.false_eq_true, if_false, t_move_to_flags]
    rw [and_and_comm, a3, xor_and_distrib, b1]
    rfl

/-! ### The commands written to the alternate screen -/

/-- Every Unicode scalar value is decoded from its encoding, whatever bytes follow. -/
theorem utf8_decode_encode (r : Nat) (rest : List Nat) (h : r ≤ 0x10FFFF)
    (hs : ¬ (0xD800 ≤ r ∧ r ≤ 0xDFFF)) :
    ∃ bs, utf8_encode r = .ok bs ∧ 1 ≤ bs.length ∧
      utf8_decode (bs ++ rest) (bs ++ rest).length = .ok (bs.length, r) := by
  by_cases c1 : r ≤ 0x7F
  · refine ⟨_, utf8_encode_1 r c1, by simp, ?_⟩
    exact utf8_decode_seq1 r rest _ (by omega) (by simp)
  by_cases c2 : r ≤ 0x7FF
  · refine ⟨_, utf8_encode_2 r (by omega) c2, by simp, ?_⟩
    have hd := utf8_decode_seq2 (192 + r / 64) (128 + r % 64) rest
      ([192 + r / 64, 128 + r % 64] ++ rest).length (by omega) (by omega) (by simp)
    have hv : (192 + r / 64 - 192) * 64 + (128 + r % 64 - 128) = r := by omega
    rw [hv, validated_good 2 r (by simp [utfmin]; omega) (by simp [utfmax]; omega) hs] at hd
    exact hd
  by_cases c3 : r ≤ 0xFFFF
  · refine ⟨_, utf8_encode_3 r (by omega) c3 hs, by simp, ?_⟩
    have hd := utf8_decode_seq3 (224 + r / 4096) (128 + r / 64 % 64) (128 + r % 64) rest
      ([224 + r / 4096, 128 + r / 64 % 64, 128 + r % 64] ++ rest).length
      (by omega) (by omega) (by omega) (by simp)
    have hv : ((224 + r / 4096 - 224) * 64 + (128 + r / 64 % 64 - 128)) * 64
        + (128 + r % 64 - 128) = r := by omega
    rw [hv, validated_good 3 r (by simp [utfmin]; omega) (by simp [utfmax]; omega) hs] at hd
    exact hd
  · refine ⟨_, utf8_encode_4 r (by omega) h, by simp, ?_⟩
    have hd := utf8_decode_seq4 (240 + r / 262144) (128 + r / 4096 % 64) (128 + r / 64 % 64)
      (128 + r % 64) rest
      ([240 + r / 262144, 128 + r / 4096 % 64, 128 + r / 64 % 64, 128 + r % 64] ++ rest).length
      (by omega) (by omega) (by omega) (by omega) (by simp)
    have hv : (((240 + r / 262144 - 240) * 64 + (128 + r / 4096 % 64 - 128)) * 64
        + (128 + r / 64 % 64 - 128)) * 64 + (128 + r % 64 - 128) = r := by omega
    rw [hv, validated_good 4 r (by simp [utfmin]; omega) (by simp [utfmax]; omega) hs] at hd
    exact hd

/-- The invariant gives the value of every kept flag. -/
theorem alt_inv_flag (A : List Line) (c : Nat) (st : State) (h : alt_inv A c st) (m : Nat)
    (hm : KEEP_FLAGS &&& m = m) : term_flag st.term m = c &&& m := by
  unfold term_flag
  exact keep_flag _ _ _ h.2.1 hm

/-- A printable character written to the screen shown keeps the invariant. -/
theorem text_step (env : Env) (A : List Line) (c : Nat)
    (hc : c = MODE_UTF8 ∨ c = MODE_ALTSCREEN ||| MODE_UTF8)
    (u : Nat) (hu : (ScreenCmd.text u).valid) (st : State) (f : Nat) (rest : List Nat) (n : Nat)
    (r : State × Nat) (hi : alt_inv A c st)
    (hf : ((ScreenCmd.text u).bytes ++ rest).length ≤ f)
    (h : t_write_loop (t_putc env) false f st ((ScreenCmd.text u).bytes ++ rest) n = .ok r) :
    ∃ (s2 : State) (f2 n2 : Nat), alt_inv A c s2 ∧ rest.length ≤ f2 ∧
      t_write_loop (t_putc env) false f2 s2 rest n2 = .ok r := by
  obtain ⟨h1, h2, h3, h4, h5⟩ := hu
  obtain ⟨bs, he, hl, hd⟩ := utf8_decode_encode u rest h4 h5
  have hb : (ScreenCmd.text u).bytes = bs := by
    simp [ScreenCmd.bytes, he]
  rw [hb] at h hf
  have hutf : term_flag st.term MODE_UTF8 ≠ 0 := by
    rw [alt_inv_flag A c st hi _ (by decide)]
    rcases hc with rfl | rfl <;> decide
  obtain ⟨f0, rfl⟩ : ∃ f0, f = f0 + 1 := ⟨f - 1, by simp at hf; omega⟩
  rw [t_write_loop_char _ _ _ _ _ _ _ (by rw [List.length_append]; omega) hutf hd (by omega)] at h
  obtain ⟨s2, hp, h⟩ := bind_ok_inv h
  have hctl : ISCONTROL u = false := by
    simp [ISCONTROL, ISCONTROLC0, ISCONTROLC1, BETWEEN]
    omega
  obtain ⟨fr, hcs⟩ := t_putc_text_aframe env st s2 u hctl
    (by rw [alt_inv_flag A c st hi _ (by decide)]; rcases hc with rfl | rfl <;> decide)
    (by rw [alt_inv_flag A c st hi _ (by decide)]; rcases hc with rfl | rfl <;> decide) hp
  refine ⟨s2, f0, n + bs.length, ⟨fr.1.trans hi.1, fr.2.trans hi.2.1, ?_, ?_⟩, ?_, ?_⟩
  · rw [hcs]; exact hi.2.2.1
  · rw [hcs]; exact hi.2.2.2
  · simp at hf; omega
  · simpa using h

/-- The kept flags once a CSI sequence without the private marker has been parsed. -/
theorem keep_after_parse (f c : Nat) (hc : c = MODE_UTF8 ∨ c = MODE_ALTSCREEN ||| MODE_UTF8)
    (hk : f &&& KEEP_FLAGS = c) :
    ((((((f &&& cnot (ESC_CSI ||| ESC_ALTCHARSET ||| ESC_TEST)) ||| ESC_START) ||| ESC_CSI)
      &&& cnot ESC_MASK) &&& cnot CSI_PRIV) &&& KEEP_FLAGS) = c := by
  rw [and_and_comm _ (cnot CSI_PRIV), and_and_comm _ (cnot ESC_MASK),
    keep_after_bracket f c hc hk]
  rcases hc with rfl | rfl <;> decide

/-- An erase or scroll command written to the screen shown keeps the invariant. -/
theorem csi_step (env : Env) (A : List Line) (c : Nat)
    (hc : c = MODE_UTF8 ∨ c = MODE_ALTSCREEN ||| MODE_UTF8)
    (ps : List Nat) (F : Nat) (hv : (ScreenCmd.csi ps F).valid) (st : State) (f : Nat)
    (rest : List Nat) (n : Nat) (r : State × Nat) (hi : alt_inv A c st)
    (hf : ((ScreenCmd.csi ps F).bytes ++ rest).length ≤ f)
    (h : t_write_loop (t_putc env) false f st ((ScreenCmd.csi ps F).bytes ++ rest) n = .ok r) :
    ∃ (s2 : State) (f2 n2 : Nat), alt_inv A c s2 ∧ rest.length ≤ f2 ∧
      t_write_loop (t_putc env) false f2 s2 rest n2 = .ok r := by
  obtain ⟨hd, hl, hF⟩ := hv
  have hb : (ScreenCmd.csi ps F).bytes ++ rest = 0x1b :: 0x5b :: (ps ++ F :: rest) := by
    simp [ScreenCmd.bytes]
  rw [hb] at h hf
  have hps : ∀ p ∈ ps, 0x20 ≤ p ∧ p < 0x40 := by
    intro p hp
    have := hd p hp
    simp only [isdigit, Bool.and_eq_true, decide_eq_true_eq] at this
    omega
  have hF2 : 0x40 ≤ F ∧ F ≤ 0x7e := by
    simp only [erase_scroll_finals, List.mem_cons, List.mem_singleton, List.not_mem_nil,
      or_false] at hF
    omega
  obtain ⟨s1, s2, f2, x, tail, t1, c1, hlen, hh, hf2, h2⟩ := csi_seq_collect env c hc ps F rest
    st f n r hps hF2 hi.2.1 hi.2.2.1 hl (by simp at hf; omega) h
  have hbuf1 : s1.csiescseq.buf = ps ++ F :: x :: tail := by rw [c1]
  have hlen1 : s1.csiescseq.len = ps.length + 1 := by rw [c1]
  have hargs1 : s1.csiescseq.args = st.csiescseq.args := by rw [c1]
  obtain ⟨sp, v, hp, ht, hm, hn, ha0, hal, hbl, -⟩ := csi_parse_single_ex
    { s1 with term := { s1.term with flags := s1.term.flags &&& cnot ESC_MASK } }
    false ps F x tail (by simpa using hbuf1) (by simpa using hlen1) hd hF2
    (by show 0 < s1.csiescseq.args.length; rw [hargs1, hi.2.2.2]; decide)
  obtain ⟨fr, hcs⟩ := csi_erase_scroll_aframe env _ _ s1 sp s2 F hF hp hm hh
  refine ⟨s2, f2, n + ps.length + 3, ⟨?_, ?_, ?_, ?_⟩, hf2, h2⟩
  · rw [fr.1, ht]
    show s1.term.alt = A
    rw [t1]
    exact hi.1
  · rw [fr.2, ht]
    show ((s1.term.flags &&& cnot ESC_MASK) &&& cnot CSI_PRIV) &&& KEEP_FLAGS = c
    rw [t1]
    exact keep_after_parse _ _ hc hi.2.1
  · rw [hcs, hbl]
    show s1.csiescseq.buf.length = ESC_BUF_SIZ
    rw [hbuf1]
    exact hlen
  · rw [hcs, hal]
    show s1.csiescseq.args.length = ESC_ARG_SIZ
    rw [hargs1]
    exact hi.2.2.2

/-- A list of valid commands written to the screen shown keeps the invariant. -/
theorem cmds_run (env : Env) (A : List Line) (c : Nat)
    (hc : c = MODE_UTF8 ∨ c = MODE_ALTSCREEN ||| MODE_UTF8) :
    ∀ (cmds : List ScreenCmd) (st : State) (f : Nat) (rest : List Nat) (n : Nat)
      (r : State × Nat),
      (∀ cmd ∈ cmds, cmd.valid) → alt_inv A c st →
      (screen_bytes cmds ++ rest).length ≤ f →
      t_write_loop (t_putc env) false f st (screen_bytes cmds ++ rest) n = .ok r →
      ∃ (s2 : State) (f2 n2 : Nat), alt_inv A c s2 ∧ rest.length ≤ f2 ∧
        t_write_loop (t_putc env) false f2 s2 rest n2 = .ok r := by
  intro cmds
  induction cmds with
  | nil =>
    intro st f rest n r _ hi hf h
    exact ⟨st, f, n, hi, by simpa [screen_bytes] using hf, by simpa [screen_bytes] using h⟩
  | cons cmd cmds ih =>
    intro st f rest n r hv hi hf h
    have e : screen_bytes (cmd :: cmds) ++ rest = cmd.bytes ++ (screen_bytes cmds ++ rest) := by
      simp [screen_bytes]
    rw [e] at h hf
    have hv1 := hv cmd (List.mem_cons_self _ _)
    have step : ∃ (s2 : State) (f2 n2 : Nat), alt_inv A c s2 ∧
        (screen_bytes cmds ++ rest).length ≤ f2 ∧
        t_write_loop (t_putc env) false f2 s2 (screen_bytes cmds ++ rest) n2 = .ok r := by
      cases cmd with
      | text u => exact text_step env A c hc u hv1 st f _ n r hi hf h
      | csi ps F => exact csi_step env A c hc ps F hv1 st f _ n r hi hf h
    obtain ⟨s2, f2, n2, hi2, hf2, h2⟩ := step
    exact ih s2 f2 rest n2 r (fun q hq => hv q (List.mem_cons_of_mem _ hq)) hi2 hf2 h2

/-! ### C21: the primary screen across a visit of the alternate screen -/

/-- A flag of one bit that is set has the value of its bit. -/
theorem and_bit_eq (f k : Nat) (h : f &&& 2 ^ k ≠ 0) : f &&& 2 ^ k = 2 ^ k := by
  have hb : f.testBit k = true := by
    by_contra hf
    apply h
    apply Nat.eq_of_testBit_eq
    intro j
    simp only [Nat.testBit_and, Nat.testBit_two_pow, Nat.zero_testBit]
    by_cases hj : k = j
    · subst hj
      simp [hf]
    · simp [hj]
  apply Nat.eq_of_testBit_eq
  intro i
  simp only [Nat.testBit_and, Nat.testBit_two_pow]
  by_cases hi : k = i
  · subst hi
    simp [hb]
  · simp [hi]

/-- The kept flags of the primary screen in UTF-8 mode with the parser in the ground state. -/
theorem keep_of_ground (f : Nat) (h1 : f &&& MODE_ALTSCREEN = 0) (h2 : f &&& MODE_UTF8 ≠ 0)
    (h3 : f &&& ESC_MASK = 0) : f &&& KEEP_FLAGS = MODE_UTF8 := by
  have e2 : f &&& MODE_UTF8 = MODE_UTF8 := and_bit_eq f 6 h2
  unfold KEEP_FLAGS
  rw [Nat.and_comm, or_and_distrib, or_and_distrib, Nat.and_comm _ f, Nat.and_comm _ f,
    Nat.and_comm _ f, h1, e2, h3]
  rfl

/-- The kept flags once a CSI sequence with the private marker has been parsed. -/
theorem keep_after_parse_priv (f c : Nat)
    (hc : c = MODE_UTF8 ∨ c = MODE_ALTSCREEN ||| MODE_UTF8) (hk : f &&& KEEP_FLAGS = c) :
    ((((((f &&& cnot (ESC_CSI ||| ESC_ALTCHARSET ||| ESC_TEST)) ||| ESC_START) ||| ESC_CSI)
      &&& cnot ESC_MASK) ||| CSI_PRIV) &&& KEEP_FLAGS) = c := by
  rw [or_and_distrib, and_and_comm _ (cnot ESC_MASK), keep_after_bracket f c hc hk]
  rcases hc with rfl | rfl <;> decide

/-- The sequence `CSI ? 1049 h` read on the primary screen: the primary screen becomes the
hidden one and the invariant of the alternate screen holds. -/
theorem alt_enter_run (env : Env) (st : State) (f : Nat) (rest : List Nat) (n : Nat)
    (r : State × Nat) (ha : env.allow_alt_screen = true)
    (hi : alt_inv st.term.alt MODE_UTF8 st)
    (hf : (alt_enter ++ rest).length ≤ f)
    (h : t_write_loop (t_putc env) false f st (alt_enter ++ rest) n = .ok r) :
    ∃ (s2 : State) (f2 n2 : Nat), alt_inv st.term.line (MODE_ALTSCREEN ||| MODE_UTF8) s2 ∧
      rest.length ≤ f2 ∧ t_write_loop (t_putc env) false f2 s2 rest n2 = .ok r := by
  have hb : alt_enter ++ rest
      = 0x1b :: 0x5b :: ([0x3f, 0x31, 0x30, 0x34, 0x39] ++ 0x68 :: rest) := rfl
  rw [hb] at h hf
  obtain ⟨s1, s2, f2, x, tail, t1, c1, hlen, hh, hf2, h2⟩ := csi_seq_collect env MODE_UTF8
    (Or.inl rfl) [0x3f, 0x31, 0x30, 0x34, 0x39] 0x68 rest st f n r (by decide) (by decide)
    hi.2.1 hi.2.2.1 (by decide) (by simp at hf ⊢; omega) h
  have hbuf1 : s1.csiescseq.buf = [0x3f, 0x31, 0x30, 0x34, 0x39] ++ 0x68 :: x :: tail := by
    rw [c1]
  have hlen1 : s1.csiescseq.len = 6 := by rw [c1]; rfl
  have hargs1 : s1.csiescseq.args = st.csiescseq.args := by rw [c1]
  obtain ⟨sp, ht, hbl, hal, hm⟩ := csi_1049 env _ _ s1 s2 x tail true hbuf1 hlen1
    (by rw [hargs1, hi.2.2.2]; decide) hh
  have hk : sp.term.flags &&& KEEP_FLAGS = MODE_UTF8 := by
    rw [ht]
    show ((s1.term.flags &&& cnot ESC_MASK) ||| CSI_PRIV) &&& KEEP_FLAGS = MODE_UTF8
    rw [t1]
    exact keep_after_parse_priv _ _ (Or.inl rfl) hi.2.1
  have hprim : term_flag sp.term MODE_ALTSCREEN = 0 := by
    unfold term_flag
    rw [keep_flag _ _ _ hk (by decide)]
    rfl
  obtain ⟨a1, a2, a3⟩ := alt_enter_priv env sp s2 ha hprim hm
  refine ⟨s2, f2, _, ⟨?_, ?_, ?_, ?_⟩, hf2, h2⟩
  · rw [a1, ht]
    show s1.term.line = st.term.line
    rw [t1]
  · rw [a2, xor_and_distrib, hk]
    rfl
  · rw [a3, hbl, hbuf1]
    exact hlen
  · rw [a3, hal, hargs1]
    exact hi.2.2.2

/-- The sequence `CSI ? 1049 l` read on the alternate screen: the hidden screen is shown
again and every row is marked dirty. -/
theorem alt_leave_run (env : Env) (A : List Line) (st : State) (f n : Nat) (r : State × Nat)
    (ha : env.allow_alt_screen = true)
    (hi : alt_inv A (MODE_ALTSCREEN ||| MODE_UTF8) st)
    (hf : alt_leave.length ≤ f)
    (h : t_write_loop (t_putc env) false f st alt_leave n = .ok r) :
    r.1.term.line = A ∧ (∀ k, k < r.1.term.size.row → r.1.term.dirty.getD k false = true) ∧
    term_flag r.1.term MODE_ALTSCREEN = 0 := by
  have hb : alt_leave = 0x1b :: 0x5b :: ([0x3f, 0x31, 0x30, 0x34, 0x39] ++ 0x6c :: []) := rfl
  rw [hb] at h hf
  obtain ⟨s1, s2, f2, x, tail, t1, c1, hlen, hh, hf2, h2⟩ := csi_seq_collect env
    (MODE_ALTSCREEN ||| MODE_UTF8) (Or.inr rfl) [0x3f, 0x31, 0x30, 0x34, 0x39] 0x6c [] st f n r
    (by decide) (by decide) hi.2.1 hi.2.2.1 (by decide) (by simp at hf ⊢; omega) h
  rw [t_write_loop_nil] at h2
  cases h2
  have hbuf1 : s1.csiescseq.buf = [0x3f, 0x31, 0x30, 0x34, 0x39] ++ 0x6c :: x :: tail := by
    rw [c1]
  have hlen1 : s1.csiescseq.len = 6 := by rw [c1]; rfl
  have hargs1 : s1.csiescseq.args = st.csiescseq.args := by rw [c1]
  obtain ⟨sp, ht, hbl, hal, hm⟩ := csi_1049 env _ _ s1 s2 x tail false hbuf1 hlen1
    (by rw [hargs1, hi.2.2.2]; decide) hh
  have hk : sp.term.flags &&& KEEP_FLAGS = MODE_ALTSCREEN ||| MODE_UTF8 := by
    rw [ht]
    show ((s1.term.flags &&& cnot ESC_MASK) ||| CSI_PRIV) &&& KEEP_FLAGS = _
    rw [t1]
    exact keep_after_parse_priv _ _ (Or.inr rfl) hi.2.1
  have halt : term_flag sp.term MODE_ALTSCREEN ≠ 0 := by
    unfold term_flag
    rw [keep_flag _ _ _ hk (by decide)]
    decide
  obtain ⟨a1, a2, a3⟩ := alt_leave_priv env sp s2 ha halt hm
  refine ⟨?_, a2, a3⟩
  show s2.term.line = A
  rw [a1, ht]
  show s1.term.alt = A
  rw [t1]
  exact hi.1

/-- C21: on the primary screen, in UTF-8 mode with the parser in the ground state and the
alternate screen allowed, when `t_write` returns for the bytes of `CSI ? 1049 h`, of any list
of printable characters and erase or scroll commands (`CSI Ps F` with `F` one of
`@ J K L M P S T X`), and of `CSI ? 1049 l`, the rows of the primary screen are those of
before, every row is marked dirty and the primary screen is the one shown. -/
theorem alt_screen_keeps_primary (env : Env) (st st3 : State) (cmds : List ScreenCmd) (n : Nat)
    (ha : env.allow_alt_screen = true)
    (hprim : term_flag st.term MODE_ALTSCREEN = 0)
    (hutf : term_flag st.term MODE_UTF8 ≠ 0)
    (hesc : term_flag st.term ESC_MASK = 0)
    (hbuf : st.csiescseq.buf.length = ESC_BUF_SIZ)
    (hargs : st.csiescseq.args.length = ESC_ARG_SIZ)
    (hcmds : ∀ c ∈ cmds, c.valid)
    (hrun : t_write env st (alt_enter ++ screen_bytes cmds ++ alt_leave) false = .ok (st3, n)) :
    st3.term.line = st.term.line ∧
    (∀ r, r < st3.term.size.row → st3.term.dirty.getD r false = true) ∧
    term_flag st3.term MODE_ALTSCREEN = 0 := by
  unfold t_write at hrun
  rw [List.append_assoc] at hrun
  have hi : alt_inv st.term.alt MODE_UTF8 st :=
    ⟨rfl, keep_of_ground _ hprim hutf hesc, hbuf, hargs⟩
  obtain ⟨s2, f2, n2, hi2, hf2, h2⟩ := alt_enter_run env st _ _ 0 _ ha hi (Nat.le_refl _) hrun
  obtain ⟨s3, f3, n3, hi3, hf3, h3⟩ := cmds_run env st.term.line _ (Or.inr rfl) cmds s2 f2
    alt_leave n2 _ hcmds hi2 hf2 h2
  exact alt_leave_run env st.term.line s3 f3 n3 _ ha hi3 hf3 h3

theorem alt_screen_keeps_primary_witness :
    t_write sample_env hello_state (alt_enter ++ screen_bytes alt_demo_cmds ++ alt_leave) false
      = .ok (alt_demo_run.1, alt_demo_run.2) ∧
    alt_demo_run.2 = 30 ∧
    alt_demo_run.1.term.line = hello_state.term.line ∧
    (∀ r, r < alt_demo_run.1.term.size.row → alt_demo_run.1.term.dirty.getD r false = true) ∧
    term_flag alt_demo_run.1.term MODE_ALTSCREEN = 0 :=
  ⟨by decide!, by decide!,
    alt_screen_keeps_primary sample_env hello_state alt_demo_run.1 alt_demo_cmds
      alt_demo_run.2 rfl (by decide!) (by decide!) (by decide!) (by decide!) (by decide!)
      (by simp [alt_demo_cmds, ScreenCmd.valid, erase_scroll_finals, isdigit]) (by decide!)⟩

/-! ### Runs on concrete terminals -/

/-- A call whose result was computed and checked against the decidable property `p`: the
call returned a value that has the property. -/
theorem ok_check {α : Type} (x : Except Fault α) (p : α → Prop) [DecidablePred p]
    (h : x.map (fun a => decide (p a)) = .ok true) : ∃ a, x = .ok a ∧ p a := by
  cases x with
  | error e => cases h
  | ok a =>
    have h2 : decide (p a) = true := Except.ok.inj h
    exact ⟨a, rfl, of_decide_eq_true h2⟩

/-! ### C31: `t_set_char` on a dummy cell in column 0 -/

/-- C31: on the 80 × 24 terminal left by `t_new`, with a `wcwidth` that gives the character
U+4E2D two cells, the bytes of that character, a carriage return and `ESC [ P` (delete one
character) are consumed and leave the cursor on the cell (0, 0), which now holds the dummy
half of the wide character; no character-set translation is active.  `t_set_char` on that
cell of the grid then writes the cell left of column 0, which the row does not have, and so
does `t_write` when the next byte is the letter `a`. -/
theorem dummy_first_column_fault :
    ∃ st, t_write wide_env (ground_state 80 24 sample_win)
        [0xE4, 0xB8, 0xAD, 0x0d, 0x1b, 0x5b, 0x50] false = .ok (st, 7) ∧
      st.term.c.p = { row := 0, col := 0 } ∧
      cell_at st.term.line 0 0
        = { rune := 0, attr := ATTR_WDUMMY, fg := DEFAULT_FG, bg := DEFAULT_BG } ∧
      t_set_char_rune st.term 0x61 = .ok 0x61 ∧
      t_set_char st.term 0x61 0 0 = .error .cell ∧
      t_write wide_env (ground_state 80 24 sample_win)
        [0xE4, 0xB8, 0xAD, 0x0d, 0x1b, 0x5b, 0x50, 0x61] false = .error .cell := by
  obtain ⟨⟨st, n⟩, h1, h2, h3⟩ := ok_check
    (t_write wide_env (ground_state 80 24 sample_win)
      [0xE4, 0xB8, 0xAD, 0x0d, 0x1b, 0x5b, 0x50] false)
    (fun r => r.2 = 7 ∧ r.1.term.c.p = { row := 0, col := 0 } ∧
      cell_at r.1.term.line 0 0
        = { rune := 0, attr := ATTR_WDUMMY, fg := DEFAULT_FG, bg := DEFAULT_BG } ∧
      t_set_char_rune r.1.term 0x61 = .ok 0x61 ∧
      t_set_char r.1.term 0x61 0 0 = .error .cell) (by decide!)
  simp only [] at h2
  subst h2
  exact ⟨st, h1, h3.1, h3.2.1, h3.2.2.1, h3.2.2.2, by decide!⟩

/-! ### C32: `tline_len` -/

/-- The loop of `tline_len` started at `n` stops at the least index from which the cells
below `n` all hold a space. -/
theorem tline_len_loop_spec (ln : Line) : ∀ n, n ≤ ln.length →
    ∃ i, tline_len_loop ln n = .ok i ∧ i ≤ n ∧
      (∀ c, i ≤ c → c < n → (ln.getD c blank_cell).rune = 32) ∧
      (0 < i → (ln.getD (i - 1) blank_cell).rune ≠ 32) := by
  intro n
  induction n with
  | zero =>
    intro _
    exact ⟨0, rfl, Nat.le_refl 0, fun c _ h => absurd h (Nat.not_lt_zero c),
      fun h => absurd h (Nat.lt_irrefl 0)⟩
  | succ k ih =>
    intro hk
    have hlt : k < ln.length := hk
    have hg : ln[k]? = some (ln.getD k blank_cell) := by
      rw [List.getD_eq_getElem?_getD, List.getElem?_eq_getElem hlt]
      rfl
    unfold tline_len_loop
    rw [hg]
    simp only []
    by_cases hb : (ln.getD k blank_cell).rune = 32
    · rw [if_pos hb]
      obtain ⟨i, h1, h2, h3, h4⟩ := ih (Nat.le_of_lt hlt)
      refine ⟨i, h1, Nat.le_succ_of_le h2, ?_, h4⟩
      intro c hc1 hc2
      by_cases hck : c = k
      · rw [hck]
        exact hb
      · exact h3 c hc1 (by omega)
    · rw [if_neg hb]
      refine ⟨k + 1, rfl, Nat.le_refl _, ?_, ?_⟩
      · intro c hc1 hc2
        omega
      · intro _
        exact hb

/-- C32: for a row of `cols` cells, `cols` at least 1: when the last cell carries
`ATTR_WRAP`, `tline_len` returns `cols`; otherwise it returns the least `i` (at most `cols`)
such that every cell at a column from `i` on holds a space, so the cell `i - 1` does not
hold a space when `i` is positive and the result is 0 for a row of spaces. -/
theorem tline_len_spec (t : Term) (ln : Line) (hc : 1 ≤ t.size.col)
    (hl : ln.length = t.size.col) :
    ((ln.getD (t.size.col - 1) blank_cell).attr &&& ATTR_WRAP ≠ 0 →
      tline_len t ln = .ok t.size.col) ∧
    ((ln.getD (t.size.col - 1) blank_cell).attr &&& ATTR_WRAP = 0 →
      ∃ i, tline_len t ln = .ok i ∧ i ≤ t.size.col ∧
        (∀ c, i ≤ c → c < t.size.col → (ln.getD c blank_cell).rune = 32) ∧
        (∀ j, (∀ c, j ≤ c → c < t.size.col → (ln.getD c blank_cell).rune = 32) → i ≤ j) ∧
        (0 < i → (ln.getD (i - 1) blank_cell).rune ≠ 32) ∧
        ((∀ c, c < t.size.col → (ln.getD c blank_cell).rune = 32) → i = 0)) := by
  have hg : get_cell ln (usub t.size.col 1) = .ok (ln.getD (t.size.col - 1) blank_cell) := by
    rw [usub_of_le _ _ hc]
    exact get_cell_getD ln _ (by omega)
  constructor
  · intro hw
    unfold tline_len
    rw [hg]
    simp only [ok_bind]
    rw [if_pos hw]
    rfl
  · intro hw
    obtain ⟨i, h1, h2, h3, h4⟩ := tline_len_loop_spec ln t.size.col (Nat.le_of_eq hl.symm)
    have hleast : ∀ j, (∀ c, j ≤ c → c < t.size.col → (ln.getD c blank_cell).rune = 32) →
        i ≤ j := by
      intro j hj
      by_contra hlt
      have hi : 0 < i := by omega
      exact h4 hi (hj (i - 1) (by omega) (by omega))
    refine ⟨i, ?_, h2, h3, hleast, h4, ?_⟩
    · unfold tline_len
      rw [hg]
      simp only [ok_bind]
      rw [if_neg (by rw [hw]; simp)]
      exact h1
    · intro hall
      exact Nat.le_zero.mp (hleast 0 (fun c _ hc2 => hall c hc2))

theorem tline_len_spec_witness :
    tline_len hello_term hello_line = .ok 11 ∧
    (((hello_line.getD (hello_term.size.col - 1) blank_cell).attr &&& ATTR_WRAP ≠ 0 →
      tline_len hello_term hello_line = .ok hello_term.size.col) ∧
    ((hello_line.getD (hello_term.size.col - 1) blank_cell).attr &&& ATTR_WRAP = 0 →
      ∃ i, tline_len hello_term hello_line = .ok i ∧ i ≤ hello_term.size.col ∧
        (∀ c, i ≤ c → c < hello_term.size.col → (hello_line.getD c blank_cell).rune = 32) ∧
        (∀ j, (∀ c, j ≤ c → c < hello_term.size.col →
          (hello_line.getD c blank_cell).rune = 32) → i ≤ j) ∧
        (0 < i → (hello_line.getD (i - 1) blank_cell).rune ≠ 32) ∧
        ((∀ c, c < hello_term.size.col → (hello_line.getD c blank_cell).rune = 32) → i = 0))) :=
  ⟨by decide!, tline_len_spec hello_term hello_line (by decide) (by decide)⟩

/-! ### C33: `sel_normalize` without a snap mode -/

/-- C33: with neither `SNAP_WORD` nor `SNAP_LINE` set, `sel_normalize` returns, keeps the
anchor `ob` and the extent `oe`, and orders the corners: `nb.row` is the smaller and `ne.row`
the larger of the two rows; for a rectangular selection or one within a single row `nb.col`
is the smaller and `ne.col` the larger of the two columns; for a stream selection over
several rows `nb.col` is the column of the corner with the smaller row and `ne.col` the
column of the other corner. -/
theorem sel_normalize_no_snap (env : Env) (t : Term)
    (hw : term_flag t SNAP_WORD = 0) (hl : term_flag t SNAP_LINE = 0) :
    ∃ u, sel_normalize env t = .ok u ∧
      u.sel.ob = t.sel.ob ∧ u.sel.oe = t.sel.oe ∧
      u.sel.nb.row = min t.sel.ob.row t.sel.oe.row ∧
      u.sel.ne.row = max t.sel.ob.row t.sel.oe.row ∧
      (term_flag t SEL_RECT ≠ 0 ∨ t.sel.ob.row = t.sel.oe.row →
        u.sel.nb.col = min t.sel.ob.col t.sel.oe.col ∧
        u.sel.ne.col = max t.sel.ob.col t.sel.oe.col) ∧
      (term_flag t SEL_RECT = 0 → t.sel.ob.row < t.sel.oe.row →
        u.sel.nb.col = t.sel.ob.col ∧ u.sel.ne.col = t.sel.oe.col) ∧
      (term_flag t SEL_RECT = 0 → t.sel.oe.row < t.sel.ob.row →
        u.sel.nb.col = t.sel.oe.col ∧ u.sel.ne.col = t.sel.ob.col) := by
  have hp : ∀ (t1 : Term) (x y : Nat), t1.flags = t.flags →
      sel_snap_prev env t1 x y = .ok (x, y) := by
    intro t1 x y hf
    unfold sel_snap_prev term_flag
    rw [hf]
    unfold term_flag at hw hl
    rw [if_neg (by rw [hw]; simp), if_neg (by rw [hl]; simp)]
    rfl
  have hn : ∀ (t1 : Term) (x y : Nat), t1.flags = t.flags →
      sel_snap_next env t1 x y = .ok (x, y) := by
    intro t1 x y hf
    unfold sel_snap_next term_flag
    rw [hf]
    unfold term_flag at hw hl
    rw [if_neg (by rw [hw]; simp), if_neg (by rw [hl]; simp)]
    rfl
  unfold sel_normalize
  simp only []
  rw [hp _ _ _ (by rfl)]
  simp only [ok_bind]
  rw [hn _ _ _ (by rfl)]
  simp only [ok_bind, pure_eq_ok]
  refine ⟨_, rfl, rfl, rfl, ?_, ?_, ?_, ?_, ?_⟩
  · show (if t.sel.ob.row < t.sel.oe.row then (t.sel.ob.row, t.sel.oe.row)
        else (t.sel.oe.row, t.sel.ob.row)).1 = _
    split <;> simp only [] <;> omega
  · show (if t.sel.ob.row < t.sel.oe.row then (t.sel.ob.row, t.sel.oe.row)
        else (t.sel.oe.row, t.sel.ob.row)).2 = _
    split <;> simp only [] <;> omega
  · intro hr
    have hc : (decide (term_flag t SEL_RECT ≠ 0) || decide (t.sel.ob.row = t.sel.oe.row))
        = true := by
      rw [Bool.or_eq_true]
      rcases hr with h1 | h1
      · exact Or.inl (decide_eq_true h1)
      · exact Or.inr (decide_eq_true h1)
    rw [hc]
    simp only [if_true]
    constructor
    · split <;> simp only [] <;> omega
    · split <;> simp only [] <;> omega
  · intro hr hlt
    have hc : (decide (term_flag t SEL_RECT ≠ 0) || decide (t.sel.ob.row = t.sel.oe.row))
        = false := by
      rw [Bool.or_eq_false_iff]
      exact ⟨decide_eq_false (not_not.mpr hr), decide_eq_false (by omega)⟩
    rw [hc]
    simp only [Bool.false_eq_true, if_false, if_pos hlt]
    exact ⟨trivial, trivial⟩
  · intro hr hlt
    have hc : (decide (term_flag t SEL_RECT ≠ 0) || decide (t.sel.ob.row = t.sel.oe.row))
        = false := by
      rw [Bool.or_eq_false_iff]
      exact ⟨decide_eq_false (not_not.mpr hr), decide_eq_false (by omega)⟩
    have hnl : ¬ t.sel.ob.row < t.sel.oe.row := by omega
    rw [hc]
    simp only [Bool.false_eq_true, if_false, if_neg hnl]
    exact ⟨trivial, trivial⟩

theorem sel_normalize_no_snap_witness :
    ∃ u, sel_normalize sample_env sel_up_term = .ok u ∧
      u.sel.ob = sel_up_term.sel.ob ∧ u.sel.oe = sel_up_term.sel.oe ∧
      u.sel.nb.row = min sel_up_term.sel.ob.row sel_up_term.sel.oe.row ∧
      u.sel.ne.row = max sel_up_term.sel.ob.row sel_up_term.sel.oe.row ∧
      (term_flag sel_up_term SEL_RECT ≠ 0 ∨
          sel_up_term.sel.ob.row = sel_up_term.sel.oe.row →
        u.sel.nb.col = min sel_up_term.sel.ob.col sel_up_term.sel.oe.col ∧
        u.sel.ne.col = max sel_up_term.sel.ob.col sel_up_term.sel.oe.col) ∧
      (term_flag sel_up_term SEL_RECT = 0 →
        sel_up_term.sel.ob.row < sel_up_term.sel.oe.row →
        u.sel.nb.col = sel_up_term.sel.ob.col ∧ u.sel.ne.col = sel_up_term.sel.oe.col) ∧
      (term_flag sel_up_term SEL_RECT = 0 →
        sel_up_term.sel.oe.row < sel_up_term.sel.ob.row →
        u.sel.nb.col = sel_up_term.sel.oe.col ∧ u.sel.ne.col = sel_up_term.sel.ob.col) :=
  sel_normalize_no_snap sample_env sel_up_term (by decide) (by decide)

/-! ### C34: word snap at a soft wrap -/

/-- C34: on a terminal of 10 columns and 3 rows the text `hello world` fills row 0 up to
`hello worl`, whose last cell carries `ATTR_WRAP`, and continues with `d` at column 0 of row
1, so the word `world` continues across a soft wrap.  A word-snap click on the `o` of row 0
(column 7) selects the word (`nb` is the cell of `w`, `ne` the cell of `d` on row 1), but a
word-snap click on the `d` of row 1 leaves `nb` at column 0 of row 1: `sel_get` returns `d`
alone, because `tline_snap_word_prev` never steps to the row above. -/
theorem word_snap_stays_on_row :
    ∃ st, t_write sample_env (ground_state 10 3 sample_win) hello_bytes false = .ok (st, 11) ∧
      (cell_at st.term.line 9 0).attr &&& ATTR_WRAP ≠ 0 ∧
      (cell_at st.term.line 6 0).rune = 0x77 ∧ (cell_at st.term.line 5 0).rune = 0x20 ∧
      (cell_at st.term.line 0 1).rune = 0x64 ∧ (cell_at st.term.line 1 1).rune = 0x20 ∧
      (∃ u, mouse_select sample_env st.term SNAP_WORD 7 0 7 0 = .ok u ∧
        u.sel.nb = { row := 0, col := 6 } ∧ u.sel.ne = { row := 1, col := 0 } ∧
        sel_get u = .ok (some [0x77, 0x6f, 0x72, 0x6c, 0x64])) ∧
      (∃ u, mouse_select sample_env st.term SNAP_WORD 0 1 0 1 = .ok u ∧
        u.sel.nb = { row := 1, col := 0 } ∧ u.sel.ne = { row := 1, col := 0 } ∧
        sel_get u = .ok (some [0x64])) := by
  obtain ⟨⟨st, n⟩, h1, h2, h3⟩ := ok_check
    (t_write sample_env (ground_state 10 3 sample_win) hello_bytes false)
    (fun r => r.2 = 11 ∧ (cell_at r.1.term.line 9 0).attr &&& ATTR_WRAP ≠ 0 ∧
      (cell_at r.1.term.line 6 0).rune = 0x77 ∧ (cell_at r.1.term.line 5 0).rune = 0x20 ∧
      (cell_at r.1.term.line 0 1).rune = 0x64 ∧ (cell_at r.1.term.line 1 1).rune = 0x20 ∧
      (mouse_select sample_env r.1.term SNAP_WORD 7 0 7 0).map
        (fun u => decide (u.sel.nb = { row := 0, col := 6 } ∧ u.sel.ne = { row := 1, col := 0 } ∧
          sel_get u = .ok (some [0x77, 0x6f, 0x72, 0x6c, 0x64]))) = .ok true ∧
      (mouse_select sample_env r.1.term SNAP_WORD 0 1 0 1).map
        (fun u => decide (u.sel.nb = { row := 1, col := 0 } ∧ u.sel.ne = { row := 1, col := 0 } ∧
          sel_get u = .ok (some [0x64]))) = .ok true) (by decide!)
  simp only [] at h2
  subst h2
  exact ⟨st, h1, h3.1, h3.2.1, h3.2.2.1, h3.2.2.2.1, h3.2.2.2.2.1,
    ok_check _ _ h3.2.2.2.2.2.1, ok_check _ _ h3.2.2.2.2.2.2⟩

/-! ### C35: `sel_get` and a wide character at the end of a wrapped row -/

/-- C35: on a terminal of 4 columns and 2 rows, with a `wcwidth` that gives the character
U+4E2D two cells, the text `ab`, U+4E2D, `c` fills row 0 (the wide character and its dummy
cell in the last two columns) and wraps to row 1; `t_putc` puts `ATTR_WRAP` on the cell of
the wide character, the last cell that `sel_get` emits for row 0.  For the stream selection
from the cell (0, 0) to the cell (0, 1) `sel_get` returns `ab`, U+4E2D, a line feed and `c`:
it tests the dummy cell in the last column, which carries no `ATTR_WRAP`, so the soft-wrapped
rows are not rejoined.  With the text `abcde` the same selection gives `abcde`. -/
theorem wide_wrap_newline :
    (∃ st, t_write wide_env (ground_state 4 2 sample_win)
        [0x61, 0x62, 0xE4, 0xB8, 0xAD, 0x63] false = .ok (st, 6) ∧
      (cell_at st.term.line 2 0).attr = ATTR_WIDE ||| ATTR_WRAP ∧
      (cell_at st.term.line 3 0).attr = ATTR_WDUMMY ∧
      (cell_at st.term.line 0 1).rune = 0x63 ∧
      ∃ u, mouse_select wide_env st.term 0 0 0 0 1 = .ok u ∧ term_flag u SEL_RECT = 0 ∧
        u.sel.nb = { row := 0, col := 0 } ∧ u.sel.ne = { row := 1, col := 0 } ∧
        sel_get u = .ok (some [0x61, 0x62, 0xE4, 0xB8, 0xAD, 0x0a, 0x63])) ∧
    (∃ st, t_write wide_env (ground_state 4 2 sample_win)
        [0x61, 0x62, 0x63, 0x64, 0x65] false = .ok (st, 5) ∧
      (cell_at st.term.line 3 0).attr = ATTR_WRAP ∧
      ∃ u, mouse_select wide_env st.term 0 0 0 0 1 = .ok u ∧
        sel_get u = .ok (some [0x61, 0x62, 0x63, 0x64, 0x65])) := by
  constructor
  · obtain ⟨⟨st, n⟩, h1, h2, h3⟩ := ok_check
      (t_write wide_env (ground_state 4 2 sample_win) [0x61, 0x62, 0xE4, 0xB8, 0xAD, 0x63] false)
      (fun r => r.2 = 6 ∧ (cell_at r.1.term.line 2 0).attr = ATTR_WIDE ||| ATTR_WRAP ∧
        (cell_at r.1.term.line 3 0).attr = ATTR_WDUMMY ∧
        (cell_at r.1.term.line 0 1).rune = 0x63 ∧
        (mouse_select wide_env r.1.term 0 0 0 0 1).map
          (fun u => decide (term_flag u SEL_RECT = 0 ∧
            u.sel.nb = { row := 0, col := 0 } ∧ u.sel.ne = { row := 1, col := 0 } ∧
            sel_get u = .ok (some [0x61, 0x62, 0xE4, 0xB8, 0xAD, 0x0a, 0x63]))) = .ok true)
      (by decide!)
    simp only [] at h2
    subst h2
    exact ⟨st, h1, h3.1, h3.2.1, h3.2.2.1, ok_check _ _ h3.2.2.2⟩
  · obtain ⟨⟨st, n⟩, h1, h2, h3⟩ := ok_check
      (t_write wide_env (ground_state 4 2 sample_win) [0x61, 0x62, 0x63, 0x64, 0x65] false)
      (fun r => r.2 = 5 ∧ (cell_at r.1.term.line 3 0).attr = ATTR_WRAP ∧
        (mouse_select wide_env r.1.term 0 0 0 0 1).map
          (fun u => decide (sel_get u = .ok (some [0x61, 0x62, 0x63, 0x64, 0x65]))) = .ok true)
      (by decide!)
    simp only [] at h2
    subst h2
    exact ⟨st, h1, h3.1, ok_check _ _ h3.2⟩

/-! ### C36: `sel_scroll` -/

/-- C36 (counterexample): on the 80 × 24 terminal whose scroll region is the whole screen,
with the cells 0 to 4 of row 5 selected, `sel_scroll (5, -1)` keeps the selection and moves
it to row 4, above the rows 5 to 23 that scroll; the bytes `ESC [ 6 H` (cursor to row 5) and
`ESC [ M` (delete one line) do the same through `t_delete_line`. -/
theorem sel_scroll_keeps_above :
    sel_row5_term.top = 0 ∧ sel_row5_term.bottom = 23 ∧
    BETWEEN sel_row5_term.sel.nb.row 5 sel_row5_term.bottom = true ∧
    BETWEEN sel_row5_term.sel.ne.row 5 sel_row5_term.bottom = true ∧
    (∃ u, sel_scroll sample_env sel_row5_term 5 (-1) = .ok u ∧
      u.sel.ob = { row := 4, col := 0 } ∧ u.sel.oe = { row := 4, col := 4 } ∧
      u.sel.nb = { row := 4, col := 0 } ∧ u.sel.ne = { row := 4, col := 4 } ∧
      tregion_is_sel u = true ∧ t_selected u 2 4 = true) ∧
    (∃ st, t_write sample_env { hello_state with term := sel_row5_term }
        [0x1b, 0x5b, 0x36, 0x48, 0x1b, 0x5b, 0x4d] false = .ok (st, 7) ∧
      st.term.c.p = { row := 5, col := 0 } ∧
      st.term.sel.nb = { row := 4, col := 0 } ∧ st.term.sel.ne = { row := 4, col := 4 } ∧
      tregion_is_sel st.term = true) := by
  refine ⟨by decide!, by decide!, by decide!, by decide!, ?_, ?_⟩
  · obtain ⟨u, h1, h2⟩ := ok_check (sel_scroll sample_env sel_row5_term 5 (-1))
      (fun u => u.sel.ob = { row := 4, col := 0 } ∧ u.sel.oe = { row := 4, col := 4 } ∧
        u.sel.nb = { row := 4, col := 0 } ∧ u.sel.ne = { row := 4, col := 4 } ∧
        tregion_is_sel u = true ∧ t_selected u 2 4 = true) (by decide!)
    exact ⟨u, h1, h2⟩
  · obtain ⟨⟨st, n⟩, h1, h2, h3⟩ := ok_check
      (t_write sample_env { hello_state with term := sel_row5_term }
        [0x1b, 0x5b, 0x36, 0x48, 0x1b, 0x5b, 0x4d] false)
      (fun r => r.2 = 7 ∧ r.1.term.c.p = { row := 5, col := 0 } ∧
        r.1.term.sel.nb = { row := 4, col := 0 } ∧ r.1.term.sel.ne = { row := 4, col := 4 } ∧
        tregion_is_sel r.1.term = true) (by decide!)
    simp only [] at h2
    subst h2
    exact ⟨st, h1, h3⟩

/-- C36 (amended): when a selection exists (`oe.col` is not `UINT_MAX`) whose anchor column
lies in the grid, and both `nb.row` and `ne.row` lie in the rows `orig` to `bottom`,
`sel_scroll (orig, n)` adds `n` to `ob.row` and `oe.row` (as `uint`); when both shifted rows
lie in the scroll region `top` to `bottom` the result is that of `sel_normalize` on the
shifted selection, also when they lie above `orig`, and the selection it returns still
exists, with its anchor and extent on the shifted rows; when one of the shifted rows lies
outside the scroll region the selection is cleared (`oe.col` is `UINT_MAX` and
`tregion_is_sel` is false) and the grid is unchanged. -/
theorem sel_scroll_region (env : Env) (t : Term) (orig : Nat) (n : Int)
    (hd : t.dirty.length = t.size.row) (hr : 1 ≤ t.size.row)
    (hs : t.size.col < 4294967296)
    (hsel : t.sel.oe.col ≠ UINT_MAX) (hob : t.sel.ob.col < t.size.col)
    (hnb : BETWEEN t.sel.nb.row orig t.bottom = true)
    (hne : BETWEEN t.sel.ne.row orig t.bottom = true) :
    ((t.top ≤ u32 (t.sel.ob.row + n) ∧ u32 (t.sel.ob.row + n) ≤ t.bottom ∧
        t.top ≤ u32 (t.sel.oe.row + n) ∧ u32 (t.sel.oe.row + n) ≤ t.bottom) →
      sel_scroll env t orig n = sel_normalize env
        { t with sel := { t.sel with ob := { t.sel.ob with row := u32 (t.sel.ob.row + n) },
                                      oe := { t.sel.oe with row := u32 (t.sel.oe.row + n) } } } ∧
      ∀ u, sel_scroll env t orig n = .ok u →
        u.sel.oe.col ≠ UINT_MAX ∧
        u.sel.ob = { t.sel.ob with row := u32 (t.sel.ob.row + n) } ∧
        u.sel.oe = { t.sel.oe with row := u32 (t.sel.oe.row + n) } ∧ u.line = t.line) ∧
    (¬ (t.top ≤ u32 (t.sel.ob.row + n) ∧ u32 (t.sel.ob.row + n) ≤ t.bottom ∧
        t.top ≤ u32 (t.sel.oe.row + n) ∧ u32 (t.sel.oe.row + n) ≤ t.bottom) →
      ∃ u, sel_scroll env t orig n = .ok u ∧ u.sel.oe.col = UINT_MAX ∧
        tregion_is_sel u = false ∧ u.line = t.line) := by
  have hguard : ¬ t.sel.ob.col = UINT_MAX := by
    intro h
    rw [h] at hob
    simp only [UINT_MAX] at hob
    omega
  have hne2 : (BETWEEN t.sel.nb.row orig t.bottom != BETWEEN t.sel.ne.row orig t.bottom)
      = false := by
    rw [hnb, hne]
    rfl
  constructor
  · intro hin
    have hrun : sel_scroll env t orig n = sel_normalize env
        { t with sel := { t.sel with ob := { t.sel.ob with row := u32 (t.sel.ob.row + n) },
                                      oe := { t.sel.oe with row := u32 (t.sel.oe.row + n) } } } := by
      unfold sel_scroll
      rw [if_neg hguard, hne2]
      simp only [Bool.false_eq_true, if_false]
      rw [if_pos hnb]
      rw [if_neg]
      simp only [Bool.or_eq_true, decide_eq_true_eq, not_or, not_lt]
      omega
    refine ⟨hrun, ?_⟩
    intro u hu
    rw [hrun] at hu
    have hshape := sel_normalize_shape env _ u hu
    rw [hshape]
    exact ⟨hsel, rfl, rfl, rfl⟩
  · intro hout
    unfold sel_scroll
    rw [if_neg hguard, hne2]
    simp only [Bool.false_eq_true, if_false]
    rw [if_pos hnb]
    rw [if_pos]
    · obtain ⟨u, h1, h2, _, h4⟩ := sel_clear_spec
        { t with sel := { t.sel with
            ob := { t.sel.ob with row := u32 (t.sel.ob.row + n) },
            oe := { t.sel.oe with row := u32 (t.sel.oe.row + n) } } } hd hr
      refine ⟨u, h1, h4, ?_, h2⟩
      unfold tregion_is_sel
      rw [if_pos h4]
    · simp only [Bool.or_eq_true, decide_eq_true_eq]
      omega

theorem sel_scroll_region_witness :
    (sel_row5_term.sel.oe.col ≠ UINT_MAX ∧ sel_row5_term.sel.ob.col < sel_row5_term.size.col ∧
      BETWEEN sel_row5_term.sel.nb.row 5 sel_row5_term.bottom = true ∧
      BETWEEN sel_row5_term.sel.ne.row 5 sel_row5_term.bottom = true) ∧
    ((sel_row5_term.top ≤ u32 (sel_row5_term.sel.ob.row + (-1)) ∧
        u32 (sel_row5_term.sel.ob.row + (-1)) ≤ sel_row5_term.bottom ∧
        sel_row5_term.top ≤ u32 (sel_row5_term.sel.oe.row + (-1)) ∧
        u32 (sel_row5_term.sel.oe.row + (-1)) ≤ sel_row5_term.bottom) →
      sel_scroll sample_env sel_row5_term 5 (-1) = sel_normalize sample_env
        { sel_row5_term with
          sel := { sel_row5_term.sel with
            ob := { sel_row5_term.sel.ob with row := u32 (sel_row5_term.sel.ob.row + (-1)) },
            oe := { sel_row5_term.sel.oe with
                    row := u32 (sel_row5_term.sel.oe.row + (-1)) } } } ∧
      ∀ u, sel_scroll sample_env sel_row5_term 5 (-1) = .ok u →
        u.sel.oe.col ≠ UINT_MAX ∧
        u.sel.ob = { sel_row5_term.sel.ob with row := u32 (sel_row5_term.sel.ob.row + (-1)) } ∧
        u.sel.oe = { sel_row5_term.sel.oe with row := u32 (sel_row5_term.sel.oe.row + (-1)) } ∧
        u.line = sel_row5_term.line) ∧
    (¬ (sel_row5_term.top ≤ u32 (sel_row5_term.sel.ob.row + (-1)) ∧
        u32 (sel_row5_term.sel.ob.row + (-1)) ≤ sel_row5_term.bottom ∧
        sel_row5_term.top ≤ u32 (sel_row5_term.sel.oe.row + (-1)) ∧
        u32 (sel_row5_term.sel.oe.row + (-1)) ≤ sel_row5_term.bottom) →
      ∃ u, sel_scroll sample_env sel_row5_term 5 (-1) = .ok u ∧ u.sel.oe.col = UINT_MAX ∧
        tregion_is_sel u = false ∧ u.line = sel_row5_term.line) :=
  ⟨⟨by decide, by decide, by decide!, by decide!⟩,
    sel_scroll_region sample_env sel_row5_term 5 (-1) (by decide!) (by decide!) (by decide)
      (by decide) (by decide) (by decide!) (by decide!)⟩

/-! ### C37: relative cursor moves at the near edge -/

/-- C37: on the 80 × 24 terminal left by `t_new` the cursor is at the cell (0, 0) and origin
mode is off.  A backspace and `ESC [ D` (cursor back by one) each leave the cursor at column
79, the last column, and `ESC [ 5 A` (cursor up by five) leaves it at row 23, the last row:
the subtraction on `uint` wraps and `t_move_to` clamps the huge value to the far edge. -/
theorem backspace_first_column_wraps :
    (ground_state 80 24 sample_win).term.c.p = { row := 0, col := 0 } ∧
    term_flag (ground_state 80 24 sample_win).term CURSOR_ORIGIN = 0 ∧
    (∃ st, t_write sample_env (ground_state 80 24 sample_win) [0x08] false = .ok (st, 1) ∧
      st.term.c.p = { row := 0, col := 79 }) ∧
    (∃ st, t_write sample_env (ground_state 80 24 sample_win) [0x1b, 0x5b, 0x44] false
        = .ok (st, 3) ∧ st.term.c.p = { row := 0, col := 79 }) ∧
    (∃ st, t_write sample_env (ground_state 80 24 sample_win) [0x1b, 0x5b, 0x35, 0x41] false
        = .ok (st, 4) ∧ st.term.c.p = { row := 23, col := 0 }) := by
  refine ⟨by decide!, by decide!, ?_, ?_, ?_⟩
  · obtain ⟨⟨st, n⟩, h1, h2, h3⟩ := ok_check
      (t_write sample_env (ground_state 80 24 sample_win) [0x08] false)
      (fun r => r.2 = 1 ∧ r.1.term.c.p = { row := 0, col := 79 }) (by decide!)
    simp only [] at h2
    subst h2
    exact ⟨st, h1, h3⟩
  · obtain ⟨⟨st, n⟩, h1, h2, h3⟩ := ok_check
      (t_write sample_env (ground_state 80 24 sample_win) [0x1b, 0x5b, 0x44] false)
      (fun r => r.2 = 3 ∧ r.1.term.c.p = { row := 0, col := 79 }) (by decide!)
    simp only [] at h2
    subst h2
    exact ⟨st, h1, h3⟩
  · obtain ⟨⟨st, n⟩, h1, h2, h3⟩ := ok_check
      (t_write sample_env (ground_state 80 24 sample_win) [0x1b, 0x5b, 0x35, 0x41] false)
      (fun r => r.2 = 4 ∧ r.1.term.c.p = { row := 23, col := 0 }) (by decide!)
    simp only [] at h2
    subst h2
    exact ⟨st, h1, h3⟩

/-! ### C38: a tab from the last column -/

/-- A full row of 80 letters leaves the cursor in the last column of the 80 × 24 terminal,
and the tab character that follows makes `t_write` read `term.tabs [80]`. -/
theorem tab_after_full_row :
    (∃ st, t_write sample_env (ground_state 80 24 sample_win) (List.replicate 80 0x61) false
        = .ok (st, 80) ∧ st.term.c.p = { row := 0, col := 79 } ∧
      st.term.tabs.length = 80) ∧
    t_write sample_env (ground_state 80 24 sample_win) (List.replicate 80 0x61 ++ [0x09]) false
      = .error .tabs := by
  constructor
  · obtain ⟨⟨st, n⟩, h1, h2, h3⟩ := ok_check
      (t_write sample_env (ground_state 80 24 sample_win) (List.replicate 80 0x61) false)
      (fun r => r.2 = 80 ∧ r.1.term.c.p = { row := 0, col := 79 } ∧
        r.1.term.tabs.length = 80) (by decide!)
    simp only [] at h2
    subst h2
    exact ⟨st, h1, h3⟩
  · decide!

/-- C38: with the cursor in the last column (`cols - 1`) of a terminal whose array of tab
stops has `cols` entries, `t_put_next_tab (n)` reads the entry `term.tabs [cols]`, past the
end of the array, for every `n`: the column is incremented to `cols` before it is compared
with `cols - 1`, so the loop does not stop at the last column. -/
theorem t_put_next_tab_last_column (t : Term) (n : Nat)
    (hc : 1 ≤ t.size.col) (hs : t.size.col < 4294967296)
    (hl : t.tabs.length = t.size.col) (hcol : t.c.p.col = t.size.col - 1) :
    t_put_next_tab t n = .error .tabs := by
  have hnone : t.tabs[t.size.col]? = none := List.getElem?_eq_none (Nat.le_of_eq hl)
  unfold t_put_next_tab t_put_next_tab_loop
  simp only []
  rw [hcol, uadd_of_lt _ _ (by omega), usub_of_le _ _ hc]
  have e : t.size.col - 1 + 1 = t.size.col := by omega
  rw [e, if_neg (by omega), hnone]

theorem t_put_next_tab_last_column_witness :
    last_col_term.c.p.col = last_col_term.size.col - 1 ∧
    last_col_term.tabs.length = last_col_term.size.col ∧
    t_put_next_tab last_col_term 1 = .error .tabs :=
  ⟨by decide, by decide!,
    t_put_next_tab_last_column last_col_term 1 (by decide) (by decide) (by decide!) (by decide)⟩

/-! ### C39: the anchor of a mouse selection -/

/-- C39: with cells of 10 × 20 pixels the window of the 80 × 24 terminal is 804 × 484 pixels
wide and high; for a button press at the pixel (802, 482), inside the window, `evcol` and
`evrow` return 80 and 24.  `sel_start (80, 24, SNAP_NO)` followed by `sel_extend (0, 0, ...)`
leaves the anchor `ob` and the corner `ne` at column 80 of row 24, outside the grid, and
`sel_get` then reads the row pointer `term.line [24]`, which the grid does not have.  With
the anchor (80, 0) the corner `ne` is at column 80 of row 0 and `t_selected` holds of that
column. -/
theorem sel_start_unclamped :
    2 * BORDERPX + 80 * 10 = 804 ∧ 2 * BORDERPY + 24 * 20 = 484 ∧
    evcol 802 10 = 80 ∧ evrow 482 20 = 24 ∧
    hello_term.size = { row := 24, col := 80 } ∧
    (∃ u, mouse_select sample_env hello_term 0 80 24 0 0 = .ok u ∧
      u.sel.ob = { row := 24, col := 80 } ∧ u.sel.oe = { row := 0, col := 0 } ∧
      u.sel.nb = { row := 0, col := 0 } ∧ u.sel.ne = { row := 24, col := 80 } ∧
      sel_get u = .error .row) ∧
    (∃ u, mouse_select sample_env hello_term 0 80 0 0 0 = .ok u ∧
      u.sel.ne = { row := 0, col := 80 } ∧ t_selected u 80 0 = true) := by
  refine ⟨by decide, by decide, by decide!, by decide!, by decide!, ?_, ?_⟩
  · obtain ⟨u, h1, h2⟩ := ok_check (mouse_select sample_env hello_term 0 80 24 0 0)
      (fun u => u.sel.ob = { row := 24, col := 80 } ∧ u.sel.oe = { row := 0, col := 0 } ∧
        u.sel.nb = { row := 0, col := 0 } ∧ u.sel.ne = { row := 24, col := 80 } ∧
        sel_get u = .error .row) (by decide!)
    exact ⟨u, h1, h2⟩
  · obtain ⟨u, h1, h2⟩ := ok_check (mouse_select sample_env hello_term 0 80 0 0 0)
      (fun u => u.sel.ne = { row := 0, col := 80 } ∧ t_selected u 80 0 = true) (by decide!)
    exact ⟨u, h1, h2⟩

/-! ### C40: erase above the cursor -/

/-- C40: on the 80 × 24 terminal with `hello world` on row 0 and the cursor at the cell
(0, 0), a line feed moves the cursor to row 1 and `ESC [ 1 J` (erase above) then leaves row 0
as it was, `hello world` included: the rows above the cursor are erased only when the cursor
row is greater than 1.  After two line feeds the same command blanks row 0. -/
theorem erase_above_row_one :
    (∃ st, t_write sample_env hello_state [0x0a, 0x1b, 0x5b, 0x31, 0x4a] false = .ok (st, 5) ∧
      st.term.c.p = { row := 1, col := 0 } ∧
      st.term.line.getD 0 [] = hello_line ∧ (cell_at st.term.line 0 0).rune = 0x68) ∧
    (∃ st, t_write sample_env hello_state [0x0a, 0x0a, 0x1b, 0x5b, 0x31, 0x4a] false
        = .ok (st, 6) ∧
      st.term.c.p = { row := 2, col := 0 } ∧
      st.term.line.getD 0 [] = List.replicate 80 blank_cell) := by
  constructor
  · obtain ⟨⟨st, n⟩, h1, h2, h3⟩ := ok_check
      (t_write sample_env hello_state [0x0a, 0x1b, 0x5b, 0x31, 0x4a] false)
      (fun r => r.2 = 5 ∧ r.1.term.c.p = { row := 1, col := 0 } ∧
        r.1.term.line.getD 0 [] = hello_line ∧ (cell_at r.1.term.line 0 0).rune = 0x68)
      (by decide!)
    simp only [] at h2
    subst h2
    exact ⟨st, h1, h3⟩
  · obtain ⟨⟨st, n⟩, h1, h2, h3⟩ := ok_check
      (t_write sample_env hello_state [0x0a, 0x0a, 0x1b, 0x5b, 0x31, 0x4a] false)
      (fun r => r.2 = 6 ∧ r.1.term.c.p = { row := 2, col := 0 } ∧
        r.1.term.line.getD 0 [] = List.replicate 80 blank_cell) (by decide!)
    simp only [] at h2
    subst h2
    exact ⟨st, h1, h3⟩

end St
